import Mathlib

/-! # XMODEM engine of Tera Term (`teraterm/ttpfile/xmodem.c`)

A shallow embedding of the XMODEM protocol engine and theorems about it.

Conventions of the embedding

* `BYTE` values are naturals reduced `% 256`, `WORD` values naturals reduced
  `% 65536`; C `int`/`LONG` fields are mathematical integers (signed overflow is
  undefined in C and is not modelled).
* The packet buffers `PktIn`/`PktOut` are functions from the index to the byte
  stored there; the C arrays have 1030 slots.
* The session is the triple `fv` (`TFileVarProto`), `xv` (`TXVar`, `fv->data`)
  and `cv` (`TComVar`), bundled as `XSt`.
* The transfer log (`LogFlag`, `FTLog1Byte`) and the progress dialog callbacks
  only observe the session and are left out.
-/

namespace XModem

/-! ## Constants of the headers -/

/-- Modelled from the spec: wire constant SOH (section 6), declared in a header outside these sources. -/
abbrev SOH : Nat := 0x01
/-- Modelled from the spec: wire constant STX (section 6). -/
abbrev STX : Nat := 0x02
/-- Modelled from the spec: wire constant EOT (section 6). -/
abbrev EOT : Nat := 0x04
/-- Modelled from the spec: wire constant ACK (section 6). -/
abbrev ACK : Nat := 0x06
/-- Modelled from the spec: wire constant BS (section 6). -/
abbrev BS : Nat := 0x08
/-- Modelled from the spec: line feed, used by the text-mode translation (section 4.2). -/
abbrev LF : Nat := 0x0A
/-- Modelled from the spec: carriage return, used by the text-mode translation (section 4.2). -/
abbrev CR : Nat := 0x0D
/-- Modelled from the spec: wire constant NAK (section 6). -/
abbrev NAK : Nat := 0x15
/-- Modelled from the spec: wire constant CAN (section 6). -/
abbrev CAN : Nat := 0x18

/-- Modelled from the spec: role Receiving (`IdXReceive` of the absent header `tttypes.h`). -/
abbrev IdXReceive : Nat := 1
/-- Modelled from the spec: role Sending (`IdXSend` of the absent header `tttypes.h`). -/
abbrev IdXSend : Nat := 2

/-- Modelled from the spec: variant Checksum128 (`XoptCheck` of the absent header). -/
abbrev XoptCheck : Nat := 1
/-- Modelled from the spec: variant Crc128 (`XoptCRC` of the absent header). -/
abbrev XoptCRC : Nat := 2
/-- Modelled from the spec: variant Crc1024 (`Xopt1kCRC` of the absent header). -/
abbrev Xopt1kCRC : Nat := 3
/-- Modelled from the spec: variant Cksum1024 (`Xopt1kCksum` of the absent header). -/
abbrev Xopt1kCksum : Nat := 4

/-- Modelled from the spec: the port type of a TCP-like transport (`IdTCPIP` of the absent header). -/
abbrev IdTCPIP : Nat := 1

/-- XMODEM read state `XpktSOH` (AwaitHeader). -/
abbrev XpktSOH : Int := 1
/-- XMODEM read state `XpktBLK` (AwaitBlock). -/
abbrev XpktBLK : Int := 2
/-- XMODEM read state `XpktBLK2` (AwaitBlockComplement). -/
abbrev XpktBLK2 : Int := 3
/-- XMODEM read state `XpktDATA` (AwaitData). -/
abbrev XpktDATA : Int := 4

/-- Negotiation byte mode `XnakNAK`. -/
abbrev XnakNAK : Nat := 1
/-- Negotiation byte mode `XnakC`. -/
abbrev XnakC : Nat := 2

/-! ## Machine integers -/

/-- Conversion to the C type `BYTE`. -/
def BYTE (n : Nat) : Nat := n % 256

/-- Conversion to the C type `WORD`. -/
def WORD (n : Nat) : Nat := n % 65536

/-- The Windows helper `HIBYTE(w)`. -/
def HIBYTE (w : Nat) : Nat := (w >>> 8) &&& 0xff

/-- The Windows helper `LOBYTE(w)`. -/
def LOBYTE (w : Nat) : Nat := w &&& 0xff

/-! ## Data model -/

/-- `TXVar`, the XMODEM part of the session. -/
structure TXVar where
  PktIn : Nat → Nat
  PktOut : Nat → Nat
  PktBufCount : Int
  PktBufPtr : Int
  PktNum : Nat
  PktNumSent : Nat
  PktNumOffset : Int
  PktReadMode : Int
  XMode : Nat
  XOpt : Nat
  TextFlag : Nat
  NAKMode : Nat
  NAKCount : Int
  DataLen : Nat
  CheckLen : Nat
  CRRecv : Bool
  TOutShort : Int
  TOutLong : Int
  TOutInit : Int
  TOutInitCRC : Int
  TOutVLong : Int
  CANCount : Int

/-- The fields of `TFileVarProto` the engine uses.  `ReadData` holds the bytes
`ReadFile` has yet to deliver, `WriteData` the bytes handed to `WriteFile` so
far, `TimeOut` the deadlines armed by `FTSetTimeOut`, latest last, and
`FileName` the converted base name used by the kick-off command. -/
structure TFileVarProto where
  FileOpen : Bool
  Success : Bool
  ByteCount : Int
  ReadData : List Nat
  WriteData : List Nat
  TimeOut : List Int
  FileName : List Nat

/-- The fields of `TComVar` the engine uses.  `InBuff` holds the received bytes
not yet read, `OutBuff` the bytes the transport has accepted so far, `OutRoom`
how many bytes the transport accepts at each coming write call (no entry: it
accepts everything). -/
structure TComVar where
  InBuff : List Nat
  OutBuff : List Nat
  OutRoom : List Nat
  PortType : Nat

/-- The session: `fv`, `xv = fv->data` and `cv`. -/
structure XSt where
  fv : TFileVarProto
  xv : TXVar
  cv : TComVar

/-- The settings `TTSet` read by `XInit`. -/
structure TTSet where
  XmodemTimeOutInit : Int
  XmodemTimeOutInitCRC : Int
  XmodemTimeOutVLong : Int
  XmodemTimeOutShort : Int
  XmodemTimeOutLong : Int
  XModemRcvCommand : List Nat

/-! ## Adapter surface -/

/-- Modelled from the spec: `Transport.read_byte()` (`CommRead1Byte`, outside
these sources): the oldest waiting byte, if any, is removed and returned. -/
def CommRead1Byte (cv : TComVar) : Option (Nat × TComVar) :=
  match cv.InBuff with
  | [] => none
  | b :: rest => some (BYTE b, { cv with InBuff := rest })

/-- How many of `n` offered bytes the transport accepts at its next write call. -/
def CommRoom (cv : TComVar) (n : Nat) : Nat :=
  match cv.OutRoom with
  | [] => n
  | r :: _ => min r n

/-- Modelled from the spec: `Transport.write(bytes) -> usize` (`CommBinaryOut`,
outside these sources): the transport accepts a prefix of the bytes and
returns its length. -/
def CommBinaryOut (cv : TComVar) (B : List Nat) : TComVar × Nat :=
  ({ cv with OutBuff := cv.OutBuff ++ B.take (CommRoom cv B.length), OutRoom := cv.OutRoom.tail },
    CommRoom cv B.length)

/-- Modelled from the spec: `Clock.arm_deadline(ms)` (`FTSetTimeOut`, outside
these sources): arming replaces the deadline; the armed values are recorded. -/
def FTSetTimeOut (s : XSt) (t : Int) : XSt :=
  { s with fv := { s.fv with TimeOut := s.fv.TimeOut ++ [t] } }

/-- Modelled from the spec: `FileSink.write(bytes)` (`fv->WriteFile`). -/
def WriteFile (s : XSt) (B : List Nat) : XSt :=
  { s with fv := { s.fv with WriteData := s.fv.WriteData ++ B } }

/-- Modelled from the spec: the CRC-16/XMODEM step (section 4.1): polynomial
0x1021, MSB first, no reflection (`UpdateCRC`, outside these sources). -/
def UpdateCRC (b : Nat) (CRC : Nat) : Nat :=
  (List.range 8).foldl
    (fun c _ => if c &&& 0x8000 ≠ 0 then WORD ((c <<< 1) ^^^ 0x1021) else WORD (c <<< 1))
    (WORD (CRC ^^^ (BYTE b <<< 8)))

/-! ## The engine -/

/-- `XRead1Byte`: one byte from the transport, if one is waiting. -/
def XRead1Byte (s : XSt) : Option (Nat × XSt) :=
  match CommRead1Byte s.cv with
  | none => none
  | some (b, cv) => some (b, { s with cv := cv })

/-- `XWrite`: hands the bytes to the transport and returns the number accepted. -/
def XWrite (s : XSt) (B : List Nat) : XSt × Nat :=
  ({ s with cv := (CommBinaryOut s.cv B).1 }, (CommBinaryOut s.cv B).2)

/-- `XSetOpt`: selects the variant and derives `DataLen` and `CheckLen`. -/
def XSetOpt (s : XSt) (Opt : Nat) : XSt :=
  let xv := { s.xv with XOpt := Opt }
  let xv :=
    if Opt = XoptCheck then { xv with DataLen := 128, CheckLen := 1 }
    else if Opt = XoptCRC then { xv with DataLen := 128, CheckLen := 2 }
    else if Opt = Xopt1kCRC then { xv with DataLen := 1024, CheckLen := 2 }
    else if Opt = Xopt1kCksum then { xv with DataLen := 1024, CheckLen := 1 }
    else xv
  { s with xv := xv }

/-- `XCancel`: five CAN and five BS, then the role is cleared. -/
def XCancel (s : XSt) : XSt :=
  let s := (XWrite s [CAN, CAN, CAN, CAN, CAN, BS, BS, BS, BS, BS]).1
  { s with xv := { s.xv with XMode := 0 } }

/-- The end of `XSendNAK` (lines 175-187): the negotiation byte is written,
the read state is reset and the deadline armed. -/
def XSendNAKByte (s : XSt) : XSt :=
  let b := if s.xv.NAKMode = XnakNAK then NAK else 0x43
  let t :=
    if s.xv.NAKMode = XnakNAK then
      (if s.xv.PktNum = 0 ∧ s.xv.PktNumOffset = 0 then s.xv.TOutInit else s.xv.TOutLong)
    else s.xv.TOutInitCRC
  let s := (XWrite s [b]).1
  let s := { s with xv := { s.xv with PktReadMode := XpktSOH } }
  FTSetTimeOut s t

/-- `XSendNAK`: flushes the input, spends one retry and emits NAK or 'C';
when the retries are used up it falls back to checksum or cancels. -/
def XSendNAK (s : XSt) : XSt :=
  let s := { s with cv := { s.cv with InBuff := [] } }
  let s := { s with xv := { s.xv with NAKCount := s.xv.NAKCount - 1 } }
  if s.xv.NAKCount < 0 then
    if s.xv.NAKMode = XnakC then
      let s := XSetOpt s XoptCheck
      let s := { s with xv := { s.xv with NAKMode := XnakNAK, NAKCount := 9 } }
      XSendNAKByte s
    else
      XCancel s
  else
    XSendNAKByte s

/-- `XCalcCheck`: the check value of the `DataLen` payload bytes of a packet buffer. -/
def XCalcCheck (xv : TXVar) (PktBuf : Nat → Nat) : Nat :=
  if xv.CheckLen = 1 then
    ((List.range xv.DataLen).foldl (fun Check i => WORD (Check + BYTE (PktBuf (3 + i)))) 0) &&& 0xff
  else
    (List.range xv.DataLen).foldl (fun Check i => UpdateCRC (PktBuf (3 + i)) Check) 0

/-- `XCheckPacket`: compares the trailer of `PktIn` with the computed check. -/
def XCheckPacket (xv : TXVar) : Bool :=
  let Check := XCalcCheck xv xv.PktIn
  if xv.CheckLen = 1 then
    BYTE Check == xv.PktIn (xv.DataLen + 3)
  else
    (HIBYTE Check == xv.PktIn (xv.DataLen + 3)) && (LOBYTE Check == xv.PktIn (xv.DataLen + 4))

/-- The `switch (b)` of the read state `XpktSOH` (lines 327-368).  The result
is the session and `some r` when the function returns `r` at once. -/
def XReadPacketSOH (s : XSt) (b : Nat) : XSt × Option Bool :=
  if b = SOH then
    let s := { s with xv := { s.xv with PktIn := Function.update s.xv.PktIn 0 b, PktReadMode := XpktBLK } }
    let s :=
      if s.xv.XOpt = Xopt1kCRC then XSetOpt s XoptCRC
      else if s.xv.XOpt = Xopt1kCksum then XSetOpt s XoptCheck
      else s
    let s := FTSetTimeOut s s.xv.TOutShort
    ({ s with xv := { s.xv with CANCount := 0 } }, none)
  else if b = STX then
    let s := { s with xv := { s.xv with PktIn := Function.update s.xv.PktIn 0 b, PktReadMode := XpktBLK } }
    let s :=
      if s.xv.XOpt = XoptCRC then XSetOpt s Xopt1kCRC
      else if s.xv.XOpt = XoptCheck then XSetOpt s Xopt1kCksum
      else s
    let s := FTSetTimeOut s s.xv.TOutShort
    ({ s with xv := { s.xv with CANCount := 0 } }, none)
  else if b = EOT then
    let s := { s with fv := { s.fv with Success := true } }
    ((XWrite s [ACK]).1, some false)
  else if b = CAN then
    let s := { s with xv := { s.xv with CANCount := s.xv.CANCount + 1 } }
    if s.xv.CANCount ≤ 2 then (s, none) else (s, some false)
  else
    ({ s with cv := { s.cv with InBuff := [] } }, some true)

/-- The body of the `for` loop of `XReadPacket` (lines 325-396) for the byte
`b`.  The result is the session, the flag `GetPkt`, and `some r` when the
function returns `r` from inside the loop. -/
def XReadPacketBody (s : XSt) (b : Nat) : XSt × Bool × Option Bool :=
  if s.xv.PktReadMode = XpktSOH then
    ((XReadPacketSOH s b).1, false, (XReadPacketSOH s b).2)
  else if s.xv.PktReadMode = XpktBLK then
    let s := { s with xv := { s.xv with PktIn := Function.update s.xv.PktIn 1 b, PktReadMode := XpktBLK2 } }
    (FTSetTimeOut s s.xv.TOutShort, false, none)
  else if s.xv.PktReadMode = XpktBLK2 then
    let s := { s with xv := { s.xv with PktIn := Function.update s.xv.PktIn 2 b } }
    if b ^^^ s.xv.PktIn 1 = 0xff then
      let s := { s with xv := { s.xv with
        PktBufPtr := 3, PktBufCount := (s.xv.DataLen : Int) + s.xv.CheckLen, PktReadMode := XpktDATA } }
      (FTSetTimeOut s s.xv.TOutShort, false, none)
    else
      (XSendNAK s, false, none)
  else if s.xv.PktReadMode = XpktDATA then
    let s := { s with xv := { s.xv with
      PktIn := Function.update s.xv.PktIn s.xv.PktBufPtr.toNat b,
      PktBufPtr := s.xv.PktBufPtr + 1, PktBufCount := s.xv.PktBufCount - 1 } }
    if s.xv.PktBufCount = 0 then
      let s := FTSetTimeOut s s.xv.TOutLong
      ({ s with xv := { s.xv with PktReadMode := XpktSOH } }, true, none)
    else
      (FTSetTimeOut s s.xv.TOutShort, false, none)
  else
    (s, false, none)

/-- The `for` loop of `XReadPacket` (line 324).  Each pass reads one byte; the
loop is left when no byte is waiting, when the body returns, or when a packet
is complete - in which case the loop's increment has read one more byte
before the condition is tested.  The first argument bounds the number of
passes; `XReadPacket` supplies more than the bytes waiting. -/
def XReadPacketLoop : Nat → XSt → XSt × Bool × Option Bool
  | 0, s => (s, false, none)
  | fuel + 1, s =>
    match XRead1Byte s with
    | none => (s, false, none)
    | some (b, s1) =>
      let r := XReadPacketBody s1 b
      match r.2.2 with
      | some ret => (r.1, false, some ret)
      | none =>
        if r.2.1 = true then
          match XRead1Byte r.1 with
          | none => (r.1, true, none)
          | some (_, s3) => (s3, true, none)
        else XReadPacketLoop fuel r.1

/-- The trimming loop of text mode (lines 438-439): `c` is lowered while
`PktIn[2 + c]` is 0x1A. -/
def XTrimSUB (PktIn : Nat → Nat) : Nat → Nat
  | 0 => 0
  | c + 1 => if PktIn (2 + (c + 1)) = 0x1A then XTrimSUB PktIn c else c + 1

/-- One pass of the text-mode write loop (lines 443-449) for payload index `i`. -/
def XWriteText1 (s : XSt) (i : Nat) : XSt :=
  let b := s.xv.PktIn (3 + i)
  let s := if b = LF ∧ s.xv.CRRecv = false then WriteFile s [0x0D] else s
  let s := if s.xv.CRRecv = true ∧ b ≠ LF then WriteFile s [0x0A] else s
  let s := { s with xv := { s.xv with CRRecv := (b == CR) } }
  WriteFile s [b]

/-- The part of `XReadPacket` after a new packet has been ACKed (lines 432-461). -/
def XReadPacketStore (s : XSt) : XSt :=
  let s := { s with xv := { s.xv with PktNum := s.xv.PktIn 1 } }
  let s :=
    if s.xv.PktNum = 0 then { s with xv := { s.xv with PktNumOffset := s.xv.PktNumOffset + 256 } }
    else s
  let c := if s.xv.TextFlag > 0 then XTrimSUB s.xv.PktIn s.xv.DataLen else s.xv.DataLen
  let s :=
    if s.xv.TextFlag > 0 then (List.range c).foldl XWriteText1 s
    else WriteFile s ((List.range c).map (fun i => s.xv.PktIn (3 + i)))
  let s := { s with fv := { s.fv with ByteCount := s.fv.ByteCount + c } }
  FTSetTimeOut s s.xv.TOutLong

/-- The part of `XReadPacket` after the loop has completed a packet (lines 402-461). -/
def XReadPacketGot (s : XSt) : Bool × XSt :=
  if s.xv.PktIn 1 = 0 ∧ s.xv.PktNum = 0 ∧ s.xv.PktNumOffset = 0 then
    let s := { s with xv := { s.xv with NAKCount := if s.xv.NAKMode = XnakNAK then 10 else 3 } }
    (true, XSendNAK s)
  else if XCheckPacket s.xv = false then
    (true, XSendNAK s)
  else
    let d : Int := ((s.xv.PktIn 1 : Int) - (s.xv.PktNum : Int)) % 256
    if d > 1 then
      (false, XCancel s)
    else
      let s := (XWrite s [ACK]).1
      let s := { s with xv := { s.xv with NAKMode := XnakNAK, NAKCount := 10 } }
      if d = 0 then (true, s)
      else (true, XReadPacketStore s)

/-- `XReadPacket`: the receiving side of `XParse`. -/
def XReadPacket (s : XSt) : Bool × XSt :=
  let r := XReadPacketLoop (s.cv.InBuff.length + 1) s
  match r.2.2 with
  | some ret => (ret, r.1)
  | none => if r.2.1 = true then XReadPacketGot r.1 else (true, r.1)

/-- Modelled from the spec: `FileSource.read` of one byte (`fv->ReadFile(fv, &b, 1)`):
the next byte of the file, if one is left. -/
def ReadFile (s : XSt) : Option (Nat × XSt) :=
  match s.fv.ReadData with
  | [] => none
  | b :: rest => some (BYTE b, { s with fv := { s.fv with ReadData := rest } })

/-- The draining loops of `XSendPacket` (lines 528-530 and 582-584): bytes are
read until none is waiting.  The first argument bounds the number of passes. -/
def XDrainLoop : Nat → XSt → XSt
  | 0, s => s
  | fuel + 1, s =>
    match XRead1Byte s with
    | none => s
    | some (_, s1) => XDrainLoop fuel s1

/-- `do { i = XRead1Byte(...); } while (i != 0);` -/
def XDrain (s : XSt) : XSt := XDrainLoop s.cv.InBuff.length s

/-- The `switch (b)` of the response loop of `XSendPacket` (lines 477-522).
The result is the session, the flag `SendFlag`, whether the `switch` was left
by `continue`, and `some r` when the function returns `r` at once. -/
def XSendPacketSwitch (s : XSt) (b : Nat) : XSt × Bool × Bool × Option Bool :=
  if b = ACK then
    if s.fv.FileOpen = false then
      ({ s with fv := { s.fv with Success := true } }, false, false, some false)
    else if s.xv.PktNumSent = BYTE (s.xv.PktNum + 1) then
      let s := { s with xv := { s.xv with PktNum := s.xv.PktNumSent } }
      let s :=
        if s.xv.PktNum = 0 then { s with xv := { s.xv with PktNumOffset := s.xv.PktNumOffset + 256 } }
        else s
      (s, true, false, none)
    else (s, false, false, none)
  else if b = NAK then
    let s :=
      if s.xv.PktNum = 0 ∧ s.xv.PktNumOffset = 0 then
        (if s.xv.XOpt = XoptCRC then XSetOpt s XoptCheck
         else if s.xv.XOpt = Xopt1kCRC then XSetOpt s Xopt1kCksum
         else s)
      else s
    (s, true, false, none)
  else if b = CAN then
    let s := { s with xv := { s.xv with CANCount := s.xv.CANCount + 1 } }
    if s.xv.CANCount ≤ 2 then (s, false, true, none) else (s, false, false, some false)
  else if b = 0x43 then
    if s.xv.PktNum = 0 ∧ s.xv.PktNumOffset = 0 ∧ s.xv.PktNumSent = 0 then
      let s :=
        if s.xv.XOpt = XoptCheck then XSetOpt s XoptCRC
        else if s.xv.XOpt = Xopt1kCksum then XSetOpt s Xopt1kCRC
        else s
      (s, true, false, none)
    else (s, false, false, none)
  else (s, false, false, none)

/-- The response loop of `XSendPacket` (lines 474-524).  The result is the
session and `some r` when the function returns `r` from inside the loop; when
`SendFlag` has been set the loop's increment reads one more byte before the
loop is left.  The first argument bounds the number of passes. -/
def XSendPacketLoop : Nat → XSt → XSt × Option Bool
  | 0, s => (s, some true)
  | fuel + 1, s =>
    match XRead1Byte s with
    | none => (s, some true)
    | some (b, s1) =>
      let r := XSendPacketSwitch s1 b
      match r.2.2.2 with
      | some ret => (r.1, some ret)
      | none =>
        if r.2.2.1 = true then XSendPacketLoop fuel r.1
        else
          let s3 := { r.1 with xv := { r.1.xv with CANCount := 0 } }
          if r.2.1 = true then
            match XRead1Byte s3 with
            | none => (s3, none)
            | some (_, s4) => (s4, none)
          else XSendPacketLoop fuel s3

/-- The loop that fills the payload from the file (lines 541-547), started
with `i = 1`.  The first argument bounds the number of passes. -/
def XSendPacketFill : Nat → Nat → XSt → Nat × XSt
  | 0, i, s => (i, s)
  | fuel + 1, i, s =>
    if i ≤ s.xv.DataLen ∧ s.fv.FileOpen = true then
      match ReadFile s with
      | none => (i, s)
      | some (b, s1) =>
        XSendPacketFill fuel (i + 1)
          { s1 with
            xv := { s1.xv with PktOut := Function.update s1.xv.PktOut (2 + i) b },
            fv := { s1.fv with ByteCount := s1.fv.ByteCount + 1 } }
    else (i, s)

/-- The padding loop (lines 550-553): the slots from `i` to `DataLen` are set
to 0x1A.  The first argument bounds the number of passes. -/
def XSendPacketPad : Nat → Nat → XSt → Nat × XSt
  | 0, i, s => (i, s)
  | fuel + 1, i, s =>
    if i ≤ s.xv.DataLen then
      XSendPacketPad fuel (i + 1)
        { s with xv := { s.xv with PktOut := Function.update s.xv.PktOut (2 + i) 0x1A } }
    else (i, s)

/-- The start of a new packet (lines 533-539): the block number is advanced
and the three header bytes are stored. -/
def XSendPacketHead (s : XSt) : XSt :=
  let s := { s with xv := { s.xv with PktNumSent := BYTE (s.xv.PktNumSent + 1) } }
  let s := { s with xv := { s.xv with
    PktOut := Function.update s.xv.PktOut 0 (if s.xv.DataLen = 128 then SOH else STX) } }
  let s := { s with xv := { s.xv with PktOut := Function.update s.xv.PktOut 1 s.xv.PktNumSent } }
  { s with xv := { s.xv with PktOut := Function.update s.xv.PktOut 2 (255 - s.xv.PktNumSent) } }

/-- The check trailer of a new packet (lines 555-562): the check of the
payload is stored big-endian behind it and the packet length is set. -/
def XSendPacketTrailer (s : XSt) : XSt :=
  let Check := XCalcCheck s.xv s.xv.PktOut
  let s :=
    if s.xv.CheckLen = 1 then
      { s with xv := { s.xv with PktOut := Function.update s.xv.PktOut (s.xv.DataLen + 3) (BYTE Check) } }
    else
      let s := { s with xv := { s.xv with
        PktOut := Function.update s.xv.PktOut (s.xv.DataLen + 3) (HIBYTE Check) } }
      { s with xv := { s.xv with PktOut := Function.update s.xv.PktOut (s.xv.DataLen + 4) (LOBYTE Check) } }
  { s with xv := { s.xv with PktBufCount := 3 + (s.xv.DataLen : Int) + s.xv.CheckLen } }

/-- The end of the file (lines 564-570): the file is closed and EOT staged. -/
def XSendPacketEOT (s : XSt) : XSt :=
  let s := if s.fv.FileOpen = true then { s with fv := { s.fv with FileOpen := false } } else s
  { s with xv := { s.xv with PktOut := Function.update s.xv.PktOut 0 EOT, PktBufCount := 1 } }

/-- The branch "make a new packet" of `XSendPacket` (lines 533-571). -/
def XSendPacketNew (s : XSt) : XSt :=
  let s := XSendPacketHead s
  let r := XSendPacketFill s.xv.DataLen 1 s
  if r.1 > 1 then XSendPacketTrailer (XSendPacketPad r.2.xv.DataLen r.1 r.2).2
  else XSendPacketEOT r.2

/-- The branch "resend packet" of `XSendPacket` (lines 573-577). -/
def XSendPacketResend (s : XSt) : XSt :=
  if s.xv.PktOut 0 = EOT then { s with xv := { s.xv with PktBufCount := 1 } }
  else { s with xv := { s.xv with PktBufCount := 3 + (s.xv.DataLen : Int) + s.xv.CheckLen } }

/-- The part of `XSendPacket` that stages a packet once the peer has asked for
one (lines 526-579). -/
def XSendPacketStage (s : XSt) : XSt :=
  let s := FTSetTimeOut s s.xv.TOutVLong
  let s := XDrain s
  let s := if s.xv.PktNumSent = s.xv.PktNum then XSendPacketNew s else XSendPacketResend s
  { s with xv := { s.xv with PktBufPtr := 0 } }

/-- The write loop of `XSendPacket` (lines 586-594), started with `i = 1`: one
byte is offered at a time until the packet is out or the transport refuses.
The first argument bounds the number of passes. -/
def XSendPacketWrite : Nat → XSt → XSt
  | 0, s => s
  | fuel + 1, s =>
    if s.xv.PktBufCount > 0 then
      let b := s.xv.PktOut s.xv.PktBufPtr.toNat
      let i := (XWrite s [b]).2
      let s1 := (XWrite s [b]).1
      if i > 0 then
        XSendPacketWrite fuel
          { s1 with xv := { s1.xv with PktBufCount := s1.xv.PktBufCount - 1, PktBufPtr := s1.xv.PktBufPtr + 1 } }
      else s1
    else s

/-- The end of `XSendPacket` (lines 581-608): waiting input is consumed and
the staged bytes are written. -/
def XSendPacketOut (s : XSt) : Bool × XSt :=
  let s := XDrain s
  (true, XSendPacketWrite s.xv.PktBufCount.toNat s)

/-- `XSendPacket`: the sending side of `XParse`. -/
def XSendPacket (s : XSt) : Bool × XSt :=
  if s.xv.PktBufCount = 0 then
    let r := XSendPacketLoop (s.cv.InBuff.length + 1) s
    match r.2 with
    | some ret => (ret, r.1)
    | none => XSendPacketOut (XSendPacketStage r.1)
  else XSendPacketOut s

/-- `XParse`: one scheduler tick. -/
def XParse (s : XSt) : Bool × XSt :=
  if s.xv.XMode = IdXReceive then XReadPacket s
  else if s.xv.XMode = IdXSend then XSendPacket s
  else (false, s)

/-- `XTimeOutProc`: the armed deadline has expired. -/
def XTimeOutProc (s : XSt) : XSt :=
  if s.xv.XMode = IdXSend then { s with xv := { s.xv with XMode := 0 } }
  else if s.xv.XMode = IdXReceive then XSendNAK s
  else s

/-- The timeouts of `XInit` (lines 251-261): over TCP/IP the short and the
long timeout are widened to the very long one. -/
def XInitTimeOuts (s : XSt) (ts : TTSet) : XSt :=
  let s := { s with xv := { s.xv with
    TOutInit := ts.XmodemTimeOutInit, TOutInitCRC := ts.XmodemTimeOutInitCRC,
    TOutVLong := ts.XmodemTimeOutVLong } }
  if s.cv.PortType = IdTCPIP then
    { s with xv := { s.xv with TOutShort := ts.XmodemTimeOutVLong, TOutLong := ts.XmodemTimeOutVLong } }
  else
    { s with xv := { s.xv with TOutShort := ts.XmodemTimeOutShort, TOutLong := ts.XmodemTimeOutLong } }

/-- The variables of `XInit` (lines 242-271): counters, timeouts, variant and
the negotiation mode with its retry budget. -/
def XInitVars (s : XSt) (ts : TTSet) : XSt :=
  let s := { s with xv := { s.xv with
    PktNumOffset := 0, PktNum := 0, PktNumSent := 0, PktBufCount := 0, CRRecv := false, CANCount := 0 } }
  let s := { s with fv := { s.fv with ByteCount := 0 } }
  let s := XInitTimeOuts s ts
  let s := XSetOpt s s.xv.XOpt
  if s.xv.XOpt = XoptCheck ∨ s.xv.XOpt = Xopt1kCksum then
    { s with xv := { s.xv with NAKMode := XnakNAK, NAKCount := 10 } }
  else
    { s with xv := { s.xv with NAKMode := XnakC, NAKCount := 3 } }

/-- `XInit`: start of a transfer; `XMode`, `XOpt` and `TextFlag` have been set
through `SetOptV` before. -/
def XInit (s : XSt) (ts : TTSet) : XSt :=
  let s := XInitVars s ts
  if s.xv.XMode = IdXSend then
    let s := { s with xv := { s.xv with TextFlag := 0 } }
    let s :=
      if ts.XModemRcvCommand ≠ [] then
        (XWrite s (ts.XModemRcvCommand ++ [0x20] ++ s.fv.FileName ++ [0x0D])).1
      else s
    FTSetTimeOut s s.xv.TOutVLong
  else if s.xv.XMode = IdXReceive then
    XSendNAK s
  else s

/-! ## Notions used in the statements -/

/-- The output side of the transport `cv'` is that of `cv` after one write call with the bytes `B`. -/
def Wrote (cv cv' : TComVar) (B : List Nat) : Prop :=
  cv'.OutBuff = (CommBinaryOut cv B).1.OutBuff ∧ cv'.OutRoom = (CommBinaryOut cv B).1.OutRoom

/-- What a pass of the receive loop that only assembles leaves alone. -/
structure RecvFrame (s s' : XSt) : Prop where
  hWrite : s'.fv.WriteData = s.fv.WriteData
  hCount : s'.fv.ByteCount = s.fv.ByteCount
  hSucc : s'.fv.Success = s.fv.Success
  hOpen : s'.fv.FileOpen = s.fv.FileOpen
  hRead : s'.fv.ReadData = s.fv.ReadData
  hOut : s'.cv.OutBuff = s.cv.OutBuff
  hRoom : s'.cv.OutRoom = s.cv.OutRoom
  hNum : s'.xv.PktNum = s.xv.PktNum
  hSent : s'.xv.PktNumSent = s.xv.PktNumSent
  hOff : s'.xv.PktNumOffset = s.xv.PktNumOffset
  hMode : s'.xv.XMode = s.xv.XMode
  hText : s'.xv.TextFlag = s.xv.TextFlag
  hNak : s'.xv.NAKMode = s.xv.NAKMode
  hNakC : s'.xv.NAKCount = s.xv.NAKCount
  hCR : s'.xv.CRRecv = s.xv.CRRecv

/-- The session after the oldest waiting byte has been taken from the transport. -/
def popIn (s : XSt) : XSt := { s with cv := { s.cv with InBuff := s.cv.InBuff.tail } }

/-- A checksum receiver that has assembled all of a packet with block byte `blk`
and an all-zero payload but its trailer, which is the one byte waiting. -/
def exRecv (blk num : Nat) (off : Int) (trailer : Nat) : XSt :=
  { fv := { FileOpen := true, Success := false, ByteCount := 0, ReadData := [], WriteData := [],
            TimeOut := [], FileName := [] },
    xv := { PktIn := fun i => if i = 0 then SOH else if i = 1 then blk else if i = 2 then 255 - blk else 0,
            PktOut := fun _ => 0, PktBufCount := 1, PktBufPtr := 131,
            PktNum := num, PktNumSent := 0, PktNumOffset := off, PktReadMode := XpktDATA,
            XMode := IdXReceive, XOpt := XoptCheck, TextFlag := 0, NAKMode := XnakNAK, NAKCount := 10,
            DataLen := 128, CheckLen := 1, CRRecv := false, TOutShort := 10, TOutLong := 20,
            TOutInit := 10, TOutInitCRC := 3, TOutVLong := 60, CANCount := 0 },
    cv := { InBuff := [trailer], OutBuff := [], OutRoom := [], PortType := 0 } }


/-- The first `n` bytes of a packet buffer. -/
def PktBytes (buf : Nat → Nat) (n : Nat) : List Nat := (List.range n).map buf

/-- The packet buffer `buf` with the bytes `l` stored from index `off` on. -/
def blit (buf : Nat → Nat) (off : Nat) (l : List Nat) : Nat → Nat :=
  fun j => if off ≤ j ∧ j < off + l.length then l.getD (j - off) 0 else buf j

/-- Modelled from the spec: `compute(payload)` of the check computer (section
4.1): the 8-bit sum of the payload bytes for a one-byte check, otherwise the
CRC-16 folded over the payload from the initial value 0. -/
def CheckOf (CheckLen : Nat) (payload : List Nat) : Nat :=
  if CheckLen = 1 then (payload.map (fun b => b % 256)).sum % 256
  else payload.foldl (fun crc b => UpdateCRC b crc) 0

/-- Modelled from the spec: the trailer of a packet (section 4.2): the check
value big-endian, in one or two bytes. -/
def XTrailer (CheckLen : Nat) (payload : List Nat) : List Nat :=
  if CheckLen = 1 then [CheckOf CheckLen payload]
  else [HIBYTE (CheckOf CheckLen payload), LOBYTE (CheckOf CheckLen payload)]

/-- Modelled from the spec: the payload of a packet (section 4.2): the file
bytes followed by 0x1A up to `DataLen` bytes. -/
def XPayload (DataLen : Nat) (data : List Nat) : List Nat :=
  data ++ List.replicate (DataLen - data.length) 0x1A

/-- Modelled from the spec: the wire layout of a packet (section 4.2):
`| STX or SOH | blk | ~blk | data[payload_len] | check[check_len] |`. -/
def XPacket (DataLen CheckLen blk : Nat) (data : List Nat) : List Nat :=
  [if DataLen = 128 then SOH else STX, blk, 255 - blk] ++ XPayload DataLen data ++
    XTrailer CheckLen (XPayload DataLen data)

/-- The four variants: `XOpt` with the `DataLen` and `CheckLen` that `XSetOpt` derives from it. -/
def ValidVariant (xv : TXVar) : Prop :=
  (xv.XOpt = XoptCheck ∧ xv.DataLen = 128 ∧ xv.CheckLen = 1) ∨
  (xv.XOpt = XoptCRC ∧ xv.DataLen = 128 ∧ xv.CheckLen = 2) ∨
  (xv.XOpt = Xopt1kCRC ∧ xv.DataLen = 1024 ∧ xv.CheckLen = 2) ∨
  (xv.XOpt = Xopt1kCksum ∧ xv.DataLen = 1024 ∧ xv.CheckLen = 1)

/-- The byte a receiver configured with the variant `XOpt` opens the transfer
with: NAK for the checksum variants, 'C' for the CRC variants (`XInit`, `XSendNAK`). -/
def ReqByte (XOpt : Nat) : Nat :=
  if XOpt = XoptCheck ∨ XOpt = Xopt1kCksum then NAK else 0x43

/-- A sender and a receiver joined by a link, and whether each is still
scheduled (its last `XParse` returned TRUE). -/
structure LockStep where
  rx : XSt
  tx : XSt
  rxRun : Bool
  txRun : Bool

/-- Lossless delivery: everything `a` has sent is appended to the input of `b`. -/
def deliver (a b : XSt) : XSt × XSt :=
  ({ a with cv := { a.cv with OutBuff := [] } },
   { b with cv := { b.cv with InBuff := b.cv.InBuff ++ a.cv.OutBuff } })

/-- One round of lock step: the sender, if still scheduled, is given what the
receiver has sent and parses; then the receiver, if still scheduled, is given
what the sender has sent and parses. -/
def lockStepRound (st : LockStep) : LockStep :=
  let st :=
    if st.txRun = true then
      { st with rx := (deliver st.rx st.tx).1, tx := (XParse (deliver st.rx st.tx).2).2,
                txRun := (XParse (deliver st.rx st.tx).2).1 }
    else st
  if st.rxRun = true then
    { st with tx := (deliver st.tx st.rx).1, rx := (XParse (deliver st.tx st.rx).2).2,
              rxRun := (XParse (deliver st.tx st.rx).2).1 }
  else st

/-- Lock step for at most `n` rounds, until both sides have finished. -/
def lockStep : Nat → LockStep → LockStep
  | 0, st => st
  | n + 1, st =>
    if st.rxRun = false ∧ st.txRun = false then st else lockStep n (lockStepRound st)

/-- The start of a lock-step run: both sides are initialised; the link carries
the traffic from the receiver's first request byte on (the sender's kick-off
command line, if any, went to the remote shell before). -/
def lockStepInit (rx0 tx0 : XSt) (tsr tst : TTSet) : LockStep :=
  { rx := XInit rx0 tsr,
    tx := { XInit tx0 tst with cv := { (XInit tx0 tst).cv with OutBuff := [] } },
    rxRun := true, txRun := true }

/-- The state of a lock-step run between two rounds while data packets are
exchanged under the variant `V`: the receiver waits for a header, the sender
has nothing staged, and the receiver's pending byte is either the ACK of the
sender's last packet or the opening request. -/
structure LockInv (V : Nat) (st : LockStep) : Prop where
  rxRun : st.rxRun = true
  txRun : st.txRun = true
  rMode : st.rx.xv.XMode = IdXReceive
  rVar : ValidVariant st.rx.xv
  rOpt : st.rx.xv.XOpt = V
  rRead : st.rx.xv.PktReadMode = XpktSOH
  rText : st.rx.xv.TextFlag = 0
  rIn : st.rx.cv.InBuff = []
  rRoom : st.rx.cv.OutRoom = []
  tMode : st.tx.xv.XMode = IdXSend
  tVar : ValidVariant st.tx.xv
  tOpt : st.tx.xv.XOpt = V
  tCnt : st.tx.xv.PktBufCount = 0
  tOpen : st.tx.fv.FileOpen = true
  tIn : st.tx.cv.InBuff = []
  tOut : st.tx.cv.OutBuff = []
  tRoom : st.tx.cv.OutRoom = []
  tBytes : ∀ b ∈ st.tx.fv.ReadData, b < 256
  num : st.rx.xv.PktNum = st.tx.xv.PktNumSent
  pend : (st.rx.cv.OutBuff = [ACK] ∧ st.tx.xv.PktNumSent = BYTE (st.tx.xv.PktNum + 1)) ∨
    (st.rx.cv.OutBuff = [ReqByte V] ∧ st.tx.xv.PktNum = 0 ∧ st.tx.xv.PktNumOffset = 0 ∧
      st.tx.xv.PktNumSent = 0)

/-! ## Example sessions -/

/-- The settings of the examples: the default timeouts and no kick-off command. -/
def exTTSet : TTSet :=
  { XmodemTimeOutInit := 10, XmodemTimeOutInitCRC := 3, XmodemTimeOutVLong := 60,
    XmodemTimeOutShort := 10, XmodemTimeOutLong := 20, XModemRcvCommand := [] }

/-- A session in the role `mode` under the variant `opt`, as `SetOptV` leaves
it before `XInit`: the file holds `file`, nothing is buffered. -/
def exSession (mode opt : Nat) (file : List Nat) : XSt :=
  { fv := { FileOpen := true, Success := false, ByteCount := 0, ReadData := file, WriteData := [],
            TimeOut := [], FileName := [] },
    xv := { PktIn := fun _ => 0, PktOut := fun _ => 0, PktBufCount := 0, PktBufPtr := 0,
            PktNum := 0, PktNumSent := 0, PktNumOffset := 0, PktReadMode := XpktSOH,
            XMode := mode, XOpt := opt, TextFlag := 0, NAKMode := XnakNAK, NAKCount := 0,
            DataLen := 0, CheckLen := 0, CRRecv := false, TOutShort := 0, TOutLong := 0,
            TOutInit := 0, TOutInitCRC := 0, TOutVLong := 0, CANCount := 0 },
    cv := { InBuff := [], OutBuff := [], OutRoom := [], PortType := 0 } }

/-- The file of the examples: "HELLO" and a line feed. -/
def exFile : List Nat := [72, 69, 76, 76, 79, 10]

/-- A sender initialised under the variant `opt` with the file `file`. -/
def exSender (opt : Nat) (file : List Nat) : XSt := XInit (exSession IdXSend opt file) exTTSet

/-- A receiver initialised under the variant `opt` whose input holds the packet
the sender `tx` stages next. -/
def exFed (opt : Nat) (tx : XSt) : XSt :=
  { XInit (exSession IdXReceive opt []) exTTSet with
    cv := { (XInit (exSession IdXReceive opt []) exTTSet).cv with
      InBuff := PktBytes (XSendPacketNew tx).xv.PktOut (XSendPacketNew tx).xv.PktBufCount.toNat } }

/-! ## A transmission error in lock step -/

/-- The bytes `l` with the byte at index `i` changed (one added, mod 256): a transmission error. -/
def corruptAt (l : List Nat) (i : Nat) : List Nat := l.set i ((l.getD i 0 + 1) % 256)

/-- The sender's half of a round: it is given what the receiver has sent and parses. -/
def senderTurn (st : LockStep) : LockStep :=
  { st with rx := (deliver st.rx st.tx).1, tx := (XParse (deliver st.rx st.tx).2).2,
            txRun := (XParse (deliver st.rx st.tx).2).1 }

/-- The receiver as it is given what the sender has sent, with the byte at
index `i` changed on the way. -/
def corruptFeed (st : LockStep) (i : Nat) : XSt :=
  { st.rx with cv := { st.rx.cv with
      InBuff := st.rx.cv.InBuff ++ corruptAt st.tx.cv.OutBuff i } }

/-- The receiver's half of a round over a link that changes the byte at index
`i` of what the sender has sent. -/
def receiverTurnCorrupt (st : LockStep) (i : Nat) : LockStep :=
  { st with
    tx := { st.tx with cv := { st.tx.cv with OutBuff := [] } },
    rx := (XParse (corruptFeed st i)).2,
    rxRun := (XParse (corruptFeed st i)).1 }

/-- The sender as it finds a NAK in its input once its output has gone to the peer. -/
def nakFeed (st : LockStep) : XSt :=
  { st.tx with cv := { st.tx.cv with InBuff := [NAK], OutBuff := [] } }

/-! ## Example buffers for the check computer -/

/-- The session variables of a CRC receiver with 128-byte payload. -/
def exCrcVar : TXVar := (XSetOpt (exSession IdXReceive XoptCRC []) XoptCRC).xv

/-- A packet buffer whose payload is "HELLO", a line feed and 122 bytes 0x1A. -/
def exHelloBuf : Nat → Nat :=
  fun i => ([72, 69, 76, 76, 79, 10] ++ List.replicate 122 0x1A).getD (i - 3) 0

/-! ## Runs of a session -/

/-- What happens to a session after `XInit`: bytes arrive from the peer, the
scheduler calls `XParse`, the armed deadline expires and `XTimeOutProc` is
called, or the user cancels and `XCancel` is called. -/
inductive XEvent where
  | input (bytes : List Nat)
  | parse
  | timeOut
  | cancel

/-- The session after one event. -/
def XStep (s : XSt) : XEvent → XSt
  | XEvent.input bytes => { s with cv := { s.cv with InBuff := s.cv.InBuff ++ bytes } }
  | XEvent.parse => (XParse s).2
  | XEvent.timeOut => XTimeOutProc s
  | XEvent.cancel => XCancel s

/-- The session after a sequence of events.  A run may go on after `XParse`
has returned FALSE; the runs the scheduler really makes are among these. -/
def XRun (s : XSt) (es : List XEvent) : XSt := es.foldl XStep s
/-- A checksum receiver that waits for the complement of the block byte 1 and
finds `b` in its input. -/
def exAwait (b : Nat) : XSt :=
  { exRecv 1 0 0 b with xv := { (exRecv 1 0 0 b).xv with PktReadMode := XpktBLK2 } }

/-- A sender initialised under the variant `opt` with the file of the examples
that finds the byte `q` in its input. -/
def exAsked (opt q : Nat) : XSt :=
  { exSender opt exFile with cv := { (exSender opt exFile).cv with InBuff := [q] } }

/-- A receiver configured with the variant `opt` that waits for a header. -/
def exWaiting (opt : Nat) : XSt := XSetOpt (exSession IdXReceive opt []) opt

/-- What a timeout of a receiver with a retry left leaves alone. -/
structure NakFrame (s s' : XSt) : Prop where
  hMode : s'.xv.XMode = s.xv.XMode
  hNak : s'.xv.NAKMode = s.xv.NAKMode
  hNum : s'.xv.PktNum = s.xv.PktNum
  hOff : s'.xv.PktNumOffset = s.xv.PktNumOffset
  hInit : s'.xv.TOutInit = s.xv.TOutInit
  hLong : s'.xv.TOutLong = s.xv.TOutLong
  hCRC : s'.xv.TOutInitCRC = s.xv.TOutInitCRC
  hOpt : s'.xv.XOpt = s.xv.XOpt
  hData : s'.xv.DataLen = s.xv.DataLen
  hCheck : s'.xv.CheckLen = s.xv.CheckLen
  hWrite : s'.fv.WriteData = s.fv.WriteData
  hSucc : s'.fv.Success = s.fv.Success

/-- The negotiation byte of a session: NAK in NAK mode, otherwise 'C'. -/
def NakByte (xv : TXVar) : Nat := if xv.NAKMode = XnakNAK then NAK else 0x43

/-- The deadline `XSendNAK` arms with the negotiation byte. -/
def NakTimeOut (xv : TXVar) : Int :=
  if xv.NAKMode = XnakNAK then
    (if xv.PktNum = 0 ∧ xv.PktNumOffset = 0 then xv.TOutInit else xv.TOutLong)
  else xv.TOutInitCRC

/-- What storing a packet in the file leaves alone. -/
structure StoreFrame (s s' : XSt) : Prop where
  hNak : s'.xv.NAKMode = s.xv.NAKMode
  hNakC : s'.xv.NAKCount = s.xv.NAKCount
  hMode : s'.xv.XMode = s.xv.XMode
  hCan : s'.xv.CANCount = s.xv.CANCount
  hRead : s'.xv.PktReadMode = s.xv.PktReadMode
  hSucc : s'.fv.Success = s.fv.Success
  hOpen : s'.fv.FileOpen = s.fv.FileOpen
  hCv : s'.cv = s.cv

/-- The negotiation mode never goes back to 'C', and the role stays or ends. -/
structure NakStable (s s' : XSt) : Prop where
  hNak : s.xv.NAKMode = XnakNAK → s'.xv.NAKMode = XnakNAK
  hNotC : s.xv.NAKMode ≠ XnakC → s'.xv.NAKMode ≠ XnakC
  hMode : s'.xv.XMode = s.xv.XMode ∨ s'.xv.XMode = 0

/-- The number of steps of a run on which the session leaves the 'C' mode;
the fall-back of `XSendNAK` is such a step. -/
def leavesC : XSt → List XEvent → Nat
  | _, [] => 0
  | s, e :: es =>
    (if s.xv.NAKMode = XnakC ∧ (XStep s e).xv.NAKMode ≠ XnakC then 1 else 0) +
      leavesC (XStep s e) es

/-- A receiver that waits for a header with no input pending and `c` as its
count of CAN bytes. -/
def AwaitsHeader (s : XSt) (c : Int) : Prop :=
  s.xv.XMode = IdXReceive ∧ s.xv.PktReadMode = XpktSOH ∧ s.xv.CANCount = c ∧ s.cv.InBuff = []

/-- The session after the header switch of the receiver has met EOT in `r1`:
success is reported and one ACK is handed to the transport (lines 346-351). -/
def XEotEnd (r1 : XSt) : XSt :=
  (XWrite { r1 with fv := { r1.fv with Success := true } } [ACK]).1

/-- What the response loop of the sender leaves alone. -/
structure SendFrame (s s' : XSt) : Prop where
  hOpen : s'.fv.FileOpen = s.fv.FileOpen
  hPkt : s'.xv.PktOut = s.xv.PktOut
  hCnt : s'.xv.PktBufCount = s.xv.PktBufCount
  hPtr : s'.xv.PktBufPtr = s.xv.PktBufPtr
  hMode : s'.xv.XMode = s.xv.XMode
  hOut : s'.cv.OutBuff = s.cv.OutBuff
  hRoom : s'.cv.OutRoom = s.cv.OutRoom

/-- A sender whose file is closed has EOT staged, and either still has to
write it or has written it as the last byte handed to the transport. -/
def EotStaged (t : XSt) : Prop :=
  t.fv.FileOpen = false →
    t.xv.PktOut 0 = EOT ∧
    ((t.xv.PktBufCount = 1 ∧ t.xv.PktBufPtr = 0) ∨
     (t.xv.PktBufCount = 0 ∧ t.cv.OutBuff.getLast? = some EOT))

/-- The bytes the text-mode write loop of `XReadPacket` (lines 441-451) hands
to the file for the payload bytes given, `cr` being `CRRecv` when it starts. -/
def XWriteText (cr : Bool) : List Nat → List Nat
  | [] => []
  | b :: rest =>
    (if b = LF ∧ cr = false then [0x0D] else []) ++ (if cr = true ∧ b ≠ LF then [0x0A] else []) ++
      [b] ++ XWriteText (b == CR) rest

/-- `CRRecv` after the text-mode write loop has passed over the payload bytes given. -/
def XTextCarry (cr : Bool) : List Nat → Bool
  | [] => cr
  | b :: rest => XTextCarry (b == CR) rest

/-- A payload without its trailing 0x1A bytes. -/
def XTrimmed (P : List Nat) : List Nat := P.rdropWhile (fun b => b == 0x1A)

/-- Following the spec's words: what the translation of a stream `P` writes
for its byte at index `i`: a CR before an LF that is not immediately preceded
by CR, an LF behind a CR that is not immediately followed by LF, emitted when
the next byte arrives, and the byte itself. -/
def CrLfAt (P : List Nat) (i : Nat) : List Nat :=
  (if P.getD i 0 = LF ∧ ¬ (0 < i ∧ P.getD (i - 1) 0 = CR) then [CR] else []) ++
  (if (0 < i ∧ P.getD (i - 1) 0 = CR) ∧ P.getD i 0 ≠ LF then [LF] else []) ++ [P.getD i 0]

/-- Following the spec's words: the translation of the whole stream `P`. -/
def CrLfStream (P : List Nat) : List Nat := (List.range P.length).flatMap (CrLfAt P)

/-- The session `s` with `bytes` waiting in the transport. -/
def withInput (s : XSt) (bytes : List Nat) : XSt := { s with cv := { s.cv with InBuff := bytes } }

/-- A receiver in text mode configured with the variant `opt` that waits for a header. -/
def exTextWaiting (opt : Nat) : XSt :=
  { exWaiting opt with xv := { (exWaiting opt).xv with TextFlag := 1 } }

/-! ## File names (`ttlib_static_dirs.cpp`) -/

/-- The `while` loop of `GetFileNamePosW` (lines 104-119) over the characters
from `Ptr` on; `Ptr`, `DirPtr` and `FNPtr` are indices into `PathName`. The
result is `none` when the function returns FALSE on a colon, otherwise
`DirPtr` and `FNPtr` when the end of the string is reached. -/
def GetFileNamePosWLoop : List Nat → Nat → Nat → Nat → Option (Nat × Nat)
  | [], _, DirPtr, FNPtr => some (DirPtr, FNPtr)
  | b :: rest, Ptr, DirPtr, FNPtr =>
    if b = 0x3A then none
    else if b = 0x2F ∨ b = 0x5C then GetFileNamePosWLoop rest (Ptr + 1) Ptr (Ptr + 1)
    else GetFileNamePosWLoop rest (Ptr + 1) DirPtr FNPtr

/-- The index behind the drive and root prefix (lines 96-101): behind `X:`
when the second character is a colon, and behind one separator that follows. -/
def GetFileNamePosWStart (p : List Nat) : Nat :=
  let Ptr := if p.length ≥ 2 ∧ p.getD 1 0 = 0x3A then 2 else 0
  if p.getD Ptr 0 = 0x5C ∨ p.getD Ptr 0 = 0x2F then Ptr + 1 else Ptr

/-- `GetFileNamePosW` (lines 84-123) with both out pointers given: the return
value, `*DirLen` and `*FNPos`. `PathName` is `none` for NULL, otherwise the
characters before the terminating NUL. -/
def GetFileNamePosW (PathName : Option (List Nat)) : Bool × Nat × Nat :=
  match PathName with
  | none => (false, 0, 0)
  | some p =>
    match GetFileNamePosWLoop (p.drop (GetFileNamePosWStart p)) (GetFileNamePosWStart p)
        (GetFileNamePosWStart p) (GetFileNamePosWStart p) with
    | none => (false, 0, 0)
    | some (d, f) => (true, d, f)

/-- The state of the loop of `GetFileNamePosW` after the characters `pre`,
`k0` being the index behind the prefix: the file name starts at `F`, no
separator follows, and `D` is `F` or the index of the separator before `F`,
the latter as soon as a separator has been met behind the prefix. -/
def FileNamePosInv (pre : List Nat) (D F k0 : Nat) : Prop :=
  D ≤ F ∧ F ≤ pre.length ∧ k0 ≤ pre.length ∧
  (∀ c ∈ pre.drop F, c ≠ 0x2F ∧ c ≠ 0x5C) ∧
  (D = F ∨ (D + 1 = F ∧ (pre.getD D 0 = 0x2F ∨ pre.getD D 0 = 0x5C))) ∧
  ((∃ c ∈ pre.drop k0, c = 0x2F ∨ c = 0x5C) → D + 1 = F) ∧
  ((¬ ∃ c ∈ pre.drop k0, c = 0x2F ∨ c = 0x5C) → D = k0 ∧ F = k0)

/-- The extended block index `PktNum + PktNumOffset`. -/
def XIndex (s : XSt) : Int := (s.xv.PktNum : Int) + s.xv.PktNumOffset

/-- The block byte and the stored block byte of the packet buffer have the range of a `BYTE`. -/
def ByteTyped (s : XSt) : Prop := s.xv.PktNum < 256 ∧ s.xv.PktIn 1 < 256

/-- The receiver `r` after the packets with the payloads `Ps` have arrived
one per call of `XParse`, the first of them carrying the block number `i + 1`
in its block byte, the next `i + 2`, and so on, each mod 256. -/
def recvBlocks : XSt → Nat → List (List Nat) → XSt
  | r, _, [] => r
  | r, i, P :: Ps =>
    recvBlocks (XParse (withInput r (XPacket r.xv.DataLen r.xv.CheckLen ((i + 1) % 256) P))).2
      (i + 1) Ps

/-- The sender `t` after `k` calls of `XParse`, each finding the one byte
that makes it go on: the receiver's opening request before the first call,
ACK before every later one. -/
def sendBlocks : Nat → XSt → XSt
  | 0, t => t
  | k + 1, t =>
    (XParse (withInput (sendBlocks k t)
      [if k = 0 then ReqByte (sendBlocks k t).xv.XOpt else ACK])).2

/-- What a pass of the response loop of the sender does to the block
counters and the variant: nothing, or a change of variant before the first
ACK, or the advance of `PktNum` to `PktNumSent` on an ACK. -/
structure SendCounters (s s' : XSt) : Prop where
  hSent : s'.xv.PktNumSent = s.xv.PktNumSent
  hNum : (s'.xv.PktNum = s.xv.PktNum ∧ s'.xv.PktNumOffset = s.xv.PktNumOffset) ∨
    (s.fv.FileOpen = true ∧ s.xv.PktNumSent = BYTE (s.xv.PktNum + 1) ∧
      s'.xv.PktNum = s.xv.PktNumSent ∧
      s'.xv.PktNumOffset =
        (if s.xv.PktNumSent = 0 then s.xv.PktNumOffset + 256 else s.xv.PktNumOffset))
  hVar : ValidVariant s.xv → ValidVariant s'.xv

/-- The block counters of a sender between two calls: a packet has been
staged and `PktNumSent` is one ahead of `PktNum`, or nothing has been staged
or written since the session `T0`. -/
def SentInv (T0 t : XSt) : Prop :=
  t.xv.PktNumSent = (t.xv.PktNum + 1) % 256 ∨
  (t.xv.PktNumSent = t.xv.PktNum ∧ t.xv.PktNumSent = 0 ∧ t.xv.PktBufCount = 0 ∧
    t.xv.PktOut = T0.xv.PktOut ∧ t.cv.OutBuff = T0.cv.OutBuff)

/-- The session `t'` is the session `t`, which has `n` bytes staged from the
start of `PktOut`, after the first `j` of them and nothing else have been
handed to the transport: cursor and count have moved by `j`, and nothing
else in the protocol or file state has changed. -/
def SentSoFar (t t' : XSt) (n j : Nat) : Prop :=
  t'.xv = { t.xv with PktBufPtr := (j : Int), PktBufCount := ((n - j : Nat) : Int) } ∧
  t'.fv = t.fv ∧
  t'.cv.OutBuff = t.cv.OutBuff ++ PktBytes t.xv.PktOut j

/-- The events of a run are arrivals of input and calls of `XParse` only. -/
def InputOrParse : List XEvent → Prop
  | [] => True
  | XEvent.input _ :: es => InputOrParse es
  | XEvent.parse :: es => InputOrParse es
  | _ :: _ => False

/-- The cursor of the receive buffer: the variant is one of the four, and
while payload and check bytes are read the cursor `PktBufPtr` and the count
`PktBufCount` of bytes still to come add up to the packet length, with at
least one byte to come. -/
def RecvBuf (s : XSt) : Prop :=
  ValidVariant s.xv ∧
  (s.xv.PktReadMode = XpktDATA →
    3 ≤ s.xv.PktBufPtr ∧ 1 ≤ s.xv.PktBufCount ∧
    s.xv.PktBufPtr + s.xv.PktBufCount = 3 + (s.xv.DataLen : Int) + (s.xv.CheckLen : Int))

/-- The step from `s` to `s'` keeps the cursor invariant of the receive
buffer and stores nothing at index 1029 or beyond. -/
def RecvBufStep (s s' : XSt) : Prop :=
  RecvBuf s → RecvBuf s' ∧ ∀ j, 1029 ≤ j → s'.xv.PktIn j = s.xv.PktIn j

/-- The step from `s` to `s'` keeps the variant of the sender one of the four
and stores nothing in `PktOut` at index 1029 or beyond. -/
def SendBufStep (s s' : XSt) : Prop :=
  ValidVariant s.xv → ValidVariant s'.xv ∧ ∀ j, 1029 ≤ j → s'.xv.PktOut j = s.xv.PktOut j
set_option maxRecDepth 8000

/-! ## Receiving: frame lemmas -/

theorem RecvFrame.refl (s : XSt) : RecvFrame s s := by
  constructor <;> rfl

theorem RecvFrame.trans {a b c : XSt} (h1 : RecvFrame a b) (h2 : RecvFrame b c) : RecvFrame a c := by
  cases h1; cases h2
  constructor <;> simp_all

theorem XSendNAK_InBuff (s : XSt) : (XSendNAK s).cv.InBuff = [] := by
  unfold XSendNAK XSendNAKByte XCancel XSetOpt FTSetTimeOut XWrite CommBinaryOut
  simp only []
  split_ifs <;> simp

theorem XRead1Byte_nil (s : XSt) (h : s.cv.InBuff = []) : XRead1Byte s = none := by
  simp [XRead1Byte, CommRead1Byte, h]

theorem XRead1Byte_cons (s : XSt) (b : Nat) (rest : List Nat) (h : s.cv.InBuff = b :: rest) :
    XRead1Byte s = some (BYTE b, popIn s) := by
  simp [XRead1Byte, CommRead1Byte, h, popIn]

theorem popIn_nil (s : XSt) (h : s.cv.InBuff = []) : popIn s = s := by
  obtain ⟨fv, xv, cv⟩ := s
  obtain ⟨i, o, r, p⟩ := cv
  simp only at h
  subst h
  rfl

theorem popIn_frame (s : XSt) : RecvFrame s (popIn s) := by
  constructor <;> rfl

theorem XReadPacketLoop_nil (fuel : Nat) (s : XSt) (h : s.cv.InBuff = []) :
    XReadPacketLoop fuel s = (s, false, none) := by
  cases fuel with
  | zero => rfl
  | succ n => simp [XReadPacketLoop, XRead1Byte_nil s h]

theorem XReadPacketLoop_ret (fuel : Nat) (s : XSt) (b : Nat) (rest : List Nat) (ret : Bool)
    (h : s.cv.InBuff = b :: rest) (hr : (XReadPacketBody (popIn s) (BYTE b)).2.2 = some ret) :
    XReadPacketLoop (fuel + 1) s = ((XReadPacketBody (popIn s) (BYTE b)).1, false, some ret) := by
  simp [XReadPacketLoop, XRead1Byte_cons s b rest h, hr]

theorem XReadPacketLoop_next (fuel : Nat) (s : XSt) (b : Nat) (rest : List Nat)
    (h : s.cv.InBuff = b :: rest) (hr : (XReadPacketBody (popIn s) (BYTE b)).2.2 = none)
    (hg : (XReadPacketBody (popIn s) (BYTE b)).2.1 = false) :
    XReadPacketLoop (fuel + 1) s = XReadPacketLoop fuel (XReadPacketBody (popIn s) (BYTE b)).1 := by
  simp [XReadPacketLoop, XRead1Byte_cons s b rest h, hr, hg]

theorem XReadPacketLoop_done (fuel : Nat) (s : XSt) (b : Nat) (rest : List Nat)
    (h : s.cv.InBuff = b :: rest) (hr : (XReadPacketBody (popIn s) (BYTE b)).2.2 = none)
    (hg : (XReadPacketBody (popIn s) (BYTE b)).2.1 = true) :
    XReadPacketLoop (fuel + 1) s = (popIn (XReadPacketBody (popIn s) (BYTE b)).1, true, none) := by
  simp only [XReadPacketLoop, XRead1Byte_cons s b rest h, hr, hg, if_true]
  cases hin : (XReadPacketBody (popIn s) (BYTE b)).1.cv.InBuff with
  | nil => rw [XRead1Byte_nil _ hin, popIn_nil _ hin]
  | cons b2 r2 => rw [XRead1Byte_cons _ b2 r2 hin]

theorem XSetOpt_frame (s : XSt) (o : Nat) : RecvFrame s (XSetOpt s o) := by
  constructor <;> first | rfl | (unfold XSetOpt; dsimp only; split_ifs <;> rfl)

theorem FTSetTimeOut_frame (s : XSt) (t : Int) : RecvFrame s (FTSetTimeOut s t) := by
  constructor <;> rfl

theorem XReadPacketSOH_frame (s : XSt) (b : Nat) (h : (XReadPacketSOH s b).2 = none) :
    RecvFrame s (XReadPacketSOH s b).1 := by
  unfold XReadPacketSOH at h ⊢
  dsimp only at h ⊢
  split_ifs at h ⊢ <;> first
    | (simp at h; done)
    | (constructor <;> rfl)

theorem XReadPacketBody_cases (s : XSt) (b : Nat) (h : (XReadPacketBody s b).2.2 = none) :
    RecvFrame s (XReadPacketBody s b).1 ∨
      ((XReadPacketBody s b).2.1 = false ∧ (XReadPacketBody s b).1.cv.InBuff = []) := by
  unfold XReadPacketBody at h ⊢
  dsimp only at h ⊢
  split_ifs at h ⊢ with h1 h2 h3 h4 h5 h6
  · left; exact XReadPacketSOH_frame s b h
  · left; constructor <;> rfl
  · left; constructor <;> rfl
  · right; exact ⟨rfl, XSendNAK_InBuff _⟩
  · left; constructor <;> rfl
  · left; constructor <;> rfl
  · left; exact RecvFrame.refl s

theorem XReadPacketLoop_got (fuel : Nat) : ∀ s : XSt, (XReadPacketLoop fuel s).2.1 = true →
    RecvFrame s (XReadPacketLoop fuel s).1 ∧ (XReadPacketLoop fuel s).2.2 = none := by
  induction fuel with
  | zero => intro s h; simp [XReadPacketLoop] at h
  | succ n ih =>
    intro s h
    cases hin : s.cv.InBuff with
    | nil => rw [XReadPacketLoop_nil _ _ hin] at h; simp at h
    | cons b rest =>
      cases hret : (XReadPacketBody (popIn s) (BYTE b)).2.2 with
      | some r => rw [XReadPacketLoop_ret n s b rest r hin hret] at h; simp at h
      | none =>
        rcases XReadPacketBody_cases (popIn s) (BYTE b) hret with hfr | ⟨hg, hnil⟩
        · cases hg : (XReadPacketBody (popIn s) (BYTE b)).2.1 with
          | true =>
            rw [XReadPacketLoop_done n s b rest hin hret hg]
            exact ⟨((popIn_frame s).trans hfr).trans (popIn_frame _), rfl⟩
          | false =>
            rw [XReadPacketLoop_next n s b rest hin hret hg] at h ⊢
            exact ⟨((popIn_frame s).trans hfr).trans (ih _ h).1, (ih _ h).2⟩
        · rw [XReadPacketLoop_next n s b rest hin hret hg, XReadPacketLoop_nil _ _ hnil] at h
          simp at h

theorem XCancel_frame (s : XSt) :
    (XCancel s).fv = s.fv ∧ (XCancel s).cv.InBuff = s.cv.InBuff ∧
    Wrote s.cv (XCancel s).cv [CAN, CAN, CAN, CAN, CAN, BS, BS, BS, BS, BS] ∧
    (XCancel s).xv = { s.xv with XMode := 0 } :=
  ⟨rfl, rfl, ⟨rfl, rfl⟩, rfl⟩

theorem XSendNAKByte_frame (s : XSt) :
    (XSendNAKByte s).fv.WriteData = s.fv.WriteData ∧ (XSendNAKByte s).fv.ByteCount = s.fv.ByteCount ∧
    (XSendNAKByte s).fv.Success = s.fv.Success ∧
    (XSendNAKByte s).xv.PktNum = s.xv.PktNum ∧ (XSendNAKByte s).xv.PktNumOffset = s.xv.PktNumOffset ∧
    (XSendNAKByte s).xv.CRRecv = s.xv.CRRecv ∧
    (XSendNAKByte s).xv.XMode = s.xv.XMode ∧
    Wrote s.cv (XSendNAKByte s).cv [if s.xv.NAKMode = XnakNAK then NAK else 0x43] :=
  ⟨rfl, rfl, rfl, rfl, rfl, rfl, rfl, rfl, rfl⟩

/-- What `XSendNAK` leaves alone, and what it writes: never an ACK. -/
theorem XSendNAK_frame (s : XSt) :
    (XSendNAK s).fv.WriteData = s.fv.WriteData ∧ (XSendNAK s).fv.ByteCount = s.fv.ByteCount ∧
    (XSendNAK s).fv.Success = s.fv.Success ∧
    (XSendNAK s).xv.PktNum = s.xv.PktNum ∧ (XSendNAK s).xv.PktNumOffset = s.xv.PktNumOffset ∧
    (XSendNAK s).xv.CRRecv = s.xv.CRRecv ∧
    ∃ B, Wrote s.cv (XSendNAK s).cv B ∧ ACK ∉ B := by
  unfold XSendNAK
  dsimp only
  split_ifs with h1 h2
  · exact ⟨rfl, rfl, rfl, rfl, rfl, rfl, [NAK], ⟨rfl, rfl⟩, by decide⟩
  · exact ⟨rfl, rfl, rfl, rfl, rfl, rfl, _, ⟨rfl, rfl⟩, by decide⟩
  · refine ⟨rfl, rfl, rfl, rfl, rfl, rfl, _, ⟨rfl, rfl⟩, ?_⟩
    split_ifs <;> decide

theorem XReadPacket_of_got (s : XSt)
    (hg : (XReadPacketLoop (s.cv.InBuff.length + 1) s).2.1 = true) :
    XReadPacket s = XReadPacketGot (XReadPacketLoop (s.cv.InBuff.length + 1) s).1 := by
  unfold XReadPacket
  simp only [(XReadPacketLoop_got _ s hg).2, hg, if_true]

theorem XReadPacketGot_predata (r : XSt)
    (h1 : r.xv.PktIn 1 = 0 ∧ r.xv.PktNum = 0 ∧ r.xv.PktNumOffset = 0) :
    XReadPacketGot r = (true, XSendNAK
      { r with xv := { r.xv with NAKCount := if r.xv.NAKMode = XnakNAK then 10 else 3 } }) := by
  unfold XReadPacketGot
  rw [if_pos h1]

theorem XReadPacketGot_bad (r : XSt)
    (h1 : ¬ (r.xv.PktIn 1 = 0 ∧ r.xv.PktNum = 0 ∧ r.xv.PktNumOffset = 0))
    (hc : XCheckPacket r.xv = false) :
    XReadPacketGot r = (true, XSendNAK r) := by
  unfold XReadPacketGot
  rw [if_neg h1, if_pos hc]

theorem XReadPacketGot_gap (r : XSt)
    (h1 : ¬ (r.xv.PktIn 1 = 0 ∧ r.xv.PktNum = 0 ∧ r.xv.PktNumOffset = 0))
    (hc : XCheckPacket r.xv = true)
    (hd : ((r.xv.PktIn 1 : Int) - (r.xv.PktNum : Int)) % 256 > 1) :
    XReadPacketGot r = (false, XCancel r) := by
  unfold XReadPacketGot
  rw [if_neg h1, if_neg (by simp [hc])]
  dsimp only
  rw [if_pos hd]

theorem XReadPacketGot_dup (r : XSt)
    (h1 : ¬ (r.xv.PktIn 1 = 0 ∧ r.xv.PktNum = 0 ∧ r.xv.PktNumOffset = 0))
    (hc : XCheckPacket r.xv = true)
    (hd : ((r.xv.PktIn 1 : Int) - (r.xv.PktNum : Int)) % 256 = 0) :
    XReadPacketGot r = (true,
      { (XWrite r [ACK]).1 with xv := { r.xv with NAKMode := XnakNAK, NAKCount := 10 } }) := by
  unfold XReadPacketGot
  rw [if_neg h1, if_neg (by simp [hc])]
  dsimp only
  rw [if_neg (by omega), if_pos hd]
  rfl

theorem XReadPacketGot_new (r : XSt)
    (h1 : ¬ (r.xv.PktIn 1 = 0 ∧ r.xv.PktNum = 0 ∧ r.xv.PktNumOffset = 0))
    (hc : XCheckPacket r.xv = true)
    (hd : ((r.xv.PktIn 1 : Int) - (r.xv.PktNum : Int)) % 256 = 1) :
    XReadPacketGot r = (true, XReadPacketStore
      { (XWrite r [ACK]).1 with xv := { r.xv with NAKMode := XnakNAK, NAKCount := 10 } }) := by
  unfold XReadPacketGot
  rw [if_neg h1, if_neg (by simp [hc])]
  dsimp only
  rw [if_neg (by omega), if_neg (by omega)]
  rfl

theorem Wrote_of_frame {s r : XSt} {cv : TComVar} {B : List Nat} (hf : RecvFrame s r)
    (h : Wrote r.cv cv B) : Wrote s.cv cv B := by
  obtain ⟨b1, b2⟩ := h
  constructor
  · rw [b1]; unfold CommBinaryOut CommRoom; dsimp only; rw [hf.hRoom, hf.hOut]
  · rw [b2]; unfold CommBinaryOut; dsimp only; rw [hf.hRoom]

/-- C1. Whenever the receive loop has assembled a packet and `XCheckPacket`
finds its trailer different from the check computed over its payload under the
current variant, `XReadPacket` writes nothing to the file, the bytes it hands
to the transport contain no ACK, and `PktNum`, `PktNumOffset` and `ByteCount`
are unchanged. -/
theorem XReadPacket_check_mismatch (s : XSt)
    (hg : (XReadPacketLoop (s.cv.InBuff.length + 1) s).2.1 = true)
    (hc : XCheckPacket (XReadPacketLoop (s.cv.InBuff.length + 1) s).1.xv = false) :
    (XReadPacket s).2.fv.WriteData = s.fv.WriteData ∧
    (∃ B, Wrote s.cv (XReadPacket s).2.cv B ∧ ACK ∉ B) ∧
    (XReadPacket s).2.xv.PktNum = s.xv.PktNum ∧
    (XReadPacket s).2.xv.PktNumOffset = s.xv.PktNumOffset ∧
    (XReadPacket s).2.fv.ByteCount = s.fv.ByteCount := by
  have hf := (XReadPacketLoop_got _ s hg).1
  rw [XReadPacket_of_got s hg]
  generalize (XReadPacketLoop (s.cv.InBuff.length + 1) s).1 = r at hc hf
  by_cases h1 : r.xv.PktIn 1 = 0 ∧ r.xv.PktNum = 0 ∧ r.xv.PktNumOffset = 0
  · rw [XReadPacketGot_predata r h1]
    obtain ⟨a1, a2, -, a4, a5, -, B, hB, b3⟩ := XSendNAK_frame
      { r with xv := { r.xv with NAKCount := if r.xv.NAKMode = XnakNAK then 10 else 3 } }
    exact ⟨a1.trans hf.hWrite, ⟨B, Wrote_of_frame hf hB, b3⟩, a4.trans hf.hNum, a5.trans hf.hOff,
      a2.trans hf.hCount⟩
  · rw [XReadPacketGot_bad r h1 hc]
    obtain ⟨a1, a2, -, a4, a5, -, B, hB, b3⟩ := XSendNAK_frame r
    exact ⟨a1.trans hf.hWrite, ⟨B, Wrote_of_frame hf hB, b3⟩, a4.trans hf.hNum, a5.trans hf.hOff,
      a2.trans hf.hCount⟩

theorem XReadPacketStore_binary (r : XSt) (ht : r.xv.TextFlag = 0) :
    (XReadPacketStore r).fv.WriteData =
      r.fv.WriteData ++ (List.range r.xv.DataLen).map (fun i => r.xv.PktIn (3 + i)) ∧
    (XReadPacketStore r).xv.PktNum = r.xv.PktIn 1 ∧
    (XReadPacketStore r).xv.PktNumOffset =
      (if r.xv.PktIn 1 = 0 then r.xv.PktNumOffset + 256 else r.xv.PktNumOffset) ∧
    (XReadPacketStore r).fv.ByteCount = r.fv.ByteCount + r.xv.DataLen ∧
    (XReadPacketStore r).xv.NAKCount = r.xv.NAKCount ∧
    (XReadPacketStore r).xv.NAKMode = r.xv.NAKMode ∧
    (XReadPacketStore r).cv = r.cv := by
  unfold XReadPacketStore
  dsimp only
  by_cases h0 : r.xv.PktIn 1 = 0
  · simp only [h0, if_true]
    split_ifs with h2
    · simp only [ht] at h2; omega
    · exact ⟨rfl, rfl, rfl, rfl, rfl, rfl, rfl⟩
  · simp only [h0, if_false]
    split_ifs with h2
    · simp only [ht] at h2; omega
    · exact ⟨rfl, rfl, rfl, rfl, rfl, rfl, rfl⟩

theorem XReadPacket_accept_new (s : XSt)
    (hg : (XReadPacketLoop (s.cv.InBuff.length + 1) s).2.1 = true)
    (hc : XCheckPacket (XReadPacketLoop (s.cv.InBuff.length + 1) s).1.xv = true)
    (hb : (XReadPacketLoop (s.cv.InBuff.length + 1) s).1.xv.PktIn 1 = (s.xv.PktNum + 1) % 256)
    (ht : s.xv.TextFlag = 0) :
    (XReadPacket s).1 = true ∧
    Wrote s.cv (XReadPacket s).2.cv [ACK] ∧
    (XReadPacket s).2.fv.WriteData = s.fv.WriteData ++
      (List.range (XReadPacketLoop (s.cv.InBuff.length + 1) s).1.xv.DataLen).map
        (fun i => (XReadPacketLoop (s.cv.InBuff.length + 1) s).1.xv.PktIn (3 + i)) ∧
    (XReadPacket s).2.xv.PktNum = (s.xv.PktNum + 1) % 256 ∧
    (XReadPacket s).2.xv.PktNumOffset =
      (if (s.xv.PktNum + 1) % 256 = 0 then s.xv.PktNumOffset + 256 else s.xv.PktNumOffset) ∧
    (XReadPacket s).2.fv.ByteCount =
      s.fv.ByteCount + (XReadPacketLoop (s.cv.InBuff.length + 1) s).1.xv.DataLen ∧
    (XReadPacket s).2.xv.NAKCount = 10 ∧
    (XReadPacket s).2.xv.NAKMode = XnakNAK := by
  have hf := (XReadPacketLoop_got _ s hg).1
  rw [XReadPacket_of_got s hg]
  generalize (XReadPacketLoop (s.cv.InBuff.length + 1) s).1 = r at hc hf hb
  have hn := hf.hNum
  have h1 : ¬ (r.xv.PktIn 1 = 0 ∧ r.xv.PktNum = 0 ∧ r.xv.PktNumOffset = 0) := by
    rintro ⟨a, b, -⟩
    rw [hb, ← hn, b] at a
    simp at a
  have hd : ((r.xv.PktIn 1 : Int) - (r.xv.PktNum : Int)) % 256 = 1 := by
    rw [hb, hn]; omega
  rw [XReadPacketGot_new r h1 hc hd]
  obtain ⟨a1, a2, a3, a4, a5, a6, a7⟩ := XReadPacketStore_binary
    { (XWrite r [ACK]).1 with xv := { r.xv with NAKMode := XnakNAK, NAKCount := 10 } }
    (ht ▸ hf.hText)
  refine ⟨rfl, Wrote_of_frame hf ⟨by rw [a7]; rfl, by rw [a7]; rfl⟩, ?_, ?_, ?_, ?_, a5, a6⟩
  · rw [a1]; exact congrArg (· ++ _) hf.hWrite
  · rw [a2]; exact hb
  · rw [a3]; show (if r.xv.PktIn 1 = 0 then _ else _) = _; rw [hb, hf.hOff]
  · rw [a4]; exact congrArg (· + _) hf.hCount

theorem XReadPacket_accept_dup (s : XSt)
    (hg : (XReadPacketLoop (s.cv.InBuff.length + 1) s).2.1 = true)
    (hc : XCheckPacket (XReadPacketLoop (s.cv.InBuff.length + 1) s).1.xv = true)
    (hb : (XReadPacketLoop (s.cv.InBuff.length + 1) s).1.xv.PktIn 1 = s.xv.PktNum)
    (hpos : (s.xv.PktNum : Int) + s.xv.PktNumOffset > 0) :
    (XReadPacket s).1 = true ∧
    Wrote s.cv (XReadPacket s).2.cv [ACK] ∧
    (XReadPacket s).2.fv.WriteData = s.fv.WriteData ∧
    (XReadPacket s).2.xv.PktNum = s.xv.PktNum ∧
    (XReadPacket s).2.xv.PktNumOffset = s.xv.PktNumOffset ∧
    (XReadPacket s).2.fv.ByteCount = s.fv.ByteCount ∧
    (XReadPacket s).2.xv.CRRecv = s.xv.CRRecv := by
  have hf := (XReadPacketLoop_got _ s hg).1
  rw [XReadPacket_of_got s hg]
  generalize (XReadPacketLoop (s.cv.InBuff.length + 1) s).1 = r at hc hf hb
  have hn := hf.hNum
  have ho := hf.hOff
  have h1 : ¬ (r.xv.PktIn 1 = 0 ∧ r.xv.PktNum = 0 ∧ r.xv.PktNumOffset = 0) := by
    rintro ⟨-, b, c⟩
    rw [hn] at b; rw [ho] at c
    omega
  have hd : ((r.xv.PktIn 1 : Int) - (r.xv.PktNum : Int)) % 256 = 0 := by
    rw [hb, hn]; omega
  rw [XReadPacketGot_dup r h1 hc hd]
  exact ⟨rfl, Wrote_of_frame hf ⟨rfl, rfl⟩, hf.hWrite, hf.hNum, hf.hOff, hf.hCount, hf.hCR⟩

/-- C2. In binary mode, for an assembled packet that passes `XCheckPacket`
and whose block byte is `(PktNum + 1) mod 256` (never the block-0 case before
data), `XReadPacket` returns TRUE, hands exactly the one byte ACK to the
transport, appends exactly the `DataLen` payload bytes to the file, sets
`PktNum` to the block byte, adds 256 to `PktNumOffset` exactly when that byte
is 0, adds `DataLen` to `ByteCount`, and sets `NAKCount` to 10 and `NAKMode`
to NAK. -/
theorem XReadPacket_new_packet (s : XSt)
    (hg : (XReadPacketLoop (s.cv.InBuff.length + 1) s).2.1 = true)
    (hc : XCheckPacket (XReadPacketLoop (s.cv.InBuff.length + 1) s).1.xv = true)
    (hb : (XReadPacketLoop (s.cv.InBuff.length + 1) s).1.xv.PktIn 1 = (s.xv.PktNum + 1) % 256)
    (ht : s.xv.TextFlag = 0) :
    (XReadPacket s).1 = true ∧
    Wrote s.cv (XReadPacket s).2.cv [ACK] ∧
    (XReadPacket s).2.fv.WriteData = s.fv.WriteData ++
      (List.range (XReadPacketLoop (s.cv.InBuff.length + 1) s).1.xv.DataLen).map
        (fun i => (XReadPacketLoop (s.cv.InBuff.length + 1) s).1.xv.PktIn (3 + i)) ∧
    (XReadPacket s).2.xv.PktNum = (s.xv.PktNum + 1) % 256 ∧
    (XReadPacket s).2.xv.PktNumOffset =
      (if (s.xv.PktNum + 1) % 256 = 0 then s.xv.PktNumOffset + 256 else s.xv.PktNumOffset) ∧
    (XReadPacket s).2.fv.ByteCount =
      s.fv.ByteCount + (XReadPacketLoop (s.cv.InBuff.length + 1) s).1.xv.DataLen ∧
    (XReadPacket s).2.xv.NAKCount = 10 ∧
    (XReadPacket s).2.xv.NAKMode = XnakNAK :=
  XReadPacket_accept_new s hg hc hb ht

/-- C3. For a receiver that has accepted a packet before
(`PktNum + PktNumOffset > 0`) and an assembled packet that passes
`XCheckPacket` and repeats the block byte `PktNum`, `XReadPacket` returns
TRUE, hands exactly the one byte ACK to the transport, writes nothing to the
file and leaves `PktNum`, `PktNumOffset`, `ByteCount` and `CRRecv` unchanged;
hence a block received twice in a row, from any state `s0`, leaves a single
copy of its payload in the file. -/
theorem XReadPacket_duplicate (s : XSt)
    (hg : (XReadPacketLoop (s.cv.InBuff.length + 1) s).2.1 = true)
    (hc : XCheckPacket (XReadPacketLoop (s.cv.InBuff.length + 1) s).1.xv = true)
    (hb : (XReadPacketLoop (s.cv.InBuff.length + 1) s).1.xv.PktIn 1 = s.xv.PktNum)
    (hpos : (s.xv.PktNum : Int) + s.xv.PktNumOffset > 0) :
    ((XReadPacket s).1 = true ∧
     Wrote s.cv (XReadPacket s).2.cv [ACK] ∧
     (XReadPacket s).2.fv.WriteData = s.fv.WriteData ∧
     (XReadPacket s).2.xv.PktNum = s.xv.PktNum ∧
     (XReadPacket s).2.xv.PktNumOffset = s.xv.PktNumOffset ∧
     (XReadPacket s).2.fv.ByteCount = s.fv.ByteCount ∧
     (XReadPacket s).2.xv.CRRecv = s.xv.CRRecv) ∧
    (∀ s0 : XSt,
      (XReadPacketLoop (s0.cv.InBuff.length + 1) s0).2.1 = true →
      XCheckPacket (XReadPacketLoop (s0.cv.InBuff.length + 1) s0).1.xv = true →
      (XReadPacketLoop (s0.cv.InBuff.length + 1) s0).1.xv.PktIn 1 = (s0.xv.PktNum + 1) % 256 →
      s0.xv.TextFlag = 0 → 0 ≤ s0.xv.PktNumOffset →
      s = { (XReadPacket s0).2 with cv := { (XReadPacket s0).2.cv with InBuff := s.cv.InBuff } } →
      (XReadPacket s).2.fv.WriteData = s0.fv.WriteData ++
        (List.range (XReadPacketLoop (s0.cv.InBuff.length + 1) s0).1.xv.DataLen).map
          (fun i => (XReadPacketLoop (s0.cv.InBuff.length + 1) s0).1.xv.PktIn (3 + i))) := by
  have hA := XReadPacket_accept_dup s hg hc hb hpos
  refine ⟨hA, ?_⟩
  intro s0 hg0 hc0 hb0 ht0 _ hs
  rw [hA.2.2.1]
  have h0 := (XReadPacket_accept_new s0 hg0 hc0 hb0 ht0).2.2.1
  rw [← h0, hs]

/-- C4. For an assembled packet that passes `XCheckPacket` and whose block
byte differs from `PktNum` by neither 0 nor 1 modulo 256 (a gap, or the block
before the last one), `XParse` returns FALSE: exactly CAN five times and BS
five times are handed to the transport (so no ACK), nothing is written to the
file and `XMode` becomes 0. -/
theorem XReadPacket_gap_cancels (s : XSt)
    (hm : s.xv.XMode = IdXReceive)
    (hg : (XReadPacketLoop (s.cv.InBuff.length + 1) s).2.1 = true)
    (hc : XCheckPacket (XReadPacketLoop (s.cv.InBuff.length + 1) s).1.xv = true)
    (hd0 : (((XReadPacketLoop (s.cv.InBuff.length + 1) s).1.xv.PktIn 1 : Int) - s.xv.PktNum) % 256 ≠ 0)
    (hd1 : (((XReadPacketLoop (s.cv.InBuff.length + 1) s).1.xv.PktIn 1 : Int) - s.xv.PktNum) % 256 ≠ 1) :
    (XParse s).1 = false ∧
    Wrote s.cv (XParse s).2.cv [CAN, CAN, CAN, CAN, CAN, BS, BS, BS, BS, BS] ∧
    (XParse s).2.fv.WriteData = s.fv.WriteData ∧
    (XParse s).2.xv.XMode = 0 := by
  have hf := (XReadPacketLoop_got _ s hg).1
  have hp : XParse s = XReadPacket s := by unfold XParse; rw [if_pos hm]
  rw [hp, XReadPacket_of_got s hg]
  generalize (XReadPacketLoop (s.cv.InBuff.length + 1) s).1 = r at hc hf hd0 hd1
  have hn := hf.hNum
  have h1 : ¬ (r.xv.PktIn 1 = 0 ∧ r.xv.PktNum = 0 ∧ r.xv.PktNumOffset = 0) := by
    rintro ⟨a, b, -⟩
    rw [hn] at b
    rw [a, b] at hd0
    simp at hd0
  have hd : ((r.xv.PktIn 1 : Int) - (r.xv.PktNum : Int)) % 256 > 1 := by
    rw [hn]; omega
  rw [XReadPacketGot_gap r h1 hc hd]
  exact ⟨rfl, Wrote_of_frame hf ⟨rfl, rfl⟩, hf.hWrite, rfl⟩


/-! ## The check computer -/

theorem and_255 (x : Nat) : x &&& 0xff = x % 256 :=
  Nat.and_pow_two_sub_one_eq_mod x 8

theorem LOBYTE_lt (w : Nat) : LOBYTE w < 256 := by
  unfold LOBYTE; rw [and_255]; omega

theorem HIBYTE_lt (w : Nat) : HIBYTE w < 256 := by
  unfold HIBYTE; rw [and_255]; omega

theorem BYTE_lt (n : Nat) : BYTE n < 256 := by
  unfold BYTE; omega

theorem BYTE_of_lt {n : Nat} (h : n < 256) : BYTE n = n := by
  unfold BYTE; omega

/-- The checksum accumulation, whatever the 16-bit wrap, is the sum mod 256. -/
theorem checksum_fold (f : Nat → Nat) (l : List Nat) : ∀ acc : Nat,
    (l.foldl (fun Check i => WORD (Check + BYTE (f (3 + i)))) acc) % 256 =
      (acc + (l.map (fun i => f (3 + i) % 256)).sum) % 256 := by
  induction l with
  | nil => intro acc; simp
  | cons a l ih =>
    intro acc
    rw [List.foldl_cons, ih, List.map_cons, List.sum_cons]
    unfold WORD BYTE
    omega

theorem XCalcCheck_checksum (xv : TXVar) (buf : Nat → Nat) (h : xv.CheckLen = 1) :
    XCalcCheck xv buf = ((List.range xv.DataLen).map (fun i => buf (3 + i) % 256)).sum % 256 := by
  unfold XCalcCheck
  rw [if_pos h, and_255, checksum_fold, Nat.zero_add]

/-- C10. Under a one-byte check (`CheckLen = 1`) and for any payload
length, `XCalcCheck` is the sum of the `DataLen` payload bytes
`buf[3 .. 3 + DataLen)`, each taken as a value 0..255, reduced modulo 256,
whatever the 16-bit accumulator wrapped to on the way; it is below 256, and
`XCheckPacket` accepts exactly when the one trailer byte equals it. -/
theorem XCalcCheck_is_byte_sum (xv : TXVar) (buf : Nat → Nat) (h : xv.CheckLen = 1) :
    XCalcCheck xv buf = ((List.range xv.DataLen).map (fun i => buf (3 + i) % 256)).sum % 256 ∧
    XCalcCheck xv buf < 256 ∧
    (XCheckPacket xv = true ↔
      xv.PktIn (xv.DataLen + 3) =
        ((List.range xv.DataLen).map (fun i => xv.PktIn (3 + i) % 256)).sum % 256) := by
  have e := XCalcCheck_checksum xv buf h
  refine ⟨e, by rw [e]; omega, ?_⟩
  unfold XCheckPacket
  dsimp only
  rw [if_pos h, XCalcCheck_checksum xv xv.PktIn h, BYTE_of_lt (by omega)]
  simp only [beq_iff_eq]
  exact eq_comm


/-! ## Sending: composition of a packet -/

theorem blit_nil (buf : Nat → Nat) (off : Nat) : blit buf off [] = buf := by
  funext j; unfold blit; simp

theorem blit_update (buf : Nat → Nat) (off b : Nat) (l : List Nat) :
    blit (Function.update buf off b) (off + 1) l = blit buf off (b :: l) := by
  funext j
  unfold blit
  by_cases h1 : j = off
  · subst h1; simp
  · by_cases h2 : off + 1 ≤ j ∧ j < off + 1 + l.length
    · have h3 : off ≤ j ∧ j < off + (b :: l).length := by simp; omega
      rw [if_pos h2, if_pos h3]
      obtain ⟨k, rfl⟩ : ∃ k, j = off + 1 + k := ⟨j - (off + 1), by omega⟩
      have e1 : off + 1 + k - (off + 1) = k := by omega
      have e2 : off + 1 + k - off = k + 1 := by omega
      rw [e1, e2]; rfl
    · have h3 : ¬ (off ≤ j ∧ j < off + (b :: l).length) := by simp at h2 ⊢; omega
      rw [if_neg h2, if_neg h3, Function.update_noteq h1]

theorem blit_append (buf : Nat → Nat) (off : Nat) (l1 l2 : List Nat) :
    blit (blit buf off l1) (off + l1.length) l2 = blit buf off (l1 ++ l2) := by
  funext j
  unfold blit
  by_cases h1 : off + l1.length ≤ j ∧ j < off + l1.length + l2.length
  · have h3 : off ≤ j ∧ j < off + (l1 ++ l2).length := by simp; omega
    rw [if_pos h1, if_pos h3, List.getD_append_right _ _ _ _ (by omega)]
    congr 1; omega
  · rw [if_neg h1]
    by_cases h2 : off ≤ j ∧ j < off + l1.length
    · have h3 : off ≤ j ∧ j < off + (l1 ++ l2).length := by simp; omega
      rw [if_pos h2, if_pos h3, List.getD_append _ _ _ _ (by omega)]
    · have h3 : ¬ (off ≤ j ∧ j < off + (l1 ++ l2).length) := by simp at h1 h2 ⊢; omega
      rw [if_neg h2, if_neg h3]

theorem PktBytes_succ (buf : Nat → Nat) (n : Nat) : PktBytes buf (n + 1) = PktBytes buf n ++ [buf n] := by
  unfold PktBytes; rw [List.range_succ, List.map_append]; rfl

theorem PktBytes_length (buf : Nat → Nat) (n : Nat) : (PktBytes buf n).length = n := by
  simp [PktBytes]

theorem PktBytes_congr (b1 b2 : Nat → Nat) (n : Nat) (h : ∀ j, j < n → b1 j = b2 j) :
    PktBytes b1 n = PktBytes b2 n := by
  unfold PktBytes
  apply List.map_congr_left
  intro j hj
  exact h j (List.mem_range.mp hj)

theorem PktBytes_blit (buf : Nat → Nat) (off : Nat) (l : List Nat) :
    PktBytes (blit buf off l) (off + l.length) = PktBytes buf off ++ l := by
  induction l using List.reverseRecOn generalizing buf with
  | nil =>
    rw [blit_nil]; simp
  | append_singleton l a ih =>
    rw [← blit_append, List.length_append, List.length_singleton, ← Nat.add_assoc, PktBytes_succ]
    have e1 : PktBytes (blit (blit buf off l) (off + l.length) [a]) (off + l.length) =
        PktBytes (blit buf off l) (off + l.length) := by
      apply PktBytes_congr
      intro j hj
      unfold blit
      rw [if_neg (by omega)]
    have e2 : blit (blit buf off l) (off + l.length) [a] (off + l.length) = a := by
      unfold blit
      rw [if_pos (by simp)]
      simp
    rw [e1, e2, ih, List.append_assoc]

theorem ReadFile_nil (s : XSt) (h : s.fv.ReadData = []) : ReadFile s = none := by
  simp [ReadFile, h]

theorem ReadFile_cons (s : XSt) (b : Nat) (rest : List Nat) (h : s.fv.ReadData = b :: rest) :
    ReadFile s = some (BYTE b, { s with fv := { s.fv with ReadData := rest } }) := by
  simp [ReadFile, h]

theorem XSendPacketFill_eq (fuel : Nat) : ∀ (i : Nat) (s : XSt), s.fv.FileOpen = true →
    i + fuel = s.xv.DataLen + 1 →
    XSendPacketFill fuel i s = (i + min fuel s.fv.ReadData.length,
      { s with
        xv := { s.xv with
          PktOut := blit s.xv.PktOut (2 + i) ((s.fv.ReadData.take (min fuel s.fv.ReadData.length)).map BYTE) },
        fv := { s.fv with
          ReadData := s.fv.ReadData.drop (min fuel s.fv.ReadData.length),
          ByteCount := s.fv.ByteCount + (min fuel s.fv.ReadData.length : Nat) } }) := by
  induction fuel with
  | zero =>
    intro i s _ _
    simp [XSendPacketFill, blit_nil]
  | succ n ih =>
    intro i s ho hi
    unfold XSendPacketFill
    rw [if_pos ⟨by omega, ho⟩]
    obtain ⟨fv, xv, cv⟩ := s
    obtain ⟨fo, su, bc, rd, wd, tmo, fnm⟩ := fv
    cases rd with
    | nil =>
      rw [ReadFile_nil _ rfl]
      simp [blit_nil]
    | cons b rest =>
      rw [ReadFile_cons _ b rest rfl]
      dsimp only
      have key := ih (i + 1)
        ⟨{ FileOpen := fo, Success := su, ByteCount := bc + 1, ReadData := rest, WriteData := wd,
           TimeOut := tmo, FileName := fnm },
         { xv with PktOut := Function.update xv.PktOut (2 + i) (BYTE b) }, cv⟩ ho
        (by dsimp only at hi ⊢; omega)
      refine key.trans ?_
      dsimp only
      have e : min (n + 1) (rest.length + 1) = min n rest.length + 1 := by omega
      have e2 : 2 + (i + 1) = (2 + i) + 1 := by omega
      rw [List.length_cons, e, List.take_succ_cons, List.map_cons, List.drop_succ_cons, e2, blit_update]
      congr 1
      · omega
      · congr 2
        push_cast
        ring

theorem XSendPacketFill_closed (fuel i : Nat) (s : XSt) (h : s.fv.FileOpen = false) :
    XSendPacketFill fuel i s = (i, s) := by
  cases fuel with
  | zero => rfl
  | succ n => unfold XSendPacketFill; rw [if_neg (by simp [h])]

theorem XSendPacketPad_eq (fuel : Nat) : ∀ (i : Nat) (s : XSt), s.xv.DataLen + 1 ≤ i + fuel →
    i ≤ s.xv.DataLen + 1 →
    XSendPacketPad fuel i s = (s.xv.DataLen + 1,
      { s with xv := { s.xv with
        PktOut := blit s.xv.PktOut (2 + i) (List.replicate (s.xv.DataLen + 1 - i) 0x1A) } }) := by
  induction fuel with
  | zero =>
    intro i s hi hi2
    have e : s.xv.DataLen + 1 - i = 0 := by omega
    have e2 : i = s.xv.DataLen + 1 := by omega
    simp [XSendPacketPad, blit_nil, e, e2]
  | succ n ih =>
    intro i s hi hi2
    unfold XSendPacketPad
    by_cases hc : i ≤ s.xv.DataLen
    · rw [if_pos hc]
      have key := ih (i + 1)
        { s with xv := { s.xv with PktOut := Function.update s.xv.PktOut (2 + i) 0x1A } }
        (by dsimp only; omega) (by dsimp only; omega)
      refine key.trans ?_
      dsimp only
      have e2 : 2 + (i + 1) = (2 + i) + 1 := by omega
      have e3 : s.xv.DataLen + 1 - i = (s.xv.DataLen + 1 - (i + 1)) + 1 := by omega
      rw [e2, blit_update, e3, List.replicate_succ]
    · rw [if_neg hc]
      have e : s.xv.DataLen + 1 - i = 0 := by omega
      have e2 : i = s.xv.DataLen + 1 := by omega
      simp [blit_nil, e, e2]

theorem update_eq_blit (buf : Nat → Nat) (off b : Nat) :
    Function.update buf off b = blit buf off [b] := by
  rw [← blit_update, blit_nil]

theorem XCalcCheck_eq_CheckOf (xv : TXVar) (buf : Nat → Nat) :
    XCalcCheck xv buf = CheckOf xv.CheckLen ((List.range xv.DataLen).map (fun i => buf (3 + i))) := by
  unfold CheckOf
  by_cases h : xv.CheckLen = 1
  · rw [if_pos h, XCalcCheck_checksum xv buf h, List.map_map]
    rfl
  · unfold XCalcCheck
    rw [if_neg h, if_neg h, List.foldl_map]

theorem segment_blit (buf : Nat → Nat) (l1 l2 : List Nat) :
    (List.range l2.length).map (fun i => blit buf 0 (l1 ++ l2) (l1.length + i)) = l2 := by
  have h := PktBytes_blit buf 0 (l1 ++ l2)
  unfold PktBytes at h
  rw [Nat.zero_add, List.length_append, List.range_add, List.map_append, List.map_map] at h
  simp only [List.range_zero, List.map_nil, List.nil_append] at h
  have h1 : (List.map (blit buf 0 (l1 ++ l2)) (List.range l1.length)).length = l1.length := by simp
  exact (List.append_inj h h1).2

theorem header_blit (buf : Nat → Nat) (a b c : Nat) :
    Function.update (Function.update (Function.update buf 0 a) 1 b) 2 c = blit buf 0 [a, b, c] := by
  rw [← blit_update, ← blit_update, ← blit_update, blit_nil]

theorem XPayload_length (D : Nat) (data : List Nat) (h : data.length ≤ D) :
    (XPayload D data).length = D := by
  simp [XPayload]; omega

theorem XTrailer_length (C : Nat) (payload : List Nat) (h : C = 1 ∨ C = 2) :
    (XTrailer C payload).length = C := by
  unfold XTrailer
  rcases h with h | h <;> simp [h]

theorem XSendPacketHead_eq (s : XSt) :
    XSendPacketHead s = { s with xv := { s.xv with
      PktNumSent := BYTE (s.xv.PktNumSent + 1),
      PktOut := blit s.xv.PktOut 0 [if s.xv.DataLen = 128 then SOH else STX,
        BYTE (s.xv.PktNumSent + 1), 255 - BYTE (s.xv.PktNumSent + 1)] } } := by
  unfold XSendPacketHead
  dsimp only
  rw [header_blit]

theorem XSendPacketTrailer_eq (s : XSt) (pre : List Nat) (payload : List Nat) (buf : Nat → Nat)
    (hb : s.xv.PktOut = blit buf 0 (pre ++ payload)) (hpre : pre.length = 3)
    (hpay : payload.length = s.xv.DataLen) :
    XSendPacketTrailer s = { s with xv := { s.xv with
      PktOut := blit buf 0 (pre ++ payload ++ XTrailer s.xv.CheckLen payload),
      PktBufCount := 3 + (s.xv.DataLen : Int) + s.xv.CheckLen } } := by
  have hc : XCalcCheck s.xv s.xv.PktOut = CheckOf s.xv.CheckLen payload := by
    rw [XCalcCheck_eq_CheckOf, hb, ← hpay]
    congr 1
    have := segment_blit buf pre payload
    rw [hpre] at this
    exact this
  have hlen : (pre ++ payload).length = s.xv.DataLen + 3 := by
    rw [List.length_append, hpre, hpay]; omega
  unfold XSendPacketTrailer XTrailer
  dsimp only
  rw [hc]
  by_cases h1 : s.xv.CheckLen = 1
  · rw [if_pos h1, if_pos h1]
    dsimp only
    rw [update_eq_blit, hb]
    have := blit_append buf 0 (pre ++ payload) [BYTE (CheckOf s.xv.CheckLen payload)]
    rw [Nat.zero_add, hlen] at this
    rw [this, BYTE_of_lt]
    unfold CheckOf
    rw [if_pos h1]
    omega
  · rw [if_neg h1, if_neg h1]
    dsimp only
    have e : s.xv.DataLen + 4 = (s.xv.DataLen + 3) + 1 := by omega
    have h2 : Function.update (Function.update s.xv.PktOut (s.xv.DataLen + 3)
        (HIBYTE (CheckOf s.xv.CheckLen payload))) (s.xv.DataLen + 4) (LOBYTE (CheckOf s.xv.CheckLen payload))
        = blit s.xv.PktOut (s.xv.DataLen + 3)
          [HIBYTE (CheckOf s.xv.CheckLen payload), LOBYTE (CheckOf s.xv.CheckLen payload)] := by
      rw [e, ← blit_update, ← blit_update, blit_nil]
    rw [h2, hb]
    have := blit_append buf 0 (pre ++ payload)
      [HIBYTE (CheckOf s.xv.CheckLen payload), LOBYTE (CheckOf s.xv.CheckLen payload)]
    rw [Nat.zero_add, hlen] at this
    rw [this]

theorem XPacket_length (D C blk : Nat) (data : List Nat) (h : data.length ≤ D) (hC : C = 1 ∨ C = 2) :
    (XPacket D C blk data).length = 3 + D + C := by
  unfold XPacket
  rw [List.length_append, List.length_append, XTrailer_length C _ hC, XPayload_length D data h]
  rfl

/-- The new-packet branch when the file yields at least one byte: the exact session afterwards. -/
theorem XSendPacketNew_data (s : XSt) (ho : s.fv.FileOpen = true)
    (hm : 1 ≤ min s.xv.DataLen s.fv.ReadData.length) :
    XSendPacketNew s =
      { s with
        xv := { s.xv with
          PktNumSent := BYTE (s.xv.PktNumSent + 1),
          PktOut := blit s.xv.PktOut 0 (XPacket s.xv.DataLen s.xv.CheckLen (BYTE (s.xv.PktNumSent + 1))
            ((s.fv.ReadData.take (min s.xv.DataLen s.fv.ReadData.length)).map BYTE)),
          PktBufCount := 3 + (s.xv.DataLen : Int) + s.xv.CheckLen },
        fv := { s.fv with
          ReadData := s.fv.ReadData.drop (min s.xv.DataLen s.fv.ReadData.length),
          ByteCount := s.fv.ByteCount + (min s.xv.DataLen s.fv.ReadData.length : Nat) } } := by
  have hl : (List.map BYTE (List.take (min s.xv.DataLen s.fv.ReadData.length) s.fv.ReadData)).length
      = min s.xv.DataLen s.fv.ReadData.length := by
    rw [List.length_map, List.length_take]; omega
  have hfill := XSendPacketFill_eq (XSendPacketHead s).xv.DataLen 1 (XSendPacketHead s) ho
    (by show 1 + s.xv.DataLen = s.xv.DataLen + 1; omega)
  unfold XSendPacketNew
  dsimp only
  rw [hfill]
  dsimp only
  have hd : (XSendPacketHead s).xv.DataLen = s.xv.DataLen := rfl
  have hr : (XSendPacketHead s).fv.ReadData = s.fv.ReadData := rfl
  rw [hd, hr, if_pos (by omega)]
  have hpad := XSendPacketPad_eq s.xv.DataLen (1 + min s.xv.DataLen s.fv.ReadData.length)
    { XSendPacketHead s with
      xv := { (XSendPacketHead s).xv with
        PktOut := blit (XSendPacketHead s).xv.PktOut (2 + 1)
          (List.map BYTE (List.take (min s.xv.DataLen s.fv.ReadData.length) s.fv.ReadData)) },
      fv := { (XSendPacketHead s).fv with
        ReadData := List.drop (min s.xv.DataLen s.fv.ReadData.length) s.fv.ReadData,
        ByteCount := (XSendPacketHead s).fv.ByteCount + (min s.xv.DataLen s.fv.ReadData.length : Nat) } }
    (by show s.xv.DataLen + 1 ≤ _; omega) (by show _ ≤ s.xv.DataLen + 1; omega)
  dsimp only at hpad
  erw [hpad]
  dsimp only
  rw [XSendPacketHead_eq]
  dsimp only
  have e1 : 2 + 1 = 0 + [if s.xv.DataLen = 128 then SOH else STX,
        BYTE (s.xv.PktNumSent + 1), 255 - BYTE (s.xv.PktNumSent + 1)].length := rfl
  have e2 : 2 + (1 + min s.xv.DataLen s.fv.ReadData.length) =
      0 + ([if s.xv.DataLen = 128 then SOH else STX,
        BYTE (s.xv.PktNumSent + 1), 255 - BYTE (s.xv.PktNumSent + 1)] ++
        List.map BYTE (List.take (min s.xv.DataLen s.fv.ReadData.length) s.fv.ReadData)).length := by
    rw [List.length_append, hl]; simp; omega
  have e3 : s.xv.DataLen + 1 - (1 + min s.xv.DataLen s.fv.ReadData.length) =
      s.xv.DataLen -
        (List.map BYTE (List.take (min s.xv.DataLen s.fv.ReadData.length) s.fv.ReadData)).length := by
    rw [hl]; omega
  rw [e1, blit_append, e2, blit_append, e3, List.append_assoc]
  refine Eq.trans (XSendPacketTrailer_eq _ [if s.xv.DataLen = 128 then SOH else STX,
        BYTE (s.xv.PktNumSent + 1), 255 - BYTE (s.xv.PktNumSent + 1)]
      (XPayload s.xv.DataLen
        (List.map BYTE (List.take (min s.xv.DataLen s.fv.ReadData.length) s.fv.ReadData)))
      s.xv.PktOut ?_ ?_ ?_) ?_
  · rfl
  · rfl
  · exact XPayload_length _ _ (by rw [hl]; omega)
  · rfl

theorem XSendPacketNew_eot (s : XSt)
    (hm : s.fv.FileOpen = false ∨ min s.xv.DataLen s.fv.ReadData.length = 0) :
    (XSendPacketNew s).fv.FileOpen = false ∧
    (XSendPacketNew s).xv.PktBufCount = 1 ∧
    (XSendPacketNew s).xv.PktOut 0 = EOT ∧
    (XSendPacketNew s).xv.PktNumSent = BYTE (s.xv.PktNumSent + 1) ∧
    (XSendPacketNew s).fv.ReadData = s.fv.ReadData ∧
    (XSendPacketNew s).fv.ByteCount = s.fv.ByteCount ∧
    (XSendPacketNew s).fv.Success = s.fv.Success ∧
    (XSendPacketNew s).cv = s.cv ∧
    (XSendPacketNew s).xv.PktNum = s.xv.PktNum ∧
    (XSendPacketNew s).xv.PktNumOffset = s.xv.PktNumOffset ∧
    (XSendPacketNew s).xv.XMode = s.xv.XMode ∧
    (XSendPacketNew s).xv.XOpt = s.xv.XOpt ∧
    (XSendPacketNew s).xv.DataLen = s.xv.DataLen ∧
    (XSendPacketNew s).xv.CheckLen = s.xv.CheckLen := by
  have hfill : XSendPacketFill (XSendPacketHead s).xv.DataLen 1 (XSendPacketHead s) =
      (1, XSendPacketHead s) := by
    by_cases ho : s.fv.FileOpen = true
    · have hm' : min s.xv.DataLen s.fv.ReadData.length = 0 := by
        rcases hm with h | h
        · rw [h] at ho; simp at ho
        · exact h
      have hd : (XSendPacketHead s).xv.DataLen = s.xv.DataLen := rfl
      have hr : (XSendPacketHead s).fv.ReadData = s.fv.ReadData := rfl
      rw [XSendPacketFill_eq (XSendPacketHead s).xv.DataLen 1 (XSendPacketHead s) ho (by omega)]
      rw [hd, hr, hm']
      simp [blit_nil]
      rfl
    · exact XSendPacketFill_closed _ _ _ (by simpa using ho)
  unfold XSendPacketNew
  dsimp only
  rw [hfill]
  dsimp only
  rw [if_neg (by omega)]
  unfold XSendPacketEOT
  dsimp only
  by_cases ho : (XSendPacketHead s).fv.FileOpen = true
  · rw [if_pos ho]
    refine ⟨rfl, rfl, ?_, rfl, rfl, rfl, rfl, rfl, rfl, rfl, rfl, rfl, rfl, rfl⟩
    dsimp only
    rw [Function.update_same]
  · rw [if_neg ho]
    refine ⟨by simpa using ho, rfl, ?_, rfl, rfl, rfl, rfl, rfl, rfl, rfl, rfl, rfl, rfl, rfl⟩
    dsimp only
    rw [Function.update_same]


theorem map_BYTE_of_lt (l : List Nat) (h : ∀ b ∈ l, b < 256) : l.map BYTE = l := by
  induction l with
  | nil => rfl
  | cons a l ih =>
    rw [List.map_cons, BYTE_of_lt (h a (List.mem_cons_self a l)),
      ih (fun b hb => h b (List.mem_cons_of_mem a hb))]

theorem PktBytes_blit_zero (buf : Nat → Nat) (l : List Nat) (n : Nat) (h : l.length = n) :
    PktBytes (blit buf 0 l) n = l := by
  have := PktBytes_blit buf 0 l
  rw [Nat.zero_add, h] at this
  rw [this]
  rfl

/-- C8. Sender composition: when a new packet is staged
(`PktNumSent = PktNum`) and the open file yields `m` bytes with
`1 ≤ m ≤ DataLen`, `PktOut` holds SOH (`DataLen = 128`) or STX, the block
byte `n = (PktNum + 1) mod 256`, `255 - n`, the `m` file bytes, `DataLen - m`
bytes 0x1A and the check of these `DataLen` bytes big-endian in `CheckLen`
bytes; `PktBufCount` is `3 + DataLen + CheckLen` and `ByteCount` has grown by
`m`.  When the file yields no byte, the file is closed and the single byte EOT
is staged. -/
theorem XSendPacketNew_composition (s : XSt) (hs : s.xv.PktNumSent = s.xv.PktNum)
    (hC : s.xv.CheckLen = 1 ∨ s.xv.CheckLen = 2) (hb : ∀ b ∈ s.fv.ReadData, b < 256) :
    (s.fv.FileOpen = true → 1 ≤ min s.xv.DataLen s.fv.ReadData.length →
      PktBytes (XSendPacketNew s).xv.PktOut (3 + s.xv.DataLen + s.xv.CheckLen) =
        [if s.xv.DataLen = 128 then SOH else STX, (s.xv.PktNum + 1) % 256,
            255 - (s.xv.PktNum + 1) % 256] ++
          (s.fv.ReadData.take (min s.xv.DataLen s.fv.ReadData.length) ++
            List.replicate (s.xv.DataLen - min s.xv.DataLen s.fv.ReadData.length) 0x1A) ++
          XTrailer s.xv.CheckLen
            (s.fv.ReadData.take (min s.xv.DataLen s.fv.ReadData.length) ++
              List.replicate (s.xv.DataLen - min s.xv.DataLen s.fv.ReadData.length) 0x1A) ∧
      (XSendPacketNew s).xv.PktBufCount = 3 + (s.xv.DataLen : Int) + s.xv.CheckLen ∧
      (XSendPacketNew s).fv.ByteCount =
        s.fv.ByteCount + (min s.xv.DataLen s.fv.ReadData.length : Nat) ∧
      (XSendPacketNew s).fv.ReadData =
        s.fv.ReadData.drop (min s.xv.DataLen s.fv.ReadData.length)) ∧
    ((s.fv.FileOpen = false ∨ min s.xv.DataLen s.fv.ReadData.length = 0) →
      (XSendPacketNew s).fv.FileOpen = false ∧
      (XSendPacketNew s).xv.PktBufCount = 1 ∧
      PktBytes (XSendPacketNew s).xv.PktOut 1 = [EOT]) := by
  constructor
  · intro ho hm
    have hlen : (s.fv.ReadData.take (min s.xv.DataLen s.fv.ReadData.length)).length =
        min s.xv.DataLen s.fv.ReadData.length := by
      rw [List.length_take]; omega
    have hmap := map_BYTE_of_lt (s.fv.ReadData.take (min s.xv.DataLen s.fv.ReadData.length))
      (fun b hb' => hb b (List.mem_of_mem_take hb'))
    rw [XSendPacketNew_data s ho hm]
    dsimp only
    refine ⟨?_, rfl, rfl, rfl⟩
    rw [PktBytes_blit_zero _ _ _ (XPacket_length _ _ _ _ (by rw [List.length_map, hlen]; omega) hC)]
    rw [hmap, hs]
    unfold XPacket XPayload BYTE
    rw [hlen]
  · intro hm
    obtain ⟨h1, h2, h3, -⟩ := XSendPacketNew_eot s hm
    exact ⟨h1, h2, by show [(XSendPacketNew s).xv.PktOut 0] = [EOT]; rw [h3]⟩


/-! ## Receiving: assembly of a packet -/

theorem popIn_cons (s : XSt) (b : Nat) (rest : List Nat) (h : s.cv.InBuff = b :: rest) :
    (popIn s).cv.InBuff = rest := by
  show s.cv.InBuff.tail = rest
  rw [h]; rfl

/-- One pass of the receive loop in the read state `XpktDATA`. -/
theorem XReadPacketBody_data (s : XSt) (b : Nat) (hm : s.xv.PktReadMode = XpktDATA) :
    (XReadPacketBody s b).2.2 = none ∧
    (XReadPacketBody s b).2.1 = decide (s.xv.PktBufCount - 1 = 0) ∧
    (XReadPacketBody s b).1.xv.PktIn = Function.update s.xv.PktIn s.xv.PktBufPtr.toNat b ∧
    (XReadPacketBody s b).1.xv.PktBufPtr = s.xv.PktBufPtr + 1 ∧
    (XReadPacketBody s b).1.xv.PktBufCount = s.xv.PktBufCount - 1 ∧
    (XReadPacketBody s b).1.xv.PktReadMode = (if s.xv.PktBufCount - 1 = 0 then XpktSOH else XpktDATA) ∧
    (XReadPacketBody s b).1.xv.XOpt = s.xv.XOpt ∧
    (XReadPacketBody s b).1.xv.DataLen = s.xv.DataLen ∧
    (XReadPacketBody s b).1.xv.CheckLen = s.xv.CheckLen ∧
    (XReadPacketBody s b).1.cv = s.cv := by
  unfold XReadPacketBody
  rw [if_neg (by rw [hm]; decide), if_neg (by rw [hm]; decide), if_neg (by rw [hm]; decide), if_pos hm]
  dsimp only
  by_cases h : s.xv.PktBufCount - 1 = 0
  · rw [if_pos h, if_pos h]
    exact ⟨rfl, (decide_eq_true h).symm, rfl, rfl, rfl, rfl, rfl, rfl, rfl, rfl⟩
  · rw [if_neg h, if_neg h]
    exact ⟨rfl, (decide_eq_false h).symm, rfl, rfl, rfl, hm, rfl, rfl, rfl, rfl⟩

theorem XReadPacketLoop_data (body : List Nat) : ∀ (fuel : Nat) (s : XSt) (rest : List Nat),
    s.xv.PktReadMode = XpktDATA → s.xv.PktBufCount = body.length → body ≠ [] →
    s.cv.InBuff = body ++ rest → body.length ≤ fuel → 0 ≤ s.xv.PktBufPtr →
    (XReadPacketLoop fuel s).2.1 = true ∧
    (XReadPacketLoop fuel s).1.xv.PktIn = blit s.xv.PktIn s.xv.PktBufPtr.toNat (body.map BYTE) ∧
    (XReadPacketLoop fuel s).1.xv.PktReadMode = XpktSOH ∧
    (XReadPacketLoop fuel s).1.cv.InBuff = rest.tail ∧
    (XReadPacketLoop fuel s).1.xv.XOpt = s.xv.XOpt ∧
    (XReadPacketLoop fuel s).1.xv.DataLen = s.xv.DataLen ∧
    (XReadPacketLoop fuel s).1.xv.CheckLen = s.xv.CheckLen := by
  induction body with
  | nil => intro _ _ _ _ _ h; exact absurd rfl h
  | cons b l ih =>
    intro fuel s rest hm hc _ hin hfuel hptr
    obtain ⟨n, rfl⟩ : ∃ n, fuel = n + 1 := ⟨fuel - 1, by simp at hfuel; omega⟩
    have hin' : s.cv.InBuff = b :: (l ++ rest) := hin
    have hpm : (popIn s).xv.PktReadMode = XpktDATA := hm
    obtain ⟨b1, b2, b3, b4, b5, b6, b7, b8, b9, b10⟩ := XReadPacketBody_data (popIn s) (BYTE b) hpm
    have hcnt : (popIn s).xv.PktBufCount = s.xv.PktBufCount := rfl
    have hpt : (popIn s).xv.PktBufPtr = s.xv.PktBufPtr := rfl
    have hpi : (popIn s).xv.PktIn = s.xv.PktIn := rfl
    rw [hcnt] at b2 b5 b6
    rw [hpt] at b3 b4
    rw [hpi] at b3
    cases l with
    | nil =>
      have hz : s.xv.PktBufCount - 1 = 0 := by rw [hc]; simp
      rw [hz] at b2
      rw [XReadPacketLoop_done n s b _ hin' b1 (by rw [b2]; rfl)]
      refine ⟨rfl, ?_, ?_, ?_, b7, b8, b9⟩
      · show (XReadPacketBody (popIn s) (BYTE b)).1.xv.PktIn = _
        rw [b3, update_eq_blit]; rfl
      · show (XReadPacketBody (popIn s) (BYTE b)).1.xv.PktReadMode = _
        rw [b6, if_pos hz]
      · show (XReadPacketBody (popIn s) (BYTE b)).1.cv.InBuff.tail = _
        rw [b10, popIn_cons s b _ hin']; rfl
    | cons b' l' =>
      have hz : ¬ (s.xv.PktBufCount - 1 = 0) := by rw [hc]; simp; omega
      rw [XReadPacketLoop_next n s b _ hin' b1 (by rw [b2]; simp [hz])]
      have key := ih n (XReadPacketBody (popIn s) (BYTE b)).1 rest
        (by rw [b6, if_neg hz]) (by rw [b5, hc]; simp) (by simp)
        (by rw [b10, popIn_cons s b _ hin']) (by simp at hfuel ⊢; omega) (by rw [b4]; omega)
      obtain ⟨k1, k2, k3, k4, k5, k6, k7⟩ := key
      refine ⟨k1, ?_, k3, k4, k5.trans b7, k6.trans b8, k7.trans b9⟩
      rw [k2, b3, b4]
      have e : (s.xv.PktBufPtr + 1).toNat = s.xv.PktBufPtr.toNat + 1 := by omega
      rw [e, blit_update]
      rfl


theorem xor_complement (blk : Nat) (h : blk < 256) : (255 - blk) ^^^ blk = 0xff := by
  have key : ∀ b : Fin 256, (255 - b.val) ^^^ b.val = 0xff := by decide
  exact key ⟨blk, h⟩

/-- The header byte of a packet under a valid variant does not change the variant. -/
theorem XReadPacketBody_header (s : XSt) (hv : ValidVariant s.xv) (hm : s.xv.PktReadMode = XpktSOH) :
    (XReadPacketBody s (if s.xv.DataLen = 128 then SOH else STX)).2.2 = none ∧
    (XReadPacketBody s (if s.xv.DataLen = 128 then SOH else STX)).2.1 = false ∧
    (XReadPacketBody s (if s.xv.DataLen = 128 then SOH else STX)).1.xv.PktIn =
      Function.update s.xv.PktIn 0 (if s.xv.DataLen = 128 then SOH else STX) ∧
    (XReadPacketBody s (if s.xv.DataLen = 128 then SOH else STX)).1.xv.PktReadMode = XpktBLK ∧
    (XReadPacketBody s (if s.xv.DataLen = 128 then SOH else STX)).1.xv.XOpt = s.xv.XOpt ∧
    (XReadPacketBody s (if s.xv.DataLen = 128 then SOH else STX)).1.xv.DataLen = s.xv.DataLen ∧
    (XReadPacketBody s (if s.xv.DataLen = 128 then SOH else STX)).1.xv.CheckLen = s.xv.CheckLen ∧
    (XReadPacketBody s (if s.xv.DataLen = 128 then SOH else STX)).1.cv = s.cv := by
  unfold XReadPacketBody
  rw [if_pos hm]
  unfold XReadPacketSOH
  dsimp only
  rcases hv with ⟨h1, h2, -⟩ | ⟨h1, h2, -⟩ | ⟨h1, h2, -⟩ | ⟨h1, h2, -⟩
  · rw [h2, h1]
    exact ⟨rfl, rfl, rfl, rfl, rfl, rfl, rfl, rfl⟩
  · rw [h2, h1]
    exact ⟨rfl, rfl, rfl, rfl, rfl, rfl, rfl, rfl⟩
  · rw [h2, h1]
    exact ⟨rfl, rfl, rfl, rfl, rfl, rfl, rfl, rfl⟩
  · rw [h2, h1]
    exact ⟨rfl, rfl, rfl, rfl, rfl, rfl, rfl, rfl⟩

theorem XReadPacketBody_blk (s : XSt) (b : Nat) (hm : s.xv.PktReadMode = XpktBLK) :
    (XReadPacketBody s b).2.2 = none ∧
    (XReadPacketBody s b).2.1 = false ∧
    (XReadPacketBody s b).1.xv.PktIn = Function.update s.xv.PktIn 1 b ∧
    (XReadPacketBody s b).1.xv.PktReadMode = XpktBLK2 ∧
    (XReadPacketBody s b).1.xv.XOpt = s.xv.XOpt ∧
    (XReadPacketBody s b).1.xv.DataLen = s.xv.DataLen ∧
    (XReadPacketBody s b).1.xv.CheckLen = s.xv.CheckLen ∧
    (XReadPacketBody s b).1.cv = s.cv := by
  unfold XReadPacketBody
  rw [if_neg (by rw [hm]; decide), if_pos hm]
  exact ⟨rfl, rfl, rfl, rfl, rfl, rfl, rfl, rfl⟩

theorem XReadPacketBody_blk2 (s : XSt) (b : Nat) (hm : s.xv.PktReadMode = XpktBLK2)
    (hx : b ^^^ s.xv.PktIn 1 = 0xff) :
    (XReadPacketBody s b).2.2 = none ∧
    (XReadPacketBody s b).2.1 = false ∧
    (XReadPacketBody s b).1.xv.PktIn = Function.update s.xv.PktIn 2 b ∧
    (XReadPacketBody s b).1.xv.PktReadMode = XpktDATA ∧
    (XReadPacketBody s b).1.xv.PktBufPtr = 3 ∧
    (XReadPacketBody s b).1.xv.PktBufCount = (s.xv.DataLen : Int) + s.xv.CheckLen ∧
    (XReadPacketBody s b).1.xv.XOpt = s.xv.XOpt ∧
    (XReadPacketBody s b).1.xv.DataLen = s.xv.DataLen ∧
    (XReadPacketBody s b).1.xv.CheckLen = s.xv.CheckLen ∧
    (XReadPacketBody s b).1.cv = s.cv := by
  unfold XReadPacketBody
  rw [if_neg (by rw [hm]; decide), if_neg (by rw [hm]; decide), if_pos hm]
  dsimp only
  have hx' : b ^^^ Function.update s.xv.PktIn 2 b 1 = 0xff := by
    rw [Function.update_noteq (by decide)]; exact hx
  rw [if_pos hx']
  exact ⟨rfl, rfl, rfl, rfl, rfl, rfl, rfl, rfl, rfl, rfl⟩

/-- Assembly of one packet under a valid variant: header, block number, its
complement and `DataLen + CheckLen` further bytes end up in `PktIn`. -/
theorem XReadPacketLoop_packet (s : XSt) (hv : ValidVariant s.xv)
    (hm : s.xv.PktReadMode = XpktSOH) (blk : Nat) (hblk : blk < 256)
    (body rest : List Nat) (hbody : body.length = s.xv.DataLen + s.xv.CheckLen)
    (hin : s.cv.InBuff =
      (if s.xv.DataLen = 128 then SOH else STX) :: blk :: (255 - blk) :: (body ++ rest))
    (fuel : Nat) (hfuel : 3 + body.length ≤ fuel) :
    (XReadPacketLoop fuel s).2.1 = true ∧
    (XReadPacketLoop fuel s).1.xv.PktIn =
      blit s.xv.PktIn 0 ([if s.xv.DataLen = 128 then SOH else STX, blk, 255 - blk] ++ body.map BYTE) ∧
    (XReadPacketLoop fuel s).1.xv.PktReadMode = XpktSOH ∧
    (XReadPacketLoop fuel s).1.cv.InBuff = rest.tail ∧
    (XReadPacketLoop fuel s).1.xv.XOpt = s.xv.XOpt ∧
    (XReadPacketLoop fuel s).1.xv.DataLen = s.xv.DataLen ∧
    (XReadPacketLoop fuel s).1.xv.CheckLen = s.xv.CheckLen := by
  obtain ⟨n, rfl⟩ : ∃ n, fuel = n + 3 := ⟨fuel - 3, by omega⟩
  have hpos : 1 ≤ body.length := by
    rcases hv with ⟨-, h2, h3⟩ | ⟨-, h2, h3⟩ | ⟨-, h2, h3⟩ | ⟨-, h2, h3⟩ <;> omega
  have hh : BYTE (if s.xv.DataLen = 128 then SOH else STX) = (if s.xv.DataLen = 128 then SOH else STX) := by
    split_ifs <;> rfl
  -- header byte
  obtain ⟨a1, a2, a3, a4, a5, a6, a7, a8⟩ := XReadPacketBody_header (popIn s) hv hm
  have hd0 : (popIn s).xv.DataLen = s.xv.DataLen := rfl
  rw [hd0] at a1 a2 a3 a4 a5 a6 a7 a8
  rw [XReadPacketLoop_next (n + 2) s _ _ hin (by rw [hh]; exact a1) (by rw [hh]; exact a2), hh]
  generalize hs1 : (XReadPacketBody (popIn s) (if s.xv.DataLen = 128 then SOH else STX)).1 = s1
    at a3 a4 a5 a6 a7 a8
  have hin1 : s1.cv.InBuff = blk :: (255 - blk) :: (body ++ rest) := by
    rw [a8, popIn_cons s _ _ hin]
  -- block number
  obtain ⟨b1, b2, b3, b4, b5, b6, b7, b8⟩ := XReadPacketBody_blk (popIn s1) (BYTE blk) a4
  rw [XReadPacketLoop_next (n + 1) s1 _ _ hin1 b1 b2]
  generalize hs2 : (XReadPacketBody (popIn s1) (BYTE blk)).1 = s2 at b3 b4 b5 b6 b7 b8
  have hin2 : s2.cv.InBuff = (255 - blk) :: (body ++ rest) := by
    rw [b8, popIn_cons s1 _ _ hin1]
  have hblk1 : s2.xv.PktIn 1 = blk := by
    rw [b3, Function.update_same, BYTE_of_lt hblk]
  -- complement
  obtain ⟨c1, c2, c3, c4, c5, c6, c7, c8, c9, c10⟩ :=
    XReadPacketBody_blk2 (popIn s2) (BYTE (255 - blk)) b4
      (by
        show BYTE (255 - blk) ^^^ s2.xv.PktIn 1 = 0xff
        rw [hblk1, BYTE_of_lt (by omega)]; exact xor_complement blk hblk)
  rw [XReadPacketLoop_next n s2 _ _ hin2 c1 c2]
  generalize hs3 : (XReadPacketBody (popIn s2) (BYTE (255 - blk))).1 = s3
    at c3 c4 c5 c6 c7 c8 c9 c10
  have hin3 : s3.cv.InBuff = body ++ rest := by
    rw [c10, popIn_cons s2 _ _ hin2]
  have hD : s3.xv.DataLen = s.xv.DataLen := c8.trans (b6.trans a6)
  have hC : s3.xv.CheckLen = s.xv.CheckLen := c9.trans (b7.trans a7)
  have hX : s3.xv.XOpt = s.xv.XOpt := c7.trans (b5.trans a5)
  -- data and check bytes
  obtain ⟨d1, d2, d3, d4, d5, d6, d7⟩ := XReadPacketLoop_data body n s3 rest c4
    (by
      rw [c6, ← c8, ← c9, hD, hC, hbody]; push_cast; rfl)
    (by intro h; rw [h] at hpos; simp at hpos) hin3 (by omega) (by rw [c5]; decide)
  refine ⟨d1, ?_, d3, d4, d5.trans hX, d6.trans hD, d7.trans hC⟩
  rw [d2, c5, c3]
  show blit (Function.update s2.xv.PktIn 2 (BYTE (255 - blk))) (2 + 1) _ = _
  rw [blit_update, b3]
  show blit (Function.update s1.xv.PktIn 1 (BYTE blk)) (1 + 1) _ = _
  rw [blit_update, a3]
  show blit (Function.update s.xv.PktIn 0 _) (0 + 1) _ = _
  rw [blit_update, BYTE_of_lt hblk, BYTE_of_lt (show 255 - blk < 256 by omega)]
  rfl


/-! ## Round trip of framing -/

theorem segment_blit3 (buf : Nat → Nat) (pre mid post : List Nat) :
    (List.range mid.length).map (fun i => blit buf 0 (pre ++ mid ++ post) (pre.length + i)) = mid := by
  have h := congrArg (List.take mid.length) (segment_blit buf pre (mid ++ post))
  rw [← List.map_take, List.take_range, List.length_append, List.take_left',
    Nat.min_eq_left (Nat.le_add_right _ _), ← List.append_assoc] at h
  · exact h
  · rfl

theorem CheckOf_lt (payload : List Nat) : CheckOf 1 payload < 256 := by
  unfold CheckOf; rw [if_pos rfl]; omega

/-- A buffer holding header, payload and the trailer computed from the payload passes the check. -/
theorem XCheckPacket_packet (xv : TXVar) (buf : Nat → Nat) (pre payload : List Nat)
    (hC : xv.CheckLen = 1 ∨ xv.CheckLen = 2) (hpre : pre.length = 3)
    (hpay : payload.length = xv.DataLen)
    (hb : xv.PktIn = blit buf 0 (pre ++ payload ++ XTrailer xv.CheckLen payload)) :
    XCheckPacket xv = true := by
  have hc : XCalcCheck xv xv.PktIn = CheckOf xv.CheckLen payload := by
    rw [XCalcCheck_eq_CheckOf, hb, ← hpay]
    congr 1
    have := segment_blit3 buf pre payload (XTrailer xv.CheckLen payload)
    rw [hpre] at this
    exact this
  have ht := segment_blit buf (pre ++ payload) (XTrailer xv.CheckLen payload)
  rw [← hb, List.length_append, hpre, hpay] at ht
  unfold XCheckPacket
  dsimp only
  rw [hc]
  rcases hC with h1 | h2
  · rw [if_pos h1]
    rw [h1] at ht ⊢
    unfold XTrailer at ht
    rw [if_pos rfl] at ht
    have hr : List.range 1 = [0] := rfl
    simp only [List.length_singleton, hr, List.map_cons, List.map_nil,
      List.cons.injEq, and_true, Nat.add_zero] at ht
    rw [BYTE_of_lt (CheckOf_lt payload), Nat.add_comm, ht]
    simp
  · rw [if_neg (by omega)]
    rw [h2] at ht ⊢
    unfold XTrailer at ht
    rw [if_neg (by decide)] at ht
    have hr : List.range 2 = [0, 1] := rfl
    simp only [List.length_cons, List.length_nil, hr, List.map_cons, List.map_nil,
      List.cons.injEq, and_true, Nat.add_zero] at ht
    have e3 : xv.DataLen + 3 = 3 + xv.DataLen := by omega
    have e4 : xv.DataLen + 4 = 3 + xv.DataLen + 1 := by omega
    rw [e3, e4, ht.1, ht.2]
    simp

theorem ValidVariant_fields {a b : TXVar} (ha : ValidVariant a) (hb : ValidVariant b)
    (h : a.XOpt = b.XOpt) : a.DataLen = b.DataLen ∧ a.CheckLen = b.CheckLen := by
  unfold ValidVariant at ha hb
  rcases ha with ⟨a1, a2, a3⟩ | ⟨a1, a2, a3⟩ | ⟨a1, a2, a3⟩ | ⟨a1, a2, a3⟩ <;>
  rcases hb with ⟨b1, b2, b3⟩ | ⟨b1, b2, b3⟩ | ⟨b1, b2, b3⟩ | ⟨b1, b2, b3⟩ <;>
  first
    | exact ⟨a2.trans b2.symm, a3.trans b3.symm⟩
    | (rw [a1, b1] at h; exact absurd h (by decide))

theorem ValidVariant_bounds {a : TXVar} (ha : ValidVariant a) :
    128 ≤ a.DataLen ∧ (a.CheckLen = 1 ∨ a.CheckLen = 2) := by
  unfold ValidVariant at ha
  rcases ha with ⟨-, a2, a3⟩ | ⟨-, a2, a3⟩ | ⟨-, a2, a3⟩ | ⟨-, a2, a3⟩ <;>
  exact ⟨by omega, by omega⟩

theorem XTrailer_bytes (C : Nat) (payload : List Nat) : ∀ b ∈ XTrailer C payload, b < 256 := by
  intro b hb
  unfold XTrailer at hb
  split_ifs at hb with h
  · simp only [List.mem_singleton] at hb
    rw [hb, h]; exact CheckOf_lt payload
  · simp only [List.mem_cons, List.mem_singleton, List.not_mem_nil, or_false] at hb
    rcases hb with rfl | rfl
    · exact HIBYTE_lt _
    · exact LOBYTE_lt _

theorem XPayload_full (D : Nat) (P : List Nat) (h : P.length = D) : XPayload D P = P := by
  unfold XPayload; rw [h, Nat.sub_self]; simp

/-- The bytes a sender stages for a full payload `P`: the spec's packet layout. -/
theorem XSendPacketNew_full (tx : XSt) (P rest : List Nat) (ho : tx.fv.FileOpen = true)
    (hv : ValidVariant tx.xv) (hfile : tx.fv.ReadData = P ++ rest)
    (hP : P.length = tx.xv.DataLen) (hPb : ∀ b ∈ P, b < 256) :
    PktBytes (XSendPacketNew tx).xv.PktOut (XSendPacketNew tx).xv.PktBufCount.toNat =
      (if tx.xv.DataLen = 128 then SOH else STX) :: BYTE (tx.xv.PktNumSent + 1) ::
        (255 - BYTE (tx.xv.PktNumSent + 1)) :: (P ++ XTrailer tx.xv.CheckLen P) := by
  obtain ⟨hD, hC⟩ := ValidVariant_bounds hv
  have hmin : min tx.xv.DataLen tx.fv.ReadData.length = tx.xv.DataLen := by
    rw [hfile, List.length_append, hP]; omega
  rw [XSendPacketNew_data tx ho (by rw [hmin]; omega)]
  dsimp only
  rw [hmin, hfile, ← hP, List.take_left, map_BYTE_of_lt P hPb]
  have hl := XPacket_length P.length tx.xv.CheckLen (BYTE (tx.xv.PktNumSent + 1)) P (le_refl _) hC
  have e : (3 + (P.length : Int) + (tx.xv.CheckLen : Int)).toNat = 3 + P.length + tx.xv.CheckLen := by
    omega
  rw [e, PktBytes_blit_zero _ _ _ hl]
  unfold XPacket
  rw [XPayload_full _ _ rfl]
  rfl

/-- C5. Round trip of framing: under each of the four variants, the packet
a sender stages for the block byte `n` and a full payload `P`, which is
header byte, `n`, `255 - n`, `P` and the check trailer, fed byte by byte to a
receiver of the same variant that waits for a header, is assembled with
`PktIn[1] = n` and `PktIn[3 .. 3 + DataLen) = P`, leaves the receiver's
variant unchanged and passes `XCheckPacket`. -/
theorem framing_round_trip (tx rx : XSt) (n : Nat) (P rest : List Nat)
    (hvt : ValidVariant tx.xv) (hvr : ValidVariant rx.xv) (hsame : rx.xv.XOpt = tx.xv.XOpt)
    (hn : n < 256) (hsent : tx.xv.PktNumSent = (n + 255) % 256)
    (hopen : tx.fv.FileOpen = true) (hfile : tx.fv.ReadData = P ++ rest)
    (hP : P.length = tx.xv.DataLen) (hPb : ∀ b ∈ P, b < 256)
    (hmode : rx.xv.PktReadMode = XpktSOH)
    (hin : rx.cv.InBuff =
      PktBytes (XSendPacketNew tx).xv.PktOut (XSendPacketNew tx).xv.PktBufCount.toNat) :
    rx.cv.InBuff = [if tx.xv.DataLen = 128 then SOH else STX, n, 255 - n] ++ P ++
      XTrailer tx.xv.CheckLen P ∧
    (XReadPacketLoop (rx.cv.InBuff.length + 1) rx).2.1 = true ∧
    (XReadPacketLoop (rx.cv.InBuff.length + 1) rx).1.xv.PktIn 1 = n ∧
    (List.range rx.xv.DataLen).map
      (fun i => (XReadPacketLoop (rx.cv.InBuff.length + 1) rx).1.xv.PktIn (3 + i)) = P ∧
    (XReadPacketLoop (rx.cv.InBuff.length + 1) rx).1.xv.XOpt = rx.xv.XOpt ∧
    (XReadPacketLoop (rx.cv.InBuff.length + 1) rx).1.xv.DataLen = rx.xv.DataLen ∧
    (XReadPacketLoop (rx.cv.InBuff.length + 1) rx).1.xv.CheckLen = rx.xv.CheckLen ∧
    XCheckPacket (XReadPacketLoop (rx.cv.InBuff.length + 1) rx).1.xv = true := by
  obtain ⟨hD, hC⟩ := ValidVariant_fields hvr hvt hsame
  obtain ⟨-, hC2⟩ := ValidVariant_bounds hvr
  have hnn : BYTE (tx.xv.PktNumSent + 1) = n := by rw [hsent]; unfold BYTE; omega
  have hpk := XSendPacketNew_full tx P rest hopen hvt hfile hP hPb
  rw [← hin, hnn, ← hD, ← hC] at hpk
  have hbl : (P ++ XTrailer rx.xv.CheckLen P).length = rx.xv.DataLen + rx.xv.CheckLen := by
    rw [List.length_append, XTrailer_length _ _ hC2, hP, hD]
  have hbytes : (P ++ XTrailer rx.xv.CheckLen P).map BYTE = P ++ XTrailer rx.xv.CheckLen P := by
    apply map_BYTE_of_lt
    intro b hb
    rcases List.mem_append.mp hb with h | h
    · exact hPb b h
    · exact XTrailer_bytes _ _ b h
  obtain ⟨r1, r2, -, -, r5, r6, r7⟩ := XReadPacketLoop_packet rx hvr hmode n hn
    (P ++ XTrailer rx.xv.CheckLen P) [] hbl (by rw [hpk]; simp) (rx.cv.InBuff.length + 1)
    (by rw [hpk]; simp; omega)
  rw [hbytes] at r2
  have r2' : (XReadPacketLoop (rx.cv.InBuff.length + 1) rx).1.xv.PktIn =
      blit rx.xv.PktIn 0 ([if rx.xv.DataLen = 128 then SOH else STX, n, 255 - n] ++ P ++
        XTrailer rx.xv.CheckLen P) := by
    rw [r2, List.append_assoc]
  refine ⟨?_, r1, ?_, ?_, r5, r6, r7, ?_⟩
  · rw [hpk, ← hD, ← hC]; rfl
  · rw [r2]; rfl
  · rw [r2', hD.trans hP.symm]
    exact segment_blit3 rx.xv.PktIn [if P.length = 128 then SOH else STX, n, 255 - n] P _
  · apply XCheckPacket_packet _ rx.xv.PktIn [if rx.xv.DataLen = 128 then SOH else STX, n, 255 - n] P
      (by rw [r7]; exact hC2) rfl (by rw [r6, hP, hD])
    rw [r7]; exact r2'


/-! ## Sending: one step of the sender -/

theorem XDrainLoop_eq (n : Nat) : ∀ s : XSt, s.cv.InBuff.length ≤ n →
    XDrainLoop n s = { s with cv := { s.cv with InBuff := [] } } := by
  induction n with
  | zero =>
    intro s h
    have : s.cv.InBuff = [] := List.length_eq_zero.mp (Nat.le_zero.mp h)
    show s = _
    rw [← this]
  | succ n ih =>
    intro s h
    unfold XDrainLoop
    cases hin : s.cv.InBuff with
    | nil =>
      rw [XRead1Byte_nil s hin]
      show s = _
      rw [← hin]
    | cons b rest =>
      rw [XRead1Byte_cons s b rest hin]
      dsimp only
      rw [ih (popIn s) (by rw [popIn_cons s b rest hin]; rw [hin] at h; simp at h; omega)]
      rfl

theorem XDrain_eq (s : XSt) : XDrain s = { s with cv := { s.cv with InBuff := [] } } :=
  XDrainLoop_eq _ s (le_refl _)

theorem range_shift (f : Nat → Nat) (a n : Nat) :
    f a :: (List.range n).map (fun i => f (a + 1 + i)) = (List.range (n + 1)).map (fun i => f (a + i)) := by
  rw [List.range_succ_eq_map, List.map_cons, List.map_map]
  congr 1
  apply List.map_congr_left
  intro i _
  show f (a + 1 + i) = f (a + (i + 1))
  congr 1; omega

/-- The write loop on a transport that accepts everything: the staged bytes go out in order. -/
theorem XSendPacketWrite_eq (fuel : Nat) : ∀ s : XSt, s.cv.OutRoom = [] →
    s.xv.PktBufCount = (fuel : Int) → 0 ≤ s.xv.PktBufPtr →
    XSendPacketWrite fuel s =
      { s with
        cv := { s.cv with
          OutBuff := s.cv.OutBuff ++ (List.range fuel).map (fun i => s.xv.PktOut (s.xv.PktBufPtr.toNat + i)) },
        xv := { s.xv with PktBufCount := 0, PktBufPtr := s.xv.PktBufPtr + fuel } } := by
  induction fuel with
  | zero =>
    intro s hr hc hp
    obtain ⟨fv, xv, cv⟩ := s
    obtain ⟨ib, ob, orr, pt⟩ := cv
    cases xv
    simp only at hr hc
    simp [XSendPacketWrite, hc]
  | succ n ih =>
    intro s hr hc hp
    unfold XSendPacketWrite
    rw [if_pos (by rw [hc]; push_cast; omega)]
    have hw : (XWrite s [s.xv.PktOut s.xv.PktBufPtr.toNat]).2 = 1 := by
      show CommRoom s.cv 1 = 1
      unfold CommRoom; rw [hr]
    have hw1 : (XWrite s [s.xv.PktOut s.xv.PktBufPtr.toNat]).1 =
        { s with cv := { s.cv with OutBuff := s.cv.OutBuff ++ [s.xv.PktOut s.xv.PktBufPtr.toNat] } } := by
      unfold XWrite CommBinaryOut CommRoom
      obtain ⟨fv, xv, cv⟩ := s
      obtain ⟨ib, ob, orr, pt⟩ := cv
      simp only at hr
      subst hr
      rfl
    dsimp only
    rw [hw, if_pos (by decide), hw1]
    have key := ih
      { fv := s.fv,
        xv := { s.xv with PktBufCount := s.xv.PktBufCount - 1, PktBufPtr := s.xv.PktBufPtr + 1 },
        cv := { s.cv with OutBuff := s.cv.OutBuff ++ [s.xv.PktOut s.xv.PktBufPtr.toNat] } }
      hr (by show s.xv.PktBufCount - 1 = _; rw [hc]; push_cast; omega)
      (by show 0 ≤ s.xv.PktBufPtr + 1; omega)
    refine key.trans ?_
    dsimp only
    have e : (s.xv.PktBufPtr + 1).toNat = s.xv.PktBufPtr.toNat + 1 := by omega
    have h1 : (s.cv.OutBuff ++ [s.xv.PktOut s.xv.PktBufPtr.toNat]) ++
        List.map (fun i => s.xv.PktOut ((s.xv.PktBufPtr + 1).toNat + i)) (List.range n) =
        s.cv.OutBuff ++ List.map (fun i => s.xv.PktOut (s.xv.PktBufPtr.toNat + i)) (List.range (n + 1)) := by
      rw [e, List.append_assoc, ← range_shift]
      rfl
    have h2 : s.xv.PktBufPtr + 1 + (n : Int) = s.xv.PktBufPtr + ((n + 1 : Nat) : Int) := by
      push_cast; ring
    rw [h1, h2]


/-- Staging and writing a new data packet on a transport that accepts everything. -/
theorem XSendPacket_stage_data (s : XSt) (hs : s.xv.PktNumSent = s.xv.PktNum)
    (ho : s.fv.FileOpen = true) (hm : 1 ≤ min s.xv.DataLen s.fv.ReadData.length)
    (hC : s.xv.CheckLen = 1 ∨ s.xv.CheckLen = 2) (hroom : s.cv.OutRoom = []) :
    (XSendPacketOut (XSendPacketStage s)).1 = true ∧
    (XSendPacketOut (XSendPacketStage s)).2.cv.OutBuff = s.cv.OutBuff ++
      XPacket s.xv.DataLen s.xv.CheckLen (BYTE (s.xv.PktNumSent + 1))
        ((s.fv.ReadData.take (min s.xv.DataLen s.fv.ReadData.length)).map BYTE) ∧
    (XSendPacketOut (XSendPacketStage s)).2.cv.InBuff = [] ∧
    (XSendPacketOut (XSendPacketStage s)).2.cv.OutRoom = [] ∧
    (XSendPacketOut (XSendPacketStage s)).2.xv.PktBufCount = 0 ∧
    (XSendPacketOut (XSendPacketStage s)).2.xv.PktNumSent = BYTE (s.xv.PktNumSent + 1) ∧
    (XSendPacketOut (XSendPacketStage s)).2.xv.PktNum = s.xv.PktNum ∧
    (XSendPacketOut (XSendPacketStage s)).2.xv.XMode = s.xv.XMode ∧
    (XSendPacketOut (XSendPacketStage s)).2.xv.XOpt = s.xv.XOpt ∧
    (XSendPacketOut (XSendPacketStage s)).2.xv.DataLen = s.xv.DataLen ∧
    (XSendPacketOut (XSendPacketStage s)).2.xv.CheckLen = s.xv.CheckLen ∧
    (XSendPacketOut (XSendPacketStage s)).2.fv.FileOpen = true ∧
    (XSendPacketOut (XSendPacketStage s)).2.fv.Success = s.fv.Success ∧
    (XSendPacketOut (XSendPacketStage s)).2.fv.ReadData =
      s.fv.ReadData.drop (min s.xv.DataLen s.fv.ReadData.length) := by
  have hlen : ((s.fv.ReadData.take (min s.xv.DataLen s.fv.ReadData.length)).map BYTE).length ≤
      s.xv.DataLen := by
    rw [List.length_map, List.length_take]; omega
  have hpl := XPacket_length s.xv.DataLen s.xv.CheckLen (BYTE (s.xv.PktNumSent + 1)) _ hlen hC
  have hstage : XSendPacketStage s =
      { XSendPacketNew (XDrain (FTSetTimeOut s s.xv.TOutVLong)) with
        xv := { (XSendPacketNew (XDrain (FTSetTimeOut s s.xv.TOutVLong))).xv with PktBufPtr := 0 } } := by
    unfold XSendPacketStage
    dsimp only
    have e : (XDrain (FTSetTimeOut s s.xv.TOutVLong)).xv = s.xv := by rw [XDrain_eq]; rfl
    rw [e, if_pos hs]
  obtain ⟨s0, hs0, f1, f2, f3, f4, f5, f6⟩ : ∃ s0, XDrain (FTSetTimeOut s s.xv.TOutVLong) = s0 ∧
      s0.fv.FileOpen = true ∧ s0.xv = s.xv ∧ s0.fv.ReadData = s.fv.ReadData ∧
      s0.cv.OutRoom = [] ∧ s0.cv.OutBuff = s.cv.OutBuff ∧ s0.fv.Success = s.fv.Success :=
    ⟨_, rfl, by rw [XDrain_eq]; exact ho, by rw [XDrain_eq]; rfl, by rw [XDrain_eq]; rfl,
      by rw [XDrain_eq]; exact hroom, by rw [XDrain_eq]; rfl, by rw [XDrain_eq]; rfl⟩
  rw [hstage, hs0, XSendPacketNew_data s0 f1 (by rw [f2, f3]; exact hm)]
  unfold XSendPacketOut
  dsimp only
  rw [XDrain_eq]
  dsimp only
  have e2 : (3 + (s0.xv.DataLen : Int) + (s0.xv.CheckLen : Int)).toNat =
      3 + s0.xv.DataLen + s0.xv.CheckLen := by omega
  rw [e2]
  have hw := XSendPacketWrite_eq (3 + s0.xv.DataLen + s0.xv.CheckLen)
    { fv := { s0.fv with
        ReadData := s0.fv.ReadData.drop (min s0.xv.DataLen s0.fv.ReadData.length),
        ByteCount := s0.fv.ByteCount + (min s0.xv.DataLen s0.fv.ReadData.length : Nat) },
      xv := { s0.xv with
        PktNumSent := BYTE (s0.xv.PktNumSent + 1),
        PktOut := blit s0.xv.PktOut 0 (XPacket s0.xv.DataLen s0.xv.CheckLen (BYTE (s0.xv.PktNumSent + 1))
          ((s0.fv.ReadData.take (min s0.xv.DataLen s0.fv.ReadData.length)).map BYTE)),
        PktBufCount := 3 + (s0.xv.DataLen : Int) + s0.xv.CheckLen,
        PktBufPtr := 0 },
      cv := { s0.cv with InBuff := [] } }
    f4 (by dsimp only; push_cast; ring) (by dsimp only; decide)
  dsimp only at hw
  rw [hw]
  dsimp only
  rw [f2] at *
  rw [f3]
  refine ⟨rfl, ?_, rfl, f4, rfl, rfl, rfl, rfl, rfl, rfl, rfl, f1, f6, rfl⟩
  have := PktBytes_blit_zero s.xv.PktOut _ _ hpl
  unfold PktBytes at this
  simp only [Int.toNat_zero, Nat.zero_add]
  rw [f5]
  show s.cv.OutBuff ++ List.map _ (List.range (3 + s.xv.DataLen + s.xv.CheckLen)) = _
  rw [this]

/-- Staging and writing EOT once the file is exhausted. -/
theorem XSendPacket_stage_eot (s : XSt) (hs : s.xv.PktNumSent = s.xv.PktNum)
    (hm : s.fv.FileOpen = false ∨ min s.xv.DataLen s.fv.ReadData.length = 0)
    (hroom : s.cv.OutRoom = []) :
    (XSendPacketOut (XSendPacketStage s)).1 = true ∧
    (XSendPacketOut (XSendPacketStage s)).2.cv.OutBuff = s.cv.OutBuff ++ [EOT] ∧
    (XSendPacketOut (XSendPacketStage s)).2.cv.InBuff = [] ∧
    (XSendPacketOut (XSendPacketStage s)).2.cv.OutRoom = [] ∧
    (XSendPacketOut (XSendPacketStage s)).2.xv.PktBufCount = 0 ∧
    (XSendPacketOut (XSendPacketStage s)).2.xv.XMode = s.xv.XMode ∧
    (XSendPacketOut (XSendPacketStage s)).2.fv.FileOpen = false ∧
    (XSendPacketOut (XSendPacketStage s)).2.fv.Success = s.fv.Success := by
  have hstage : XSendPacketStage s =
      { XSendPacketNew (XDrain (FTSetTimeOut s s.xv.TOutVLong)) with
        xv := { (XSendPacketNew (XDrain (FTSetTimeOut s s.xv.TOutVLong))).xv with PktBufPtr := 0 } } := by
    unfold XSendPacketStage
    dsimp only
    have e : (XDrain (FTSetTimeOut s s.xv.TOutVLong)).xv = s.xv := by rw [XDrain_eq]; rfl
    rw [e, if_pos hs]
  obtain ⟨s0, hs0, f2, f3, f4, f5, f6, f7⟩ : ∃ s0, XDrain (FTSetTimeOut s s.xv.TOutVLong) = s0 ∧
      s0.xv = s.xv ∧ s0.fv.ReadData = s.fv.ReadData ∧
      s0.cv.OutRoom = [] ∧ s0.cv.OutBuff = s.cv.OutBuff ∧ s0.fv.Success = s.fv.Success ∧
      s0.fv.FileOpen = s.fv.FileOpen :=
    ⟨_, rfl, by rw [XDrain_eq]; rfl, by rw [XDrain_eq]; rfl,
      by rw [XDrain_eq]; exact hroom, by rw [XDrain_eq]; rfl, by rw [XDrain_eq]; rfl,
      by rw [XDrain_eq]; rfl⟩
  obtain ⟨n1, n2, n3, -, -, -, n7, n8, -, -, n11, -⟩ :=
    XSendPacketNew_eot s0 (by rw [f7, f2, f3]; exact hm)
  rw [hstage, hs0]
  generalize XSendPacketNew s0 = t at n1 n2 n3 n7 n8 n11
  unfold XSendPacketOut
  dsimp only
  rw [XDrain_eq]
  dsimp only
  have hw := XSendPacketWrite_eq 1
    { fv := t.fv, xv := { t.xv with PktBufPtr := 0 }, cv := { t.cv with InBuff := [] } }
    (by show t.cv.OutRoom = []; rw [n8]; exact f4) (by show t.xv.PktBufCount = _; rw [n2]; rfl)
    (by show (0 : Int) ≤ 0; decide)
  dsimp only at hw
  have e1 : t.xv.PktBufCount.toNat = 1 := by rw [n2]; rfl
  rw [e1, hw]
  dsimp only
  refine ⟨rfl, ?_, rfl, by rw [n8]; exact f4, rfl, by rw [n11, f2], n1, by rw [n7, f6]⟩
  rw [n8, f5]
  show s.cv.OutBuff ++ [t.xv.PktOut 0] = _
  rw [n3]


theorem XSendPacketLoop_ret (fuel : Nat) (s : XSt) (q : Nat) (rest : List Nat) (ret : Bool)
    (hin : s.cv.InBuff = q :: rest)
    (hr : (XSendPacketSwitch (popIn s) (BYTE q)).2.2.2 = some ret) :
    XSendPacketLoop (fuel + 1) s = ((XSendPacketSwitch (popIn s) (BYTE q)).1, some ret) := by
  simp [XSendPacketLoop, XRead1Byte_cons s q rest hin, hr]

theorem XSendPacketLoop_send (fuel : Nat) (s : XSt) (q : Nat)
    (hin : s.cv.InBuff = [q])
    (hr : (XSendPacketSwitch (popIn s) (BYTE q)).2.2.2 = none)
    (hc : (XSendPacketSwitch (popIn s) (BYTE q)).2.2.1 = false)
    (hf : (XSendPacketSwitch (popIn s) (BYTE q)).2.1 = true)
    (hib : (XSendPacketSwitch (popIn s) (BYTE q)).1.cv.InBuff = []) :
    XSendPacketLoop (fuel + 1) s =
      ({ (XSendPacketSwitch (popIn s) (BYTE q)).1 with
          xv := { (XSendPacketSwitch (popIn s) (BYTE q)).1.xv with CANCount := 0 } }, none) := by
  simp only [XSendPacketLoop, XRead1Byte_cons s q [] hin, hr, hc, hf, if_true]
  rw [if_neg (by simp)]
  rw [XRead1Byte_nil _ (by exact hib)]

theorem XSendPacketSwitch_ack_open (s : XSt) (ho : s.fv.FileOpen = true)
    (hn : s.xv.PktNumSent = BYTE (s.xv.PktNum + 1)) :
    XSendPacketSwitch s ACK =
      ({ s with xv := { s.xv with
          PktNum := s.xv.PktNumSent,
          PktNumOffset := if s.xv.PktNumSent = 0 then s.xv.PktNumOffset + 256 else s.xv.PktNumOffset } },
        true, false, none) := by
  unfold XSendPacketSwitch
  rw [if_pos rfl, if_neg (by rw [ho]; decide), if_pos hn]
  dsimp only
  split_ifs <;> rfl

theorem XSendPacketSwitch_ack_closed (s : XSt) (ho : s.fv.FileOpen = false) :
    XSendPacketSwitch s ACK =
      ({ s with fv := { s.fv with Success := true } }, false, false, some false) := by
  unfold XSendPacketSwitch
  rw [if_pos rfl, if_pos ho]

/-- The request byte a receiver configured with `XOpt` opens with. -/
theorem XSendPacketSwitch_request (s : XSt) (hv : ValidVariant s.xv)
    (h0 : s.xv.PktNum = 0 ∧ s.xv.PktNumOffset = 0 ∧ s.xv.PktNumSent = 0) :
    XSendPacketSwitch s (if s.xv.XOpt = XoptCheck ∨ s.xv.XOpt = Xopt1kCksum then NAK else 0x43) =
      (s, true, false, none) := by
  rcases hv with ⟨h1, -, -⟩ | ⟨h1, -, -⟩ | ⟨h1, -, -⟩ | ⟨h1, -, -⟩
  · have hq : (if s.xv.XOpt = XoptCheck ∨ s.xv.XOpt = Xopt1kCksum then NAK else 0x43) = NAK := by
      rw [h1]; rfl
    rw [hq]
    unfold XSendPacketSwitch
    rw [if_neg (by decide), if_pos rfl]
    dsimp only
    rw [if_pos ⟨h0.1, h0.2.1⟩, if_neg (by rw [h1]; decide), if_neg (by rw [h1]; decide)]
  · have hq : (if s.xv.XOpt = XoptCheck ∨ s.xv.XOpt = Xopt1kCksum then NAK else 0x43) = 0x43 := by
      rw [h1]; rfl
    rw [hq]
    unfold XSendPacketSwitch
    rw [if_neg (by decide), if_neg (by decide), if_neg (by decide), if_pos rfl, if_pos h0]
    dsimp only
    rw [if_neg (by rw [h1]; decide), if_neg (by rw [h1]; decide)]
  · have hq : (if s.xv.XOpt = XoptCheck ∨ s.xv.XOpt = Xopt1kCksum then NAK else 0x43) = 0x43 := by
      rw [h1]; rfl
    rw [hq]
    unfold XSendPacketSwitch
    rw [if_neg (by decide), if_neg (by decide), if_neg (by decide), if_pos rfl, if_pos h0]
    dsimp only
    rw [if_neg (by rw [h1]; decide), if_neg (by rw [h1]; decide)]
  · have hq : (if s.xv.XOpt = XoptCheck ∨ s.xv.XOpt = Xopt1kCksum then NAK else 0x43) = NAK := by
      rw [h1]; rfl
    rw [hq]
    unfold XSendPacketSwitch
    rw [if_neg (by decide), if_pos rfl]
    dsimp only
    rw [if_pos ⟨h0.1, h0.2.1⟩, if_neg (by rw [h1]; decide), if_neg (by rw [h1]; decide)]


/-- The sender's answer to one ACK, or to the receiver's first request: it
goes on to stage the next packet from a session `s1` that differs from the
old one only in the block counters. -/
theorem XSendPacket_respond (t : XSt) (q : Nat)
    (hcnt : t.xv.PktBufCount = 0) (hin : t.cv.InBuff = [q])
    (hv : ValidVariant t.xv) (ho : t.fv.FileOpen = true)
    (hq : (q = ACK ∧ t.xv.PktNumSent = BYTE (t.xv.PktNum + 1)) ∨
          (q = ReqByte t.xv.XOpt ∧ t.xv.PktNum = 0 ∧ t.xv.PktNumOffset = 0 ∧ t.xv.PktNumSent = 0)) :
    ∃ s1, XSendPacket t = XSendPacketOut (XSendPacketStage s1) ∧
      s1.xv.PktNumSent = s1.xv.PktNum ∧ s1.xv.PktNumSent = t.xv.PktNumSent ∧
      s1.fv = t.fv ∧ s1.cv.OutRoom = t.cv.OutRoom ∧ s1.cv.OutBuff = t.cv.OutBuff ∧
      s1.xv.XMode = t.xv.XMode ∧ s1.xv.XOpt = t.xv.XOpt ∧ s1.xv.DataLen = t.xv.DataLen ∧
      s1.xv.CheckLen = t.xv.CheckLen := by
  have hpi : (popIn t).cv.InBuff = [] := popIn_cons t q [] hin
  have hunf : ∀ s1, XSendPacketLoop (t.cv.InBuff.length + 1) t = (s1, none) →
      XSendPacket t = XSendPacketOut (XSendPacketStage s1) := by
    intro s1 h
    unfold XSendPacket
    rw [if_pos hcnt]
    dsimp only
    rw [h]
  rcases hq with ⟨rfl, hn⟩ | ⟨rfl, h0⟩
  · have hb : BYTE ACK = ACK := rfl
    have hsw := XSendPacketSwitch_ack_open (popIn t) ho hn
    rw [← hb] at hsw
    have hl := XSendPacketLoop_send t.cv.InBuff.length t ACK hin (by rw [hsw]) (by rw [hsw])
      (by rw [hsw]) (by rw [hsw]; exact hpi)
    rw [hsw] at hl
    exact ⟨_, hunf _ hl, rfl, rfl, rfl, rfl, rfl, rfl, rfl, rfl, rfl⟩
  · have hb : BYTE (ReqByte t.xv.XOpt) = ReqByte t.xv.XOpt := by
      unfold ReqByte; split_ifs <;> rfl
    have hsw := XSendPacketSwitch_request (popIn t) hv h0
    have hsw' : XSendPacketSwitch (popIn t) (BYTE (ReqByte t.xv.XOpt)) = (popIn t, true, false, none) := by
      rw [hb]; exact hsw
    have hl := XSendPacketLoop_send t.cv.InBuff.length t (ReqByte t.xv.XOpt) hin (by rw [hsw'])
      (by rw [hsw']) (by rw [hsw']) (by rw [hsw']; exact hpi)
    rw [hsw'] at hl
    exact ⟨_, hunf _ hl, by show t.xv.PktNumSent = t.xv.PktNum; rw [h0.1, h0.2.2], rfl, rfl, rfl,
      rfl, rfl, rfl, rfl, rfl⟩

/-- The sender's answer to the ACK of its EOT: success. -/
theorem XSendPacket_final (t : XSt) (hcnt : t.xv.PktBufCount = 0) (hin : t.cv.InBuff = [ACK])
    (ho : t.fv.FileOpen = false) :
    (XSendPacket t).1 = false ∧ (XSendPacket t).2.fv.Success = true := by
  have hb : BYTE ACK = ACK := rfl
  have hsw := XSendPacketSwitch_ack_closed (popIn t) ho
  rw [← hb] at hsw
  have hl := XSendPacketLoop_ret t.cv.InBuff.length t ACK [] false hin (by rw [hsw])
  rw [hsw] at hl
  unfold XSendPacket
  rw [if_pos hcnt]
  dsimp only
  rw [hl]
  exact ⟨rfl, rfl⟩


/-! ## End-to-end transfer in lock step -/

theorem XReadPacketStore_rest (r : XSt) (ht : r.xv.TextFlag = 0) :
    (XReadPacketStore r).xv.PktReadMode = r.xv.PktReadMode ∧
    (XReadPacketStore r).xv.XOpt = r.xv.XOpt ∧
    (XReadPacketStore r).xv.DataLen = r.xv.DataLen ∧
    (XReadPacketStore r).xv.CheckLen = r.xv.CheckLen ∧
    (XReadPacketStore r).xv.TextFlag = r.xv.TextFlag ∧
    (XReadPacketStore r).xv.XMode = r.xv.XMode ∧
    (XReadPacketStore r).fv.Success = r.fv.Success := by
  unfold XReadPacketStore
  dsimp only
  by_cases h0 : r.xv.PktIn 1 = 0
  · simp only [h0, if_true]
    split_ifs with h2
    · simp only [ht] at h2; omega
    · exact ⟨rfl, rfl, rfl, rfl, rfl, rfl, rfl⟩
  · simp only [h0, if_false]
    split_ifs with h2
    · simp only [ht] at h2; omega
    · exact ⟨rfl, rfl, rfl, rfl, rfl, rfl, rfl⟩

theorem CommBinaryOut_free (cv : TComVar) (B : List Nat) (h : cv.OutRoom = []) :
    (CommBinaryOut cv B).1.OutBuff = cv.OutBuff ++ B ∧ (CommBinaryOut cv B).1.OutRoom = [] := by
  unfold CommBinaryOut CommRoom
  rw [h]
  simp

/-- The receiver's answer to the next packet in sequence, on a link that accepts everything. -/
theorem XReadPacket_packet (r : XSt) (hv : ValidVariant r.xv) (hm : r.xv.PktReadMode = XpktSOH)
    (ht : r.xv.TextFlag = 0) (hroom : r.cv.OutRoom = [])
    (P : List Nat) (hP : P.length = r.xv.DataLen) (hPb : ∀ b ∈ P, b < 256)
    (hin : r.cv.InBuff = XPacket r.xv.DataLen r.xv.CheckLen ((r.xv.PktNum + 1) % 256) P) :
    (XReadPacket r).1 = true ∧
    (XReadPacket r).2.fv.WriteData = r.fv.WriteData ++ P ∧
    (XReadPacket r).2.cv.OutBuff = r.cv.OutBuff ++ [ACK] ∧
    (XReadPacket r).2.cv.OutRoom = [] ∧
    (XReadPacket r).2.cv.InBuff = [] ∧
    (XReadPacket r).2.xv.PktNum = (r.xv.PktNum + 1) % 256 ∧
    (XReadPacket r).2.xv.PktReadMode = XpktSOH ∧
    (XReadPacket r).2.xv.TextFlag = 0 ∧
    (XReadPacket r).2.xv.XMode = r.xv.XMode ∧
    (XReadPacket r).2.xv.XOpt = r.xv.XOpt ∧
    (XReadPacket r).2.xv.DataLen = r.xv.DataLen ∧
    (XReadPacket r).2.xv.CheckLen = r.xv.CheckLen ∧
    (XReadPacket r).2.fv.Success = r.fv.Success := by
  obtain ⟨-, hC2⟩ := ValidVariant_bounds hv
  have hpk : r.cv.InBuff = (if r.xv.DataLen = 128 then SOH else STX) :: ((r.xv.PktNum + 1) % 256) ::
      (255 - (r.xv.PktNum + 1) % 256) :: ((P ++ XTrailer r.xv.CheckLen P) ++ []) := by
    rw [hin]; unfold XPacket; rw [XPayload_full _ _ hP]; simp
  have hbl : (P ++ XTrailer r.xv.CheckLen P).length = r.xv.DataLen + r.xv.CheckLen := by
    rw [List.length_append, XTrailer_length _ _ hC2, hP]
  have hbytes : (P ++ XTrailer r.xv.CheckLen P).map BYTE = P ++ XTrailer r.xv.CheckLen P := by
    apply map_BYTE_of_lt
    intro b hb
    rcases List.mem_append.mp hb with h | h
    · exact hPb b h
    · exact XTrailer_bytes _ _ b h
  obtain ⟨r1, r2, r3, r4, r5, r6, r7⟩ := XReadPacketLoop_packet r hv hm ((r.xv.PktNum + 1) % 256)
    (Nat.mod_lt _ (by decide)) (P ++ XTrailer r.xv.CheckLen P) [] hbl hpk (r.cv.InBuff.length + 1)
    (by rw [hpk]; simp; omega)
  rw [hbytes] at r2
  have r2' : (XReadPacketLoop (r.cv.InBuff.length + 1) r).1.xv.PktIn =
      blit r.xv.PktIn 0 ([if r.xv.DataLen = 128 then SOH else STX, (r.xv.PktNum + 1) % 256,
        255 - (r.xv.PktNum + 1) % 256] ++ P ++ XTrailer r.xv.CheckLen P) := by
    rw [r2, List.append_assoc]
  have hb1 : (XReadPacketLoop (r.cv.InBuff.length + 1) r).1.xv.PktIn 1 = (r.xv.PktNum + 1) % 256 := by
    rw [r2]; rfl
  have hpay : (List.range (XReadPacketLoop (r.cv.InBuff.length + 1) r).1.xv.DataLen).map
      (fun i => (XReadPacketLoop (r.cv.InBuff.length + 1) r).1.xv.PktIn (3 + i)) = P := by
    rw [r2', r6, ← hP]
    exact segment_blit3 r.xv.PktIn [if P.length = 128 then SOH else STX, (r.xv.PktNum + 1) % 256,
      255 - (r.xv.PktNum + 1) % 256] P _
  have hchk : XCheckPacket (XReadPacketLoop (r.cv.InBuff.length + 1) r).1.xv = true := by
    apply XCheckPacket_packet _ r.xv.PktIn [if r.xv.DataLen = 128 then SOH else STX,
      (r.xv.PktNum + 1) % 256, 255 - (r.xv.PktNum + 1) % 256] P (by rw [r7]; exact hC2) rfl
      (by rw [r6, hP])
    rw [r7]; exact r2'
  have hf := (XReadPacketLoop_got _ r r1).1
  obtain ⟨a1, a2, a3, a4, -, -, -, -⟩ := XReadPacket_accept_new r r1 hchk hb1 ht
  rw [hpay] at a3
  refine ⟨a1, a3, ?_, ?_, ?_, a4, ?_⟩
  · rw [a2.1]; exact (CommBinaryOut_free _ _ hroom).1
  · rw [a2.2]; exact (CommBinaryOut_free _ _ hroom).2
  all_goals
    rw [XReadPacket_of_got r r1]
    have hn := hf.hNum
    have h1 : ¬ ((XReadPacketLoop (r.cv.InBuff.length + 1) r).1.xv.PktIn 1 = 0 ∧
        (XReadPacketLoop (r.cv.InBuff.length + 1) r).1.xv.PktNum = 0 ∧
        (XReadPacketLoop (r.cv.InBuff.length + 1) r).1.xv.PktNumOffset = 0) := by
      rintro ⟨a, b, -⟩
      rw [hb1, ← hn, b] at a
      simp at a
    have hd : (((XReadPacketLoop (r.cv.InBuff.length + 1) r).1.xv.PktIn 1 : Int) -
        ((XReadPacketLoop (r.cv.InBuff.length + 1) r).1.xv.PktNum : Int)) % 256 = 1 := by
      rw [hb1, hn]; omega
    rw [XReadPacketGot_new _ h1 hchk hd]
    generalize (XReadPacketLoop (r.cv.InBuff.length + 1) r).1 = lr at *
    obtain ⟨s1, s2, s3, s4, s5, s6, s7⟩ := XReadPacketStore_rest
      { (XWrite lr [ACK]).1 with xv := { lr.xv with NAKMode := XnakNAK, NAKCount := 10 } }
      (ht ▸ hf.hText)
    obtain ⟨-, -, -, -, -, -, b7⟩ := XReadPacketStore_binary
      { (XWrite lr [ACK]).1 with xv := { lr.xv with NAKMode := XnakNAK, NAKCount := 10 } }
      (ht ▸ hf.hText)
  · show (XReadPacketStore _).cv.InBuff = []
    rw [b7]; exact r4
  · refine ⟨?_, ?_, ?_, ?_, ?_, ?_, ?_⟩
    · exact s1.trans r3
    · exact s5.trans (hf.hText.trans ht)
    · exact s6.trans hf.hMode
    · exact s2.trans r5
    · exact s3.trans r6
    · exact s4.trans r7
    · exact s7.trans hf.hSucc


/-- The receiver's answer to EOT while it waits for a header. -/
theorem XReadPacket_eot (r : XSt) (hm : r.xv.PktReadMode = XpktSOH) (hroom : r.cv.OutRoom = [])
    (hin : r.cv.InBuff = [EOT]) :
    (XReadPacket r).1 = false ∧
    (XReadPacket r).2.fv.WriteData = r.fv.WriteData ∧
    (XReadPacket r).2.fv.Success = true ∧
    (XReadPacket r).2.cv.OutBuff = r.cv.OutBuff ++ [ACK] := by
  have hb : BYTE EOT = EOT := rfl
  have hbody : XReadPacketBody (popIn r) (BYTE EOT) =
      ((XWrite { popIn r with fv := { (popIn r).fv with Success := true } } [ACK]).1, false, some false) := by
    unfold XReadPacketBody
    rw [if_pos (show (popIn r).xv.PktReadMode = XpktSOH from hm)]
    unfold XReadPacketSOH
    rw [hb, if_neg (by decide), if_neg (by decide), if_pos rfl]
  have hl := XReadPacketLoop_ret r.cv.InBuff.length r EOT [] false hin (by rw [hbody])
  rw [hbody] at hl
  unfold XReadPacket
  dsimp only
  rw [hl]
  refine ⟨rfl, rfl, rfl, ?_⟩
  exact (CommBinaryOut_free _ _ (show (popIn r).cv.OutRoom = [] from hroom)).1


theorem XParse_send (s : XSt) (h : s.xv.XMode = IdXSend) : XParse s = XSendPacket s := by
  unfold XParse
  rw [if_neg (by rw [h]; decide), if_pos h]

theorem XParse_receive (s : XSt) (h : s.xv.XMode = IdXReceive) : XParse s = XReadPacket s := by
  unfold XParse
  rw [if_pos h]

theorem lockStep_done (n : Nat) (st : LockStep) (h1 : st.rxRun = false) (h2 : st.txRun = false) :
    lockStep n st = st := by
  cases n with
  | zero => rfl
  | succ n => unfold lockStep; rw [if_pos ⟨h1, h2⟩]

theorem lockStep_succ (n : Nat) (st : LockStep) (h : ¬ (st.rxRun = false ∧ st.txRun = false)) :
    lockStep (n + 1) st = lockStep n (lockStepRound st) := by
  rw [lockStep, if_neg h]

theorem lockStepRound_both (st : LockStep) (h1 : st.txRun = true) (h2 : st.rxRun = true) :
    lockStepRound st =
      { rx := (XParse (deliver (XParse (deliver st.rx st.tx).2).2 (deliver st.rx st.tx).1).2).2,
        tx := (deliver (XParse (deliver st.rx st.tx).2).2 (deliver st.rx st.tx).1).1,
        rxRun := (XParse (deliver (XParse (deliver st.rx st.tx).2).2 (deliver st.rx st.tx).1).2).1,
        txRun := (XParse (deliver st.rx st.tx).2).1 } := by
  unfold lockStepRound
  dsimp only
  rw [if_pos h1]
  dsimp only
  rw [if_pos h2]

theorem lockStepRound_tx (st : LockStep) (h1 : st.txRun = true) (h2 : st.rxRun = false) :
    lockStepRound st =
      { rx := (deliver st.rx st.tx).1,
        tx := (XParse (deliver st.rx st.tx).2).2,
        rxRun := false,
        txRun := (XParse (deliver st.rx st.tx).2).1 } := by
  unfold lockStepRound
  dsimp only
  rw [if_pos h1]
  dsimp only
  rw [if_neg (by rw [h2]; decide)]
  rw [← h2]

theorem XPayload_bytes (D : Nat) (data : List Nat) (h : ∀ b ∈ data, b < 256) :
    ∀ b ∈ XPayload D data, b < 256 := by
  intro b hb
  unfold XPayload at hb
  rcases List.mem_append.mp hb with h1 | h1
  · exact h b h1
  · rw [List.eq_of_mem_replicate h1]; decide

theorem XPacket_pad (D C n : Nat) (data : List Nat) (h : data.length ≤ D) :
    XPacket D C n data = XPacket D C n (XPayload D data) := by
  unfold XPacket
  rw [XPayload_full D (XPayload D data) (XPayload_length D data h)]


/-- A round of lock step in which the file still has data: one packet goes
over, its padded payload is written, and the run is again between two rounds. -/
theorem lockStepRound_data (V : Nat) (st : LockStep) (hinv : LockInv V st)
    (hR : st.tx.fv.ReadData ≠ []) :
    LockInv V (lockStepRound st) ∧
    (lockStepRound st).tx.fv.ReadData =
      st.tx.fv.ReadData.drop (min st.tx.xv.DataLen st.tx.fv.ReadData.length) ∧
    (lockStepRound st).rx.fv.WriteData = st.rx.fv.WriteData ++
      XPayload st.tx.xv.DataLen
        (st.tx.fv.ReadData.take (min st.tx.xv.DataLen st.tx.fv.ReadData.length)) ∧
    (lockStepRound st).tx.xv.DataLen = st.tx.xv.DataLen := by
  rw [lockStepRound_both st hinv.txRun hinv.rxRun]
  dsimp only
  -- the sender is given the pending byte
  obtain ⟨q, hq, hqc⟩ : ∃ q, st.rx.cv.OutBuff = [q] ∧
      ((q = ACK ∧ st.tx.xv.PktNumSent = BYTE (st.tx.xv.PktNum + 1)) ∨
       (q = ReqByte st.tx.xv.XOpt ∧ st.tx.xv.PktNum = 0 ∧ st.tx.xv.PktNumOffset = 0 ∧
         st.tx.xv.PktNumSent = 0)) := by
    rcases hinv.pend with ⟨h1, h2⟩ | ⟨h1, h2⟩
    · exact ⟨ACK, h1, Or.inl ⟨rfl, h2⟩⟩
    · exact ⟨ReqByte V, h1, Or.inr ⟨by rw [hinv.tOpt], h2⟩⟩
  have htin : (deliver st.rx st.tx).2.cv.InBuff = [q] := by
    show st.tx.cv.InBuff ++ st.rx.cv.OutBuff = [q]
    rw [hinv.tIn, hq]; rfl
  obtain ⟨s1, he, e1, e2, e3, e4, e5, e6, e7, e8, e9⟩ :=
    XSendPacket_respond (deliver st.rx st.tx).2 q hinv.tCnt htin hinv.tVar hinv.tOpen hqc
  rw [XParse_send _ (show (deliver st.rx st.tx).2.xv.XMode = IdXSend from hinv.tMode), he]
  have f3 : s1.fv = st.tx.fv := e3
  have f4 : s1.cv.OutRoom = [] := e4.trans hinv.tRoom
  have f5 : s1.cv.OutBuff = [] := e5.trans hinv.tOut
  have f6 : s1.xv.XMode = IdXSend := e6.trans hinv.tMode
  have f7 : s1.xv.XOpt = V := e7.trans hinv.tOpt
  have f8 : s1.xv.DataLen = st.tx.xv.DataLen := e8
  have f9 : s1.xv.CheckLen = st.tx.xv.CheckLen := e9
  have f2 : s1.xv.PktNumSent = st.tx.xv.PktNumSent := e2
  obtain ⟨hD, hC⟩ := ValidVariant_bounds hinv.tVar
  have hlenpos : 1 ≤ st.tx.fv.ReadData.length := by
    cases hr : st.tx.fv.ReadData with
    | nil => exact absurd hr hR
    | cons a l => simp
  obtain ⟨g1, g2, g3, g4, g5, g6, g7, g8, g9, g10, g11, g12, g13, g14⟩ :=
    XSendPacket_stage_data s1 e1 (by rw [f3]; exact hinv.tOpen)
      (by rw [f8, f3]; omega) (by rw [f9]; exact hC) f4
  generalize (XSendPacketOut (XSendPacketStage s1)).2 = tx1 at g2 g3 g4 g5 g6 g7 g8 g9 g10 g11 g12 g13 g14
  generalize (XSendPacketOut (XSendPacketStage s1)).1 = b1 at g1
  rw [f3, f8, f9, f5, f2, List.nil_append] at g2
  rw [f3, f8] at g14
  rw [f8] at g10
  rw [f9] at g11
  -- the receiver is given the packet
  have hdl := ValidVariant_fields hinv.rVar hinv.tVar (hinv.rOpt.trans hinv.tOpt.symm)
  have htake : ∀ b ∈ st.tx.fv.ReadData.take (min st.tx.xv.DataLen st.tx.fv.ReadData.length), b < 256 :=
    fun b hb => hinv.tBytes b (List.mem_of_mem_take hb)
  have htl : (st.tx.fv.ReadData.take (min st.tx.xv.DataLen st.tx.fv.ReadData.length)).length ≤
      st.tx.xv.DataLen := by
    rw [List.length_take]; omega
  have hrin : (deliver tx1 (deliver st.rx st.tx).1).2.cv.InBuff =
      XPacket st.rx.xv.DataLen st.rx.xv.CheckLen ((st.rx.xv.PktNum + 1) % 256)
        (XPayload st.tx.xv.DataLen
          (st.tx.fv.ReadData.take (min st.tx.xv.DataLen st.tx.fv.ReadData.length))) := by
    show st.rx.cv.InBuff ++ tx1.cv.OutBuff = _
    rw [hinv.rIn, g2, List.nil_append, map_BYTE_of_lt _ htake, hdl.1, hdl.2, hinv.num]
    exact XPacket_pad _ _ _ _ htl
  obtain ⟨k1, k2, k3, k4, k5, k6, k7, k8, k9, k10, k11, k12, k13⟩ :=
    XReadPacket_packet (deliver tx1 (deliver st.rx st.tx).1).2 hinv.rVar hinv.rRead hinv.rText
      hinv.rRoom _ (by rw [XPayload_length _ _ htl]; exact hdl.1.symm)
      (XPayload_bytes _ _ htake) hrin
  rw [XParse_receive _ (show (deliver tx1 (deliver st.rx st.tx).1).2.xv.XMode = IdXReceive from
    hinv.rMode)]
  generalize (XReadPacket (deliver tx1 (deliver st.rx st.tx).1).2).2 = rx2 at *
  generalize (XReadPacket (deliver tx1 (deliver st.rx st.tx).1).2).1 = b2 at *
  have hvt : ValidVariant tx1.xv := by
    unfold ValidVariant
    rw [g9, g10, g11, e7]
    exact hinv.tVar
  have hvr : ValidVariant rx2.xv := by
    unfold ValidVariant
    rw [k10, k11, k12]
    exact hinv.rVar
  refine ⟨?_, g14, k2, g10⟩
  constructor
  · exact k1
  · exact g1
  · exact k9.trans hinv.rMode
  · exact hvr
  · exact k10.trans hinv.rOpt
  · exact k7
  · exact k8
  · exact k5
  · exact k4
  · exact g8.trans f6
  · exact hvt
  · exact g9.trans f7
  · exact g5
  · exact g12
  · exact g3
  · rfl
  · exact g4
  · intro b hb
    have : b ∈ st.tx.fv.ReadData.drop (min st.tx.xv.DataLen st.tx.fv.ReadData.length) := by
      rw [← g14]; exact hb
    exact hinv.tBytes b (List.mem_of_mem_drop this)
  · show rx2.xv.PktNum = tx1.xv.PktNumSent
    have k6' : rx2.xv.PktNum = (st.rx.xv.PktNum + 1) % 256 := k6
    rw [k6', g6, hinv.num, f2]; rfl
  · left
    refine ⟨?_, ?_⟩
    · show rx2.cv.OutBuff = [ACK]
      rw [k3]; rfl
    · show tx1.xv.PktNumSent = BYTE (tx1.xv.PktNum + 1)
      rw [g6, g7, ← e1]


/-- The round of lock step in which the file is exhausted: EOT goes over and
the receiver finishes with success. -/
theorem lockStepRound_eot (V : Nat) (st : LockStep) (hinv : LockInv V st)
    (hR : st.tx.fv.ReadData = []) :
    (lockStepRound st).rxRun = false ∧ (lockStepRound st).txRun = true ∧
    (lockStepRound st).rx.fv.WriteData = st.rx.fv.WriteData ∧
    (lockStepRound st).rx.fv.Success = true ∧
    (lockStepRound st).rx.cv.OutBuff = [ACK] ∧
    (lockStepRound st).tx.xv.XMode = IdXSend ∧
    (lockStepRound st).tx.xv.PktBufCount = 0 ∧
    (lockStepRound st).tx.fv.FileOpen = false ∧
    (lockStepRound st).tx.cv.InBuff = [] := by
  rw [lockStepRound_both st hinv.txRun hinv.rxRun]
  dsimp only
  obtain ⟨q, hq, hqc⟩ : ∃ q, st.rx.cv.OutBuff = [q] ∧
      ((q = ACK ∧ st.tx.xv.PktNumSent = BYTE (st.tx.xv.PktNum + 1)) ∨
       (q = ReqByte st.tx.xv.XOpt ∧ st.tx.xv.PktNum = 0 ∧ st.tx.xv.PktNumOffset = 0 ∧
         st.tx.xv.PktNumSent = 0)) := by
    rcases hinv.pend with ⟨h1, h2⟩ | ⟨h1, h2⟩
    · exact ⟨ACK, h1, Or.inl ⟨rfl, h2⟩⟩
    · exact ⟨ReqByte V, h1, Or.inr ⟨by rw [hinv.tOpt], h2⟩⟩
  have htin : (deliver st.rx st.tx).2.cv.InBuff = [q] := by
    show st.tx.cv.InBuff ++ st.rx.cv.OutBuff = [q]
    rw [hinv.tIn, hq]; rfl
  obtain ⟨s1, he, e1, e2, e3, e4, e5, e6, e7, e8, e9⟩ :=
    XSendPacket_respond (deliver st.rx st.tx).2 q hinv.tCnt htin hinv.tVar hinv.tOpen hqc
  rw [XParse_send _ (show (deliver st.rx st.tx).2.xv.XMode = IdXSend from hinv.tMode), he]
  have f3 : s1.fv = st.tx.fv := e3
  have f4 : s1.cv.OutRoom = [] := e4.trans hinv.tRoom
  have f5 : s1.cv.OutBuff = [] := e5.trans hinv.tOut
  have f6 : s1.xv.XMode = IdXSend := e6.trans hinv.tMode
  obtain ⟨g1, g2, g3, g4, g5, g6, g7, g8⟩ :=
    XSendPacket_stage_eot s1 e1 (Or.inr (by rw [f3, hR]; simp)) f4
  generalize (XSendPacketOut (XSendPacketStage s1)).2 = tx1 at g2 g3 g4 g5 g6 g7 g8
  generalize (XSendPacketOut (XSendPacketStage s1)).1 = b1 at g1
  rw [f5, List.nil_append] at g2
  have hrin : (deliver tx1 (deliver st.rx st.tx).1).2.cv.InBuff = [EOT] := by
    show st.rx.cv.InBuff ++ tx1.cv.OutBuff = _
    rw [hinv.rIn, g2]; rfl
  obtain ⟨k1, k2, k3, k4⟩ := XReadPacket_eot (deliver tx1 (deliver st.rx st.tx).1).2 hinv.rRead
    hinv.rRoom hrin
  rw [XParse_receive _ (show (deliver tx1 (deliver st.rx st.tx).1).2.xv.XMode = IdXReceive from
    hinv.rMode)]
  exact ⟨k1, g1, k2, k3, k4, g6.trans f6, g5, g7, g3⟩

/-- The last round: the sender is given the ACK of its EOT and finishes with success. -/
theorem lockStepRound_final (st : LockStep) (h1 : st.rxRun = false) (h2 : st.txRun = true)
    (h3 : st.rx.cv.OutBuff = [ACK]) (h4 : st.tx.xv.XMode = IdXSend)
    (h5 : st.tx.xv.PktBufCount = 0) (h6 : st.tx.fv.FileOpen = false)
    (h7 : st.tx.cv.InBuff = []) :
    (lockStepRound st).rxRun = false ∧ (lockStepRound st).txRun = false ∧
    (lockStepRound st).rx.fv = st.rx.fv ∧
    (lockStepRound st).tx.fv.Success = true := by
  rw [lockStepRound_tx st h2 h1]
  dsimp only
  have htin : (deliver st.rx st.tx).2.cv.InBuff = [ACK] := by
    show st.tx.cv.InBuff ++ st.rx.cv.OutBuff = [ACK]
    rw [h7, h3]; rfl
  rw [XParse_send _ (show (deliver st.rx st.tx).2.xv.XMode = IdXSend from h4)]
  obtain ⟨k1, k2⟩ := XSendPacket_final (deliver st.rx st.tx).2 h5 htin h6
  exact ⟨rfl, k1, rfl, k2⟩

theorem pad_count_full (D len : Nat) (h : D ≤ len) :
    (D - (len - D) % D) % D = (D - len % D) % D := by
  have : (len - D) % D = len % D := by
    conv_rhs => rw [show len = (len - D) + D by omega]
    rw [Nat.add_mod_right]
  rw [this]

/-- Lock step from a state between two rounds: the rest of the file arrives,
padded to a whole number of packets, and both sides finish with success. -/
theorem lockStep_transfer (V : Nat) (len : Nat) : ∀ (st : LockStep), LockInv V st →
    st.tx.fv.ReadData.length = len → ∀ n, len + 2 ≤ n →
    (lockStep n st).rx.fv.WriteData = st.rx.fv.WriteData ++ st.tx.fv.ReadData ++
      List.replicate ((st.tx.xv.DataLen - len % st.tx.xv.DataLen) % st.tx.xv.DataLen) 0x1A ∧
    (lockStep n st).rx.fv.Success = true ∧ (lockStep n st).tx.fv.Success = true ∧
    (lockStep n st).rxRun = false ∧ (lockStep n st).txRun = false := by
  induction len using Nat.strong_induction_on with
  | _ len ih =>
    intro st hinv hlen n hn
    obtain ⟨m, rfl⟩ : ∃ m, n = m + 1 := ⟨n - 1, by omega⟩
    rw [lockStep_succ m st (by rw [hinv.rxRun]; simp)]
    obtain ⟨hD, -⟩ := ValidVariant_bounds hinv.tVar
    by_cases hR : st.tx.fv.ReadData = []
    · -- end of file
      obtain ⟨a1, a2, a3, a4, a5, a6, a7, a8, a9⟩ := lockStepRound_eot V st hinv hR
      obtain ⟨m', rfl⟩ : ∃ m', m = m' + 1 := ⟨m - 1, by omega⟩
      rw [lockStep_succ m' _ (by rw [a2]; simp)]
      obtain ⟨c1, c2, c3, c4⟩ := lockStepRound_final (lockStepRound st) a1 a2 a5 a6 a7 a8 a9
      rw [lockStep_done _ _ c1 c2, c3]
      have hl0 : len = 0 := by rw [← hlen, hR]; rfl
      refine ⟨?_, a4, c4, c1, c2⟩
      rw [a3, hR, hl0]
      simp
    · -- one more packet
      obtain ⟨b1, b2, b3, b4⟩ := lockStepRound_data V st hinv hR
      have hpos : 0 < len := by
        rw [← hlen]; exact List.length_pos.mpr hR
      have hlt : (lockStepRound st).tx.fv.ReadData.length < len := by
        rw [b2, List.length_drop, hlen]; omega
      obtain ⟨i1, i2, i3, i4, i5⟩ := ih _ hlt (lockStepRound st) b1 rfl m (by omega)
      refine ⟨?_, i2, i3, i4, i5⟩
      rw [i1, b3, b4, b2, List.length_drop, hlen]
      by_cases hfull : st.tx.xv.DataLen ≤ len
      · have hpf : XPayload st.tx.xv.DataLen (st.tx.fv.ReadData.take st.tx.xv.DataLen) =
            st.tx.fv.ReadData.take st.tx.xv.DataLen :=
          XPayload_full _ _ (by rw [List.length_take, hlen]; omega)
        rw [Nat.min_eq_left hfull, hpf, pad_count_full _ _ hfull, List.append_assoc,
          List.append_assoc, List.append_assoc]
        congr 1
        rw [← List.append_assoc, List.take_append_drop]
      · have hmin : min st.tx.xv.DataLen len = len := by omega
        have htk : st.tx.fv.ReadData.take len = st.tx.fv.ReadData := by
          rw [← hlen]; exact List.take_length _
        have hdr : st.tx.fv.ReadData.drop len = [] := by
          rw [← hlen]; exact List.drop_length _
        rw [hmin, htk, hdr]
        unfold XPayload
        rw [hlen]
        have e1 : (st.tx.xv.DataLen - (len - len) % st.tx.xv.DataLen) % st.tx.xv.DataLen = 0 := by
          rw [Nat.sub_self, Nat.zero_mod, Nat.sub_zero, Nat.mod_self]
        have e2 : (st.tx.xv.DataLen - len % st.tx.xv.DataLen) % st.tx.xv.DataLen =
            st.tx.xv.DataLen - len := by
          rw [Nat.mod_eq_of_lt (show len < st.tx.xv.DataLen by omega),
            Nat.mod_eq_of_lt (show st.tx.xv.DataLen - len < st.tx.xv.DataLen by omega)]
        rw [e1, e2]
        simp


/-! ## The start of a transfer and the end-to-end theorem -/

theorem XInitTimeOuts_frame (s : XSt) (ts : TTSet) :
    (XInitTimeOuts s ts).fv = s.fv ∧ (XInitTimeOuts s ts).cv = s.cv ∧
    (XInitTimeOuts s ts).xv.XOpt = s.xv.XOpt ∧ (XInitTimeOuts s ts).xv.XMode = s.xv.XMode ∧
    (XInitTimeOuts s ts).xv.TextFlag = s.xv.TextFlag ∧
    (XInitTimeOuts s ts).xv.PktNum = s.xv.PktNum ∧
    (XInitTimeOuts s ts).xv.PktNumSent = s.xv.PktNumSent ∧
    (XInitTimeOuts s ts).xv.PktNumOffset = s.xv.PktNumOffset ∧
    (XInitTimeOuts s ts).xv.PktBufCount = s.xv.PktBufCount := by
  unfold XInitTimeOuts
  dsimp only
  split_ifs <;> exact ⟨rfl, rfl, rfl, rfl, rfl, rfl, rfl, rfl, rfl⟩

/-- The session variables after the common part of `XInit` under one of the four variants. -/
theorem XInitVars_facts (s : XSt) (ts : TTSet)
    (hV : s.xv.XOpt = XoptCheck ∨ s.xv.XOpt = XoptCRC ∨ s.xv.XOpt = Xopt1kCRC ∨
      s.xv.XOpt = Xopt1kCksum) :
    (XInitVars s ts).xv.XMode = s.xv.XMode ∧ ValidVariant (XInitVars s ts).xv ∧
    (XInitVars s ts).xv.XOpt = s.xv.XOpt ∧ (XInitVars s ts).xv.TextFlag = s.xv.TextFlag ∧
    (XInitVars s ts).cv = s.cv ∧
    (XInitVars s ts).xv.PktNum = 0 ∧ (XInitVars s ts).xv.PktNumSent = 0 ∧
    (XInitVars s ts).xv.PktNumOffset = 0 ∧ (XInitVars s ts).xv.PktBufCount = 0 ∧
    (XInitVars s ts).fv.WriteData = s.fv.WriteData ∧ (XInitVars s ts).fv.ReadData = s.fv.ReadData ∧
    (XInitVars s ts).fv.FileOpen = s.fv.FileOpen ∧
    (XInitVars s ts).xv.NAKMode = (if s.xv.XOpt = XoptCheck ∨ s.xv.XOpt = Xopt1kCksum then XnakNAK else XnakC) ∧
    (XInitVars s ts).xv.NAKCount = (if s.xv.XOpt = XoptCheck ∨ s.xv.XOpt = Xopt1kCksum then 10 else 3) := by
  unfold XInitVars
  dsimp only
  obtain ⟨t1, t2, t3, t4, t5, t6, t7, t8, t9⟩ := XInitTimeOuts_frame
    { fv := { s.fv with ByteCount := 0 },
      xv := { s.xv with PktNumOffset := 0, PktNum := 0, PktNumSent := 0, PktBufCount := 0,
                        CRRecv := false, CANCount := 0 },
      cv := s.cv } ts
  generalize XInitTimeOuts
    { fv := { s.fv with ByteCount := 0 },
      xv := { s.xv with PktNumOffset := 0, PktNum := 0, PktNumSent := 0, PktBufCount := 0,
                        CRRecv := false, CANCount := 0 },
      cv := s.cv } ts = s2 at t1 t2 t3 t4 t5 t6 t7 t8 t9
  dsimp only at t1 t2 t3 t4 t5 t6 t7 t8 t9
  unfold ValidVariant
  rcases hV with h | h | h | h
  all_goals
    rw [t3, h]
    have e : ∀ o, (XSetOpt s2 o).xv.XOpt = o := by
      intro o; unfold XSetOpt; dsimp only; split_ifs <;> rfl
    rw [e]
    first
      | rw [if_pos (by decide)]
      | rw [if_neg (by decide)]
    dsimp only
    refine ⟨t4, ?_, rfl, t5, t2, t6, t7, t8, t9, ?_, ?_, ?_, rfl, rfl⟩
    · first
        | exact Or.inl ⟨rfl, rfl, rfl⟩
        | exact Or.inr (Or.inl ⟨rfl, rfl, rfl⟩)
        | exact Or.inr (Or.inr (Or.inl ⟨rfl, rfl, rfl⟩))
        | exact Or.inr (Or.inr (Or.inr ⟨rfl, rfl, rfl⟩))
    · show s2.fv.WriteData = _; rw [t1]
    · show s2.fv.ReadData = _; rw [t1]
    · show s2.fv.FileOpen = _; rw [t1]

theorem XSendNAK_budget (s : XSt) (h : 0 < s.xv.NAKCount) (hroom : s.cv.OutRoom = []) :
    (XSendNAK s).xv.XMode = s.xv.XMode ∧ (XSendNAK s).xv.XOpt = s.xv.XOpt ∧
    (XSendNAK s).xv.DataLen = s.xv.DataLen ∧ (XSendNAK s).xv.CheckLen = s.xv.CheckLen ∧
    (XSendNAK s).xv.PktReadMode = XpktSOH ∧ (XSendNAK s).xv.TextFlag = s.xv.TextFlag ∧
    (XSendNAK s).xv.PktNum = s.xv.PktNum ∧ (XSendNAK s).fv = { s.fv with TimeOut := (XSendNAK s).fv.TimeOut } ∧
    (XSendNAK s).cv.InBuff = [] ∧ (XSendNAK s).cv.OutRoom = [] ∧
    (XSendNAK s).cv.OutBuff = s.cv.OutBuff ++ [if s.xv.NAKMode = XnakNAK then NAK else 0x43] := by
  unfold XSendNAK
  dsimp only
  rw [if_neg (by omega)]
  refine ⟨rfl, rfl, rfl, rfl, rfl, rfl, rfl, rfl, rfl, ?_, ?_⟩
  · exact (CommBinaryOut_free { s.cv with InBuff := [] } _ hroom).2
  · exact (CommBinaryOut_free { s.cv with InBuff := [] } _ hroom).1

theorem XInit_receive (s : XSt) (ts : TTSet) (hm : s.xv.XMode = IdXReceive)
    (hV : s.xv.XOpt = XoptCheck ∨ s.xv.XOpt = XoptCRC ∨ s.xv.XOpt = Xopt1kCRC ∨
      s.xv.XOpt = Xopt1kCksum) (hroom : s.cv.OutRoom = []) :
    (XInit s ts).xv.XMode = IdXReceive ∧ ValidVariant (XInit s ts).xv ∧
    (XInit s ts).xv.XOpt = s.xv.XOpt ∧ (XInit s ts).xv.PktReadMode = XpktSOH ∧
    (XInit s ts).xv.TextFlag = s.xv.TextFlag ∧ (XInit s ts).cv.InBuff = [] ∧
    (XInit s ts).cv.OutRoom = [] ∧
    (XInit s ts).cv.OutBuff = s.cv.OutBuff ++ [ReqByte s.xv.XOpt] ∧
    (XInit s ts).xv.PktNum = 0 ∧ (XInit s ts).fv.WriteData = s.fv.WriteData := by
  obtain ⟨a1, a2, a3, a4, a5, a6, -, -, -, a10, -, -, a13, a14⟩ := XInitVars_facts s ts hV
  have hx : XInit s ts = XSendNAK (XInitVars s ts) := by
    unfold XInit
    dsimp only
    rw [a1, hm, if_neg (by decide), if_pos rfl]
  have hc : 0 < (XInitVars s ts).xv.NAKCount := by
    rw [a14]; split_ifs <;> decide
  obtain ⟨b1, b2, b3, b4, b5, b6, b7, b8, b9, b10, b11⟩ :=
    XSendNAK_budget (XInitVars s ts) hc (by rw [a5]; exact hroom)
  rw [hx]
  refine ⟨b1.trans (a1.trans hm), ?_, b2.trans a3, b5, b6.trans a4, b9, b10, ?_, b7.trans a6, ?_⟩
  · unfold ValidVariant at a2 ⊢
    rw [b2, b3, b4]; exact a2
  · rw [b11, a5, a13]
    unfold ReqByte
    by_cases hc : s.xv.XOpt = XoptCheck ∨ s.xv.XOpt = Xopt1kCksum
    · rw [if_pos hc, if_pos hc, if_pos rfl]
    · rw [if_neg hc, if_neg hc, if_neg (by decide)]
  · rw [b8]; exact a10

theorem XInit_send (s : XSt) (ts : TTSet) (hm : s.xv.XMode = IdXSend)
    (hV : s.xv.XOpt = XoptCheck ∨ s.xv.XOpt = XoptCRC ∨ s.xv.XOpt = Xopt1kCRC ∨
      s.xv.XOpt = Xopt1kCksum) (hroom : s.cv.OutRoom = []) :
    (XInit s ts).xv.XMode = IdXSend ∧ ValidVariant (XInit s ts).xv ∧
    (XInit s ts).xv.XOpt = s.xv.XOpt ∧ (XInit s ts).xv.PktBufCount = 0 ∧
    (XInit s ts).fv.FileOpen = s.fv.FileOpen ∧ (XInit s ts).fv.ReadData = s.fv.ReadData ∧
    (XInit s ts).cv.InBuff = s.cv.InBuff ∧ (XInit s ts).cv.OutRoom = [] ∧
    (XInit s ts).xv.PktNum = 0 ∧ (XInit s ts).xv.PktNumOffset = 0 ∧
    (XInit s ts).xv.PktNumSent = 0 := by
  obtain ⟨a1, a2, a3, a4, a5, a6, a7, a8, a9, a10, a11, a12, a13, a14⟩ := XInitVars_facts s ts hV
  by_cases hcmd : ts.XModemRcvCommand = []
  · have hx : XInit s ts = FTSetTimeOut
        { XInitVars s ts with xv := { (XInitVars s ts).xv with TextFlag := 0 } }
        (XInitVars s ts).xv.TOutVLong := by
      unfold XInit
      dsimp only
      rw [a1, hm, if_pos rfl, if_neg (by rw [hcmd]; exact fun h => h rfl)]
    rw [hx]
    refine ⟨a1.trans hm, a2, a3, a9, a12, a11, ?_, ?_, a6, a8, a7⟩
    · show (XInitVars s ts).cv.InBuff = _; rw [a5]
    · show (XInitVars s ts).cv.OutRoom = _; rw [a5]; exact hroom
  · have hx : XInit s ts = FTSetTimeOut
        (XWrite { XInitVars s ts with xv := { (XInitVars s ts).xv with TextFlag := 0 } }
          (ts.XModemRcvCommand ++ [0x20] ++ (XInitVars s ts).fv.FileName ++ [0x0D])).1
        (XInitVars s ts).xv.TOutVLong := by
      unfold XInit
      dsimp only
      rw [a1, hm, if_pos rfl, if_pos hcmd]
      rfl
    rw [hx]
    refine ⟨a1.trans hm, a2, a3, a9, a12, a11, ?_, ?_, a6, a8, a7⟩
    · show (XInitVars s ts).cv.InBuff = _; rw [a5]
    · show (XInitVars s ts).cv.OutRoom.tail = _; rw [a5, hroom]; rfl

/-- The start of a lock-step run is a state of the data phase. -/
theorem lockStepInit_inv (V : Nat) (rx0 tx0 : XSt) (tsr tst : TTSet)
    (hV : V = XoptCheck ∨ V = XoptCRC ∨ V = Xopt1kCRC ∨ V = Xopt1kCksum)
    (hrm : rx0.xv.XMode = IdXReceive) (hro : rx0.xv.XOpt = V) (hrt : rx0.xv.TextFlag = 0)
    (hrout : rx0.cv.OutBuff = []) (hrroom : rx0.cv.OutRoom = [])
    (htm : tx0.xv.XMode = IdXSend) (hto : tx0.xv.XOpt = V) (htopen : tx0.fv.FileOpen = true)
    (htin : tx0.cv.InBuff = []) (htroom : tx0.cv.OutRoom = [])
    (hbytes : ∀ b ∈ tx0.fv.ReadData, b < 256) :
    LockInv V (lockStepInit rx0 tx0 tsr tst) ∧
    (lockStepInit rx0 tx0 tsr tst).rx.fv.WriteData = rx0.fv.WriteData ∧
    (lockStepInit rx0 tx0 tsr tst).tx.fv.ReadData = tx0.fv.ReadData ∧
    ((lockStepInit rx0 tx0 tsr tst).rx.cv.OutBuff = [ReqByte V] ∧
      (lockStepInit rx0 tx0 tsr tst).tx.xv.PktNum = 0 ∧
      (lockStepInit rx0 tx0 tsr tst).tx.xv.PktNumOffset = 0 ∧
      (lockStepInit rx0 tx0 tsr tst).tx.xv.PktNumSent = 0) := by
  obtain ⟨r1, r2, r3, r4, r5, r6, r7, r8, r9, r10⟩ :=
    XInit_receive rx0 tsr hrm (by rw [hro]; exact hV) hrroom
  obtain ⟨t1, t2, t3, t4, t5, t6, t7, t8, t9, t10, t11⟩ :=
    XInit_send tx0 tst htm (by rw [hto]; exact hV) htroom
  have hstart : (lockStepInit rx0 tx0 tsr tst).rx.cv.OutBuff = [ReqByte V] ∧
      (lockStepInit rx0 tx0 tsr tst).tx.xv.PktNum = 0 ∧
      (lockStepInit rx0 tx0 tsr tst).tx.xv.PktNumOffset = 0 ∧
      (lockStepInit rx0 tx0 tsr tst).tx.xv.PktNumSent = 0 := by
    refine ⟨?_, t9, t10, t11⟩
    show (XInit rx0 tsr).cv.OutBuff = _
    rw [r8, hrout, hro]; rfl
  refine ⟨?_, r10, t6, hstart⟩
  constructor
  · rfl
  · rfl
  · exact r1
  · exact r2
  · exact r3.trans hro
  · exact r4
  · exact r5.trans hrt
  · exact r6
  · exact r7
  · exact t1
  · exact t2
  · exact t3.trans hto
  · exact t4
  · exact t5.trans htopen
  · exact t7.trans htin
  · rfl
  · exact t8
  · intro b hb
    exact hbytes b (t6 ▸ hb)
  · exact r9.trans t11.symm
  · exact Or.inr hstart

/-- C6. End-to-end transfer: a sender holding the file `F` and a binary-mode
receiver, both initialised by `XInit` with the same variant `V` and run in
lossless lock step from the receiver's first request byte on, finish within
`|F| + 2` rounds; the receiver has then written exactly `F` followed by
`(DataLen - |F| mod DataLen) mod DataLen` bytes 0x1A (none when `|F|` is a
multiple of `DataLen`), for files of any length, and both sides have
`Success` set and are no longer scheduled. -/
theorem lockStep_end_to_end (V : Nat) (rx0 tx0 : XSt) (tsr tst : TTSet)
    (hV : V = XoptCheck ∨ V = XoptCRC ∨ V = Xopt1kCRC ∨ V = Xopt1kCksum)
    (hrm : rx0.xv.XMode = IdXReceive) (hro : rx0.xv.XOpt = V) (hrt : rx0.xv.TextFlag = 0)
    (hrout : rx0.cv.OutBuff = []) (hrroom : rx0.cv.OutRoom = [])
    (htm : tx0.xv.XMode = IdXSend) (hto : tx0.xv.XOpt = V) (htopen : tx0.fv.FileOpen = true)
    (htin : tx0.cv.InBuff = []) (htroom : tx0.cv.OutRoom = [])
    (hbytes : ∀ b ∈ tx0.fv.ReadData, b < 256) (n : Nat) (hn : tx0.fv.ReadData.length + 2 ≤ n) :
    (lockStep n (lockStepInit rx0 tx0 tsr tst)).rx.fv.WriteData =
      rx0.fv.WriteData ++ tx0.fv.ReadData ++
        List.replicate
          (((if V = XoptCheck ∨ V = XoptCRC then 128 else 1024) -
            tx0.fv.ReadData.length % (if V = XoptCheck ∨ V = XoptCRC then 128 else 1024)) %
              (if V = XoptCheck ∨ V = XoptCRC then 128 else 1024)) 0x1A ∧
    (lockStep n (lockStepInit rx0 tx0 tsr tst)).rx.fv.Success = true ∧
    (lockStep n (lockStepInit rx0 tx0 tsr tst)).tx.fv.Success = true ∧
    (lockStep n (lockStepInit rx0 tx0 tsr tst)).rxRun = false ∧
    (lockStep n (lockStepInit rx0 tx0 tsr tst)).txRun = false := by
  obtain ⟨inv, hw, hr, -⟩ := lockStepInit_inv V rx0 tx0 tsr tst hV hrm hro hrt hrout hrroom htm hto
    htopen htin htroom hbytes
  have key := lockStep_transfer V tx0.fv.ReadData.length (lockStepInit rx0 tx0 tsr tst) inv
    (by rw [hr]) n hn
  have hD : (lockStepInit rx0 tx0 tsr tst).tx.xv.DataLen =
      (if V = XoptCheck ∨ V = XoptCRC then 128 else 1024) := by
    have hv := inv.tVar
    have ho := inv.tOpt
    unfold ValidVariant at hv
    rcases hv with ⟨h1, h2, -⟩ | ⟨h1, h2, -⟩ | ⟨h1, h2, -⟩ | ⟨h1, h2, -⟩
    all_goals
      rw [h2, ← ho, h1]
      decide
  rw [hD, hw, hr] at key
  exact key


/-! ## A corrupted first packet and a NAK after the first packet -/

theorem XSendNAK_budget_nak (s : XSt) (h : 0 < s.xv.NAKCount) :
    (XSendNAK s).xv.NAKCount = s.xv.NAKCount - 1 ∧ (XSendNAK s).xv.NAKMode = s.xv.NAKMode ∧
    (XSendNAK s).xv.PktNumOffset = s.xv.PktNumOffset := by
  unfold XSendNAK
  dsimp only
  rw [if_neg (by omega)]
  exact ⟨rfl, rfl, rfl⟩

/-- A packet whose last CRC byte differs from the computed one is answered by `XSendNAK`. -/
theorem XReadPacket_bad_crc (r : XSt) (hv : ValidVariant r.xv) (hc : r.xv.CheckLen = 2)
    (hm : r.xv.PktReadMode = XpktSOH) (hroom : r.cv.OutRoom = []) (hnak : 0 < r.xv.NAKCount)
    (blk : Nat) (hblk : blk < 256) (hblk0 : blk ≠ 0)
    (P : List Nat) (hP : P.length = r.xv.DataLen) (hPb : ∀ b ∈ P, b < 256)
    (T : Nat) (hT : T < 256) (hTne : T ≠ LOBYTE (CheckOf 2 P))
    (hin : r.cv.InBuff = (if r.xv.DataLen = 128 then SOH else STX) :: blk :: (255 - blk) ::
      ((P ++ [HIBYTE (CheckOf 2 P), T]) ++ [])) :
    (XReadPacketLoop (r.cv.InBuff.length + 1) r).2.1 = true ∧
    XCheckPacket (XReadPacketLoop (r.cv.InBuff.length + 1) r).1.xv = false ∧
    (XReadPacket r).1 = true ∧
    (XReadPacket r).2.fv.WriteData = r.fv.WriteData ∧
    (XReadPacket r).2.cv.OutBuff = r.cv.OutBuff ++ [if r.xv.NAKMode = XnakNAK then NAK else 0x43] ∧
    (XReadPacket r).2.xv.PktNum = r.xv.PktNum ∧
    (XReadPacket r).2.xv.NAKCount = r.xv.NAKCount - 1 := by
  have hbl : (P ++ [HIBYTE (CheckOf 2 P), T]).length = r.xv.DataLen + r.xv.CheckLen := by
    rw [List.length_append, hP, hc]; rfl
  have hbytes : (P ++ [HIBYTE (CheckOf 2 P), T]).map BYTE = P ++ [HIBYTE (CheckOf 2 P), T] := by
    apply map_BYTE_of_lt
    intro b hb
    rcases List.mem_append.mp hb with h | h
    · exact hPb b h
    · simp only [List.mem_cons, List.mem_singleton, List.not_mem_nil, or_false] at h
      rcases h with h | h
      · rw [h]; exact HIBYTE_lt _
      · rw [h]; exact hT
  obtain ⟨r1, r2, r3, r4, r5, r6, r7⟩ := XReadPacketLoop_packet r hv hm blk hblk
    (P ++ [HIBYTE (CheckOf 2 P), T]) [] hbl hin (r.cv.InBuff.length + 1)
    (by rw [hin]; simp; omega)
  rw [hbytes] at r2
  have r2' : (XReadPacketLoop (r.cv.InBuff.length + 1) r).1.xv.PktIn =
      blit r.xv.PktIn 0 ([if r.xv.DataLen = 128 then SOH else STX, blk, 255 - blk] ++ P ++
        [HIBYTE (CheckOf 2 P), T]) := by
    rw [r2, List.append_assoc]
  have hb1 : (XReadPacketLoop (r.cv.InBuff.length + 1) r).1.xv.PktIn 1 = blk := by
    rw [r2]; rfl
  obtain ⟨hf, -⟩ := XReadPacketLoop_got _ r r1
  have hchk : XCheckPacket (XReadPacketLoop (r.cv.InBuff.length + 1) r).1.xv = false := by
    have hcalc : XCalcCheck (XReadPacketLoop (r.cv.InBuff.length + 1) r).1.xv
        (XReadPacketLoop (r.cv.InBuff.length + 1) r).1.xv.PktIn = CheckOf 2 P := by
      rw [XCalcCheck_eq_CheckOf, r7, hc, r2', r6, ← hP]
      congr 1
      exact segment_blit3 r.xv.PktIn [if P.length = 128 then SOH else STX, blk, 255 - blk] P _
    have ht := segment_blit r.xv.PktIn
      ([if r.xv.DataLen = 128 then SOH else STX, blk, 255 - blk] ++ P) [HIBYTE (CheckOf 2 P), T]
    rw [← r2'] at ht
    have hr : List.range 2 = [0, 1] := rfl
    simp only [List.length_cons, List.length_nil, hr, List.map_cons, List.map_nil,
      List.cons.injEq, and_true, Nat.add_zero, List.length_append, hP] at ht
    unfold XCheckPacket
    dsimp only
    rw [hcalc, r7, hc, if_neg (by decide), r6]
    have e4 : r.xv.DataLen + 4 = 0 + 1 + 1 + 1 + r.xv.DataLen + 1 := by omega
    rw [e4, ht.2]
    have : (LOBYTE (CheckOf 2 P) == T) = false := by
      rw [beq_eq_false_iff_ne]; exact fun h => hTne h.symm
    rw [this, Bool.and_false]
  have h1 : ¬ ((XReadPacketLoop (r.cv.InBuff.length + 1) r).1.xv.PktIn 1 = 0 ∧
      (XReadPacketLoop (r.cv.InBuff.length + 1) r).1.xv.PktNum = 0 ∧
      (XReadPacketLoop (r.cv.InBuff.length + 1) r).1.xv.PktNumOffset = 0) := by
    rintro ⟨a, -, -⟩
    rw [hb1] at a
    exact hblk0 a
  have hx : XReadPacket r = (true, XSendNAK (XReadPacketLoop (r.cv.InBuff.length + 1) r).1) := by
    rw [XReadPacket_of_got r r1, XReadPacketGot_bad _ h1 hchk]
  refine ⟨r1, hchk, ?_, ?_, ?_, ?_, ?_⟩
  · rw [hx]
  all_goals
    rw [hx]
    generalize (XReadPacketLoop (r.cv.InBuff.length + 1) r).1 = lr at *
    obtain ⟨b1, b2, b3, b4, b5, b6, b7, b8, b9, b10, b11⟩ :=
      XSendNAK_budget lr (by rw [hf.hNakC]; exact hnak) (by rw [hf.hRoom]; exact hroom)
    obtain ⟨c1, -, -⟩ := XSendNAK_budget_nak lr (by rw [hf.hNakC]; exact hnak)
  · show (XSendNAK lr).fv.WriteData = _
    rw [b8]; exact hf.hWrite
  · show (XSendNAK lr).cv.OutBuff = _
    rw [b11, hf.hOut, hf.hNak]
  · show (XSendNAK lr).xv.PktNum = _
    rw [b7]; exact hf.hNum
  · show (XSendNAK lr).xv.NAKCount = _
    rw [c1, hf.hNakC]

/-- A sender that has sent its first packet passes over 'C': nothing is staged or written. -/
theorem XSendPacket_stray_C (t : XSt) (hcnt : t.xv.PktBufCount = 0) (hin : t.cv.InBuff = [0x43])
    (hs : t.xv.PktNumSent ≠ 0) :
    XSendPacket t = (true, { popIn t with xv := { t.xv with CANCount := 0 } }) := by
  have hsw : XSendPacketSwitch (popIn t) (BYTE 0x43) = (popIn t, false, false, none) := by
    unfold XSendPacketSwitch
    rw [if_neg (by decide), if_neg (by decide), if_neg (by decide), if_pos (by decide)]
    rw [if_neg (fun h => hs h.2.2)]
  unfold XSendPacket
  rw [if_pos hcnt, hin]
  simp only [List.length_singleton, XSendPacketLoop, XRead1Byte_cons t 0x43 [] hin, hsw]
  rw [if_neg (by simp), if_neg (by simp)]
  rw [XRead1Byte_nil _ (by show (popIn t).cv.InBuff = []; exact popIn_cons t _ _ hin)]
  rfl

/-- The packet buffer and the block offset after a new data packet has been staged and written. -/
theorem XSendPacket_stage_buf (s : XSt) (hs : s.xv.PktNumSent = s.xv.PktNum)
    (ho : s.fv.FileOpen = true) (hm : 1 ≤ min s.xv.DataLen s.fv.ReadData.length)
    (hroom : s.cv.OutRoom = []) :
    (XSendPacketOut (XSendPacketStage s)).2.xv.PktOut =
      blit s.xv.PktOut 0 (XPacket s.xv.DataLen s.xv.CheckLen (BYTE (s.xv.PktNumSent + 1))
        ((s.fv.ReadData.take (min s.xv.DataLen s.fv.ReadData.length)).map BYTE)) ∧
    (XSendPacketOut (XSendPacketStage s)).2.xv.PktNumOffset = s.xv.PktNumOffset := by
  have hstage : XSendPacketStage s =
      { XSendPacketNew (XDrain (FTSetTimeOut s s.xv.TOutVLong)) with
        xv := { (XSendPacketNew (XDrain (FTSetTimeOut s s.xv.TOutVLong))).xv with PktBufPtr := 0 } } := by
    unfold XSendPacketStage
    dsimp only
    have e : (XDrain (FTSetTimeOut s s.xv.TOutVLong)).xv = s.xv := by rw [XDrain_eq]; rfl
    rw [e, if_pos hs]
  obtain ⟨s0, hs0, f1, f2, f3, f4⟩ : ∃ s0, XDrain (FTSetTimeOut s s.xv.TOutVLong) = s0 ∧
      s0.fv.FileOpen = true ∧ s0.xv = s.xv ∧ s0.fv.ReadData = s.fv.ReadData ∧
      s0.cv.OutRoom = [] :=
    ⟨_, rfl, by rw [XDrain_eq]; exact ho, by rw [XDrain_eq]; rfl, by rw [XDrain_eq]; rfl,
      by rw [XDrain_eq]; exact hroom⟩
  rw [hstage, hs0, XSendPacketNew_data s0 f1 (by rw [f2, f3]; exact hm)]
  unfold XSendPacketOut
  dsimp only
  rw [XDrain_eq]
  dsimp only
  have e2 : (3 + (s0.xv.DataLen : Int) + (s0.xv.CheckLen : Int)).toNat =
      3 + s0.xv.DataLen + s0.xv.CheckLen := by omega
  rw [e2]
  have hw := XSendPacketWrite_eq (3 + s0.xv.DataLen + s0.xv.CheckLen)
    { fv := { s0.fv with
        ReadData := s0.fv.ReadData.drop (min s0.xv.DataLen s0.fv.ReadData.length),
        ByteCount := s0.fv.ByteCount + (min s0.xv.DataLen s0.fv.ReadData.length : Nat) },
      xv := { s0.xv with
        PktNumSent := BYTE (s0.xv.PktNumSent + 1),
        PktOut := blit s0.xv.PktOut 0 (XPacket s0.xv.DataLen s0.xv.CheckLen (BYTE (s0.xv.PktNumSent + 1))
          ((s0.fv.ReadData.take (min s0.xv.DataLen s0.fv.ReadData.length)).map BYTE)),
        PktBufCount := 3 + (s0.xv.DataLen : Int) + s0.xv.CheckLen,
        PktBufPtr := 0 },
      cv := { s0.cv with InBuff := [] } }
    f4 (by dsimp only; push_cast; ring) (by dsimp only; decide)
  dsimp only at hw
  rw [hw]
  dsimp only
  rw [f2] at *
  rw [f3]
  exact ⟨rfl, rfl⟩

/-- The sender's answer to the opening request, with the session the packet is staged from. -/
theorem XSendPacket_request (t : XSt) (hcnt : t.xv.PktBufCount = 0)
    (hin : t.cv.InBuff = [ReqByte t.xv.XOpt]) (hv : ValidVariant t.xv)
    (h0 : t.xv.PktNum = 0 ∧ t.xv.PktNumOffset = 0 ∧ t.xv.PktNumSent = 0) :
    XSendPacket t = XSendPacketOut (XSendPacketStage
      { popIn t with xv := { t.xv with CANCount := 0 } }) := by
  have hpi : (popIn t).cv.InBuff = [] := popIn_cons t _ [] hin
  have hb : BYTE (ReqByte t.xv.XOpt) = ReqByte t.xv.XOpt := by
    unfold ReqByte; split_ifs <;> rfl
  have hsw := XSendPacketSwitch_request (popIn t) hv h0
  have hsw' : XSendPacketSwitch (popIn t) (BYTE (ReqByte t.xv.XOpt)) = (popIn t, true, false, none) := by
    rw [hb]; exact hsw
  have hl := XSendPacketLoop_send t.cv.InBuff.length t (ReqByte t.xv.XOpt) hin (by rw [hsw'])
    (by rw [hsw']) (by rw [hsw']) (by rw [hsw']; exact hpi)
  rw [hsw'] at hl
  unfold XSendPacket
  rw [if_pos hcnt]
  dsimp only
  rw [hl]
  rfl

/-- The first turn of the sender: the opening request is answered with packet 1. -/
theorem senderTurn_first (V : Nat) (st : LockStep) (hinv : LockInv V st)
    (hR : st.tx.fv.ReadData ≠ [])
    (hstart : st.rx.cv.OutBuff = [ReqByte V] ∧ st.tx.xv.PktNum = 0 ∧
      st.tx.xv.PktNumOffset = 0 ∧ st.tx.xv.PktNumSent = 0) :
    (senderTurn st).txRun = true ∧ (senderTurn st).rxRun = true ∧
    (senderTurn st).rx = (deliver st.rx st.tx).1 ∧
    (senderTurn st).tx.cv.OutBuff = XPacket st.tx.xv.DataLen st.tx.xv.CheckLen 1
      (st.tx.fv.ReadData.take (min st.tx.xv.DataLen st.tx.fv.ReadData.length)) ∧
    (senderTurn st).tx.cv.InBuff = [] ∧ (senderTurn st).tx.cv.OutRoom = [] ∧
    (senderTurn st).tx.xv.PktBufCount = 0 ∧ (senderTurn st).tx.xv.PktNumSent = 1 ∧
    (senderTurn st).tx.xv.PktNum = 0 ∧ (senderTurn st).tx.xv.PktNumOffset = 0 ∧
    (senderTurn st).tx.xv.XMode = IdXSend ∧ (senderTurn st).tx.xv.XOpt = V ∧
    (senderTurn st).tx.xv.DataLen = st.tx.xv.DataLen ∧
    (senderTurn st).tx.xv.CheckLen = st.tx.xv.CheckLen ∧
    PktBytes (senderTurn st).tx.xv.PktOut (3 + st.tx.xv.DataLen + st.tx.xv.CheckLen) =
      XPacket st.tx.xv.DataLen st.tx.xv.CheckLen 1
        (st.tx.fv.ReadData.take (min st.tx.xv.DataLen st.tx.fv.ReadData.length)) := by
  obtain ⟨h1, h2, h3, h4⟩ := hstart
  unfold senderTurn
  dsimp only
  have htin : (deliver st.rx st.tx).2.cv.InBuff = [ReqByte st.tx.xv.XOpt] := by
    show st.tx.cv.InBuff ++ st.rx.cv.OutBuff = _
    rw [hinv.tIn, h1, hinv.tOpt]; rfl
  have he := XSendPacket_request (deliver st.rx st.tx).2 hinv.tCnt htin hinv.tVar ⟨h2, h3, h4⟩
  rw [XParse_send _ (show (deliver st.rx st.tx).2.xv.XMode = IdXSend from hinv.tMode), he]
  obtain ⟨s1, hs1, e1, f2, f3, f4, f5, f6, f7, f8, f9, f10⟩ : ∃ s1,
      { popIn (deliver st.rx st.tx).2 with
        xv := { (deliver st.rx st.tx).2.xv with CANCount := 0 } } = s1 ∧
      s1.xv.PktNumSent = s1.xv.PktNum ∧ s1.xv.PktNumSent = 0 ∧ s1.fv = st.tx.fv ∧
      s1.cv.OutRoom = [] ∧ s1.cv.OutBuff = [] ∧ s1.xv.XMode = IdXSend ∧ s1.xv.XOpt = V ∧
      s1.xv.DataLen = st.tx.xv.DataLen ∧ s1.xv.CheckLen = st.tx.xv.CheckLen ∧
      s1.xv.PktNumOffset = 0 :=
    ⟨_, rfl, h4.trans h2.symm, h4, rfl, hinv.tRoom, hinv.tOut, hinv.tMode, hinv.tOpt, rfl, rfl, h3⟩
  rw [hs1]
  obtain ⟨hD, hC⟩ := ValidVariant_bounds hinv.tVar
  have hlenpos : 1 ≤ st.tx.fv.ReadData.length := by
    cases hr : st.tx.fv.ReadData with
    | nil => exact absurd hr hR
    | cons a l => simp
  obtain ⟨g1, g2, g3, g4, g5, g6, g7, g8, g9, g10, g11, g12, g13, g14⟩ :=
    XSendPacket_stage_data s1 e1 (by rw [f3]; exact hinv.tOpen)
      (by rw [f8, f3]; omega) (by rw [f9]; exact hC) f4
  obtain ⟨u1, u2⟩ := XSendPacket_stage_buf s1 e1 (by rw [f3]; exact hinv.tOpen)
      (by rw [f8, f3]; omega) f4
  generalize (XSendPacketOut (XSendPacketStage s1)).2 = tx1 at *
  generalize (XSendPacketOut (XSendPacketStage s1)).1 = b1 at *
  have htake : ∀ b ∈ st.tx.fv.ReadData.take (min st.tx.xv.DataLen st.tx.fv.ReadData.length), b < 256 :=
    fun b hb => hinv.tBytes b (List.mem_of_mem_take hb)
  have htl : (st.tx.fv.ReadData.take (min st.tx.xv.DataLen st.tx.fv.ReadData.length)).length ≤
      st.tx.xv.DataLen := by
    rw [List.length_take]; omega
  have hone : BYTE (0 + 1) = 1 := rfl
  rw [f3, f8, f9, f5, f2, List.nil_append, map_BYTE_of_lt _ htake, hone] at g2
  rw [f3, f8, f9, f2, map_BYTE_of_lt _ htake, hone] at u1
  refine ⟨g1, hinv.rxRun, rfl, g2, g3, g4, g5, ?_, ?_, ?_, g8.trans f6, g9.trans f7,
    g10.trans f8, g11.trans f9, ?_⟩
  · rw [g6, f2]; rfl
  · rw [g7, ← e1, f2]
  · rw [u2]; exact f10
  · rw [u1]
    exact PktBytes_blit_zero _ _ _ (XPacket_length _ _ _ _ htl hC)


theorem XInit_receive_nak (s : XSt) (ts : TTSet) (hm : s.xv.XMode = IdXReceive)
    (hV : s.xv.XOpt = XoptCRC ∨ s.xv.XOpt = Xopt1kCRC) :
    (XInit s ts).xv.NAKMode = XnakC ∧ (XInit s ts).xv.NAKCount = 2 ∧
    (XInit s ts).xv.PktNumOffset = 0 := by
  obtain ⟨a1, a2, a3, a4, a5, a6, -, a8, -, a10, -, -, a13, a14⟩ := XInitVars_facts s ts
    (by rcases hV with h | h
        · exact Or.inr (Or.inl h)
        · exact Or.inr (Or.inr (Or.inl h)))
  have hx : XInit s ts = XSendNAK (XInitVars s ts) := by
    unfold XInit
    dsimp only
    rw [a1, hm, if_neg (by decide), if_pos rfl]
  have hn : ¬ (s.xv.XOpt = XoptCheck ∨ s.xv.XOpt = Xopt1kCksum) := by
    rcases hV with h | h <;> rw [h] <;> decide
  rw [if_neg hn] at a13 a14
  obtain ⟨c1, c2, c3⟩ := XSendNAK_budget_nak (XInitVars s ts) (by rw [a14]; decide)
  rw [hx, c1, c2, c3, a13, a14, a8]
  exact ⟨rfl, rfl, rfl⟩

theorem corruptAt_last (A : List Nat) (H L n : Nat) (hn : n = A.length + 1) :
    corruptAt (A ++ [H, L]) n = A ++ [H, (L + 1) % 256] := by
  subst hn
  unfold corruptAt
  have hg : (A ++ [H, L]).getD (A.length + 1) 0 = L := by
    rw [List.getD_eq_getElem?_getD, List.getElem?_append_right (by omega)]
    simp
  rw [hg, List.set_append]
  simp


/-- C7, the code where the claim fails. A sender and a receiver initialised
with the same CRC variant run in lock step; the last trailer byte of the
first transmission of packet 1 is changed on the way.  The receiver assembles
the packet, `XCheckPacket` rejects it, nothing is written to the file and,
with retries left (`NAKCount = 1`), the reply is 'C' (0x43), not NAK.  Given
that reply, the sender passes over it: it stages and writes nothing, so
packet 1 is not retransmitted. -/
theorem crc_first_packet_not_resent (V : Nat) (rx0 tx0 : XSt) (tsr tst : TTSet)
    (hV : V = XoptCRC ∨ V = Xopt1kCRC)
    (hrm : rx0.xv.XMode = IdXReceive) (hro : rx0.xv.XOpt = V) (hrt : rx0.xv.TextFlag = 0)
    (hrout : rx0.cv.OutBuff = []) (hrroom : rx0.cv.OutRoom = [])
    (htm : tx0.xv.XMode = IdXSend) (hto : tx0.xv.XOpt = V) (htopen : tx0.fv.FileOpen = true)
    (htin : tx0.cv.InBuff = []) (htroom : tx0.cv.OutRoom = [])
    (hbytes : ∀ b ∈ tx0.fv.ReadData, b < 256) (hF : tx0.fv.ReadData ≠ []) :
    (senderTurn (lockStepInit rx0 tx0 tsr tst)).tx.cv.OutBuff =
      XPacket (if V = XoptCRC then 128 else 1024) 2 1
        (tx0.fv.ReadData.take (min (if V = XoptCRC then 128 else 1024) tx0.fv.ReadData.length)) ∧
    XCheckPacket (XReadPacketLoop
      ((corruptFeed (senderTurn (lockStepInit rx0 tx0 tsr tst))
          ((if V = XoptCRC then 128 else 1024) + 4)).cv.InBuff.length + 1)
      (corruptFeed (senderTurn (lockStepInit rx0 tx0 tsr tst))
          ((if V = XoptCRC then 128 else 1024) + 4))).1.xv = false ∧
    (receiverTurnCorrupt (senderTurn (lockStepInit rx0 tx0 tsr tst))
      ((if V = XoptCRC then 128 else 1024) + 4)).rx.cv.OutBuff = [0x43] ∧
    (receiverTurnCorrupt (senderTurn (lockStepInit rx0 tx0 tsr tst))
      ((if V = XoptCRC then 128 else 1024) + 4)).rx.fv.WriteData = rx0.fv.WriteData ∧
    (receiverTurnCorrupt (senderTurn (lockStepInit rx0 tx0 tsr tst))
      ((if V = XoptCRC then 128 else 1024) + 4)).rx.xv.NAKCount = 1 ∧
    (receiverTurnCorrupt (senderTurn (lockStepInit rx0 tx0 tsr tst))
      ((if V = XoptCRC then 128 else 1024) + 4)).rxRun = true ∧
    (senderTurn (receiverTurnCorrupt (senderTurn (lockStepInit rx0 tx0 tsr tst))
      ((if V = XoptCRC then 128 else 1024) + 4))).tx.cv.OutBuff = [] ∧
    (senderTurn (receiverTurnCorrupt (senderTurn (lockStepInit rx0 tx0 tsr tst))
      ((if V = XoptCRC then 128 else 1024) + 4))).tx.xv.PktBufCount = 0 ∧
    (senderTurn (receiverTurnCorrupt (senderTurn (lockStepInit rx0 tx0 tsr tst))
      ((if V = XoptCRC then 128 else 1024) + 4))).txRun = true := by
  have hV4 : V = XoptCheck ∨ V = XoptCRC ∨ V = Xopt1kCRC ∨ V = Xopt1kCksum := by
    rcases hV with h | h
    · exact Or.inr (Or.inl h)
    · exact Or.inr (Or.inr (Or.inl h))
  obtain ⟨inv, hw, hr, hstart⟩ := lockStepInit_inv V rx0 tx0 tsr tst hV4 hrm hro hrt hrout hrroom
    htm hto htopen htin htroom hbytes
  obtain ⟨n1, n2, n3⟩ : (lockStepInit rx0 tx0 tsr tst).rx.xv.NAKMode = XnakC ∧
      (lockStepInit rx0 tx0 tsr tst).rx.xv.NAKCount = 2 ∧
      (lockStepInit rx0 tx0 tsr tst).rx.xv.PktNumOffset = 0 :=
    XInit_receive_nak rx0 tsr hrm (by rw [hro]; exact hV)
  generalize lockStepInit rx0 tx0 tsr tst = st0 at *
  generalize hD : (if V = XoptCRC then 128 else 1024) = D
  have htD : st0.tx.xv.DataLen = D ∧ st0.tx.xv.CheckLen = 2 := by
    have hv := inv.tVar
    have ho := inv.tOpt
    unfold ValidVariant at hv
    rcases hV with h | h <;> rcases hv with ⟨h1, h2, h3⟩ | ⟨h1, h2, h3⟩ | ⟨h1, h2, h3⟩ | ⟨h1, h2, h3⟩
    all_goals
      first
        | (rw [ho, h] at h1; exact absurd h1 (by decide))
        | (rw [h2, h3, ← hD, h]; exact ⟨by decide, rfl⟩)
  obtain ⟨hrD, hrC⟩ := ValidVariant_fields inv.rVar inv.tVar (inv.rOpt.trans inv.tOpt.symm)
  rw [htD.1] at hrD
  rw [htD.2] at hrC
  obtain ⟨s1, s2, s3, s4, s5, s6, s7, s8, s9, s10, s11, s12, s13, s14, s15⟩ :=
    senderTurn_first V st0 inv (by rw [hr]; exact hF) hstart
  rw [htD.1, htD.2, hr] at s4
  generalize senderTurn st0 = st1 at *
  -- the receiver is given the packet with its last byte changed
  have hPl : (XPayload D (tx0.fv.ReadData.take (min D tx0.fv.ReadData.length))).length = D :=
    XPayload_length _ _ (by rw [List.length_take]; omega)
  have hPb : ∀ b ∈ XPayload D (tx0.fv.ReadData.take (min D tx0.fv.ReadData.length)), b < 256 :=
    XPayload_bytes _ _ (fun b hb => hbytes b (List.mem_of_mem_take hb))
  generalize hP : XPayload D (tx0.fv.ReadData.take (min D tx0.fv.ReadData.length)) = P at hPl hPb
  have hfeed : (corruptFeed st1 (D + 4)).cv.InBuff =
      (if (corruptFeed st1 (D + 4)).xv.DataLen = 128 then SOH else STX) :: 1 :: (255 - 1) ::
        ((P ++ [HIBYTE (CheckOf 2 P), (LOBYTE (CheckOf 2 P) + 1) % 256]) ++ []) := by
    show st1.rx.cv.InBuff ++ corruptAt st1.tx.cv.OutBuff (D + 4) = _
    have e1 : st1.rx.cv.InBuff = [] := by rw [s3]; exact inv.rIn
    have e2 : (corruptFeed st1 (D + 4)).xv.DataLen = D := by
      show st1.rx.xv.DataLen = D
      rw [s3]; exact hrD
    rw [e1, e2, s4, List.nil_append]
    unfold XPacket XTrailer
    rw [hP, if_neg (show ¬ ((2 : Nat) = 1) by decide)]
    have := corruptAt_last ([if D = 128 then SOH else STX, 1, 255 - 1] ++ P) (HIBYTE (CheckOf 2 P))
      (LOBYTE (CheckOf 2 P)) (D + 4) (by rw [List.length_append, hPl]; simp; omega)
    rw [List.append_assoc] at this ⊢
    rw [this]
    simp
  have hne : (LOBYTE (CheckOf 2 P) + 1) % 256 ≠ LOBYTE (CheckOf 2 P) := by
    have := LOBYTE_lt (CheckOf 2 P)
    omega
  obtain ⟨k1, k2, k3, k4, k5, k6, k7⟩ := XReadPacket_bad_crc (corruptFeed st1 (D + 4))
    (by show ValidVariant st1.rx.xv; rw [s3]; exact inv.rVar)
    (by show st1.rx.xv.CheckLen = 2; rw [s3]; exact hrC)
    (by show st1.rx.xv.PktReadMode = XpktSOH; rw [s3]; exact inv.rRead)
    (by show st1.rx.cv.OutRoom = []; rw [s3]; exact inv.rRoom)
    (by show 0 < st1.rx.xv.NAKCount; rw [s3]; show 0 < st0.rx.xv.NAKCount; rw [n2]; decide)
    1 (by decide) (by decide) P
    (by show P.length = st1.rx.xv.DataLen; rw [s3]; exact hPl.trans hrD.symm)
    hPb _ (Nat.mod_lt _ (by decide)) hne hfeed
  have hpr : XParse (corruptFeed st1 (D + 4)) = XReadPacket (corruptFeed st1 (D + 4)) :=
    XParse_receive _ (by show st1.rx.xv.XMode = IdXReceive; rw [s3]; exact inv.rMode)
  have hout : (XReadPacket (corruptFeed st1 (D + 4))).2.cv.OutBuff = [0x43] := by
    rw [k5]
    have e1 : (corruptFeed st1 (D + 4)).cv.OutBuff = [] := by
      show st1.rx.cv.OutBuff = []; rw [s3]; rfl
    have e2 : (corruptFeed st1 (D + 4)).xv.NAKMode = XnakC := by
      show st1.rx.xv.NAKMode = XnakC; rw [s3]; exact n1
    rw [e1, e2]; rfl
  refine ⟨s4, k2, ?_, ?_, ?_, ?_, ?_⟩
  · show (XParse (corruptFeed st1 (D + 4))).2.cv.OutBuff = _
    rw [hpr]; exact hout
  · show (XParse (corruptFeed st1 (D + 4))).2.fv.WriteData = _
    rw [hpr, k4]
    show st1.rx.fv.WriteData = _
    rw [s3]; exact hw
  · show (XParse (corruptFeed st1 (D + 4))).2.xv.NAKCount = _
    rw [hpr, k7]
    show st1.rx.xv.NAKCount - 1 = 1
    rw [s3]
    show st0.rx.xv.NAKCount - 1 = 1
    rw [n2]; rfl
  · show (XParse (corruptFeed st1 (D + 4))).1 = true
    rw [hpr]; exact k3
  · -- the sender is given the reply
    have hps : XParse (deliver (receiverTurnCorrupt st1 (D + 4)).rx
          (receiverTurnCorrupt st1 (D + 4)).tx).2 =
        XSendPacket (deliver (receiverTurnCorrupt st1 (D + 4)).rx
          (receiverTurnCorrupt st1 (D + 4)).tx).2 :=
      XParse_send _ s11
    have hsc := XSendPacket_stray_C (deliver (receiverTurnCorrupt st1 (D + 4)).rx
        (receiverTurnCorrupt st1 (D + 4)).tx).2 s7
      (by show st1.tx.cv.InBuff ++ (XParse (corruptFeed st1 (D + 4))).2.cv.OutBuff = _
          rw [s5, hpr, hout]; rfl)
      (by show st1.tx.xv.PktNumSent ≠ 0; rw [s8]; decide)
    unfold senderTurn
    dsimp only
    rw [hps, hsc]
    exact ⟨rfl, s7, rfl⟩


/-- NAK in answer to the first packet of a CRC sender: the variant is taken
back to checksum and the staged bytes go out again one byte short. -/
theorem XSendPacket_nak_first (t : XSt) (hcnt : t.xv.PktBufCount = 0) (hin : t.cv.InBuff = [NAK])
    (h0 : t.xv.PktNum = 0 ∧ t.xv.PktNumOffset = 0)
    (hV : t.xv.XOpt = XoptCRC ∨ t.xv.XOpt = Xopt1kCRC)
    (hsent : t.xv.PktNumSent ≠ t.xv.PktNum) (hroom : t.cv.OutRoom = [])
    (hdata : t.xv.PktOut 0 ≠ EOT) :
    (XSendPacket t).1 = true ∧
    (XSendPacket t).2.cv.OutBuff = t.cv.OutBuff ++
      PktBytes t.xv.PktOut (3 + (if t.xv.XOpt = XoptCRC then 128 else 1024) + 1) ∧
    (XSendPacket t).2.xv.CheckLen = 1 ∧
    (XSendPacket t).2.xv.DataLen = (if t.xv.XOpt = XoptCRC then 128 else 1024) ∧
    (XSendPacket t).2.xv.XOpt = (if t.xv.XOpt = XoptCRC then XoptCheck else Xopt1kCksum) ∧
    (XSendPacket t).2.xv.PktOut = t.xv.PktOut ∧
    (XSendPacket t).2.xv.PktNumSent = t.xv.PktNumSent := by
  have hpi : (popIn t).cv.InBuff = [] := popIn_cons t _ [] hin
  have hsw : XSendPacketSwitch (popIn t) (BYTE NAK) =
      (XSetOpt (popIn t) (if t.xv.XOpt = XoptCRC then XoptCheck else Xopt1kCksum),
        true, false, none) := by
    unfold XSendPacketSwitch
    rw [if_neg (by decide), if_pos (by decide)]
    dsimp only
    rw [if_pos (show (popIn t).xv.PktNum = 0 ∧ (popIn t).xv.PktNumOffset = 0 from h0)]
    rcases hV with h | h
    · rw [if_pos (show (popIn t).xv.XOpt = XoptCRC from h), if_pos h]
    · rw [if_neg (show ¬ (popIn t).xv.XOpt = XoptCRC by
        show ¬ t.xv.XOpt = XoptCRC; rw [h]; decide),
        if_pos (show (popIn t).xv.XOpt = Xopt1kCRC from h), if_neg (by rw [h]; decide)]
  have hl := XSendPacketLoop_send t.cv.InBuff.length t NAK hin (by rw [hsw]) (by rw [hsw])
    (by rw [hsw]) (by rw [hsw]; exact hpi)
  rw [hsw] at hl
  have hx : XSendPacket t = XSendPacketOut (XSendPacketStage
      { XSetOpt (popIn t) (if t.xv.XOpt = XoptCRC then XoptCheck else Xopt1kCksum) with
        xv := { (XSetOpt (popIn t) (if t.xv.XOpt = XoptCRC then XoptCheck else Xopt1kCksum)).xv with
          CANCount := 0 } }) := by
    unfold XSendPacket
    rw [if_pos hcnt]
    dsimp only
    rw [hl]
  rw [hx]
  obtain ⟨s1, hs1, a1, a2, a3, a4, a5, a6, a7, a8, a9⟩ : ∃ s1,
      { XSetOpt (popIn t) (if t.xv.XOpt = XoptCRC then XoptCheck else Xopt1kCksum) with
        xv := { (XSetOpt (popIn t) (if t.xv.XOpt = XoptCRC then XoptCheck else Xopt1kCksum)).xv with
          CANCount := 0 } } = s1 ∧
      s1.xv.PktNumSent = t.xv.PktNumSent ∧ s1.xv.PktNum = t.xv.PktNum ∧
      s1.xv.PktOut = t.xv.PktOut ∧ s1.cv.OutRoom = [] ∧ s1.cv.OutBuff = t.cv.OutBuff ∧
      s1.xv.DataLen = (if t.xv.XOpt = XoptCRC then 128 else 1024) ∧ s1.xv.CheckLen = 1 ∧
      s1.xv.XOpt = (if t.xv.XOpt = XoptCRC then XoptCheck else Xopt1kCksum) ∧
      s1.xv.PktBufCount = 0 := by
    refine ⟨_, rfl, ?_⟩
    rcases hV with h | h
    · rw [h]; exact ⟨rfl, rfl, rfl, hroom, rfl, rfl, rfl, rfl, hcnt⟩
    · rw [h]; exact ⟨rfl, rfl, rfl, hroom, rfl, rfl, rfl, rfl, hcnt⟩
  rw [hs1]
  generalize (if t.xv.XOpt = XoptCRC then 128 else 1024) = D at *
  generalize (if t.xv.XOpt = XoptCRC then XoptCheck else Xopt1kCksum) = W at *
  have hstage : XSendPacketStage s1 =
      { XDrain (FTSetTimeOut s1 s1.xv.TOutVLong) with
        xv := { (XDrain (FTSetTimeOut s1 s1.xv.TOutVLong)).xv with
          PktBufCount := 3 + (s1.xv.DataLen : Int) + s1.xv.CheckLen, PktBufPtr := 0 } } := by
    unfold XSendPacketStage
    dsimp only
    have e : (XDrain (FTSetTimeOut s1 s1.xv.TOutVLong)).xv = s1.xv := by rw [XDrain_eq]; rfl
    rw [e, if_neg (by rw [a1, a2]; exact hsent)]
    unfold XSendPacketResend
    rw [e, if_neg (by rw [a3]; exact hdata)]
  rw [hstage]
  unfold XSendPacketOut
  dsimp only
  rw [XDrain_eq, XDrain_eq]
  dsimp only
  rw [a6, a7]
  have e2 : (3 + (D : Int) + ((1 : Nat) : Int)).toNat = 3 + D + 1 := by omega
  rw [e2]
  have hw := XSendPacketWrite_eq (3 + D + 1)
    { fv := (FTSetTimeOut s1 s1.xv.TOutVLong).fv,
      xv := { s1.xv with PktBufCount := 3 + (D : Int) + ((1 : Nat) : Int), PktBufPtr := 0 },
      cv := { s1.cv with InBuff := [] } }
    a4 (by dsimp only; push_cast; ring) (by dsimp only; decide)
  dsimp only at hw
  erw [hw]
  dsimp only
  refine ⟨rfl, ?_, a7, a6, a8, a3, a1⟩
  rw [a5, a3]
  simp only [Int.toNat_zero, Nat.zero_add]
  rfl


theorem PktBytes_take (buf : Nat → Nat) (k n : Nat) (h : k ≤ n) :
    (PktBytes buf n).take k = PktBytes buf k := by
  unfold PktBytes
  rw [← List.map_take, List.take_range, Nat.min_eq_left h]

/-- C9, the code where the claim fails. A sender initialised with a CRC
variant has answered the opening request with packet 1: the packet is staged
and fully written (`PktBufCount = 0`, `PktNumSent = (PktNum + 1) mod 256`,
`DataLen + 5` bytes).  A NAK received in that state does not make it send the
same bytes again: the variant is taken back to the checksum variant of the
same payload length (`CheckLen` 2 becomes 1) and what is written is the old
packet without its last byte, `DataLen + 4` bytes. -/
theorem nak_after_first_crc_packet (V : Nat) (rx0 tx0 : XSt) (tsr tst : TTSet)
    (hV : V = XoptCRC ∨ V = Xopt1kCRC)
    (hrm : rx0.xv.XMode = IdXReceive) (hro : rx0.xv.XOpt = V) (hrt : rx0.xv.TextFlag = 0)
    (hrout : rx0.cv.OutBuff = []) (hrroom : rx0.cv.OutRoom = [])
    (htm : tx0.xv.XMode = IdXSend) (hto : tx0.xv.XOpt = V) (htopen : tx0.fv.FileOpen = true)
    (htin : tx0.cv.InBuff = []) (htroom : tx0.cv.OutRoom = [])
    (hbytes : ∀ b ∈ tx0.fv.ReadData, b < 256) (hF : tx0.fv.ReadData ≠ []) :
    (senderTurn (lockStepInit rx0 tx0 tsr tst)).tx.cv.OutBuff =
      XPacket (if V = XoptCRC then 128 else 1024) 2 1
        (tx0.fv.ReadData.take (min (if V = XoptCRC then 128 else 1024) tx0.fv.ReadData.length)) ∧
    (senderTurn (lockStepInit rx0 tx0 tsr tst)).tx.cv.OutBuff.length =
      (if V = XoptCRC then 128 else 1024) + 5 ∧
    (senderTurn (lockStepInit rx0 tx0 tsr tst)).tx.xv.PktBufCount = 0 ∧
    (senderTurn (lockStepInit rx0 tx0 tsr tst)).tx.xv.PktNumSent =
      BYTE ((senderTurn (lockStepInit rx0 tx0 tsr tst)).tx.xv.PktNum + 1) ∧
    (senderTurn (lockStepInit rx0 tx0 tsr tst)).tx.xv.XOpt = V ∧
    (senderTurn (lockStepInit rx0 tx0 tsr tst)).tx.xv.CheckLen = 2 ∧
    (XParse (nakFeed (senderTurn (lockStepInit rx0 tx0 tsr tst)))).2.cv.OutBuff =
      (XPacket (if V = XoptCRC then 128 else 1024) 2 1
        (tx0.fv.ReadData.take (min (if V = XoptCRC then 128 else 1024) tx0.fv.ReadData.length))).take
          ((if V = XoptCRC then 128 else 1024) + 4) ∧
    (XParse (nakFeed (senderTurn (lockStepInit rx0 tx0 tsr tst)))).2.cv.OutBuff.length =
      (if V = XoptCRC then 128 else 1024) + 4 ∧
    (XParse (nakFeed (senderTurn (lockStepInit rx0 tx0 tsr tst)))).2.xv.XOpt =
      (if V = XoptCRC then XoptCheck else Xopt1kCksum) ∧
    (XParse (nakFeed (senderTurn (lockStepInit rx0 tx0 tsr tst)))).2.xv.CheckLen = 1 := by
  have hV4 : V = XoptCheck ∨ V = XoptCRC ∨ V = Xopt1kCRC ∨ V = Xopt1kCksum := by
    rcases hV with h | h
    · exact Or.inr (Or.inl h)
    · exact Or.inr (Or.inr (Or.inl h))
  obtain ⟨inv, hw, hr, hstart⟩ := lockStepInit_inv V rx0 tx0 tsr tst hV4 hrm hro hrt hrout hrroom
    htm hto htopen htin htroom hbytes
  generalize lockStepInit rx0 tx0 tsr tst = st0 at *
  generalize hD : (if V = XoptCRC then 128 else 1024) = D
  have htD : st0.tx.xv.DataLen = D ∧ st0.tx.xv.CheckLen = 2 := by
    have hv := inv.tVar
    have ho := inv.tOpt
    unfold ValidVariant at hv
    rcases hV with h | h <;> rcases hv with ⟨h1, h2, h3⟩ | ⟨h1, h2, h3⟩ | ⟨h1, h2, h3⟩ | ⟨h1, h2, h3⟩
    all_goals
      first
        | (rw [ho, h] at h1; exact absurd h1 (by decide))
        | (rw [h2, h3, ← hD, h]; exact ⟨by decide, rfl⟩)
  obtain ⟨s1, s2, s3, s4, s5, s6, s7, s8, s9, s10, s11, s12, s13, s14, s15⟩ :=
    senderTurn_first V st0 inv (by rw [hr]; exact hF) hstart
  rw [htD.1, htD.2, hr] at s4 s15
  rw [htD.1] at s13
  rw [htD.2] at s14
  generalize senderTurn st0 = st1 at *
  have hlen : (XPacket D 2 1 (tx0.fv.ReadData.take (min D tx0.fv.ReadData.length))).length =
      3 + D + 2 :=
    XPacket_length _ _ _ _ (by rw [List.length_take]; omega) (Or.inr rfl)
  have hhead : st1.tx.xv.PktOut 0 ≠ EOT := by
    have h1 := congrArg (List.take 1) s15
    rw [PktBytes_take _ _ _ (by omega)] at h1
    have h2 : PktBytes st1.tx.xv.PktOut 1 = [st1.tx.xv.PktOut 0] := rfl
    rw [h2] at h1
    unfold XPacket at h1
    simp only [List.cons_append, List.take_succ_cons, List.take_zero, List.cons.injEq,
      and_true] at h1
    rw [h1]
    split_ifs <;> decide
  generalize XPacket D 2 1 (tx0.fv.ReadData.take (min D tx0.fv.ReadData.length)) = pk at *
  have hIf : (if (nakFeed st1).xv.XOpt = XoptCRC then 128 else 1024) = D := by
    show (if st1.tx.xv.XOpt = XoptCRC then 128 else 1024) = D
    rw [s12]; exact hD
  obtain ⟨k1, k2, k3, k4, k5, k6, k7⟩ := XSendPacket_nak_first (nakFeed st1) s7 rfl ⟨s9, s10⟩
    (by show st1.tx.xv.XOpt = XoptCRC ∨ st1.tx.xv.XOpt = Xopt1kCRC; rw [s12]; exact hV)
    (by show st1.tx.xv.PktNumSent ≠ st1.tx.xv.PktNum; rw [s8, s9]; decide) s6 hhead
  rw [hIf] at k2
  have hps : XParse (nakFeed st1) = XSendPacket (nakFeed st1) := XParse_send _ s11
  have hout : (XSendPacket (nakFeed st1)).2.cv.OutBuff = pk.take (D + 4) := by
    rw [k2, ← s15, PktBytes_take _ _ _ (by omega)]
    show [] ++ PktBytes st1.tx.xv.PktOut (3 + D + 1) = _
    rw [List.nil_append]
    congr 1
    omega
  refine ⟨s4, by rw [s4, hlen]; omega, s7, by rw [s8, s9]; rfl, s12, s14, ?_, ?_, ?_, ?_⟩
  · rw [hps, hout]
  · rw [hps, hout, List.length_take, hlen]; omega
  · rw [hps, k5]
    show (if st1.tx.xv.XOpt = XoptCRC then XoptCheck else Xopt1kCksum) = _
    rw [s12]
  · rw [hps, k3]


/-! ## Witnesses of the receiving theorems -/

theorem XReadPacket_check_mismatch_witness :
    ((XReadPacketLoop ((exRecv 1 0 0 5).cv.InBuff.length + 1) (exRecv 1 0 0 5)).2.1 = true ∧
     XCheckPacket (XReadPacketLoop ((exRecv 1 0 0 5).cv.InBuff.length + 1) (exRecv 1 0 0 5)).1.xv = false) ∧
    ((XReadPacket (exRecv 1 0 0 5)).2.fv.WriteData = (exRecv 1 0 0 5).fv.WriteData ∧
     (∃ B, Wrote (exRecv 1 0 0 5).cv (XReadPacket (exRecv 1 0 0 5)).2.cv B ∧ ACK ∉ B) ∧
     (XReadPacket (exRecv 1 0 0 5)).2.xv.PktNum = (exRecv 1 0 0 5).xv.PktNum ∧
     (XReadPacket (exRecv 1 0 0 5)).2.xv.PktNumOffset = (exRecv 1 0 0 5).xv.PktNumOffset ∧
     (XReadPacket (exRecv 1 0 0 5)).2.fv.ByteCount = (exRecv 1 0 0 5).fv.ByteCount) :=
  ⟨⟨by decide, by decide⟩, XReadPacket_check_mismatch (exRecv 1 0 0 5) (by decide) (by decide)⟩

theorem XReadPacket_new_packet_witness :
    (XReadPacket (exRecv 1 0 0 0)).1 = true ∧
    Wrote (exRecv 1 0 0 0).cv (XReadPacket (exRecv 1 0 0 0)).2.cv [ACK] ∧
    (XReadPacket (exRecv 1 0 0 0)).2.xv.PktNum = 1 ∧
    (XReadPacket (exRecv 1 0 0 0)).2.fv.ByteCount = 128 :=
  have h := XReadPacket_new_packet (exRecv 1 0 0 0) (by decide) (by decide) (by decide) (by decide)
  ⟨h.1, h.2.1, h.2.2.2.1, h.2.2.2.2.2.1⟩

theorem XReadPacket_duplicate_witness :
    (XReadPacket (exRecv 1 1 0 0)).1 = true ∧
    Wrote (exRecv 1 1 0 0).cv (XReadPacket (exRecv 1 1 0 0)).2.cv [ACK] ∧
    (XReadPacket (exRecv 1 1 0 0)).2.fv.WriteData = [] :=
  have h := (XReadPacket_duplicate (exRecv 1 1 0 0) (by decide) (by decide) (by decide) (by decide)).1
  ⟨h.1, h.2.1, h.2.2.1⟩

theorem XReadPacket_gap_cancels_witness :
    (XParse (exRecv 7 5 0 0)).1 = false ∧
    Wrote (exRecv 7 5 0 0).cv (XParse (exRecv 7 5 0 0)).2.cv [CAN, CAN, CAN, CAN, CAN, BS, BS, BS, BS, BS] ∧
    (XParse (exRecv 7 5 0 0)).2.fv.WriteData = [] ∧
    (XParse (exRecv 7 5 0 0)).2.xv.XMode = 0 :=
  XReadPacket_gap_cancels (exRecv 7 5 0 0) (by decide) (by decide) (by decide) (by decide) (by decide)

/-! ## Witnesses of the sending and end-to-end theorems -/

theorem XCalcCheck_is_byte_sum_witness :
    (exRecv 1 0 0 5).xv.CheckLen = 1 ∧
    XCalcCheck (exRecv 1 0 0 5).xv (fun i => 250 + i % 6) = 66 ∧
    XCalcCheck (exRecv 1 0 0 5).xv (fun i => 250 + i % 6) < 256 :=
  have h := XCalcCheck_is_byte_sum (exRecv 1 0 0 5).xv (fun i => 250 + i % 6) (by decide)
  ⟨by decide, h.1.trans (by decide), h.2.1⟩

theorem XSendPacketNew_composition_witness :
    PktBytes (XSendPacketNew (exSender XoptCRC exFile)).xv.PktOut 133 =
      [SOH, 1, 254, 72, 69, 76, 76, 79, 10] ++ List.replicate 122 0x1A ++
        XTrailer 2 ([72, 69, 76, 76, 79, 10] ++ List.replicate 122 0x1A) ∧
    (XSendPacketNew (exSender XoptCRC exFile)).xv.PktBufCount = 133 ∧
    (XSendPacketNew (exSender XoptCRC exFile)).fv.ByteCount = 6 :=
  have h := (XSendPacketNew_composition (exSender XoptCRC exFile) (by decide) (by decide)
    (by decide)).1 (by decide) (by decide)
  ⟨h.1, h.2.1, h.2.2.1⟩

theorem framing_round_trip_witness :
    (exFed XoptCRC (exSender XoptCRC (List.replicate 128 65 ++ exFile))).cv.InBuff =
      [SOH, 1, 254] ++ List.replicate 128 65 ++ XTrailer 2 (List.replicate 128 65) ∧
    (XReadPacketLoop 134 (exFed XoptCRC (exSender XoptCRC (List.replicate 128 65 ++ exFile)))).1.xv.PktIn 1 = 1 ∧
    XCheckPacket
      (XReadPacketLoop 134 (exFed XoptCRC (exSender XoptCRC (List.replicate 128 65 ++ exFile)))).1.xv = true :=
  have h := framing_round_trip (exSender XoptCRC (List.replicate 128 65 ++ exFile))
    (exFed XoptCRC (exSender XoptCRC (List.replicate 128 65 ++ exFile))) 1 (List.replicate 128 65) exFile
    (by unfold ValidVariant; decide) (by unfold ValidVariant; decide) (by decide) (by decide)
    (by decide) (by decide) (by decide) (by decide) (by decide) (by decide) (by unfold exFed; rfl)
  ⟨h.1, h.2.2.1, h.2.2.2.2.2.2.2⟩

theorem lockStep_end_to_end_witness :
    (lockStep 8 (lockStepInit (exSession IdXReceive XoptCRC []) (exSession IdXSend XoptCRC exFile)
      exTTSet exTTSet)).rx.fv.WriteData = [72, 69, 76, 76, 79, 10] ++ List.replicate 122 0x1A ∧
    (lockStep 8 (lockStepInit (exSession IdXReceive XoptCRC []) (exSession IdXSend XoptCRC exFile)
      exTTSet exTTSet)).rx.fv.Success = true ∧
    (lockStep 8 (lockStepInit (exSession IdXReceive XoptCRC []) (exSession IdXSend XoptCRC exFile)
      exTTSet exTTSet)).tx.fv.Success = true :=
  have h := lockStep_end_to_end XoptCRC (exSession IdXReceive XoptCRC [])
    (exSession IdXSend XoptCRC exFile) exTTSet exTTSet (by decide) (by decide) (by decide)
    (by decide) (by decide) (by decide) (by decide) (by decide) (by decide) (by decide) (by decide)
    (by decide) 8 (by decide)
  ⟨h.1, h.2.1, h.2.2.1⟩

theorem crc_first_packet_not_resent_witness :
    (receiverTurnCorrupt (senderTurn (lockStepInit (exSession IdXReceive XoptCRC [])
      (exSession IdXSend XoptCRC exFile) exTTSet exTTSet))
      ((if XoptCRC = XoptCRC then 128 else 1024) + 4)).rx.cv.OutBuff = [0x43] ∧
    (senderTurn (receiverTurnCorrupt (senderTurn (lockStepInit (exSession IdXReceive XoptCRC [])
      (exSession IdXSend XoptCRC exFile) exTTSet exTTSet))
      ((if XoptCRC = XoptCRC then 128 else 1024) + 4))).tx.cv.OutBuff = [] ∧
    (senderTurn (receiverTurnCorrupt (senderTurn (lockStepInit (exSession IdXReceive XoptCRC [])
      (exSession IdXSend XoptCRC exFile) exTTSet exTTSet))
      ((if XoptCRC = XoptCRC then 128 else 1024) + 4))).txRun = true :=
  have h := crc_first_packet_not_resent XoptCRC (exSession IdXReceive XoptCRC [])
    (exSession IdXSend XoptCRC exFile) exTTSet exTTSet (by decide) (by decide) (by decide)
    (by decide) (by decide) (by decide) (by decide) (by decide) (by decide) (by decide) (by decide)
    (by decide) (by decide)
  ⟨h.2.2.1, h.2.2.2.2.2.2.1, h.2.2.2.2.2.2.2.2⟩

theorem nak_after_first_crc_packet_witness :
    (senderTurn (lockStepInit (exSession IdXReceive XoptCRC [])
      (exSession IdXSend XoptCRC exFile) exTTSet exTTSet)).tx.cv.OutBuff.length =
      (if XoptCRC = XoptCRC then 128 else 1024) + 5 ∧
    (XParse (nakFeed (senderTurn (lockStepInit (exSession IdXReceive XoptCRC [])
      (exSession IdXSend XoptCRC exFile) exTTSet exTTSet)))).2.cv.OutBuff.length =
      (if XoptCRC = XoptCRC then 128 else 1024) + 4 ∧
    (XParse (nakFeed (senderTurn (lockStepInit (exSession IdXReceive XoptCRC [])
      (exSession IdXSend XoptCRC exFile) exTTSet exTTSet)))).2.xv.CheckLen = 1 :=
  have h := nak_after_first_crc_packet XoptCRC (exSession IdXReceive XoptCRC [])
    (exSession IdXSend XoptCRC exFile) exTTSet exTTSet (by decide) (by decide) (by decide)
    (by decide) (by decide) (by decide) (by decide) (by decide) (by decide) (by decide) (by decide)
    (by decide) (by decide)
  ⟨h.2.1, h.2.2.2.2.2.2.2.1, h.2.2.2.2.2.2.2.2.2⟩

/-! ## The CRC on fixed payloads -/

/-- The CRC of 128 bytes 0x00, folded in runs of 16 bytes. -/
theorem crc_fold_zero :
    List.foldl (fun crc b => UpdateCRC b crc) 0
      (List.replicate 16 0 ++ List.replicate 16 0 ++ List.replicate 16 0 ++ List.replicate 16 0 ++ List.replicate 16 0 ++ List.replicate 16 0 ++ List.replicate 16 0 ++ List.replicate 16 0) = 0x0000 := by
  have h0 : List.foldl (fun crc b => UpdateCRC b crc) 0 (List.replicate 16 0) = 0 := by decide
  have h1 : List.foldl (fun crc b => UpdateCRC b crc) 0 (List.replicate 16 0) = 0 := by decide
  have h2 : List.foldl (fun crc b => UpdateCRC b crc) 0 (List.replicate 16 0) = 0 := by decide
  have h3 : List.foldl (fun crc b => UpdateCRC b crc) 0 (List.replicate 16 0) = 0 := by decide
  have h4 : List.foldl (fun crc b => UpdateCRC b crc) 0 (List.replicate 16 0) = 0 := by decide
  have h5 : List.foldl (fun crc b => UpdateCRC b crc) 0 (List.replicate 16 0) = 0 := by decide
  have h6 : List.foldl (fun crc b => UpdateCRC b crc) 0 (List.replicate 16 0) = 0 := by decide
  have h7 : List.foldl (fun crc b => UpdateCRC b crc) 0 (List.replicate 16 0) = 0 := by decide
  simp only [List.foldl_append, h0, h1, h2, h3, h4, h5, h6, h7]

/-- The CRC of 128 bytes 0xFF, folded in runs of 16 bytes. -/
theorem crc_fold_FF :
    List.foldl (fun crc b => UpdateCRC b crc) 0
      (List.replicate 16 255 ++ List.replicate 16 255 ++ List.replicate 16 255 ++ List.replicate 16 255 ++ List.replicate 16 255 ++ List.replicate 16 255 ++ List.replicate 16 255 ++ List.replicate 16 255) = 0xEDA9 := by
  have h0 : List.foldl (fun crc b => UpdateCRC b crc) 0 (List.replicate 16 255) = 65 := by decide
  have h1 : List.foldl (fun crc b => UpdateCRC b crc) 65 (List.replicate 16 255) = 33972 := by decide
  have h2 : List.foldl (fun crc b => UpdateCRC b crc) 33972 (List.replicate 16 255) = 38108 := by decide
  have h3 : List.foldl (fun crc b => UpdateCRC b crc) 38108 (List.replicate 16 255) = 10126 := by decide
  have h4 : List.foldl (fun crc b => UpdateCRC b crc) 10126 (List.replicate 16 255) = 35830 := by decide
  have h5 : List.foldl (fun crc b => UpdateCRC b crc) 35830 (List.replicate 16 255) = 35350 := by decide
  have h6 : List.foldl (fun crc b => UpdateCRC b crc) 35350 (List.replicate 16 255) = 49469 := by decide
  have h7 : List.foldl (fun crc b => UpdateCRC b crc) 49469 (List.replicate 16 255) = 60841 := by decide
  simp only [List.foldl_append, h0, h1, h2, h3, h4, h5, h6, h7]

/-- The CRC of the nine bytes "123456789". -/
theorem crc_fold_digits :
    List.foldl (fun crc b => UpdateCRC b crc) 0
      ([0x31, 0x32, 0x33, 0x34, 0x35, 0x36, 0x37, 0x38, 0x39]) = 0x31C3 := by
  have h0 : List.foldl (fun crc b => UpdateCRC b crc) 0 ([0x31, 0x32, 0x33, 0x34, 0x35, 0x36, 0x37, 0x38, 0x39]) = 12739 := by decide
  simp only [List.foldl_append, h0]

/-- The CRC of "HELLO", a line feed and 122 bytes 0x1A, folded in runs of at most 16 bytes. -/
theorem crc_fold_hello :
    List.foldl (fun crc b => UpdateCRC b crc) 0
      ([72, 69, 76, 76, 79, 10] ++ List.replicate 10 0x1A ++ List.replicate 16 0x1A ++ List.replicate 16 0x1A ++ List.replicate 16 0x1A ++ List.replicate 16 0x1A ++ List.replicate 16 0x1A ++ List.replicate 16 0x1A ++ List.replicate 16 0x1A) = 0xE442 := by
  have h0 : List.foldl (fun crc b => UpdateCRC b crc) 0 ([72, 69, 76, 76, 79, 10]) = 41143 := by decide
  have h1 : List.foldl (fun crc b => UpdateCRC b crc) 41143 (List.replicate 10 0x1A) = 34289 := by decide
  have h2 : List.foldl (fun crc b => UpdateCRC b crc) 34289 (List.replicate 16 0x1A) = 59065 := by decide
  have h3 : List.foldl (fun crc b => UpdateCRC b crc) 59065 (List.replicate 16 0x1A) = 51588 := by decide
  have h4 : List.foldl (fun crc b => UpdateCRC b crc) 51588 (List.replicate 16 0x1A) = 14111 := by decide
  have h5 : List.foldl (fun crc b => UpdateCRC b crc) 14111 (List.replicate 16 0x1A) = 55710 := by decide
  have h6 : List.foldl (fun crc b => UpdateCRC b crc) 55710 (List.replicate 16 0x1A) = 12291 := by decide
  have h7 : List.foldl (fun crc b => UpdateCRC b crc) 12291 (List.replicate 16 0x1A) = 17276 := by decide
  have h8 : List.foldl (fun crc b => UpdateCRC b crc) 17276 (List.replicate 16 0x1A) = 58434 := by decide
  simp only [List.foldl_append, h0, h1, h2, h3, h4, h5, h6, h7, h8]


theorem replicate_128 (v : Nat) :
    List.replicate 128 v = List.replicate 16 v ++ List.replicate 16 v ++ List.replicate 16 v ++
      List.replicate 16 v ++ List.replicate 16 v ++ List.replicate 16 v ++ List.replicate 16 v ++
      List.replicate 16 v := by
  simp only [← List.replicate_add]

theorem replicate_122 (v : Nat) :
    List.replicate 122 v = List.replicate 10 v ++ List.replicate 16 v ++ List.replicate 16 v ++
      List.replicate 16 v ++ List.replicate 16 v ++ List.replicate 16 v ++ List.replicate 16 v ++
      List.replicate 16 v := by
  simp only [← List.replicate_add]

theorem CheckOf_crc_zero : CheckOf 2 (List.replicate 128 0) = 0x0000 := by
  unfold CheckOf
  rw [if_neg (by decide), replicate_128]
  exact crc_fold_zero

theorem CheckOf_crc_FF : CheckOf 2 (List.replicate 128 0xFF) = 0xEDA9 := by
  unfold CheckOf
  rw [if_neg (by decide), replicate_128]
  exact crc_fold_FF

theorem CheckOf_crc_digits :
    CheckOf 2 [0x31, 0x32, 0x33, 0x34, 0x35, 0x36, 0x37, 0x38, 0x39] = 0x31C3 := by
  unfold CheckOf
  rw [if_neg (by decide)]
  exact crc_fold_digits

theorem CheckOf_crc_hello :
    CheckOf 2 ([72, 69, 76, 76, 79, 10] ++ List.replicate 122 0x1A) = 0xE442 := by
  unfold CheckOf
  rw [if_neg (by decide), replicate_122]
  simp only [← List.append_assoc]
  exact crc_fold_hello

/-- C11. The CRC that `XCalcCheck` computes for a two-byte check, the fold
of the CRC-16/XMODEM step from 0 over the payload bytes in order, on the fixed
payloads: 128 bytes 0x00 give 0x0000, 128 bytes 0xFF give 0xEDA9, the nine
bytes "123456789" give 0x31C3, and "HELLO", a line feed and 122 bytes 0x1A
give 0xE442. -/
theorem XCalcCheck_crc_vectors (xv : TXVar) (buf : Nat → Nat) (h2 : xv.CheckLen = 2) :
    ((List.range xv.DataLen).map (fun i => buf (3 + i)) = List.replicate 128 0 →
      XCalcCheck xv buf = 0x0000) ∧
    ((List.range xv.DataLen).map (fun i => buf (3 + i)) = List.replicate 128 0xFF →
      XCalcCheck xv buf = 0xEDA9) ∧
    ((List.range xv.DataLen).map (fun i => buf (3 + i)) =
        [0x31, 0x32, 0x33, 0x34, 0x35, 0x36, 0x37, 0x38, 0x39] →
      XCalcCheck xv buf = 0x31C3) ∧
    ((List.range xv.DataLen).map (fun i => buf (3 + i)) =
        [72, 69, 76, 76, 79, 10] ++ List.replicate 122 0x1A →
      XCalcCheck xv buf = 0xE442) := by
  rw [XCalcCheck_eq_CheckOf, h2]
  refine ⟨?_, ?_, ?_, ?_⟩ <;> intro h <;> rw [h]
  · exact CheckOf_crc_zero
  · exact CheckOf_crc_FF
  · exact CheckOf_crc_digits
  · exact CheckOf_crc_hello

/-- C11, where the claim fails: for 128 bytes 0xFF the CRC is 0xEDA9, not
0xB1F4, and for "HELLO", a line feed and 122 bytes 0x1A it is 0xE442, not
0x7E1B. -/
theorem XCalcCheck_crc_vectors_differ :
    XCalcCheck exCrcVar (fun _ => 0xFF) = 0xEDA9 ∧ XCalcCheck exCrcVar (fun _ => 0xFF) ≠ 0xB1F4 ∧
    XCalcCheck exCrcVar exHelloBuf = 0xE442 ∧ XCalcCheck exCrcVar exHelloBuf ≠ 0x7E1B := by
  have e1 : XCalcCheck exCrcVar (fun _ => 0xFF) = 0xEDA9 := by
    rw [XCalcCheck_eq_CheckOf]
    have : (List.range exCrcVar.DataLen).map (fun i => (fun _ => 0xFF : Nat → Nat) (3 + i)) =
        List.replicate 128 0xFF := by decide
    rw [this]
    exact CheckOf_crc_FF
  have e2 : XCalcCheck exCrcVar exHelloBuf = 0xE442 := by
    rw [XCalcCheck_eq_CheckOf]
    have : (List.range exCrcVar.DataLen).map (fun i => exHelloBuf (3 + i)) =
        [72, 69, 76, 76, 79, 10] ++ List.replicate 122 0x1A := by decide
    rw [this]
    exact CheckOf_crc_hello
  refine ⟨e1, ?_, e2, ?_⟩
  · rw [e1]; decide
  · rw [e2]; decide

theorem XCalcCheck_crc_vectors_witness :
    exCrcVar.CheckLen = 2 ∧
    ((List.range exCrcVar.DataLen).map (fun i => exHelloBuf (3 + i)) =
        [72, 69, 76, 76, 79, 10] ++ List.replicate 122 0x1A →
      XCalcCheck exCrcVar exHelloBuf = 0xE442) :=
  ⟨by decide, (XCalcCheck_crc_vectors exCrcVar exHelloBuf (by decide)).2.2.2⟩

/-! ## Cancelling and the terminated role -/

/-- C13. `XCancel` hands exactly the ten bytes CAN five times, BS five times
to the transport in one write call, all of which go out when the transport has
room, and sets `XMode` to 0; every other field of the session is as before.
In a session whose `XMode` is 0, `XParse` returns FALSE and `XTimeOutProc`
returns, both leaving the whole session, the transport included, as it was. -/
theorem XCancel_terminates (s : XSt) :
    XCancel s =
      { s with
        cv := { s.cv with
          OutBuff := (CommBinaryOut s.cv [CAN, CAN, CAN, CAN, CAN, BS, BS, BS, BS, BS]).1.OutBuff,
          OutRoom := (CommBinaryOut s.cv [CAN, CAN, CAN, CAN, CAN, BS, BS, BS, BS, BS]).1.OutRoom },
        xv := { s.xv with XMode := 0 } } ∧
    (s.cv.OutRoom = [] →
      (XCancel s).cv.OutBuff = s.cv.OutBuff ++ [0x18, 0x18, 0x18, 0x18, 0x18, 8, 8, 8, 8, 8]) ∧
    (s.xv.XMode = 0 → XParse s = (false, s) ∧ XTimeOutProc s = s) := by
  refine ⟨rfl, ?_, ?_⟩
  · intro h
    exact (CommBinaryOut_free s.cv _ h).1
  · intro h
    constructor
    · unfold XParse
      rw [if_neg (by rw [h]; decide), if_neg (by rw [h]; decide)]
    · unfold XTimeOutProc
      rw [if_neg (by rw [h]; decide), if_neg (by rw [h]; decide)]

/-! ## The block-0 packet before data -/

/-- C17. For a receiver with `PktNum = 0` and `PktNumOffset = 0`, every
assembled packet whose block byte is 0, whatever its trailer, is answered as
a packet before data: `XReadPacket` returns TRUE, writes nothing to the file,
leaves `PktNum`, `PktNumOffset`, `ByteCount`, `NAKMode` and `XMode` as they
were, and hands the transport the one negotiation byte of its mode (NAK in
NAK mode, otherwise 'C'), so no ACK; the retry counter has been set to the
full budget (10 in NAK mode, otherwise 3) before the one retry is spent, so it
ends at 9 or 2 and the session is neither cancelled nor out of retries. -/
theorem XReadPacket_predata (s : XSt)
    (hg : (XReadPacketLoop (s.cv.InBuff.length + 1) s).2.1 = true)
    (hb : (XReadPacketLoop (s.cv.InBuff.length + 1) s).1.xv.PktIn 1 = 0)
    (hn : s.xv.PktNum = 0) (ho : s.xv.PktNumOffset = 0) :
    (XReadPacket s).1 = true ∧
    (XReadPacket s).2.fv.WriteData = s.fv.WriteData ∧
    (XReadPacket s).2.fv.ByteCount = s.fv.ByteCount ∧
    Wrote s.cv (XReadPacket s).2.cv [if s.xv.NAKMode = XnakNAK then NAK else 0x43] ∧
    (XReadPacket s).2.xv.PktNum = 0 ∧ (XReadPacket s).2.xv.PktNumOffset = 0 ∧
    (XReadPacket s).2.xv.NAKMode = s.xv.NAKMode ∧
    (XReadPacket s).2.xv.NAKCount = (if s.xv.NAKMode = XnakNAK then 10 else 3) - 1 ∧
    0 ≤ (XReadPacket s).2.xv.NAKCount ∧
    (XReadPacket s).2.xv.XMode = s.xv.XMode := by
  obtain ⟨hf, -⟩ := XReadPacketLoop_got _ s hg
  have h1 : (XReadPacketLoop (s.cv.InBuff.length + 1) s).1.xv.PktIn 1 = 0 ∧
      (XReadPacketLoop (s.cv.InBuff.length + 1) s).1.xv.PktNum = 0 ∧
      (XReadPacketLoop (s.cv.InBuff.length + 1) s).1.xv.PktNumOffset = 0 :=
    ⟨hb, hf.hNum.trans hn, hf.hOff.trans ho⟩
  rw [XReadPacket_of_got s hg, XReadPacketGot_predata _ h1]
  generalize (XReadPacketLoop (s.cv.InBuff.length + 1) s).1 = r at *
  obtain ⟨r0, hr0, a1, a2, a3, a4, a5, a6, a7, a8, a9, a10⟩ : ∃ r0,
      { r with xv := { r.xv with NAKCount := if r.xv.NAKMode = XnakNAK then 10 else 3 } } = r0 ∧
      r0.fv = r.fv ∧ r0.cv = r.cv ∧ r0.xv.NAKMode = s.xv.NAKMode ∧
      r0.xv.NAKCount = (if s.xv.NAKMode = XnakNAK then 10 else 3) ∧
      r0.xv.PktNum = 0 ∧ r0.xv.PktNumOffset = 0 ∧ r0.xv.XMode = s.xv.XMode ∧
      r0.fv.WriteData = s.fv.WriteData ∧ r0.fv.ByteCount = s.fv.ByteCount ∧
      0 < r0.xv.NAKCount := by
    refine ⟨_, rfl, rfl, rfl, hf.hNak, ?_, h1.2.1, h1.2.2, hf.hMode, hf.hWrite, hf.hCount, ?_⟩
    · show (if r.xv.NAKMode = XnakNAK then (10 : Int) else 3) = _
      rw [hf.hNak]
    · show 0 < (if r.xv.NAKMode = XnakNAK then (10 : Int) else 3)
      split_ifs <;> decide
  rw [hr0]
  have hx : XSendNAK r0 = XSendNAKByte
      { r0 with cv := { r0.cv with InBuff := [] },
                xv := { r0.xv with NAKCount := r0.xv.NAKCount - 1 } } := by
    unfold XSendNAK
    dsimp only
    rw [if_neg (by omega)]
  rw [hx]
  refine ⟨rfl, a8, a9, ?_, a5, a6, a3, ?_, ?_, a7⟩
  · have hw : Wrote r0.cv (XSendNAKByte
        { r0 with cv := { r0.cv with InBuff := [] },
                  xv := { r0.xv with NAKCount := r0.xv.NAKCount - 1 } }).cv
        [if r0.xv.NAKMode = XnakNAK then NAK else 0x43] := ⟨rfl, rfl⟩
    have e : [if r0.xv.NAKMode = XnakNAK then NAK else 0x43] =
        [if s.xv.NAKMode = XnakNAK then NAK else 0x43] := by rw [a3]
    obtain ⟨w1, w2⟩ := hw
    exact Wrote_of_frame hf ⟨w1.trans (by rw [a2, e]), w2.trans (by rw [a2, e])⟩
  · show r0.xv.NAKCount - 1 = _
    rw [a4]
  · show 0 ≤ r0.xv.NAKCount - 1
    omega

theorem XCancel_terminates_witness :
    (XCancel (exRecv 1 0 0 0)).cv.OutRoom = [] ∧ (XCancel (exRecv 1 0 0 0)).xv.XMode = 0 ∧
    XParse (XCancel (exRecv 1 0 0 0)) = (false, XCancel (exRecv 1 0 0 0)) ∧
    XTimeOutProc (XCancel (exRecv 1 0 0 0)) = XCancel (exRecv 1 0 0 0) ∧
    (XCancel (XCancel (exRecv 1 0 0 0))).cv.OutBuff =
      (XCancel (exRecv 1 0 0 0)).cv.OutBuff ++ [0x18, 0x18, 0x18, 0x18, 0x18, 8, 8, 8, 8, 8] :=
  have h := XCancel_terminates (XCancel (exRecv 1 0 0 0))
  ⟨by decide, by decide, (h.2.2 (by decide)).1, (h.2.2 (by decide)).2, h.2.1 (by decide)⟩

theorem XReadPacket_predata_witness :
    (XReadPacket (exRecv 0 0 0 77)).1 = true ∧
    Wrote (exRecv 0 0 0 77).cv (XReadPacket (exRecv 0 0 0 77)).2.cv
      [if (exRecv 0 0 0 77).xv.NAKMode = XnakNAK then NAK else 0x43] ∧
    (XReadPacket (exRecv 0 0 0 77)).2.fv.WriteData = (exRecv 0 0 0 77).fv.WriteData ∧
    0 ≤ (XReadPacket (exRecv 0 0 0 77)).2.xv.NAKCount :=
  have h := XReadPacket_predata (exRecv 0 0 0 77) (by decide) (by decide) (by decide) (by decide)
  ⟨h.1, h.2.2.2.1, h.2.1, h.2.2.2.2.2.2.2.2.1⟩

/-! ## The complement of the block byte -/

theorem xor_complement_iff (b blk : Nat) (hblk : blk < 256) :
    b ^^^ blk = 0xff ↔ b = 255 - blk := by
  constructor
  · intro h
    have h2 := xor_complement blk hblk
    rw [← h2] at h
    exact Nat.xor_left_inj.mp h
  · intro h
    rw [h]; exact xor_complement blk hblk

/-- The three outcomes of `XSendNAK`: with a retry left the byte of the mode
goes out; with none left a session in 'C' mode falls back to checksum and
sends NAK, and any other session cancels. -/
theorem XSendNAK_cases (s : XSt) :
    (XSendNAK s).fv.WriteData = s.fv.WriteData ∧ (XSendNAK s).fv.Success = s.fv.Success ∧
    (XSendNAK s).cv.InBuff = [] ∧
    (0 < s.xv.NAKCount →
      Wrote s.cv (XSendNAK s).cv [if s.xv.NAKMode = XnakNAK then NAK else 0x43] ∧
      (XSendNAK s).xv.PktReadMode = XpktSOH ∧ (XSendNAK s).xv.NAKCount = s.xv.NAKCount - 1 ∧
      (XSendNAK s).xv.NAKMode = s.xv.NAKMode ∧ (XSendNAK s).xv.XMode = s.xv.XMode ∧
      (XSendNAK s).xv.XOpt = s.xv.XOpt ∧ (XSendNAK s).xv.DataLen = s.xv.DataLen ∧
      (XSendNAK s).xv.CheckLen = s.xv.CheckLen) ∧
    (s.xv.NAKCount ≤ 0 → s.xv.NAKMode = XnakC →
      Wrote s.cv (XSendNAK s).cv [NAK] ∧
      (XSendNAK s).xv.PktReadMode = XpktSOH ∧ (XSendNAK s).xv.NAKCount = 9 ∧
      (XSendNAK s).xv.NAKMode = XnakNAK ∧ (XSendNAK s).xv.XMode = s.xv.XMode ∧
      (XSendNAK s).xv.XOpt = XoptCheck ∧ (XSendNAK s).xv.DataLen = 128 ∧
      (XSendNAK s).xv.CheckLen = 1) ∧
    (s.xv.NAKCount ≤ 0 → s.xv.NAKMode ≠ XnakC →
      Wrote s.cv (XSendNAK s).cv [CAN, CAN, CAN, CAN, CAN, BS, BS, BS, BS, BS] ∧
      (XSendNAK s).xv.XMode = 0 ∧ (XSendNAK s).xv.PktReadMode = s.xv.PktReadMode ∧
      (XSendNAK s).xv.NAKMode = s.xv.NAKMode) := by
  refine ⟨?_, ?_, XSendNAK_InBuff s, ?_, ?_, ?_⟩
  · exact (XSendNAK_frame s).1
  · exact (XSendNAK_frame s).2.2.1
  · intro h
    unfold XSendNAK
    dsimp only
    rw [if_neg (by omega)]
    exact ⟨⟨rfl, rfl⟩, rfl, rfl, rfl, rfl, rfl, rfl, rfl⟩
  · intro h hc
    unfold XSendNAK
    dsimp only
    rw [if_pos (by omega), if_pos hc]
    exact ⟨⟨rfl, rfl⟩, rfl, rfl, rfl, rfl, rfl, rfl, rfl⟩
  · intro h hc
    unfold XSendNAK
    dsimp only
    rw [if_pos (by omega), if_neg hc]
    exact ⟨⟨rfl, rfl⟩, rfl, rfl, rfl⟩

/-- A wrong complement ends the call: `XSendNAK` has flushed the input. -/
theorem XReadPacket_bad_complement (s : XSt) (b : Nat) (rest : List Nat)
    (hm : s.xv.PktReadMode = XpktBLK2) (hin : s.cv.InBuff = b :: rest)
    (hx : BYTE b ^^^ s.xv.PktIn 1 ≠ 0xff) :
    XReadPacket s = (true, XSendNAK
      { popIn s with xv := { s.xv with PktIn := Function.update s.xv.PktIn 2 (BYTE b) } }) := by
  have hbody : XReadPacketBody (popIn s) (BYTE b) = (XSendNAK
      { popIn s with xv := { s.xv with PktIn := Function.update s.xv.PktIn 2 (BYTE b) } },
      false, none) := by
    unfold XReadPacketBody
    rw [if_neg (by show ¬ s.xv.PktReadMode = XpktSOH; rw [hm]; decide),
      if_neg (by show ¬ s.xv.PktReadMode = XpktBLK; rw [hm]; decide),
      if_pos (show (popIn s).xv.PktReadMode = XpktBLK2 from hm)]
    dsimp only
    rw [if_neg (by
      show ¬ (BYTE b ^^^ Function.update s.xv.PktIn 2 (BYTE b) 1 = 0xff)
      rw [Function.update_noteq (by decide)]; exact hx)]
    rfl
  unfold XReadPacket
  dsimp only
  rw [hin, List.length_cons, XReadPacketLoop_next _ s b rest hin (by rw [hbody]) (by rw [hbody]),
    hbody]
  dsimp only
  rw [XReadPacketLoop_nil _ _ (XSendNAK_InBuff _)]
  rfl

theorem XReadPacketBody_blk2_file (s : XSt) (b : Nat) (hm : s.xv.PktReadMode = XpktBLK2)
    (hx : b ^^^ s.xv.PktIn 1 = 0xff) :
    (XReadPacketBody s b).1.fv.WriteData = s.fv.WriteData ∧
    (XReadPacketBody s b).1.fv.Success = s.fv.Success := by
  unfold XReadPacketBody
  rw [if_neg (by rw [hm]; decide), if_neg (by rw [hm]; decide), if_pos hm]
  dsimp only
  have hx' : b ^^^ Function.update s.xv.PktIn 2 b 1 = 0xff := by
    rw [Function.update_noteq (by decide)]; exact hx
  rw [if_pos hx']
  exact ⟨rfl, rfl⟩

/-- C16. For a receiver that waits for the complement of the block byte
`blk = PktIn[1]` and the next byte `b`: if `b = 255 - blk` the read state
becomes that of the data, with exactly `DataLen + CheckLen` further bytes
expected from buffer index 3 on, and nothing is sent or written.  If `b`
differs, `XReadPacket` calls `XSendNAK` and returns TRUE: the input is
flushed and nothing is written to the file; with a retry left the one byte of
the negotiation mode goes out (NAK in NAK mode, 'C' in 'C' mode), the retry
is spent and the read state is that of the header; with none left a session
in 'C' mode falls back to checksum and sends NAK, and a session in NAK mode
cancels. -/
theorem XReadPacket_complement (s : XSt) (b : Nat) (rest : List Nat)
    (hm : s.xv.PktReadMode = XpktBLK2) (hin : s.cv.InBuff = b :: rest)
    (hb : b < 256) (hblk : s.xv.PktIn 1 < 256) :
    (b = 255 - s.xv.PktIn 1 →
      (XReadPacketBody (popIn s) b).2.2 = none ∧
      (XReadPacketBody (popIn s) b).2.1 = false ∧
      (XReadPacketBody (popIn s) b).1.xv.PktReadMode = XpktDATA ∧
      (XReadPacketBody (popIn s) b).1.xv.PktBufCount = (s.xv.DataLen : Int) + s.xv.CheckLen ∧
      (XReadPacketBody (popIn s) b).1.xv.PktBufPtr = 3 ∧
      (XReadPacketBody (popIn s) b).1.cv.OutBuff = s.cv.OutBuff ∧
      (XReadPacketBody (popIn s) b).1.fv.WriteData = s.fv.WriteData) ∧
    (b ≠ 255 - s.xv.PktIn 1 →
      (XReadPacket s).1 = true ∧
      (XReadPacket s).2.fv.WriteData = s.fv.WriteData ∧
      (XReadPacket s).2.cv.InBuff = [] ∧
      (0 < s.xv.NAKCount →
        Wrote s.cv (XReadPacket s).2.cv [if s.xv.NAKMode = XnakNAK then NAK else 0x43] ∧
        (XReadPacket s).2.xv.PktReadMode = XpktSOH ∧
        (XReadPacket s).2.xv.NAKCount = s.xv.NAKCount - 1) ∧
      (s.xv.NAKCount ≤ 0 → s.xv.NAKMode = XnakC →
        Wrote s.cv (XReadPacket s).2.cv [NAK] ∧
        (XReadPacket s).2.xv.PktReadMode = XpktSOH ∧
        (XReadPacket s).2.xv.XOpt = XoptCheck ∧ (XReadPacket s).2.xv.NAKMode = XnakNAK ∧
        (XReadPacket s).2.xv.NAKCount = 9) ∧
      (s.xv.NAKCount ≤ 0 → s.xv.NAKMode ≠ XnakC →
        Wrote s.cv (XReadPacket s).2.cv [CAN, CAN, CAN, CAN, CAN, BS, BS, BS, BS, BS] ∧
        (XReadPacket s).2.xv.XMode = 0)) := by
  have hB : BYTE b = b := BYTE_of_lt hb
  constructor
  · intro h
    obtain ⟨a1, a2, a3, a4, a5, a6, a7, a8, a9, a10⟩ := XReadPacketBody_blk2 (popIn s) b hm
      ((xor_complement_iff b _ hblk).mpr h)
    refine ⟨a1, a2, a4, a6, a5, ?_, ?_⟩
    · rw [a10]; rfl
    · exact (XReadPacketBody_blk2_file (popIn s) b hm ((xor_complement_iff b _ hblk).mpr h)).1
  · intro h
    have hx : BYTE b ^^^ s.xv.PktIn 1 ≠ 0xff := by
      rw [hB]
      exact fun e => h ((xor_complement_iff b _ hblk).mp e)
    rw [XReadPacket_bad_complement s b rest hm hin hx]
    obtain ⟨c1, c2, c3, c4, c5, c6⟩ := XSendNAK_cases
      { popIn s with xv := { s.xv with PktIn := Function.update s.xv.PktIn 2 (BYTE b) } }
    refine ⟨rfl, c1, c3, ?_, ?_, ?_⟩
    · intro hn
      obtain ⟨d1, d2, d3, -⟩ := c4 hn
      exact ⟨⟨d1.1, d1.2⟩, d2, d3⟩
    · intro hn hc
      obtain ⟨d1, d2, d3, d4, d5, d6, -⟩ := c5 hn hc
      exact ⟨⟨d1.1, d1.2⟩, d2, d6, d4, d3⟩
    · intro hn hc
      obtain ⟨d1, d2, -⟩ := c6 hn hc
      exact ⟨⟨d1.1, d1.2⟩, d2⟩

/-- C16, where the claim fails: a receiver initialised with CRC and given
SOH, the block byte 1 and the wrong complement 0 sends 'C' (0x43) after the
'C' of its start, not NAK. -/
theorem XReadPacket_complement_sends_C :
    (XRun (XInit (exSession IdXReceive XoptCRC []) exTTSet)
      [XEvent.input [SOH, 1, 0], XEvent.parse]).cv.OutBuff = [0x43, 0x43] ∧
    NAK ∉ (XRun (XInit (exSession IdXReceive XoptCRC []) exTTSet)
      [XEvent.input [SOH, 1, 0], XEvent.parse]).cv.OutBuff := by decide

theorem XReadPacket_complement_witness :
    ((254 : Nat) = 255 - (exAwait 254).xv.PktIn 1 ∧
      (XReadPacketBody (popIn (exAwait 254)) 254).1.xv.PktReadMode = XpktDATA ∧
      (XReadPacketBody (popIn (exAwait 254)) 254).1.xv.PktBufCount = 129) ∧
    ((7 : Nat) ≠ 255 - (exAwait 7).xv.PktIn 1 ∧ (XReadPacket (exAwait 7)).1 = true ∧
      (XReadPacket (exAwait 7)).2.cv.InBuff = []) :=
  have h1 := (XReadPacket_complement (exAwait 254) 254 [] (by decide) (by decide) (by decide)
    (by decide)).1 (by decide)
  have h2 := (XReadPacket_complement (exAwait 7) 7 [] (by decide) (by decide) (by decide)
    (by decide)).2 (by decide)
  ⟨⟨by decide, h1.2.2.1, h1.2.2.2.1⟩, ⟨by decide, h2.1, h2.2.2.1⟩⟩

/-! ## Negotiation of the variant -/

/-- The header byte sets the payload length and keeps the check. -/
theorem XReadPacketSOH_variant (s : XSt) (hv : ValidVariant s.xv) (b : Nat)
    (hb : b = SOH ∨ b = STX) :
    (XReadPacketSOH s b).2 = none ∧
    (XReadPacketSOH s b).1.xv.DataLen = (if b = SOH then 128 else 1024) ∧
    (XReadPacketSOH s b).1.xv.CheckLen = s.xv.CheckLen ∧
    ValidVariant (XReadPacketSOH s b).1.xv ∧
    (XReadPacketSOH s b).1.xv.PktReadMode = XpktBLK ∧
    (XReadPacketSOH s b).1.cv = s.cv ∧
    (XReadPacketSOH s b).1.fv.WriteData = s.fv.WriteData := by
  unfold ValidVariant at hv ⊢
  unfold XReadPacketSOH
  rcases hb with rfl | rfl
  · rw [if_pos rfl]
    dsimp only
    rcases hv with ⟨h1, h2, h3⟩ | ⟨h1, h2, h3⟩ | ⟨h1, h2, h3⟩ | ⟨h1, h2, h3⟩
    · rw [if_neg (by rw [h1]; decide), if_neg (by rw [h1]; decide)]
      exact ⟨rfl, h2, rfl, Or.inl ⟨h1, h2, h3⟩, rfl, rfl, rfl⟩
    · rw [if_neg (by rw [h1]; decide), if_neg (by rw [h1]; decide)]
      exact ⟨rfl, h2, rfl, Or.inr (Or.inl ⟨h1, h2, h3⟩), rfl, rfl, rfl⟩
    · rw [if_pos h1]
      exact ⟨rfl, rfl, h3.symm, Or.inr (Or.inl ⟨rfl, rfl, rfl⟩), rfl, rfl, rfl⟩
    · rw [if_neg (by rw [h1]; decide), if_pos h1]
      exact ⟨rfl, rfl, h3.symm, Or.inl ⟨rfl, rfl, rfl⟩, rfl, rfl, rfl⟩
  · rw [if_neg (by decide), if_pos rfl]
    dsimp only
    rcases hv with ⟨h1, h2, h3⟩ | ⟨h1, h2, h3⟩ | ⟨h1, h2, h3⟩ | ⟨h1, h2, h3⟩
    · rw [if_neg (by rw [h1]; decide), if_pos h1]
      exact ⟨rfl, rfl, h3.symm, Or.inr (Or.inr (Or.inr ⟨rfl, rfl, rfl⟩)), rfl, rfl, rfl⟩
    · rw [if_pos h1]
      exact ⟨rfl, rfl, h3.symm, Or.inr (Or.inr (Or.inl ⟨rfl, rfl, rfl⟩)), rfl, rfl, rfl⟩
    · rw [if_neg (by rw [h1]; decide), if_neg (by rw [h1]; decide)]
      exact ⟨rfl, h2, rfl, Or.inr (Or.inr (Or.inl ⟨h1, h2, h3⟩)), rfl, rfl, rfl⟩
    · rw [if_neg (by rw [h1]; decide), if_neg (by rw [h1]; decide)]
      exact ⟨rfl, h2, rfl, Or.inr (Or.inr (Or.inr ⟨h1, h2, h3⟩)), rfl, rfl, rfl⟩

/-- The sender's `switch` on 'C' or NAK in the initial window: the check is
set by the byte, the payload length stays. -/
theorem XSendPacketSwitch_window (s : XSt) (hv : ValidVariant s.xv) (q : Nat)
    (hq : q = 0x43 ∨ q = NAK)
    (h0 : s.xv.PktNum = 0 ∧ s.xv.PktNumOffset = 0 ∧ s.xv.PktNumSent = 0) :
    (XSendPacketSwitch s q).2 = (true, false, none) ∧
    (XSendPacketSwitch s q).1.xv.CheckLen = (if q = 0x43 then 2 else 1) ∧
    (XSendPacketSwitch s q).1.xv.DataLen = s.xv.DataLen ∧
    ValidVariant (XSendPacketSwitch s q).1.xv ∧
    (XSendPacketSwitch s q).1.fv = s.fv ∧ (XSendPacketSwitch s q).1.cv = s.cv ∧
    (XSendPacketSwitch s q).1.xv.PktNum = 0 ∧ (XSendPacketSwitch s q).1.xv.PktNumSent = 0 ∧
    (XSendPacketSwitch s q).1.xv.PktOut = s.xv.PktOut ∧
    (XSendPacketSwitch s q).1.xv.XMode = s.xv.XMode := by
  unfold ValidVariant at hv ⊢
  unfold XSendPacketSwitch
  rcases hq with rfl | rfl
  · rw [if_neg (by decide), if_neg (by decide), if_neg (by decide), if_pos rfl, if_pos h0]
    dsimp only
    rcases hv with ⟨h1, h2, h3⟩ | ⟨h1, h2, h3⟩ | ⟨h1, h2, h3⟩ | ⟨h1, h2, h3⟩
    · rw [if_pos h1]
      exact ⟨rfl, rfl, h2.symm, Or.inr (Or.inl ⟨rfl, rfl, rfl⟩), rfl, rfl, h0.1, h0.2.2, rfl, rfl⟩
    · rw [if_neg (by rw [h1]; decide), if_neg (by rw [h1]; decide)]
      exact ⟨rfl, h3, rfl, Or.inr (Or.inl ⟨h1, h2, h3⟩), rfl, rfl, h0.1, h0.2.2, rfl, rfl⟩
    · rw [if_neg (by rw [h1]; decide), if_neg (by rw [h1]; decide)]
      exact ⟨rfl, h3, rfl, Or.inr (Or.inr (Or.inl ⟨h1, h2, h3⟩)), rfl, rfl, h0.1, h0.2.2, rfl, rfl⟩
    · rw [if_neg (by rw [h1]; decide), if_pos h1]
      exact ⟨rfl, rfl, h2.symm, Or.inr (Or.inr (Or.inl ⟨rfl, rfl, rfl⟩)), rfl, rfl, h0.1, h0.2.2,
        rfl, rfl⟩
  · rw [if_neg (by decide), if_pos rfl]
    dsimp only
    rw [if_pos ⟨h0.1, h0.2.1⟩]
    rcases hv with ⟨h1, h2, h3⟩ | ⟨h1, h2, h3⟩ | ⟨h1, h2, h3⟩ | ⟨h1, h2, h3⟩
    · rw [if_neg (by rw [h1]; decide), if_neg (by rw [h1]; decide)]
      exact ⟨rfl, h3, rfl, Or.inl ⟨h1, h2, h3⟩, rfl, rfl, h0.1, h0.2.2, rfl, rfl⟩
    · rw [if_pos h1]
      exact ⟨rfl, rfl, h2.symm, Or.inl ⟨rfl, rfl, rfl⟩, rfl, rfl, h0.1, h0.2.2, rfl, rfl⟩
    · rw [if_neg (by rw [h1]; decide), if_pos h1]
      exact ⟨rfl, rfl, h2.symm, Or.inr (Or.inr (Or.inr ⟨rfl, rfl, rfl⟩)), rfl, rfl, h0.1, h0.2.2,
        rfl, rfl⟩
    · rw [if_neg (by rw [h1]; decide), if_neg (by rw [h1]; decide)]
      exact ⟨rfl, h3, rfl, Or.inr (Or.inr (Or.inr ⟨h1, h2, h3⟩)), rfl, rfl, h0.1, h0.2.2, rfl, rfl⟩

/-- C15. Negotiation changes one coordinate of the variant.  A receiver that
waits for a header and consumes SOH ends with `DataLen = 128`, one that
consumes STX with `DataLen = 1024`, `CheckLen` unchanged in both cases.  A
sender in the initial window (`PktNum = 0`, `PktNumOffset = 0`,
`PktNumSent = 0`) that reads 'C' ends with `CheckLen = 2`, one that reads NAK
with `CheckLen = 1`, `DataLen` unchanged in both cases, and it then stages and
writes packet 1 laid out under the new variant. -/
theorem variant_negotiation (r t : XSt) (b q : Nat)
    (hrv : ValidVariant r.xv) (hrm : r.xv.PktReadMode = XpktSOH) (hb : b = SOH ∨ b = STX)
    (htv : ValidVariant t.xv) (hcnt : t.xv.PktBufCount = 0) (hq : q = 0x43 ∨ q = NAK)
    (hin : t.cv.InBuff = [q])
    (h0 : t.xv.PktNum = 0 ∧ t.xv.PktNumOffset = 0 ∧ t.xv.PktNumSent = 0)
    (ho : t.fv.FileOpen = true) (hfile : t.fv.ReadData ≠ [])
    (hbytes : ∀ x ∈ t.fv.ReadData, x < 256) (hroom : t.cv.OutRoom = []) :
    ((XReadPacketBody r b).2.2 = none ∧
      (XReadPacketBody r b).1.xv.DataLen = (if b = SOH then 128 else 1024) ∧
      (XReadPacketBody r b).1.xv.CheckLen = r.xv.CheckLen ∧
      ValidVariant (XReadPacketBody r b).1.xv) ∧
    ((XSendPacket t).2.xv.CheckLen = (if q = 0x43 then 2 else 1) ∧
      (XSendPacket t).2.xv.DataLen = t.xv.DataLen ∧
      ValidVariant (XSendPacket t).2.xv ∧
      (XSendPacket t).2.xv.PktNumSent = 1 ∧
      PktBytes (XSendPacket t).2.xv.PktOut (3 + t.xv.DataLen + (if q = 0x43 then 2 else 1)) =
        XPacket t.xv.DataLen (if q = 0x43 then 2 else 1) 1
          (t.fv.ReadData.take (min t.xv.DataLen t.fv.ReadData.length)) ∧
      (XSendPacket t).2.cv.OutBuff = t.cv.OutBuff ++
        XPacket t.xv.DataLen (if q = 0x43 then 2 else 1) 1
          (t.fv.ReadData.take (min t.xv.DataLen t.fv.ReadData.length))) := by
  constructor
  · obtain ⟨a1, a2, a3, a4, -⟩ := XReadPacketSOH_variant r hrv b hb
    have e : XReadPacketBody r b = ((XReadPacketSOH r b).1, false, (XReadPacketSOH r b).2) := by
      unfold XReadPacketBody
      rw [if_pos hrm]
    rw [e]
    exact ⟨a1, a2, a3, a4⟩
  · have hqb : BYTE q = q := by rcases hq with rfl | rfl <;> rfl
    have hpi : (popIn t).cv.InBuff = [] := popIn_cons t q [] hin
    obtain ⟨w1, w2, w3, w4, w5, w6, w7, w8, w9, w10⟩ :=
      XSendPacketSwitch_window (popIn t) htv q hq h0
    have hl := XSendPacketLoop_send t.cv.InBuff.length t q hin (by rw [hqb, w1]) (by rw [hqb, w1])
      (by rw [hqb, w1]) (by rw [hqb, w6]; exact hpi)
    rw [hqb] at hl
    have hx : XSendPacket t = XSendPacketOut (XSendPacketStage
        { (XSendPacketSwitch (popIn t) q).1 with
          xv := { (XSendPacketSwitch (popIn t) q).1.xv with CANCount := 0 } }) := by
      unfold XSendPacket
      rw [if_pos hcnt]
      dsimp only
      rw [hl]
    rw [hx]
    obtain ⟨s1, hs1, e1, e2, e3, e4, e5, e6, e7, e8, e9⟩ : ∃ s1,
        { (XSendPacketSwitch (popIn t) q).1 with
          xv := { (XSendPacketSwitch (popIn t) q).1.xv with CANCount := 0 } } = s1 ∧
        s1.xv.PktNumSent = s1.xv.PktNum ∧ s1.xv.PktNumSent = 0 ∧ s1.fv = t.fv ∧
        s1.cv.OutRoom = [] ∧ s1.cv.OutBuff = t.cv.OutBuff ∧
        s1.xv.DataLen = t.xv.DataLen ∧ s1.xv.CheckLen = (if q = 0x43 then 2 else 1) ∧
        ValidVariant s1.xv ∧ s1.xv.PktOut = t.xv.PktOut :=
      ⟨_, rfl, w8.trans w7.symm, w8, w5, by
          show (XSendPacketSwitch (popIn t) q).1.cv.OutRoom = []
          rw [w6]; exact hroom, by
          show (XSendPacketSwitch (popIn t) q).1.cv.OutBuff = _
          rw [w6]; rfl, w3, w2, w4, w9⟩
    rw [hs1]
    obtain ⟨hD, hC⟩ := ValidVariant_bounds htv
    have hlenpos : 1 ≤ t.fv.ReadData.length := by
      cases hr : t.fv.ReadData with
      | nil => exact absurd hr hfile
      | cons a l => simp
    have hC1 : s1.xv.CheckLen = 1 ∨ s1.xv.CheckLen = 2 := by
      rw [e7]; split_ifs
      · exact Or.inr rfl
      · exact Or.inl rfl
    obtain ⟨g1, g2, g3, g4, g5, g6, g7, g8, g9, g10, g11, g12, g13, g14⟩ :=
      XSendPacket_stage_data s1 e1 (by rw [e3]; exact ho) (by rw [e6, e3]; omega) hC1 e4
    obtain ⟨u1, u2⟩ := XSendPacket_stage_buf s1 e1 (by rw [e3]; exact ho)
      (by rw [e6, e3]; omega) e4
    generalize (XSendPacketOut (XSendPacketStage s1)).2 = tx1 at *
    have htake : ∀ x ∈ t.fv.ReadData.take (min t.xv.DataLen t.fv.ReadData.length), x < 256 :=
      fun x hx => hbytes x (List.mem_of_mem_take hx)
    have htl : (t.fv.ReadData.take (min t.xv.DataLen t.fv.ReadData.length)).length ≤
        t.xv.DataLen := by
      rw [List.length_take]; omega
    have hone : BYTE (0 + 1) = 1 := rfl
    rw [e3, e6, e7, e5, e2, map_BYTE_of_lt _ htake, hone] at g2
    rw [e3, e6, e7, e2, map_BYTE_of_lt _ htake, hone] at u1
    refine ⟨g11.trans e7, g10.trans e6, ?_, ?_, ?_, g2⟩
    · unfold ValidVariant
      rw [g9, g10, g11]; exact e8
    · rw [g6, e2]; rfl
    · rw [u1]
      exact PktBytes_blit_zero _ _ _ (XPacket_length _ _ _ _ htl (by rw [← e7]; exact hC1))

theorem variant_negotiation_witness :
    ((XReadPacketBody (exWaiting Xopt1kCRC) SOH).1.xv.DataLen = (if SOH = SOH then 128 else 1024) ∧
      (XReadPacketBody (exWaiting Xopt1kCRC) SOH).1.xv.CheckLen = (exWaiting Xopt1kCRC).xv.CheckLen) ∧
    ((XSendPacket (exAsked XoptCheck 0x43)).2.xv.CheckLen = (if (0x43 : Nat) = 0x43 then 2 else 1) ∧
      (XSendPacket (exAsked XoptCheck 0x43)).2.xv.DataLen = (exAsked XoptCheck 0x43).xv.DataLen) :=
  have h := variant_negotiation (exWaiting Xopt1kCRC) (exAsked XoptCheck 0x43) SOH 0x43
    (by unfold ValidVariant; decide) (by decide) (by decide)
    (by unfold ValidVariant; decide) (by decide) (by decide) (by decide) (by decide) (by decide)
    (by decide) (by decide) (by decide)
  ⟨⟨h.1.2.1, h.1.2.2.1⟩, ⟨h.2.1, h.2.2.1⟩⟩

/-! ## Timeouts of a receiver without input -/

theorem NakFrame.reflNak (s : XSt) : NakFrame s s := by
  constructor <;> rfl

theorem NakFrame.thenNak {a b c : XSt} (h1 : NakFrame a b) (h2 : NakFrame b c) : NakFrame a c := by
  constructor
  · exact h2.hMode.trans h1.hMode
  · exact h2.hNak.trans h1.hNak
  · exact h2.hNum.trans h1.hNum
  · exact h2.hOff.trans h1.hOff
  · exact h2.hInit.trans h1.hInit
  · exact h2.hLong.trans h1.hLong
  · exact h2.hCRC.trans h1.hCRC
  · exact h2.hOpt.trans h1.hOpt
  · exact h2.hData.trans h1.hData
  · exact h2.hCheck.trans h1.hCheck
  · exact h2.hWrite.trans h1.hWrite
  · exact h2.hSucc.trans h1.hSucc

theorem NakFrame.byte {s s' : XSt} (h : NakFrame s s') :
    NakByte s'.xv = NakByte s.xv ∧ NakTimeOut s'.xv = NakTimeOut s.xv := by
  unfold NakByte NakTimeOut
  rw [h.hNak, h.hNum, h.hOff, h.hInit, h.hLong, h.hCRC]
  exact ⟨rfl, rfl⟩

/-- `XSendNAK` with a retry left, on a transport that accepts everything. -/
theorem XSendNAK_retry (s : XSt) (h : 0 < s.xv.NAKCount) (hroom : s.cv.OutRoom = []) :
    NakFrame s (XSendNAK s) ∧
    (XSendNAK s).xv.NAKCount = s.xv.NAKCount - 1 ∧
    (XSendNAK s).cv.OutBuff = s.cv.OutBuff ++ [NakByte s.xv] ∧
    (XSendNAK s).cv.OutRoom = [] ∧
    (XSendNAK s).fv.TimeOut = s.fv.TimeOut ++ [NakTimeOut s.xv] := by
  unfold XSendNAK
  dsimp only
  rw [if_neg (by omega)]
  refine ⟨?_, rfl, ?_, ?_, rfl⟩
  · constructor <;> rfl
  · exact (CommBinaryOut_free { s.cv with InBuff := [] } _ hroom).1
  · exact (CommBinaryOut_free { s.cv with InBuff := [] } _ hroom).2

theorem XRun_nil (s : XSt) : XRun s [] = s := rfl

theorem XRun_cons (s : XSt) (e : XEvent) (es : List XEvent) :
    XRun s (e :: es) = XRun (XStep s e) es := rfl

theorem XRun_append (s : XSt) (es fs : List XEvent) :
    XRun s (es ++ fs) = XRun (XRun s es) fs := by
  unfold XRun
  rw [List.foldl_append]

theorem XStep_timeOut_receive (s : XSt) (hm : s.xv.XMode = IdXReceive) :
    XStep s XEvent.timeOut = XSendNAK s := by
  show XTimeOutProc s = _
  unfold XTimeOutProc
  rw [if_neg (by rw [hm]; decide), if_pos hm]

/-- While retries are left, `n` timeouts of a receiver send `n` negotiation
bytes and arm the deadline of the mode `n` times. -/
theorem XRun_timeOuts (n : Nat) : ∀ s : XSt, s.xv.XMode = IdXReceive → s.cv.OutRoom = [] →
    (n : Int) ≤ s.xv.NAKCount →
    NakFrame s (XRun s (List.replicate n XEvent.timeOut)) ∧
    (XRun s (List.replicate n XEvent.timeOut)).xv.NAKCount = s.xv.NAKCount - n ∧
    (XRun s (List.replicate n XEvent.timeOut)).cv.OutBuff =
      s.cv.OutBuff ++ List.replicate n (NakByte s.xv) ∧
    (XRun s (List.replicate n XEvent.timeOut)).cv.OutRoom = [] ∧
    (XRun s (List.replicate n XEvent.timeOut)).fv.TimeOut =
      s.fv.TimeOut ++ List.replicate n (NakTimeOut s.xv) := by
  induction n with
  | zero =>
    intro s _ hroom _
    refine ⟨NakFrame.reflNak s, ?_, ?_, hroom, ?_⟩
    · show s.xv.NAKCount = s.xv.NAKCount - ((0 : Nat) : Int); simp
    · show s.cv.OutBuff = _; simp
    · show s.fv.TimeOut = _; simp
  | succ n ih =>
    intro s hm hroom hc
    rw [List.replicate_succ, XRun_cons, XStep_timeOut_receive s hm]
    obtain ⟨f, a1, a2, a3, a4⟩ := XSendNAK_retry s (by omega) hroom
    obtain ⟨g, b1, b2, b3, b4⟩ := ih (XSendNAK s) (f.hMode.trans hm) a3 (by rw [a1]; omega)
    obtain ⟨e1, e2⟩ := f.byte
    refine ⟨f.thenNak g, ?_, ?_, b3, ?_⟩
    · rw [b1, a1]; push_cast; ring
    · rw [b2, a2, e1, List.append_assoc]; rfl
    · rw [b4, a4, e2, List.append_assoc]; rfl

theorem XInitTimeOuts_timers (s : XSt) (ts : TTSet) :
    (XInitTimeOuts s ts).xv.TOutInit = ts.XmodemTimeOutInit ∧
    (XInitTimeOuts s ts).xv.TOutInitCRC = ts.XmodemTimeOutInitCRC := by
  unfold XInitTimeOuts
  dsimp only
  split_ifs <;> exact ⟨rfl, rfl⟩

theorem XSetOpt_timers (s : XSt) (o : Nat) :
    (XSetOpt s o).xv.TOutInit = s.xv.TOutInit ∧ (XSetOpt s o).xv.TOutInitCRC = s.xv.TOutInitCRC ∧
    (XSetOpt s o).fv = s.fv := by
  unfold XSetOpt
  dsimp only
  split_ifs <;> exact ⟨rfl, rfl, rfl⟩

theorem XInitVars_timers (s : XSt) (ts : TTSet) :
    (XInitVars s ts).xv.TOutInit = ts.XmodemTimeOutInit ∧
    (XInitVars s ts).xv.TOutInitCRC = ts.XmodemTimeOutInitCRC ∧
    (XInitVars s ts).fv.TimeOut = s.fv.TimeOut := by
  unfold XInitVars
  dsimp only
  obtain ⟨t1, t2⟩ := XInitTimeOuts_timers
    { fv := { s.fv with ByteCount := 0 },
      xv := { s.xv with PktNumOffset := 0, PktNum := 0, PktNumSent := 0, PktBufCount := 0,
                        CRRecv := false, CANCount := 0 },
      cv := s.cv } ts
  obtain ⟨u1, -⟩ := XInitTimeOuts_frame
    { fv := { s.fv with ByteCount := 0 },
      xv := { s.xv with PktNumOffset := 0, PktNum := 0, PktNumSent := 0, PktBufCount := 0,
                        CRRecv := false, CANCount := 0 },
      cv := s.cv } ts
  generalize XInitTimeOuts
    { fv := { s.fv with ByteCount := 0 },
      xv := { s.xv with PktNumOffset := 0, PktNum := 0, PktNumSent := 0, PktBufCount := 0,
                        CRRecv := false, CANCount := 0 },
      cv := s.cv } ts = s2 at t1 t2 u1
  obtain ⟨v1, v2, v3⟩ := XSetOpt_timers s2 s2.xv.XOpt
  split_ifs
  · refine ⟨v1.trans t1, v2.trans t2, ?_⟩
    show (XSetOpt s2 s2.xv.XOpt).fv.TimeOut = _
    rw [v3, u1]
  · refine ⟨v1.trans t1, v2.trans t2, ?_⟩
    show (XSetOpt s2 s2.xv.XOpt).fv.TimeOut = _
    rw [v3, u1]

/-- The start of a receiver is the first call of `XSendNAK`. -/
theorem XInit_receive_eq (s : XSt) (ts : TTSet) (hm : s.xv.XMode = IdXReceive)
    (hV : s.xv.XOpt = XoptCheck ∨ s.xv.XOpt = XoptCRC ∨ s.xv.XOpt = Xopt1kCRC ∨
      s.xv.XOpt = Xopt1kCksum) :
    XInit s ts = XStep (XInitVars s ts) XEvent.timeOut ∧
    (XInitVars s ts).xv.XMode = IdXReceive := by
  obtain ⟨a1, -⟩ := XInitVars_facts s ts hV
  have hx : XInit s ts = XSendNAK (XInitVars s ts) := by
    unfold XInit
    dsimp only
    rw [a1, hm, if_neg (by decide), if_pos rfl]
  rw [hx, XStep_timeOut_receive _ (a1.trans hm)]
  exact ⟨rfl, a1.trans hm⟩

/-- The start of a receiver followed by `n` timeouts is `n + 1` calls of `XSendNAK`. -/
theorem XRun_init (s : XSt) (ts : TTSet) (hm : s.xv.XMode = IdXReceive)
    (hV : s.xv.XOpt = XoptCheck ∨ s.xv.XOpt = XoptCRC ∨ s.xv.XOpt = Xopt1kCRC ∨
      s.xv.XOpt = Xopt1kCksum) (n : Nat) :
    XRun (XInit s ts) (List.replicate n XEvent.timeOut) =
      XRun (XInitVars s ts) (List.replicate (n + 1) XEvent.timeOut) := by
  rw [List.replicate_succ, XRun_cons, (XInit_receive_eq s ts hm hV).1]

/-- `XSendNAK` without a retry left in 'C' mode, on a transport that accepts everything. -/
theorem XSendNAK_fallback (s : XSt) (h : s.xv.NAKCount ≤ 0) (hc : s.xv.NAKMode = XnakC)
    (hroom : s.cv.OutRoom = []) :
    (XSendNAK s).xv.XMode = s.xv.XMode ∧ (XSendNAK s).xv.NAKMode = XnakNAK ∧
    (XSendNAK s).xv.NAKCount = 9 ∧ (XSendNAK s).xv.XOpt = XoptCheck ∧
    (XSendNAK s).xv.DataLen = 128 ∧ (XSendNAK s).xv.CheckLen = 1 ∧
    (XSendNAK s).xv.PktNum = s.xv.PktNum ∧ (XSendNAK s).xv.PktNumOffset = s.xv.PktNumOffset ∧
    (XSendNAK s).xv.TOutInit = s.xv.TOutInit ∧ (XSendNAK s).xv.TOutLong = s.xv.TOutLong ∧
    (XSendNAK s).cv.OutBuff = s.cv.OutBuff ++ [NAK] ∧ (XSendNAK s).cv.OutRoom = [] ∧
    (XSendNAK s).fv.TimeOut = s.fv.TimeOut ++
      [if s.xv.PktNum = 0 ∧ s.xv.PktNumOffset = 0 then s.xv.TOutInit else s.xv.TOutLong] ∧
    (XSendNAK s).fv.WriteData = s.fv.WriteData := by
  unfold XSendNAK
  dsimp only
  rw [if_pos (by omega), if_pos hc]
  refine ⟨rfl, rfl, rfl, rfl, rfl, rfl, rfl, rfl, rfl, rfl, ?_, ?_, rfl, rfl⟩
  · exact (CommBinaryOut_free { s.cv with InBuff := [] } _ hroom).1
  · exact (CommBinaryOut_free { s.cv with InBuff := [] } _ hroom).2

/-- `XSendNAK` without a retry left in NAK mode, on a transport that accepts everything. -/
theorem XSendNAK_giveup (s : XSt) (h : s.xv.NAKCount ≤ 0) (hc : s.xv.NAKMode ≠ XnakC)
    (hroom : s.cv.OutRoom = []) :
    (XSendNAK s).xv.XMode = 0 ∧
    (XSendNAK s).cv.OutBuff = s.cv.OutBuff ++ [CAN, CAN, CAN, CAN, CAN, BS, BS, BS, BS, BS] ∧
    (XSendNAK s).fv = s.fv := by
  unfold XSendNAK
  dsimp only
  rw [if_pos (by omega), if_neg hc]
  refine ⟨rfl, ?_, rfl⟩
  exact (CommBinaryOut_free { s.cv with InBuff := [] } _ hroom).1

/-- The session variables from which a receiver starts: mode, budget and deadlines. -/
theorem XInitVars_receive (s : XSt) (ts : TTSet) (hm : s.xv.XMode = IdXReceive)
    (hV : s.xv.XOpt = XoptCheck ∨ s.xv.XOpt = XoptCRC ∨ s.xv.XOpt = Xopt1kCRC ∨
      s.xv.XOpt = Xopt1kCksum) (hroom : s.cv.OutRoom = []) :
    (XInitVars s ts).xv.XMode = IdXReceive ∧ (XInitVars s ts).cv.OutRoom = [] ∧
    (XInitVars s ts).cv.OutBuff = s.cv.OutBuff ∧
    (XInitVars s ts).fv.TimeOut = s.fv.TimeOut ∧
    (XInitVars s ts).xv.XOpt = s.xv.XOpt ∧
    (XInitVars s ts).xv.PktNum = 0 ∧ (XInitVars s ts).xv.PktNumOffset = 0 ∧
    ((s.xv.XOpt = XoptCheck ∨ s.xv.XOpt = Xopt1kCksum) →
      (XInitVars s ts).xv.NAKMode = XnakNAK ∧ (XInitVars s ts).xv.NAKCount = 10 ∧
      NakByte (XInitVars s ts).xv = NAK ∧
      NakTimeOut (XInitVars s ts).xv = ts.XmodemTimeOutInit) ∧
    ((s.xv.XOpt = XoptCRC ∨ s.xv.XOpt = Xopt1kCRC) →
      (XInitVars s ts).xv.NAKMode = XnakC ∧ (XInitVars s ts).xv.NAKCount = 3 ∧
      NakByte (XInitVars s ts).xv = 0x43 ∧
      NakTimeOut (XInitVars s ts).xv = ts.XmodemTimeOutInitCRC ∧
      (XInitVars s ts).xv.TOutInit = ts.XmodemTimeOutInit) := by
  obtain ⟨a1, a2, a3, a4, a5, a6, a7, a8, a9, a10, a11, a12, a13, a14⟩ := XInitVars_facts s ts hV
  obtain ⟨t1, t2, t3⟩ := XInitVars_timers s ts
  refine ⟨a1.trans hm, by rw [a5]; exact hroom, by rw [a5], t3, a3, a6, a8, ?_, ?_⟩
  · intro h
    rw [if_pos h] at a13 a14
    refine ⟨a13, a14, ?_, ?_⟩
    · unfold NakByte; rw [a13, if_pos rfl]
    · unfold NakTimeOut; rw [a13, if_pos rfl, if_pos ⟨a6, a8⟩, t1]
  · intro h
    have hn : ¬ (s.xv.XOpt = XoptCheck ∨ s.xv.XOpt = Xopt1kCksum) := by
      rcases h with h | h <;> rw [h] <;> decide
    rw [if_neg hn] at a13 a14
    refine ⟨a13, a14, ?_, ?_, t1⟩
    · unfold NakByte; rw [a13, if_neg (by decide)]
    · unfold NakTimeOut; rw [a13, if_neg (by decide), t2]

/-- A receiver in NAK mode with `c` retries left and no input: `c` more NAKs,
then the cancel sequence. -/
theorem XRun_nak_budget (s : XSt) (c : Nat) (hm : s.xv.XMode = IdXReceive)
    (hroom : s.cv.OutRoom = []) (hnak : s.xv.NAKMode = XnakNAK) (hc : s.xv.NAKCount = c) :
    (∀ n, n ≤ c →
      NakFrame s (XRun s (List.replicate n XEvent.timeOut)) ∧
      (XRun s (List.replicate n XEvent.timeOut)).cv.OutBuff =
        s.cv.OutBuff ++ List.replicate n NAK ∧
      (XRun s (List.replicate n XEvent.timeOut)).fv.TimeOut =
        s.fv.TimeOut ++ List.replicate n (NakTimeOut s.xv)) ∧
    (XRun s (List.replicate (c + 1) XEvent.timeOut)).xv.XMode = 0 ∧
    (XRun s (List.replicate (c + 1) XEvent.timeOut)).cv.OutBuff =
      s.cv.OutBuff ++ List.replicate c NAK ++ [CAN, CAN, CAN, CAN, CAN, BS, BS, BS, BS, BS] := by
  have hb : NakByte s.xv = NAK := by unfold NakByte; rw [hnak, if_pos rfl]
  constructor
  · intro n hn
    obtain ⟨f, -, a2, -, a4⟩ := XRun_timeOuts n s hm hroom (by rw [hc]; exact_mod_cast hn)
    rw [hb] at a2
    exact ⟨f, a2, a4⟩
  · obtain ⟨f, a1, a2, a3, -⟩ := XRun_timeOuts c s hm hroom (by rw [hc])
    rw [hb] at a2
    rw [List.replicate_add, XRun_append]
    show (XStep (XRun s (List.replicate c XEvent.timeOut)) XEvent.timeOut).xv.XMode = 0 ∧
      (XStep (XRun s (List.replicate c XEvent.timeOut)) XEvent.timeOut).cv.OutBuff = _
    rw [XStep_timeOut_receive _ (f.hMode.trans hm)]
    obtain ⟨g1, g2, -⟩ := XSendNAK_giveup (XRun s (List.replicate c XEvent.timeOut))
      (by rw [a1, hc]; omega) (by rw [f.hNak, hnak]; decide) a3
    exact ⟨g1, by rw [g2, a2]⟩

/-- A receiver in 'C' mode with `c` retries left and no input: `c` more 'C',
then the fall-back to checksum with one NAK. -/
theorem XRun_crc_budget (s : XSt) (c : Nat) (hm : s.xv.XMode = IdXReceive)
    (hroom : s.cv.OutRoom = []) (hnak : s.xv.NAKMode = XnakC) (hc : s.xv.NAKCount = c)
    (h0 : s.xv.PktNum = 0 ∧ s.xv.PktNumOffset = 0) :
    (∀ n, n ≤ c →
      NakFrame s (XRun s (List.replicate n XEvent.timeOut)) ∧
      (XRun s (List.replicate n XEvent.timeOut)).xv.NAKCount = (c : Int) - n ∧
      (XRun s (List.replicate n XEvent.timeOut)).cv.OutBuff =
        s.cv.OutBuff ++ List.replicate n 0x43 ∧
      (XRun s (List.replicate n XEvent.timeOut)).fv.TimeOut =
        s.fv.TimeOut ++ List.replicate n (NakTimeOut s.xv)) ∧
    (XRun s (List.replicate (c + 1) XEvent.timeOut)).xv.XMode = IdXReceive ∧
    (XRun s (List.replicate (c + 1) XEvent.timeOut)).xv.NAKMode = XnakNAK ∧
    (XRun s (List.replicate (c + 1) XEvent.timeOut)).xv.NAKCount = 9 ∧
    (XRun s (List.replicate (c + 1) XEvent.timeOut)).xv.XOpt = XoptCheck ∧
    (XRun s (List.replicate (c + 1) XEvent.timeOut)).xv.DataLen = 128 ∧
    (XRun s (List.replicate (c + 1) XEvent.timeOut)).xv.CheckLen = 1 ∧
    (XRun s (List.replicate (c + 1) XEvent.timeOut)).cv.OutBuff =
      s.cv.OutBuff ++ List.replicate c 0x43 ++ [NAK] ∧
    (XRun s (List.replicate (c + 1) XEvent.timeOut)).cv.OutRoom = [] ∧
    (XRun s (List.replicate (c + 1) XEvent.timeOut)).fv.TimeOut =
      s.fv.TimeOut ++ List.replicate c (NakTimeOut s.xv) ++ [s.xv.TOutInit] ∧
    NakTimeOut (XRun s (List.replicate (c + 1) XEvent.timeOut)).xv = s.xv.TOutInit := by
  have hb : NakByte s.xv = 0x43 := by unfold NakByte; rw [hnak, if_neg (by decide)]
  constructor
  · intro n hn
    obtain ⟨f, a1, a2, -, a4⟩ := XRun_timeOuts n s hm hroom (by rw [hc]; exact_mod_cast hn)
    rw [hb] at a2
    rw [hc] at a1
    exact ⟨f, a1, a2, a4⟩
  · obtain ⟨f, a1, a2, a3, a4⟩ := XRun_timeOuts c s hm hroom (by rw [hc])
    rw [hb] at a2
    rw [List.replicate_add, XRun_append]
    have e : XRun (XRun s (List.replicate c XEvent.timeOut)) (List.replicate 1 XEvent.timeOut) =
        XSendNAK (XRun s (List.replicate c XEvent.timeOut)) :=
      XStep_timeOut_receive _ (f.hMode.trans hm)
    rw [e]
    obtain ⟨g1, g2, g3, g4, g5, g6, g7, g8, g9, g10, g11, g12, g13, g14⟩ :=
      XSendNAK_fallback (XRun s (List.replicate c XEvent.timeOut))
        (by rw [a1, hc]; omega) (by rw [f.hNak, hnak]) a3
    rw [f.hNum, f.hOff, if_pos h0, f.hInit] at g13
    refine ⟨g1.trans (f.hMode.trans hm), g2, g3, g4, g5, g6, by rw [g11, a2], g12,
      by rw [g13, a4], ?_⟩
    unfold NakTimeOut
    rw [g2, if_pos rfl, g7, g8, f.hNum, f.hOff, if_pos h0, g9, f.hInit]

/-- C18. A receiver that never receives input, on a transport that accepts
everything.  Initialised with a checksum variant it writes NAK at `XInit` and
at each of the next nine timeouts, arming `XmodemTimeOutInit` each time - ten
NAK in all - and at the tenth timeout writes the cancel sequence and ends with
`XMode = 0`.  Initialised with a CRC variant it writes 'C' at `XInit` and at
each of the next two timeouts, arming `XmodemTimeOutInitCRC` each time - three
'C' in all - and at the third timeout falls back to checksum; from there it
writes ten NAK and at the thirteenth timeout the cancel sequence, ending with
`XMode = 0`.  So both runs end after finitely many timeouts. -/
theorem receiver_retry_budget (rx0 : XSt) (ts : TTSet) (hm : rx0.xv.XMode = IdXReceive)
    (hroom : rx0.cv.OutRoom = []) :
    ((rx0.xv.XOpt = XoptCheck ∨ rx0.xv.XOpt = Xopt1kCksum) →
      (∀ n, n ≤ 9 →
        (XRun (XInit rx0 ts) (List.replicate n XEvent.timeOut)).cv.OutBuff =
          rx0.cv.OutBuff ++ List.replicate (n + 1) NAK ∧
        (XRun (XInit rx0 ts) (List.replicate n XEvent.timeOut)).fv.TimeOut =
          rx0.fv.TimeOut ++ List.replicate (n + 1) ts.XmodemTimeOutInit ∧
        (XRun (XInit rx0 ts) (List.replicate n XEvent.timeOut)).xv.XMode = IdXReceive) ∧
      (XRun (XInit rx0 ts) (List.replicate 10 XEvent.timeOut)).cv.OutBuff =
        rx0.cv.OutBuff ++ List.replicate 10 NAK ++ [CAN, CAN, CAN, CAN, CAN, BS, BS, BS, BS, BS] ∧
      (XRun (XInit rx0 ts) (List.replicate 10 XEvent.timeOut)).xv.XMode = 0) ∧
    ((rx0.xv.XOpt = XoptCRC ∨ rx0.xv.XOpt = Xopt1kCRC) →
      (∀ n, n ≤ 2 →
        (XRun (XInit rx0 ts) (List.replicate n XEvent.timeOut)).cv.OutBuff =
          rx0.cv.OutBuff ++ List.replicate (n + 1) 0x43 ∧
        (XRun (XInit rx0 ts) (List.replicate n XEvent.timeOut)).fv.TimeOut =
          rx0.fv.TimeOut ++ List.replicate (n + 1) ts.XmodemTimeOutInitCRC ∧
        (XRun (XInit rx0 ts) (List.replicate n XEvent.timeOut)).xv.XMode = IdXReceive ∧
        (XRun (XInit rx0 ts) (List.replicate n XEvent.timeOut)).xv.NAKMode = XnakC ∧
        (XRun (XInit rx0 ts) (List.replicate n XEvent.timeOut)).xv.XOpt = rx0.xv.XOpt) ∧
      (∀ n, n ≤ 9 →
        (XRun (XInit rx0 ts) (List.replicate (3 + n) XEvent.timeOut)).cv.OutBuff =
          rx0.cv.OutBuff ++ List.replicate 3 0x43 ++ List.replicate (n + 1) NAK ∧
        (XRun (XInit rx0 ts) (List.replicate (3 + n) XEvent.timeOut)).xv.XMode = IdXReceive ∧
        (XRun (XInit rx0 ts) (List.replicate (3 + n) XEvent.timeOut)).xv.NAKMode = XnakNAK ∧
        (XRun (XInit rx0 ts) (List.replicate (3 + n) XEvent.timeOut)).xv.XOpt = XoptCheck) ∧
      (XRun (XInit rx0 ts) (List.replicate 13 XEvent.timeOut)).cv.OutBuff =
        rx0.cv.OutBuff ++ List.replicate 3 0x43 ++ List.replicate 10 NAK ++
          [CAN, CAN, CAN, CAN, CAN, BS, BS, BS, BS, BS] ∧
      (XRun (XInit rx0 ts) (List.replicate 13 XEvent.timeOut)).xv.XMode = 0) := by
  constructor
  · intro hV
    have hV4 : rx0.xv.XOpt = XoptCheck ∨ rx0.xv.XOpt = XoptCRC ∨ rx0.xv.XOpt = Xopt1kCRC ∨
        rx0.xv.XOpt = Xopt1kCksum := by
      rcases hV with h | h
      · exact Or.inl h
      · exact Or.inr (Or.inr (Or.inr h))
    obtain ⟨v1, v2, v3, v4, v5, v6, v7, v8, -⟩ := XInitVars_receive rx0 ts hm hV4 hroom
    obtain ⟨w1, w2, w3, w4⟩ := v8 hV
    obtain ⟨b1, b2, b3⟩ := XRun_nak_budget (XInitVars rx0 ts) 10 v1 v2 w1 w2
    refine ⟨?_, ?_, ?_⟩
    · intro n hn
      rw [XRun_init rx0 ts hm hV4 n]
      obtain ⟨f, c1, c2⟩ := b1 (n + 1) (by omega)
      rw [v3] at c1
      rw [v4, w4] at c2
      exact ⟨c1, c2, f.hMode.trans v1⟩
    · rw [XRun_init rx0 ts hm hV4 10, b3, v3]
    · rw [XRun_init rx0 ts hm hV4 10]; exact b2
  · intro hV
    have hV4 : rx0.xv.XOpt = XoptCheck ∨ rx0.xv.XOpt = XoptCRC ∨ rx0.xv.XOpt = Xopt1kCRC ∨
        rx0.xv.XOpt = Xopt1kCksum := by
      rcases hV with h | h
      · exact Or.inr (Or.inl h)
      · exact Or.inr (Or.inr (Or.inl h))
    obtain ⟨v1, v2, v3, v4, v5, v6, v7, -, v9⟩ := XInitVars_receive rx0 ts hm hV4 hroom
    obtain ⟨w1, w2, w3, w4, w5⟩ := v9 hV
    obtain ⟨b1, b2, b3, b4, b5, b6, b7, b8, b9, b10, b11⟩ :=
      XRun_crc_budget (XInitVars rx0 ts) 3 v1 v2 w1 w2 ⟨v6, v7⟩
    obtain ⟨d1, d2, d3⟩ := XRun_nak_budget (XRun (XInitVars rx0 ts)
      (List.replicate (3 + 1) XEvent.timeOut)) 9 b2 b9 b3 b4
    have hsplit : ∀ n, XRun (XInit rx0 ts) (List.replicate (3 + n) XEvent.timeOut) =
        XRun (XRun (XInitVars rx0 ts) (List.replicate (3 + 1) XEvent.timeOut))
          (List.replicate n XEvent.timeOut) := by
      intro n
      rw [XRun_init rx0 ts hm hV4 (3 + n), show 3 + n + 1 = (3 + 1) + n by omega,
        List.replicate_add, XRun_append]
    refine ⟨?_, ?_, ?_, ?_⟩
    · intro n hn
      rw [XRun_init rx0 ts hm hV4 n]
      obtain ⟨f, c1, c2, c3⟩ := b1 (n + 1) (by omega)
      rw [v3] at c2
      rw [v4, w4] at c3
      exact ⟨c2, c3, f.hMode.trans v1, f.hNak.trans w1, f.hOpt.trans v5⟩
    · intro n hn
      rw [hsplit n]
      obtain ⟨f, c1, c2⟩ := d1 n hn
      refine ⟨?_, f.hMode.trans b2, f.hNak.trans b3, f.hOpt.trans b5⟩
      rw [c1, b8, v3]
      simp only [List.append_assoc, List.replicate_succ, List.cons_append, List.nil_append]
    · rw [show (13 : Nat) = 3 + (9 + 1) from rfl, hsplit (9 + 1), d3, b8, v3]
      simp only [List.append_assoc, List.replicate_succ, List.cons_append, List.nil_append,
        List.replicate_zero]
    · rw [show (13 : Nat) = 3 + (9 + 1) from rfl, hsplit (9 + 1)]
      exact d2

/-- C19. A receiver initialised with CRC (128-byte payload) that receives no
input, on a transport that accepts everything: the retry counter is 3 before
the first 'C' and 2, 1 and 0 after `XInit` and the first two timeouts, with
'C' sent three times and the session still in 'C' mode; it is the third
timeout at which the counter drops below 0, and after it the session is in NAK
mode under the checksum variant with the counter at 9, one NAK having followed
the three 'C'. -/
theorem crc_downgrade_scenario (rx0 : XSt) (ts : TTSet) (hm : rx0.xv.XMode = IdXReceive)
    (hroom : rx0.cv.OutRoom = []) (hV : rx0.xv.XOpt = XoptCRC) :
    (XInitVars rx0 ts).xv.NAKCount = 3 ∧
    (∀ n, n ≤ 2 →
      (XRun (XInit rx0 ts) (List.replicate n XEvent.timeOut)).xv.NAKCount = 2 - (n : Int) ∧
      (XRun (XInit rx0 ts) (List.replicate n XEvent.timeOut)).xv.NAKMode = XnakC ∧
      (XRun (XInit rx0 ts) (List.replicate n XEvent.timeOut)).xv.XOpt = XoptCRC ∧
      (XRun (XInit rx0 ts) (List.replicate n XEvent.timeOut)).cv.OutBuff =
        rx0.cv.OutBuff ++ List.replicate (n + 1) 0x43) ∧
    (XRun (XInit rx0 ts) (List.replicate 3 XEvent.timeOut)).xv.NAKMode = XnakNAK ∧
    (XRun (XInit rx0 ts) (List.replicate 3 XEvent.timeOut)).xv.NAKCount = 9 ∧
    (XRun (XInit rx0 ts) (List.replicate 3 XEvent.timeOut)).xv.XOpt = XoptCheck ∧
    (XRun (XInit rx0 ts) (List.replicate 3 XEvent.timeOut)).xv.DataLen = 128 ∧
    (XRun (XInit rx0 ts) (List.replicate 3 XEvent.timeOut)).xv.CheckLen = 1 ∧
    (XRun (XInit rx0 ts) (List.replicate 3 XEvent.timeOut)).cv.OutBuff =
      rx0.cv.OutBuff ++ [0x43, 0x43, 0x43, NAK] := by
  have hV4 : rx0.xv.XOpt = XoptCheck ∨ rx0.xv.XOpt = XoptCRC ∨ rx0.xv.XOpt = Xopt1kCRC ∨
      rx0.xv.XOpt = Xopt1kCksum := Or.inr (Or.inl hV)
  obtain ⟨v1, v2, v3, v4, v5, v6, v7, -, v9⟩ := XInitVars_receive rx0 ts hm hV4 hroom
  obtain ⟨w1, w2, w3, w4, w5⟩ := v9 (Or.inl hV)
  obtain ⟨b1, b2, b3, b4, b5, b6, b7, b8, b9, b10, b11⟩ :=
    XRun_crc_budget (XInitVars rx0 ts) 3 v1 v2 w1 w2 ⟨v6, v7⟩
  refine ⟨w2, ?_, ?_, ?_, ?_, ?_, ?_, ?_⟩
  · intro n hn
    rw [XRun_init rx0 ts hm hV4 n]
    obtain ⟨f, c1, c2, c3⟩ := b1 (n + 1) (by omega)
    rw [v3] at c2
    refine ⟨?_, f.hNak.trans w1, f.hOpt.trans (v5.trans hV), c2⟩
    rw [c1]; push_cast; ring
  all_goals rw [XRun_init rx0 ts hm hV4 3]
  · exact b3
  · exact b4
  · exact b5
  · exact b6
  · exact b7
  · rw [b8, v3]
    simp only [List.append_assoc, List.replicate_succ, List.replicate_zero, List.cons_append,
      List.nil_append]

/-- C19, where the claim fails: after `XInit` and exactly two timeouts a CRC
receiver without input has sent 'C' three times, its retry counter is 0 and it
is still in 'C' mode under the CRC variant. -/
theorem crc_downgrade_not_after_two :
    (XRun (XInit (exSession IdXReceive XoptCRC []) exTTSet)
      [XEvent.timeOut, XEvent.timeOut]).cv.OutBuff = [0x43, 0x43, 0x43] ∧
    (XRun (XInit (exSession IdXReceive XoptCRC []) exTTSet)
      [XEvent.timeOut, XEvent.timeOut]).xv.NAKCount = 0 ∧
    (XRun (XInit (exSession IdXReceive XoptCRC []) exTTSet)
      [XEvent.timeOut, XEvent.timeOut]).xv.NAKMode = XnakC ∧
    (XRun (XInit (exSession IdXReceive XoptCRC []) exTTSet)
      [XEvent.timeOut, XEvent.timeOut]).xv.XOpt = XoptCRC := by decide

theorem receiver_retry_budget_witness :
    (XRun (XInit (exSession IdXReceive XoptCheck []) exTTSet)
      (List.replicate 10 XEvent.timeOut)).xv.XMode = 0 ∧
    (XRun (XInit (exSession IdXReceive XoptCRC []) exTTSet)
      (List.replicate 13 XEvent.timeOut)).xv.XMode = 0 :=
  have h := receiver_retry_budget (exSession IdXReceive XoptCheck []) exTTSet (by decide)
    (by decide)
  have k := receiver_retry_budget (exSession IdXReceive XoptCRC []) exTTSet (by decide)
    (by decide)
  ⟨(h.1 (by decide)).2.2, (k.2 (by decide)).2.2.2⟩

theorem crc_downgrade_scenario_witness :
    (XRun (XInit (exSession IdXReceive XoptCRC []) exTTSet)
      (List.replicate 3 XEvent.timeOut)).xv.NAKMode = XnakNAK ∧
    (XRun (XInit (exSession IdXReceive XoptCRC []) exTTSet)
      (List.replicate 3 XEvent.timeOut)).xv.NAKCount = 9 :=
  have h := crc_downgrade_scenario (exSession IdXReceive XoptCRC []) exTTSet (by decide)
    (by decide) (by decide)
  ⟨h.2.2.1, h.2.2.2.1⟩

/-! ## The fall-back to checksum happens once -/

theorem StoreFrame.reflStore (s : XSt) : StoreFrame s s := by
  constructor <;> rfl

theorem StoreFrame.thenStore {a b c : XSt} (h1 : StoreFrame a b) (h2 : StoreFrame b c) :
    StoreFrame a c := by
  constructor
  · exact h2.hNak.trans h1.hNak
  · exact h2.hNakC.trans h1.hNakC
  · exact h2.hMode.trans h1.hMode
  · exact h2.hCan.trans h1.hCan
  · exact h2.hRead.trans h1.hRead
  · exact h2.hSucc.trans h1.hSucc
  · exact h2.hOpen.trans h1.hOpen
  · exact h2.hCv.trans h1.hCv

theorem XWriteText1_frame (s : XSt) (i : Nat) : StoreFrame s (XWriteText1 s i) := by
  unfold XWriteText1
  dsimp only
  split_ifs <;> constructor <;> rfl

theorem foldl_XWriteText1_frame (l : List Nat) : ∀ s : XSt, StoreFrame s (l.foldl XWriteText1 s) := by
  induction l with
  | nil => intro s; exact StoreFrame.reflStore s
  | cons a l ih =>
    intro s
    rw [List.foldl_cons]
    exact (XWriteText1_frame s a).thenStore (ih _)

theorem XReadPacketStore_frame (r : XSt) : StoreFrame r (XReadPacketStore r) := by
  unfold XReadPacketStore
  dsimp only
  by_cases h0 : r.xv.PktIn 1 = 0 <;> by_cases ht : r.xv.TextFlag > 0
  · simp only [if_pos h0]
    simp only [if_pos ht]
    have f := foldl_XWriteText1_frame (List.range (XTrimSUB r.xv.PktIn r.xv.DataLen))
      { r with xv := { r.xv with PktNum := r.xv.PktIn 1, PktNumOffset := r.xv.PktNumOffset + 256 } }
    dsimp only at f
    generalize List.foldl XWriteText1 _ (List.range (XTrimSUB r.xv.PktIn r.xv.DataLen)) = s2 at f ⊢
    exact ⟨f.hNak, f.hNakC, f.hMode, f.hCan, f.hRead, f.hSucc, f.hOpen, f.hCv⟩
  · simp only [if_pos h0]
    simp only [if_neg ht]
    constructor <;> rfl
  · simp only [if_neg h0]
    simp only [if_pos ht]
    have f := foldl_XWriteText1_frame (List.range (XTrimSUB r.xv.PktIn r.xv.DataLen))
      { r with xv := { r.xv with PktNum := r.xv.PktIn 1 } }
    dsimp only at f
    generalize List.foldl XWriteText1 _ (List.range (XTrimSUB r.xv.PktIn r.xv.DataLen)) = s2 at f ⊢
    exact ⟨f.hNak, f.hNakC, f.hMode, f.hCan, f.hRead, f.hSucc, f.hOpen, f.hCv⟩
  · simp only [if_neg h0]
    simp only [if_neg ht]
    constructor <;> rfl

/-- An invariant relation of the steps of the receive loop holds of the loop. -/
theorem XReadPacketLoop_induct (R : XSt → XSt → Prop) (hrefl : ∀ s, R s s)
    (htrans : ∀ a b c, R a b → R b c → R a c) (hpop : ∀ s, R s (popIn s))
    (hbody : ∀ s b, R s (XReadPacketBody s b).1) :
    ∀ (fuel : Nat) (s : XSt), R s (XReadPacketLoop fuel s).1 := by
  intro fuel
  induction fuel with
  | zero => intro s; exact hrefl s
  | succ n ih =>
    intro s
    cases hin : s.cv.InBuff with
    | nil => rw [XReadPacketLoop_nil _ _ hin]; exact hrefl s
    | cons b rest =>
      have h1 : R s (XReadPacketBody (popIn s) (BYTE b)).1 :=
        htrans _ _ _ (hpop s) (hbody _ _)
      cases hret : (XReadPacketBody (popIn s) (BYTE b)).2.2 with
      | some r => rw [XReadPacketLoop_ret n s b rest r hin hret]; exact h1
      | none =>
        cases hg : (XReadPacketBody (popIn s) (BYTE b)).2.1 with
        | true =>
          rw [XReadPacketLoop_done n s b rest hin hret hg]
          exact htrans _ _ _ h1 (hpop _)
        | false =>
          rw [XReadPacketLoop_next n s b rest hin hret hg]
          exact htrans _ _ _ h1 (ih _)

/-- An invariant relation of the steps of `XReadPacket` holds of `XReadPacket`. -/
theorem XReadPacket_induct (R : XSt → XSt → Prop) (hrefl : ∀ s, R s s)
    (htrans : ∀ a b c, R a b → R b c → R a c) (hpop : ∀ s, R s (popIn s))
    (hbody : ∀ s b, R s (XReadPacketBody s b).1) (hgot : ∀ s, R s (XReadPacketGot s).2)
    (s : XSt) : R s (XReadPacket s).2 := by
  have hl := XReadPacketLoop_induct R hrefl htrans hpop hbody (s.cv.InBuff.length + 1) s
  unfold XReadPacket
  dsimp only
  generalize XReadPacketLoop (s.cv.InBuff.length + 1) s = r at hl
  obtain ⟨r1, g, ret⟩ := r
  cases ret with
  | some b => exact hl
  | none =>
    cases g with
    | true => exact htrans _ _ _ hl (hgot r1)
    | false => exact hl

theorem NakStable.reflStable (s : XSt) : NakStable s s :=
  ⟨fun h => h, fun h => h, Or.inl rfl⟩

theorem NakStable.thenStable {a b c : XSt} (h1 : NakStable a b) (h2 : NakStable b c) :
    NakStable a c := by
  refine ⟨fun h => h2.hNak (h1.hNak h), fun h => h2.hNotC (h1.hNotC h), ?_⟩
  rcases h2.hMode with h | h
  · rcases h1.hMode with k | k
    · exact Or.inl (h.trans k)
    · exact Or.inr (h.trans k)
  · exact Or.inr h

/-- A step that leaves the mode and the role alone. -/
theorem NakStable.of_eq {s s' : XSt} (h1 : s'.xv.NAKMode = s.xv.NAKMode)
    (h2 : s'.xv.XMode = s.xv.XMode) : NakStable s s' :=
  ⟨fun h => h1.trans h, fun h => by rw [h1]; exact h, Or.inl h2⟩

theorem XSendNAK_stable (s : XSt) : NakStable s (XSendNAK s) := by
  obtain ⟨-, -, -, c4, c5, c6⟩ := XSendNAK_cases s
  by_cases h : 0 < s.xv.NAKCount
  · obtain ⟨-, -, -, d4, d5, -⟩ := c4 h
    exact NakStable.of_eq d4 d5
  · by_cases hc : s.xv.NAKMode = XnakC
    · obtain ⟨-, -, -, d4, d5, -⟩ := c5 (by omega) hc
      exact ⟨fun _ => d4, fun _ => by rw [d4]; decide, Or.inl d5⟩
    · obtain ⟨-, d2, -, d4⟩ := c6 (by omega) hc
      exact ⟨fun k => d4.trans k, fun k => by rw [d4]; exact k, Or.inr d2⟩

theorem XSendNAK_stable_of (s s0 : XSt) (h1 : s0.xv.NAKMode = s.xv.NAKMode)
    (h2 : s0.xv.XMode = s.xv.XMode) : NakStable s (XSendNAK s0) :=
  (NakStable.of_eq h1 h2).thenStable (XSendNAK_stable s0)

theorem XSetOpt_stable (s : XSt) (o : Nat) : NakStable s (XSetOpt s o) :=
  NakStable.of_eq (XSetOpt_frame s o).hNak (XSetOpt_frame s o).hMode

theorem XReadPacketSOH_stable (s : XSt) (b : Nat) : NakStable s (XReadPacketSOH s b).1 := by
  unfold XReadPacketSOH
  dsimp only
  split_ifs <;> exact NakStable.of_eq rfl rfl

theorem XReadPacketBody_stable (s : XSt) (b : Nat) : NakStable s (XReadPacketBody s b).1 := by
  unfold XReadPacketBody
  dsimp only
  split_ifs
  · exact XReadPacketSOH_stable s b
  · exact NakStable.of_eq rfl rfl
  · exact NakStable.of_eq rfl rfl
  · exact XSendNAK_stable_of _ _ rfl rfl
  · exact NakStable.of_eq rfl rfl
  · exact NakStable.of_eq rfl rfl
  · exact NakStable.reflStable s

theorem XReadPacketGot_stable (s : XSt) : NakStable s (XReadPacketGot s).2 := by
  unfold XReadPacketGot
  dsimp only
  by_cases h1 : s.xv.PktIn 1 = 0 ∧ s.xv.PktNum = 0 ∧ s.xv.PktNumOffset = 0
  · rw [if_pos h1]
    exact XSendNAK_stable_of _ _ rfl rfl
  · rw [if_neg h1]
    by_cases h2 : XCheckPacket s.xv = false
    · rw [if_pos h2]
      exact XSendNAK_stable s
    · rw [if_neg h2]
      by_cases h3 : ((s.xv.PktIn 1 : Int) - (s.xv.PktNum : Int)) % 256 > 1
      · rw [if_pos h3]
        exact ⟨fun h => h, fun h => h, Or.inr rfl⟩
      · rw [if_neg h3]
        by_cases h4 : ((s.xv.PktIn 1 : Int) - (s.xv.PktNum : Int)) % 256 = 0
        · rw [if_pos h4]
          exact ⟨fun _ => rfl, fun _ hc => absurd (show XnakNAK = XnakC from hc) (by decide), Or.inl rfl⟩
        · rw [if_neg h4]
          have f := XReadPacketStore_frame
            { (XWrite s [ACK]).1 with
              xv := { (XWrite s [ACK]).1.xv with NAKMode := XnakNAK, NAKCount := 10 } }
          have e1 : (XReadPacketStore
              { (XWrite s [ACK]).1 with
                xv := { (XWrite s [ACK]).1.xv with NAKMode := XnakNAK, NAKCount := 10 } }).xv.NAKMode =
              XnakNAK := f.hNak
          exact ⟨fun _ => e1, fun _ hc => absurd (e1.symm.trans hc) (by decide), Or.inl f.hMode⟩

theorem XReadPacket_stable (s : XSt) : NakStable s (XReadPacket s).2 :=
  XReadPacket_induct NakStable NakStable.reflStable (fun _ _ _ h1 h2 => h1.thenStable h2)
    (fun _ => NakStable.of_eq rfl rfl) XReadPacketBody_stable XReadPacketGot_stable s

/-- Every event keeps a receiving or ended session such, and keeps it out of 'C' mode. -/
theorem XStep_stable (s : XSt) (e : XEvent) (hm : s.xv.XMode = IdXReceive ∨ s.xv.XMode = 0) :
    NakStable s (XStep s e) := by
  cases e with
  | input bytes => exact NakStable.of_eq rfl rfl
  | parse =>
    show NakStable s (XParse s).2
    rcases hm with h | h
    · rw [XParse_receive s h]; exact XReadPacket_stable s
    · unfold XParse
      rw [if_neg (by rw [h]; decide), if_neg (by rw [h]; decide)]
      exact NakStable.reflStable s
  | timeOut =>
    rcases hm with h | h
    · rw [XStep_timeOut_receive s h]; exact XSendNAK_stable s
    · show NakStable s (XTimeOutProc s)
      unfold XTimeOutProc
      rw [if_neg (by rw [h]; decide), if_neg (by rw [h]; decide)]
      exact NakStable.reflStable s
  | cancel => exact ⟨fun h => h, fun h => h, Or.inr rfl⟩

theorem NakStable.role {s s' : XSt} (h : NakStable s s')
    (hm : s.xv.XMode = IdXReceive ∨ s.xv.XMode = 0) :
    s'.xv.XMode = IdXReceive ∨ s'.xv.XMode = 0 := by
  rcases h.hMode with k | k
  · rw [k]; exact hm
  · exact Or.inr k

theorem XRun_stable (es : List XEvent) : ∀ s : XSt,
    (s.xv.XMode = IdXReceive ∨ s.xv.XMode = 0) → NakStable s (XRun s es) := by
  induction es with
  | nil => intro s _; exact NakStable.reflStable s
  | cons e es ih =>
    intro s hm
    rw [XRun_cons]
    have h1 := XStep_stable s e hm
    exact h1.thenStable (ih _ (h1.role hm))

theorem leavesC_zero (es : List XEvent) : ∀ s : XSt,
    (s.xv.XMode = IdXReceive ∨ s.xv.XMode = 0) → s.xv.NAKMode ≠ XnakC → leavesC s es = 0 := by
  induction es with
  | nil => intro s _ _; rfl
  | cons e es ih =>
    intro s hm hc
    have h1 := XStep_stable s e hm
    unfold leavesC
    rw [if_neg (fun h => hc h.1), ih _ (h1.role hm) (h1.hNotC hc)]

theorem leavesC_le_one (es : List XEvent) : ∀ s : XSt,
    (s.xv.XMode = IdXReceive ∨ s.xv.XMode = 0) → leavesC s es ≤ 1 := by
  induction es with
  | nil => intro s _; exact Nat.zero_le 1
  | cons e es ih =>
    intro s hm
    have h1 := XStep_stable s e hm
    unfold leavesC
    by_cases h : s.xv.NAKMode = XnakC ∧ (XStep s e).xv.NAKMode ≠ XnakC
    · rw [if_pos h, leavesC_zero es _ (h1.role hm) h.2]
    · rw [if_neg h, Nat.zero_add]
      exact ih _ (h1.role hm)

/-- C20. The fall-back from CRC to checksum.  In `XSendNAK` it is taken
exactly when the retry counter drops below 0 in 'C' mode: it then sets the
variant to checksum with 128-byte payload whatever the payload length was,
the mode to NAK and the counter to 9, and hands NAK to the transport; in
every other case `XSendNAK` leaves mode and variant as they are, and a drop
below 0 outside 'C' mode hands the cancel sequence to the transport and ends
the session.  Over every run of a receiving session - any interleaving of
input, `XParse`, timeouts and cancelling - the session leaves 'C' mode on at
most one step, the fall-back being such a step, and once out of 'C' mode it
never returns to it. -/
theorem fallback_once (s : XSt) (es : List XEvent) (hm : s.xv.XMode = IdXReceive) :
    (∀ r : XSt,
      (r.xv.NAKCount - 1 < 0 ∧ r.xv.NAKMode = XnakC →
        (XSendNAK r).xv.XOpt = XoptCheck ∧ (XSendNAK r).xv.DataLen = 128 ∧
        (XSendNAK r).xv.CheckLen = 1 ∧ (XSendNAK r).xv.NAKMode = XnakNAK ∧
        (XSendNAK r).xv.NAKCount = 9 ∧ Wrote r.cv (XSendNAK r).cv [NAK]) ∧
      (¬ (r.xv.NAKCount - 1 < 0 ∧ r.xv.NAKMode = XnakC) →
        (XSendNAK r).xv.NAKMode = r.xv.NAKMode ∧ (XSendNAK r).xv.XOpt = r.xv.XOpt ∧
        (XSendNAK r).xv.DataLen = r.xv.DataLen ∧ (XSendNAK r).xv.CheckLen = r.xv.CheckLen) ∧
      (r.xv.NAKCount - 1 < 0 ∧ r.xv.NAKMode ≠ XnakC →
        Wrote r.cv (XSendNAK r).cv [CAN, CAN, CAN, CAN, CAN, BS, BS, BS, BS, BS] ∧
        (XSendNAK r).xv.XMode = 0)) ∧
    leavesC s es ≤ 1 ∧
    (s.xv.NAKCount - 1 < 0 ∧ s.xv.NAKMode = XnakC → leavesC s [XEvent.timeOut] = 1) ∧
    (s.xv.NAKMode ≠ XnakC → (XRun s es).xv.NAKMode ≠ XnakC) ∧
    (s.xv.NAKMode = XnakNAK → (XRun s es).xv.NAKMode = XnakNAK) := by
  refine ⟨?_, leavesC_le_one es s (Or.inl hm), ?_, (XRun_stable es s (Or.inl hm)).hNotC,
    (XRun_stable es s (Or.inl hm)).hNak⟩
  · intro r
    obtain ⟨-, -, -, c4, c5, c6⟩ := XSendNAK_cases r
    refine ⟨?_, ?_, ?_⟩
    · rintro ⟨h1, h2⟩
      obtain ⟨d1, -, d3, d4, -, d6, d7, d8⟩ := c5 (by omega) h2
      exact ⟨d6, d7, d8, d4, d3, d1⟩
    · intro h
      by_cases hc : 0 < r.xv.NAKCount
      · obtain ⟨-, -, -, d4, -, d6, d7, d8⟩ := c4 hc
        exact ⟨d4, d6, d7, d8⟩
      · have hn : r.xv.NAKMode ≠ XnakC := fun k => h ⟨by omega, k⟩
        unfold XSendNAK
        dsimp only
        rw [if_pos (by omega), if_neg hn]
        exact ⟨rfl, rfl, rfl, rfl⟩
    · rintro ⟨h1, h2⟩
      obtain ⟨d1, d2, -⟩ := c6 (by omega) h2
      exact ⟨d1, d2⟩
  · rintro ⟨h1, h2⟩
    obtain ⟨-, -, -, -, c5, -⟩ := XSendNAK_cases s
    obtain ⟨-, -, -, d4, -⟩ := c5 (by omega) h2
    unfold leavesC
    rw [XStep_timeOut_receive s hm, if_pos ⟨h2, by rw [d4]; decide⟩]
    rfl

theorem fallback_once_witness :
    leavesC (XInit (exSession IdXReceive XoptCRC []) exTTSet)
      [XEvent.timeOut, XEvent.input [SOH, 1, 0], XEvent.parse, XEvent.timeOut, XEvent.timeOut,
        XEvent.timeOut, XEvent.timeOut] ≤ 1 :=
  (fallback_once (XInit (exSession IdXReceive XoptCRC []) exTTSet)
    [XEvent.timeOut, XEvent.input [SOH, 1, 0], XEvent.parse, XEvent.timeOut, XEvent.timeOut,
      XEvent.timeOut, XEvent.timeOut] (by decide)).2.1

/-! ## CAN bytes and noise in the receiving role -/

/-- A receiver that waits for a header and finds one CAN: the count goes up,
and the call returns FALSE once it exceeds 2. -/
theorem XParse_can (s : XSt) (hm : s.xv.XMode = IdXReceive) (hr : s.xv.PktReadMode = XpktSOH)
    (hin : s.cv.InBuff = [CAN]) :
    (XParse s).1 = decide (s.xv.CANCount + 1 ≤ 2) ∧
    (XParse s).2.xv.XMode = IdXReceive ∧ (XParse s).2.xv.PktReadMode = XpktSOH ∧
    (XParse s).2.xv.CANCount = s.xv.CANCount + 1 ∧ (XParse s).2.cv.InBuff = [] ∧
    (XParse s).2.cv.OutBuff = s.cv.OutBuff ∧ (XParse s).2.fv = s.fv := by
  have hsoh : XReadPacketSOH (popIn s) (BYTE CAN) =
      ({ popIn s with xv := { s.xv with CANCount := s.xv.CANCount + 1 } },
        if s.xv.CANCount + 1 ≤ 2 then none else some false) := by
    unfold XReadPacketSOH
    rw [if_neg (by decide), if_neg (by decide), if_neg (by decide), if_pos (by decide)]
    dsimp only
    by_cases hc : s.xv.CANCount + 1 ≤ 2
    · rw [if_pos (show (popIn s).xv.CANCount + 1 ≤ 2 from hc), if_pos hc]
      rfl
    · rw [if_neg (show ¬ (popIn s).xv.CANCount + 1 ≤ 2 from hc), if_neg hc]
      rfl
  have hbody : XReadPacketBody (popIn s) (BYTE CAN) =
      ({ popIn s with xv := { s.xv with CANCount := s.xv.CANCount + 1 } }, false,
        if s.xv.CANCount + 1 ≤ 2 then none else some false) := by
    unfold XReadPacketBody
    rw [if_pos (show (popIn s).xv.PktReadMode = XpktSOH from hr), hsoh]
  rw [XParse_receive s hm]
  unfold XReadPacket
  dsimp only
  rw [hin, List.length_singleton]
  by_cases hc : s.xv.CANCount + 1 ≤ 2
  · rw [if_pos hc] at hbody
    rw [XReadPacketLoop_next _ s CAN [] hin (by rw [hbody]) (by rw [hbody]), hbody]
    dsimp only
    rw [XReadPacketLoop_nil _ _ (by show (popIn s).cv.InBuff = []; exact popIn_cons s _ _ hin)]
    dsimp only
    refine ⟨(decide_eq_true hc).symm, hm, hr, rfl, popIn_cons s _ _ hin, rfl, rfl⟩
  · rw [if_neg hc] at hbody
    rw [XReadPacketLoop_ret _ s CAN [] false hin (by rw [hbody]), hbody]
    dsimp only
    refine ⟨(decide_eq_false hc).symm, hm, hr, rfl, popIn_cons s _ _ hin, rfl, rfl⟩

/-- A receiver that waits for a header and finds a byte that is no header,
EOT or CAN: the input is flushed and the call returns TRUE; the CAN count is
left as it was. -/
theorem XParse_noise (s : XSt) (n : Nat) (hm : s.xv.XMode = IdXReceive)
    (hr : s.xv.PktReadMode = XpktSOH) (hin : s.cv.InBuff = [n]) (hn : n < 256)
    (hnoise : n ≠ SOH ∧ n ≠ STX ∧ n ≠ EOT ∧ n ≠ CAN) :
    (XParse s).1 = true ∧
    (XParse s).2.xv.XMode = IdXReceive ∧ (XParse s).2.xv.PktReadMode = XpktSOH ∧
    (XParse s).2.xv.CANCount = s.xv.CANCount ∧ (XParse s).2.cv.InBuff = [] ∧
    (XParse s).2.cv.OutBuff = s.cv.OutBuff ∧ (XParse s).2.fv = s.fv := by
  have hB : BYTE n = n := BYTE_of_lt hn
  have hbody : XReadPacketBody (popIn s) (BYTE n) =
      ({ popIn s with cv := { (popIn s).cv with InBuff := [] } }, false, some true) := by
    unfold XReadPacketBody
    rw [if_pos (show (popIn s).xv.PktReadMode = XpktSOH from hr)]
    unfold XReadPacketSOH
    rw [hB, if_neg hnoise.1, if_neg hnoise.2.1, if_neg hnoise.2.2.1, if_neg hnoise.2.2.2]
  rw [XParse_receive s hm]
  unfold XReadPacket
  dsimp only
  rw [hin, List.length_singleton,
    XReadPacketLoop_ret _ s n [] true hin (by rw [hbody]), hbody]
  dsimp only
  exact ⟨rfl, hm, hr, rfl, rfl, rfl, rfl⟩

/-- One CAN arrives at a waiting receiver and `XParse` is called. -/
theorem AwaitsHeader.can {s : XSt} {c : Int} (h : AwaitsHeader s c) :
    (XParse (XStep s (XEvent.input [CAN]))).1 = decide (c + 1 ≤ 2) ∧
    AwaitsHeader (XStep (XStep s (XEvent.input [CAN])) XEvent.parse) (c + 1) ∧
    (XStep (XStep s (XEvent.input [CAN])) XEvent.parse).cv.OutBuff = s.cv.OutBuff ∧
    (XStep (XStep s (XEvent.input [CAN])) XEvent.parse).fv = s.fv := by
  obtain ⟨h1, h2, h3, h4⟩ := h
  have hin : (XStep s (XEvent.input [CAN])).cv.InBuff = [CAN] := by
    show s.cv.InBuff ++ [CAN] = [CAN]
    rw [h4]; rfl
  obtain ⟨a1, a2, a3, a4, a5, a6, a7⟩ := XParse_can (XStep s (XEvent.input [CAN])) h1 h2 hin
  have e : (XStep s (XEvent.input [CAN])).xv.CANCount = c := h3
  rw [e] at a1 a4
  exact ⟨a1, ⟨a2, a3, a4, a5⟩, a6, a7⟩

/-- One noise byte arrives at a waiting receiver and `XParse` is called. -/
theorem AwaitsHeader.noise {s : XSt} {c : Int} (h : AwaitsHeader s c) (n : Nat) (hn : n < 256)
    (hnoise : n ≠ SOH ∧ n ≠ STX ∧ n ≠ EOT ∧ n ≠ CAN) :
    (XParse (XStep s (XEvent.input [n]))).1 = true ∧
    AwaitsHeader (XStep (XStep s (XEvent.input [n])) XEvent.parse) c ∧
    (XStep (XStep s (XEvent.input [n])) XEvent.parse).cv.OutBuff = s.cv.OutBuff ∧
    (XStep (XStep s (XEvent.input [n])) XEvent.parse).fv = s.fv := by
  obtain ⟨h1, h2, h3, h4⟩ := h
  have hin : (XStep s (XEvent.input [n])).cv.InBuff = [n] := by
    show s.cv.InBuff ++ [n] = [n]
    rw [h4]; rfl
  obtain ⟨a1, a2, a3, a4, a5, a6, a7⟩ :=
    XParse_noise (XStep s (XEvent.input [n])) n h1 h2 hin hn hnoise
  exact ⟨a1, ⟨a2, a3, a4.trans h3, a5⟩, a6, a7⟩

/-- C14, the code where the claim fails. A receiver waits for a header with
its CAN count at 0 and nothing pending.  CAN, a noise byte, CAN, a noise byte
and CAN arrive one at a time, `XParse` being called after each.  The noise
bytes do not reset the count: it is 1 after the first noise byte and 2 after
the second, the first four calls return TRUE, and the call for the third CAN
returns FALSE with the count at 3 - although no two of the CAN bytes were
consecutive.  Nothing has been written to the transport or the file. -/
theorem CAN_count_survives_noise (s : XSt) (n : Nat) (hm : s.xv.XMode = IdXReceive)
    (hr : s.xv.PktReadMode = XpktSOH) (hc : s.xv.CANCount = 0) (hin : s.cv.InBuff = [])
    (hn : n < 256) (hnoise : n ≠ SOH ∧ n ≠ STX ∧ n ≠ EOT ∧ n ≠ CAN) :
    (XParse (XRun s [XEvent.input [CAN]])).1 = true ∧
    (XParse (XRun s [XEvent.input [CAN], XEvent.parse, XEvent.input [n]])).1 = true ∧
    (XRun s [XEvent.input [CAN], XEvent.parse, XEvent.input [n], XEvent.parse]).xv.CANCount = 1 ∧
    (XParse (XRun s [XEvent.input [CAN], XEvent.parse, XEvent.input [n], XEvent.parse,
      XEvent.input [CAN]])).1 = true ∧
    (XParse (XRun s [XEvent.input [CAN], XEvent.parse, XEvent.input [n], XEvent.parse,
      XEvent.input [CAN], XEvent.parse, XEvent.input [n]])).1 = true ∧
    (XRun s [XEvent.input [CAN], XEvent.parse, XEvent.input [n], XEvent.parse,
      XEvent.input [CAN], XEvent.parse, XEvent.input [n], XEvent.parse]).xv.CANCount = 2 ∧
    (XParse (XRun s [XEvent.input [CAN], XEvent.parse, XEvent.input [n], XEvent.parse,
      XEvent.input [CAN], XEvent.parse, XEvent.input [n], XEvent.parse,
      XEvent.input [CAN]])).1 = false ∧
    (XRun s [XEvent.input [CAN], XEvent.parse, XEvent.input [n], XEvent.parse,
      XEvent.input [CAN], XEvent.parse, XEvent.input [n], XEvent.parse,
      XEvent.input [CAN], XEvent.parse]).xv.CANCount = 3 ∧
    (XRun s [XEvent.input [CAN], XEvent.parse, XEvent.input [n], XEvent.parse,
      XEvent.input [CAN], XEvent.parse, XEvent.input [n], XEvent.parse,
      XEvent.input [CAN], XEvent.parse]).cv.OutBuff = s.cv.OutBuff ∧
    (XRun s [XEvent.input [CAN], XEvent.parse, XEvent.input [n], XEvent.parse,
      XEvent.input [CAN], XEvent.parse, XEvent.input [n], XEvent.parse,
      XEvent.input [CAN], XEvent.parse]).fv = s.fv := by
  simp only [XRun, List.foldl_cons, List.foldl_nil]
  have h0 : AwaitsHeader s 0 := ⟨hm, hr, hc, hin⟩
  obtain ⟨a1, a2, a3, a4⟩ := h0.can
  generalize XStep (XStep s (XEvent.input [CAN])) XEvent.parse = s2 at *
  obtain ⟨b1, b2, b3, b4⟩ := a2.noise n hn hnoise
  generalize XStep (XStep s2 (XEvent.input [n])) XEvent.parse = s4 at *
  obtain ⟨c1, c2, c3, c4⟩ := b2.can
  generalize XStep (XStep s4 (XEvent.input [CAN])) XEvent.parse = s6 at *
  obtain ⟨d1, d2, d3, d4⟩ := c2.noise n hn hnoise
  generalize XStep (XStep s6 (XEvent.input [n])) XEvent.parse = s8 at *
  obtain ⟨e1, e2, e3, e4⟩ := d2.can
  generalize XStep (XStep s8 (XEvent.input [CAN])) XEvent.parse = s10 at *
  refine ⟨a1, b1, b2.2.2.1, c1, d1, d2.2.2.1, e1, e2.2.2.1, ?_, ?_⟩
  · rw [e3, d3, c3, b3, a3]
  · rw [e4, d4, c4, b4, a4]

theorem CAN_count_survives_noise_witness :
    (XParse (XRun (exWaiting XoptCheck) [XEvent.input [CAN], XEvent.parse, XEvent.input [0x55],
      XEvent.parse, XEvent.input [CAN], XEvent.parse, XEvent.input [0x55], XEvent.parse,
      XEvent.input [CAN]])).1 = false ∧
    (XRun (exWaiting XoptCheck) [XEvent.input [CAN], XEvent.parse, XEvent.input [0x55],
      XEvent.parse, XEvent.input [CAN], XEvent.parse, XEvent.input [0x55],
      XEvent.parse]).xv.CANCount = 2 :=
  have h := CAN_count_survives_noise (exWaiting XoptCheck) 0x55 (by decide) (by decide)
    (by decide) (by decide) (by decide) (by decide)
  ⟨h.2.2.2.2.2.2.1, h.2.2.2.2.2.1⟩

/-! ## Reporting success -/

/-- One pass of the receive loop reports success only by meeting EOT while a
header is awaited. -/
theorem XReadPacketBody_success (s : XSt) (b : Nat) :
    (XReadPacketBody s b).1.fv.Success = s.fv.Success ∨
    (s.xv.PktReadMode = XpktSOH ∧ b = EOT ∧ (XReadPacketBody s b).2.2 = some false ∧
      (XReadPacketBody s b).1 = XEotEnd s) := by
  unfold XReadPacketBody
  dsimp only
  split_ifs with h1 h2 h3 h4 h5 h6
  · unfold XReadPacketSOH
    dsimp only
    split_ifs with g1 g2 g3 g4 g5 g6 g7 g8 g9
    all_goals first
      | (left; rfl)
      | (right; exact ⟨h1, by assumption, rfl, rfl⟩)
  · left; rfl
  · left; rfl
  · left; exact (XSendNAK_cases _).2.1
  · left; rfl
  · left; rfl
  · left; rfl

/-- The receive loop reports success only on its EOT return, which follows
passes that wrote nothing. -/
theorem XReadPacketLoop_success (fuel : Nat) : ∀ s : XSt,
    (XReadPacketLoop fuel s).1.fv.Success = s.fv.Success ∨
    ((XReadPacketLoop fuel s).2.2 = some false ∧
      ∃ r1, RecvFrame s r1 ∧ r1.xv.PktReadMode = XpktSOH ∧ (XReadPacketLoop fuel s).1 = XEotEnd r1) := by
  induction fuel with
  | zero => intro s; left; rfl
  | succ n ih =>
    intro s
    cases hin : s.cv.InBuff with
    | nil => rw [XReadPacketLoop_nil _ _ hin]; left; rfl
    | cons b rest =>
      have hb := XReadPacketBody_success (popIn s) (BYTE b)
      cases hret : (XReadPacketBody (popIn s) (BYTE b)).2.2 with
      | some ret =>
        rw [XReadPacketLoop_ret n s b rest ret hin hret]
        rcases hb with hb | ⟨hm, _, hr, he⟩
        · left; exact hb
        · right
          rw [hret] at hr
          exact ⟨hr, popIn s, popIn_frame s, hm, he⟩
      | none =>
        have hs : (XReadPacketBody (popIn s) (BYTE b)).1.fv.Success = s.fv.Success := by
          rcases hb with hb | ⟨_, _, hr, _⟩
          · exact hb
          · rw [hret] at hr; cases hr
        cases hg : (XReadPacketBody (popIn s) (BYTE b)).2.1 with
        | true =>
          rw [XReadPacketLoop_done n s b rest hin hret hg]
          left; exact hs
        | false =>
          rw [XReadPacketLoop_next n s b rest hin hret hg]
          rcases ih (XReadPacketBody (popIn s) (BYTE b)).1 with h | ⟨hr, r1, hf, hm, he⟩
          · left; exact h.trans hs
          · rcases XReadPacketBody_cases (popIn s) (BYTE b) hret with hc | ⟨_, hc⟩
            · right; exact ⟨hr, r1, (popIn_frame s).trans (hc.trans hf), hm, he⟩
            · rw [XReadPacketLoop_nil _ _ hc] at hr; cases hr

theorem XReadPacketGot_success (s : XSt) : (XReadPacketGot s).2.fv.Success = s.fv.Success := by
  unfold XReadPacketGot
  dsimp only
  by_cases h1 : s.xv.PktIn 1 = 0 ∧ s.xv.PktNum = 0 ∧ s.xv.PktNumOffset = 0
  · rw [if_pos h1]; exact (XSendNAK_cases _).2.1
  · rw [if_neg h1]
    by_cases h2 : XCheckPacket s.xv = false
    · rw [if_pos h2]; exact (XSendNAK_cases _).2.1
    · rw [if_neg h2]
      by_cases h3 : ((s.xv.PktIn 1 : Int) - (s.xv.PktNum : Int)) % 256 > 1
      · rw [if_pos h3]; rfl
      · rw [if_neg h3]
        by_cases h4 : ((s.xv.PktIn 1 : Int) - (s.xv.PktNum : Int)) % 256 = 0
        · rw [if_pos h4]; rfl
        · rw [if_neg h4]; exact (XReadPacketStore_frame _).hSucc

/-- A call of `XReadPacket` either leaves the success flag alone or returns
FALSE from the EOT case of the header switch. -/
theorem XReadPacket_success (s : XSt) :
    (XReadPacket s).2.fv.Success = s.fv.Success ∨
    ((XReadPacket s).1 = false ∧
      ∃ r1, RecvFrame s r1 ∧ r1.xv.PktReadMode = XpktSOH ∧ (XReadPacket s).2 = XEotEnd r1) := by
  have hl := XReadPacketLoop_success (s.cv.InBuff.length + 1) s
  unfold XReadPacket
  dsimp only
  generalize XReadPacketLoop (s.cv.InBuff.length + 1) s = r at hl
  obtain ⟨r1, g, ret⟩ := r
  cases ret with
  | some b =>
    rcases hl with hl | ⟨hr, q, hf, hm, he⟩
    · left; exact hl
    · right
      cases hr
      exact ⟨rfl, q, hf, hm, he⟩
  | none =>
    have hs : r1.fv.Success = s.fv.Success := by
      rcases hl with hl | ⟨hr, _⟩
      · exact hl
      · cases hr
    left
    cases g with
    | true => exact (XReadPacketGot_success r1).trans hs
    | false => exact hs

/-- EOT as the next byte of a receiver that awaits a header. -/
theorem XReadPacket_eot_next (r : XSt) (rest : List Nat) (hm : r.xv.PktReadMode = XpktSOH)
    (hin : r.cv.InBuff = EOT :: rest) :
    XReadPacket r = (false, XEotEnd (popIn r)) := by
  have hb : BYTE EOT = EOT := rfl
  have hbody : XReadPacketBody (popIn r) (BYTE EOT) = (XEotEnd (popIn r), false, some false) := by
    unfold XReadPacketBody
    rw [if_pos (show (popIn r).xv.PktReadMode = XpktSOH from hm)]
    unfold XReadPacketSOH
    rw [hb, if_neg (by decide), if_neg (by decide), if_pos rfl]
    rfl
  have hl := XReadPacketLoop_ret r.cv.InBuff.length r EOT rest false hin (by rw [hbody])
  rw [hbody] at hl
  unfold XReadPacket
  dsimp only
  rw [hl]

/-! ### The sending side -/

theorem SendFrame.reflSend (s : XSt) : SendFrame s s := by
  constructor <;> rfl

theorem SendFrame.thenSend {a b c : XSt} (h1 : SendFrame a b) (h2 : SendFrame b c) : SendFrame a c := by
  cases h1; cases h2
  constructor <;> simp_all

/-- The response switch of the sender reports success only on ACK with the file closed. -/
theorem XSendPacketSwitch_success (s : XSt) (b : Nat) :
    SendFrame s (XSendPacketSwitch s b).1 ∧
    (XSendPacketSwitch s b).1.cv.InBuff = s.cv.InBuff ∧
    ((XSendPacketSwitch s b).1.fv.Success = s.fv.Success ∨
      (b = ACK ∧ (XSendPacketSwitch s b).2.2.2 = some false ∧
        (XSendPacketSwitch s b).1.fv.Success = true ∧ s.fv.FileOpen = false)) := by
  unfold XSendPacketSwitch
  dsimp only
  split_ifs with g1 g2 g3 g4 g5 g6 g7 g8 g9 g10 g11 g12 g13 g14
  all_goals first
    | exact ⟨by constructor <;> rfl, rfl, Or.inl rfl⟩
    | exact ⟨by constructor <;> rfl, rfl, Or.inr ⟨g1, rfl, rfl, g2⟩⟩

theorem popIn_sendFrame (s : XSt) : SendFrame s (popIn s) := by
  constructor <;> rfl

/-- The response loop of the sender keeps the staged packet and the output,
and reports success only by returning FALSE on an ACK that finds the file closed. -/
theorem XSendPacketLoop_success (fuel : Nat) : ∀ s : XSt,
    SendFrame s (XSendPacketLoop fuel s).1 ∧
    ((XSendPacketLoop fuel s).1.fv.Success = s.fv.Success ∨
      ((XSendPacketLoop fuel s).2 = some false ∧ (XSendPacketLoop fuel s).1.fv.Success = true ∧
        s.fv.FileOpen = false ∧ ACK ∈ s.cv.InBuff.map BYTE)) := by
  induction fuel with
  | zero => intro s; exact ⟨SendFrame.reflSend s, Or.inl rfl⟩
  | succ n ih =>
    intro s
    cases hin : s.cv.InBuff with
    | nil =>
      unfold XSendPacketLoop
      rw [XRead1Byte_nil s hin]
      exact ⟨SendFrame.reflSend s, Or.inl rfl⟩
    | cons b rest =>
      unfold XSendPacketLoop
      rw [XRead1Byte_cons s b rest hin]
      dsimp only
      obtain ⟨hf, hi, hs⟩ := XSendPacketSwitch_success (popIn s) (BYTE b)
      have hf0 : SendFrame s (XSendPacketSwitch (popIn s) (BYTE b)).1 := (popIn_sendFrame s).thenSend hf
      have hmem : ∀ x, x ∈ rest.map BYTE → x ∈ BYTE b :: rest.map BYTE :=
        fun x hx => List.mem_cons_of_mem _ hx
      generalize XSendPacketSwitch (popIn s) (BYTE b) = r at hf hi hs hf0
      obtain ⟨s2, f1, f2, o⟩ := r
      simp only at hf hi hs hf0
      rw [List.map_cons]
      cases o with
      | some ret =>
        refine ⟨hf0, ?_⟩
        rcases hs with hs | ⟨hb, hr, hsu, ho⟩
        · left; exact hs
        · right
          cases hr
          exact ⟨rfl, hsu, ho, by rw [hb]; exact List.mem_cons_self _ _⟩
      | none =>
        have hs0 : s2.fv.Success = s.fv.Success := by
          rcases hs with hs | ⟨_, hr, _⟩
          · exact hs
          · cases hr
        have hi2 : s2.cv.InBuff = rest := by
          rw [hi]; show s.cv.InBuff.tail = rest; rw [hin]; rfl
        cases f2 with
        | true =>
          simp only [if_true]
          obtain ⟨k1, k2⟩ := ih s2
          refine ⟨hf0.thenSend k1, ?_⟩
          rcases k2 with k2 | ⟨a1, a2, a3, a4⟩
          · left; exact k2.trans hs0
          · right
            refine ⟨a1, a2, ?_, ?_⟩
            · rw [← hf0.hOpen]; exact a3
            · rw [hi2] at a4; exact hmem _ a4
        | false =>
          cases f1 with
          | true =>
            simp only [if_true, Bool.false_eq_true, if_false]
            cases hin3 : s2.cv.InBuff with
            | nil =>
              rw [XRead1Byte_nil _ (show ({ s2 with xv := { s2.xv with CANCount := 0 } } : XSt).cv.InBuff = [] from hin3)]
              exact ⟨hf0.thenSend (by constructor <;> rfl), Or.inl hs0⟩
            | cons b3 r3 =>
              rw [XRead1Byte_cons _ b3 r3 (show ({ s2 with xv := { s2.xv with CANCount := 0 } } : XSt).cv.InBuff = b3 :: r3 from hin3)]
              exact ⟨hf0.thenSend (by constructor <;> rfl), Or.inl hs0⟩
          | false =>
            simp only [Bool.false_eq_true, if_false]
            obtain ⟨k1, k2⟩ := ih { s2 with xv := { s2.xv with CANCount := 0 } }
            refine ⟨hf0.thenSend ((show SendFrame s2 { s2 with xv := { s2.xv with CANCount := 0 } } from
              by constructor <;> rfl).thenSend k1), ?_⟩
            rcases k2 with k2 | ⟨a1, a2, a3, a4⟩
            · left; exact k2.trans hs0
            · right
              refine ⟨a1, a2, ?_, ?_⟩
              · rw [← hf0.hOpen]; exact a3
              · have a5 : ACK ∈ s2.cv.InBuff.map BYTE := a4
                rw [hi2] at a5; exact hmem _ a5

/-- A new packet leaves the success flag, the role and the transport alone,
and when it leaves the file closed it has staged EOT. -/
theorem XSendPacketNew_staged (s : XSt) :
    (XSendPacketNew s).fv.Success = s.fv.Success ∧
    (XSendPacketNew s).xv.XMode = s.xv.XMode ∧
    (XSendPacketNew s).cv = s.cv ∧
    ((XSendPacketNew s).fv.FileOpen = false →
      (XSendPacketNew s).xv.PktOut 0 = EOT ∧ (XSendPacketNew s).xv.PktBufCount = 1) := by
  by_cases hm : s.fv.FileOpen = false ∨ min s.xv.DataLen s.fv.ReadData.length = 0
  · have h := XSendPacketNew_eot s hm
    exact ⟨h.2.2.2.2.2.2.1, h.2.2.2.2.2.2.2.2.2.2.1, h.2.2.2.2.2.2.2.1, fun _ => ⟨h.2.2.1, h.2.1⟩⟩
  · have ho : s.fv.FileOpen = true := by
      cases hf : s.fv.FileOpen with
      | true => rfl
      | false => exact absurd (Or.inl hf) hm
    have h1 : 1 ≤ min s.xv.DataLen s.fv.ReadData.length := by
      have : ¬ (min s.xv.DataLen s.fv.ReadData.length = 0) := fun h => hm (Or.inr h)
      omega
    rw [XSendPacketNew_data s ho h1]
    refine ⟨rfl, rfl, rfl, ?_⟩
    intro h
    have h2 : s.fv.FileOpen = false := h
    rw [ho] at h2
    cases h2

/-- Staging keeps the success flag, the role and the output, and when the
file is closed afterwards EOT is the staged packet, to be written from its start. -/
theorem XSendPacketStage_staged (s : XSt) (hJ : s.fv.FileOpen = false → s.xv.PktOut 0 = EOT) :
    (XSendPacketStage s).fv.Success = s.fv.Success ∧
    (XSendPacketStage s).xv.XMode = s.xv.XMode ∧
    (XSendPacketStage s).cv.OutBuff = s.cv.OutBuff ∧
    (XSendPacketStage s).cv.OutRoom = s.cv.OutRoom ∧
    ((XSendPacketStage s).fv.FileOpen = false →
      (XSendPacketStage s).xv.PktOut 0 = EOT ∧ (XSendPacketStage s).xv.PktBufCount = 1 ∧
      (XSendPacketStage s).xv.PktBufPtr = 0) := by
  unfold XSendPacketStage
  dsimp only
  rw [XDrain_eq]
  obtain ⟨s1, hs1, e1, e2, e3, e4, e5⟩ : ∃ s1 : XSt,
      ({ FTSetTimeOut s s.xv.TOutVLong with
        cv := { (FTSetTimeOut s s.xv.TOutVLong).cv with InBuff := [] } } : XSt) = s1 ∧
      s1.fv.Success = s.fv.Success ∧ s1.fv.FileOpen = s.fv.FileOpen ∧ s1.xv = s.xv ∧
      s1.cv.OutBuff = s.cv.OutBuff ∧ s1.cv.OutRoom = s.cv.OutRoom :=
    ⟨_, rfl, rfl, rfl, rfl, rfl, rfl⟩
  rw [hs1]
  by_cases hs : s1.xv.PktNumSent = s1.xv.PktNum
  · rw [if_pos hs]
    obtain ⟨n1, n2, n3, n4⟩ := XSendPacketNew_staged s1
    refine ⟨n1.trans e1, n2.trans (by rw [e3]), ?_, ?_, ?_⟩
    · show (XSendPacketNew s1).cv.OutBuff = _; rw [n3]; exact e4
    · show (XSendPacketNew s1).cv.OutRoom = _; rw [n3]; exact e5
    · intro h
      obtain ⟨a, b⟩ := n4 h
      exact ⟨a, b, rfl⟩
  · rw [if_neg hs]
    unfold XSendPacketResend
    by_cases h0 : s1.xv.PktOut 0 = EOT
    · rw [if_pos h0]
      exact ⟨e1, by rw [← e3], e4, e5, fun _ => ⟨h0, rfl, rfl⟩⟩
    · rw [if_neg h0]
      refine ⟨e1, by rw [← e3], e4, e5, ?_⟩
      intro h
      have h2 : s1.fv.FileOpen = false := h
      rw [e2] at h2
      exact absurd (by rw [e3]; exact hJ h2) h0

/-- The write loop keeps the file side, the role and the staged bytes. -/
theorem XSendPacketWrite_frame (fuel : Nat) : ∀ s : XSt,
    (XSendPacketWrite fuel s).fv = s.fv ∧ (XSendPacketWrite fuel s).xv.XMode = s.xv.XMode ∧
    (XSendPacketWrite fuel s).xv.PktOut = s.xv.PktOut := by
  induction fuel with
  | zero => intro s; exact ⟨rfl, rfl, rfl⟩
  | succ n ih =>
    intro s
    unfold XSendPacketWrite
    dsimp only
    by_cases hc : s.xv.PktBufCount > 0
    · rw [if_pos hc]
      by_cases hi : (XWrite s [s.xv.PktOut s.xv.PktBufPtr.toNat]).2 > 0
      · rw [if_pos hi]
        obtain ⟨a, b, c⟩ := ih { (XWrite s [s.xv.PktOut s.xv.PktBufPtr.toNat]).1 with
          xv := { (XWrite s [s.xv.PktOut s.xv.PktBufPtr.toNat]).1.xv with
            PktBufCount := (XWrite s [s.xv.PktOut s.xv.PktBufPtr.toNat]).1.xv.PktBufCount - 1,
            PktBufPtr := (XWrite s [s.xv.PktOut s.xv.PktBufPtr.toNat]).1.xv.PktBufPtr + 1 } }
        exact ⟨a, b, c⟩
      · rw [if_neg hi]
        exact ⟨rfl, rfl, rfl⟩
    · rw [if_neg hc]
      exact ⟨rfl, rfl, rfl⟩

/-- Writing a staged EOT: either the transport refuses it and it stays staged,
or it goes out as the last byte. -/
theorem XSendPacketWrite_eot (s : XSt) (hc : s.xv.PktBufCount = 1) (hp : s.xv.PktBufPtr = 0)
    (h0 : s.xv.PktOut 0 = EOT) :
    ((XSendPacketWrite 1 s).xv.PktBufCount = 1 ∧ (XSendPacketWrite 1 s).xv.PktBufPtr = 0) ∨
    ((XSendPacketWrite 1 s).xv.PktBufCount = 0 ∧
      (XSendPacketWrite 1 s).cv.OutBuff.getLast? = some EOT) := by
  unfold XSendPacketWrite
  dsimp only
  rw [if_pos (by rw [hc]; decide), hp]
  rw [show (0 : Int).toNat = 0 from rfl, h0]
  by_cases hi : (XWrite s [EOT]).2 > 0
  · rw [if_pos hi]
    right
    unfold XSendPacketWrite
    refine ⟨?_, ?_⟩
    · show s.xv.PktBufCount - 1 = 0
      rw [hc]; rfl
    · show (s.cv.OutBuff ++ [EOT].take (CommRoom s.cv 1)).getLast? = some EOT
      have h1 : CommRoom s.cv 1 > 0 := hi
      have h2 : [EOT].take (CommRoom s.cv 1) = [EOT] := by
        cases hk : CommRoom s.cv 1 with
        | zero => rw [hk] at h1; exact absurd h1 (by decide)
        | succ k => simp
      rw [h2]
      simp
  · rw [if_neg hi]
    left
    exact ⟨hc, hp⟩

theorem EotStaged.of_frame {s s' : XSt} (h : SendFrame s s') (hJ : EotStaged s) : EotStaged s' := by
  intro ho
  rw [h.hOpen] at ho
  rw [h.hPkt, h.hCnt, h.hPtr, h.hOut]
  exact hJ ho

/-- The end of `XSendPacket` returns TRUE, keeps the success flag and the
role, and keeps a staged EOT staged until it has gone out. -/
theorem XSendPacketOut_staged (s : XSt) (hJ : EotStaged s) :
    (XSendPacketOut s).1 = true ∧
    (XSendPacketOut s).2.fv.Success = s.fv.Success ∧
    (XSendPacketOut s).2.xv.XMode = s.xv.XMode ∧
    EotStaged (XSendPacketOut s).2 := by
  unfold XSendPacketOut
  dsimp only
  rw [XDrain_eq]
  obtain ⟨s1, hs1, e1, e2, e3⟩ : ∃ s1 : XSt,
      ({ s with cv := { s.cv with InBuff := [] } } : XSt) = s1 ∧
      s1.fv = s.fv ∧ s1.xv = s.xv ∧ s1.cv.OutBuff = s.cv.OutBuff :=
    ⟨_, rfl, rfl, rfl, rfl⟩
  rw [hs1]
  obtain ⟨w1, w2, w3⟩ := XSendPacketWrite_frame s1.xv.PktBufCount.toNat s1
  refine ⟨rfl, by rw [w1, e1], by rw [w2, e2], ?_⟩
  intro ho
  rw [w1, e1] at ho
  obtain ⟨j1, j2⟩ := hJ ho
  refine ⟨by rw [w3, e2]; exact j1, ?_⟩
  rcases j2 with ⟨c1, p1⟩ | ⟨c0, l0⟩
  · have hc : s1.xv.PktBufCount = 1 := by rw [e2]; exact c1
    rw [hc]
    exact XSendPacketWrite_eot s1 hc (by rw [e2]; exact p1) (by rw [e2]; exact j1)
  · have hc : s1.xv.PktBufCount = 0 := by rw [e2]; exact c0
    rw [hc]
    right
    exact ⟨hc, by show s1.cv.OutBuff.getLast? = some EOT; rw [e3]; exact l0⟩

/-- A call of `XSendPacket` keeps the role and the end-of-file invariant. -/
theorem XSendPacket_staged (t : XSt) (hJ : EotStaged t) :
    (XSendPacket t).2.xv.XMode = t.xv.XMode ∧ EotStaged (XSendPacket t).2 := by
  unfold XSendPacket
  by_cases hc : t.xv.PktBufCount = 0
  · rw [if_pos hc]
    dsimp only
    obtain ⟨hf, _⟩ := XSendPacketLoop_success (t.cv.InBuff.length + 1) t
    generalize XSendPacketLoop (t.cv.InBuff.length + 1) t = r at hf
    obtain ⟨r1, o⟩ := r
    simp only at hf
    have hJ1 : EotStaged r1 := EotStaged.of_frame hf hJ
    cases o with
    | some ret => exact ⟨hf.hMode, hJ1⟩
    | none =>
      show (XSendPacketOut (XSendPacketStage r1)).2.xv.XMode = t.xv.XMode ∧
        EotStaged (XSendPacketOut (XSendPacketStage r1)).2
      obtain ⟨g1, g2, g3, g4, g5⟩ := XSendPacketStage_staged r1 (fun h => (hJ1 h).1)
      have hJ2 : EotStaged (XSendPacketStage r1) := fun h =>
        ⟨(g5 h).1, Or.inl ⟨(g5 h).2.1, (g5 h).2.2⟩⟩
      obtain ⟨o1, o2, o3, o4⟩ := XSendPacketOut_staged (XSendPacketStage r1) hJ2
      exact ⟨o3.trans (g2.trans hf.hMode), o4⟩
  · rw [if_neg hc]
    obtain ⟨o1, o2, o3, o4⟩ := XSendPacketOut_staged t hJ
    exact ⟨o3, o4⟩

/-- A call of `XSendPacket` either leaves the success flag alone or returns
FALSE on an ACK read with the file closed and nothing left to write. -/
theorem XSendPacket_success (t : XSt) (hJ : EotStaged t) :
    (XSendPacket t).2.fv.Success = t.fv.Success ∨
    ((XSendPacket t).1 = false ∧ (XSendPacket t).2.fv.Success = true ∧
      t.fv.FileOpen = false ∧ t.xv.PktBufCount = 0 ∧ ACK ∈ t.cv.InBuff.map BYTE) := by
  unfold XSendPacket
  by_cases hc : t.xv.PktBufCount = 0
  · rw [if_pos hc]
    dsimp only
    obtain ⟨hf, hs⟩ := XSendPacketLoop_success (t.cv.InBuff.length + 1) t
    generalize XSendPacketLoop (t.cv.InBuff.length + 1) t = r at hf hs
    obtain ⟨r1, o⟩ := r
    simp only at hf hs
    have hJ1 : EotStaged r1 := EotStaged.of_frame hf hJ
    cases o with
    | some ret =>
      rcases hs with hs | ⟨a1, a2, a3, a4⟩
      · left; exact hs
      · right
        cases a1
        exact ⟨rfl, a2, a3, hc, a4⟩
    | none =>
      left
      show (XSendPacketOut (XSendPacketStage r1)).2.fv.Success = t.fv.Success
      have hs0 : r1.fv.Success = t.fv.Success := by
        rcases hs with hs | ⟨a1, _⟩
        · exact hs
        · cases a1
      obtain ⟨g1, g2, g3, g4, g5⟩ := XSendPacketStage_staged r1 (fun h => (hJ1 h).1)
      have hJ2 : EotStaged (XSendPacketStage r1) := fun h =>
        ⟨(g5 h).1, Or.inl ⟨(g5 h).2.1, (g5 h).2.2⟩⟩
      obtain ⟨o1, o2, o3, o4⟩ := XSendPacketOut_staged (XSendPacketStage r1) hJ2
      exact o2.trans (g1.trans hs0)
  · rw [if_neg hc]
    left
    exact (XSendPacketOut_staged t hJ).2.1

/-- Every event keeps a sending or ended session such, and a sending session
keeps the end-of-file invariant. -/
theorem XStep_staged (s : XSt) (e : XEvent)
    (hm : s.xv.XMode = IdXSend ∨ s.xv.XMode = 0) (hJ : s.xv.XMode = IdXSend → EotStaged s) :
    ((XStep s e).xv.XMode = IdXSend ∨ (XStep s e).xv.XMode = 0) ∧
    ((XStep s e).xv.XMode = IdXSend → EotStaged (XStep s e)) := by
  cases e with
  | input bytes => exact ⟨hm, hJ⟩
  | parse =>
    show ((XParse s).2.xv.XMode = IdXSend ∨ (XParse s).2.xv.XMode = 0) ∧
      ((XParse s).2.xv.XMode = IdXSend → EotStaged (XParse s).2)
    rcases hm with h | h
    · rw [XParse_send s h]
      obtain ⟨a, b⟩ := XSendPacket_staged s (hJ h)
      exact ⟨Or.inl (a.trans h), fun _ => b⟩
    · have hp : XParse s = (false, s) := by
        unfold XParse
        rw [if_neg (by rw [h]; decide), if_neg (by rw [h]; decide)]
      rw [hp]
      exact ⟨Or.inr h, hJ⟩
  | timeOut =>
    show ((XTimeOutProc s).xv.XMode = IdXSend ∨ (XTimeOutProc s).xv.XMode = 0) ∧
      ((XTimeOutProc s).xv.XMode = IdXSend → EotStaged (XTimeOutProc s))
    unfold XTimeOutProc
    rcases hm with h | h
    · rw [if_pos h]
      exact ⟨Or.inr rfl, fun h2 => absurd (show (0 : Nat) = IdXSend from h2) (by decide)⟩
    · rw [if_neg (by rw [h]; decide), if_neg (by rw [h]; decide)]
      exact ⟨Or.inr h, hJ⟩
  | cancel =>
    exact ⟨Or.inr rfl, fun h2 => absurd (show (0 : Nat) = IdXSend from h2) (by decide)⟩

theorem XRun_staged (es : List XEvent) : ∀ s : XSt,
    (s.xv.XMode = IdXSend ∨ s.xv.XMode = 0) → (s.xv.XMode = IdXSend → EotStaged s) →
    ((XRun s es).xv.XMode = IdXSend ∨ (XRun s es).xv.XMode = 0) ∧
    ((XRun s es).xv.XMode = IdXSend → EotStaged (XRun s es)) := by
  induction es with
  | nil => intro s hm hJ; exact ⟨hm, hJ⟩
  | cons e es ih =>
    intro s hm hJ
    rw [XRun_cons]
    obtain ⟨a, b⟩ := XStep_staged s e hm hJ
    exact ih _ a b

theorem XSetOpt_open (s : XSt) (o : Nat) :
    (XSetOpt s o).xv.XMode = s.xv.XMode ∧ (XSetOpt s o).fv = s.fv := by
  unfold XSetOpt
  dsimp only
  split_ifs <;> exact ⟨rfl, rfl⟩

/-- The start of a sender keeps the role and leaves the file as it was opened. -/
theorem XInit_send_open (s : XSt) (ts : TTSet) (hm : s.xv.XMode = IdXSend) :
    (XInit s ts).xv.XMode = IdXSend ∧ (XInit s ts).fv.FileOpen = s.fv.FileOpen := by
  have hv : (XInitVars s ts).xv.XMode = s.xv.XMode ∧ (XInitVars s ts).fv.FileOpen = s.fv.FileOpen := by
    unfold XInitVars
    dsimp only
    obtain ⟨u1, -, -, u4, -⟩ := XInitTimeOuts_frame
      { fv := { s.fv with ByteCount := 0 },
        xv := { s.xv with PktNumOffset := 0, PktNum := 0, PktNumSent := 0, PktBufCount := 0,
                          CRRecv := false, CANCount := 0 },
        cv := s.cv } ts
    generalize XInitTimeOuts
      { fv := { s.fv with ByteCount := 0 },
        xv := { s.xv with PktNumOffset := 0, PktNum := 0, PktNumSent := 0, PktBufCount := 0,
                          CRRecv := false, CANCount := 0 },
        cv := s.cv } ts = s2 at u1 u4
    obtain ⟨v1, v2⟩ := XSetOpt_open s2 s2.xv.XOpt
    split_ifs
    · refine ⟨v1.trans u4, ?_⟩
      show (XSetOpt s2 s2.xv.XOpt).fv.FileOpen = _
      rw [v2, u1]
    · refine ⟨v1.trans u4, ?_⟩
      show (XSetOpt s2 s2.xv.XOpt).fv.FileOpen = _
      rw [v2, u1]
  obtain ⟨a1, a2⟩ := hv
  unfold XInit
  dsimp only
  rw [if_pos (a1.trans hm)]
  by_cases hcmd : ts.XModemRcvCommand ≠ []
  · rw [if_pos hcmd]
    exact ⟨a1.trans hm, a2⟩
  · rw [if_neg hcmd]
    exact ⟨a1.trans hm, a2⟩

theorem XTimeOutProc_success (s : XSt) : (XTimeOutProc s).fv.Success = s.fv.Success := by
  unfold XTimeOutProc
  by_cases h1 : s.xv.XMode = IdXSend
  · rw [if_pos h1]
  · rw [if_neg h1]
    by_cases h2 : s.xv.XMode = IdXReceive
    · rw [if_pos h2]; exact (XSendNAK_cases s).2.1
    · rw [if_neg h2]

/-- C12. Success reporting. A receiver that awaits a header and finds EOT as
its next byte returns FALSE from `XParse`, sets `Success`, and hands exactly
one ACK to the transport in one write call, the file being left alone. Any
call of `XParse` in the receiving role either leaves `Success` as it was or
is that EOT return, reached through passes that wrote nothing. In any run of
events from the start of a sender whose file is open, a call of `XParse`
either leaves `Success` as it was, or it returns FALSE and sets `Success` on
an ACK it reads while the role is sending, the file is closed, EOT is the
staged packet, nothing of it is left to write and EOT is the last byte handed
to the transport. `XTimeOutProc` and `XCancel` leave `Success` as it was, and
so does `XParse` in a session that neither receives nor sends. -/
theorem success_reporting (r : XSt) (rest : List Nat) (hr : r.xv.XMode = IdXReceive)
    (hh : r.xv.PktReadMode = XpktSOH) (hin : r.cv.InBuff = EOT :: rest)
    (t0 : XSt) (ts : TTSet) (es : List XEvent) (ht : t0.xv.XMode = IdXSend)
    (ho : t0.fv.FileOpen = true) :
    (XParse r = (false, XEotEnd (popIn r)) ∧ (XParse r).2.fv.Success = true ∧
      Wrote r.cv (XParse r).2.cv [ACK] ∧ (XParse r).2.fv.WriteData = r.fv.WriteData) ∧
    (∀ s : XSt, s.xv.XMode = IdXReceive →
      (XParse s).2.fv.Success = s.fv.Success ∨
      ((XParse s).1 = false ∧ (XParse s).2.fv.Success = true ∧
        ∃ r1, RecvFrame s r1 ∧ r1.xv.PktReadMode = XpktSOH ∧ (XParse s).2 = XEotEnd r1)) ∧
    ((XParse (XRun (XInit t0 ts) es)).2.fv.Success = (XRun (XInit t0 ts) es).fv.Success ∨
      ((XParse (XRun (XInit t0 ts) es)).1 = false ∧
        (XParse (XRun (XInit t0 ts) es)).2.fv.Success = true ∧
        (XRun (XInit t0 ts) es).xv.XMode = IdXSend ∧
        (XRun (XInit t0 ts) es).fv.FileOpen = false ∧
        (XRun (XInit t0 ts) es).xv.PktOut 0 = EOT ∧
        (XRun (XInit t0 ts) es).xv.PktBufCount = 0 ∧
        (XRun (XInit t0 ts) es).cv.OutBuff.getLast? = some EOT ∧
        ACK ∈ (XRun (XInit t0 ts) es).cv.InBuff.map BYTE)) ∧
    (∀ s : XSt, (XTimeOutProc s).fv.Success = s.fv.Success ∧
      (XCancel s).fv.Success = s.fv.Success ∧
      (s.xv.XMode ≠ IdXReceive → s.xv.XMode ≠ IdXSend → XParse s = (false, s))) := by
  refine ⟨?_, ?_, ?_, ?_⟩
  · rw [XParse_receive r hr, XReadPacket_eot_next r rest hh hin]
    exact ⟨rfl, rfl, ⟨rfl, rfl⟩, rfl⟩
  · intro s hs
    rw [XParse_receive s hs]
    rcases XReadPacket_success s with h | ⟨h1, r1, h2, h3, h4⟩
    · left; exact h
    · right
      exact ⟨h1, by rw [h4]; rfl, r1, h2, h3, h4⟩
  · obtain ⟨i1, i2⟩ := XInit_send_open t0 ts ht
    obtain ⟨m, hJ⟩ := XRun_staged es (XInit t0 ts) (Or.inl i1)
      (fun _ h => absurd (i2.symm.trans h) (by rw [ho]; decide))
    generalize XRun (XInit t0 ts) es = t at m hJ
    rcases m with m | m
    · rw [XParse_send t m]
      rcases XSendPacket_success t (hJ m) with h | ⟨a1, a2, a3, a4, a5⟩
      · left; exact h
      · right
        obtain ⟨j1, j2⟩ := hJ m a3
        rcases j2 with ⟨c1, _⟩ | ⟨_, l0⟩
        · rw [a4] at c1; exact absurd c1 (by decide)
        · exact ⟨a1, a2, m, a3, j1, a4, l0, a5⟩
    · left
      unfold XParse
      rw [if_neg (by rw [m]; decide), if_neg (by rw [m]; decide)]
  · intro s
    refine ⟨XTimeOutProc_success s, rfl, ?_⟩
    intro h1 h2
    unfold XParse
    rw [if_neg h1, if_neg h2]

theorem success_reporting_witness :
    (XParse { exWaiting XoptCheck with
        cv := { (exWaiting XoptCheck).cv with InBuff := [EOT] } }).1 = false ∧
    (XParse { exWaiting XoptCheck with
        cv := { (exWaiting XoptCheck).cv with InBuff := [EOT] } }).2.fv.Success = true ∧
    (XTimeOutProc (exSender XoptCheck exFile)).fv.Success = (exSender XoptCheck exFile).fv.Success :=
  have h := success_reporting
    { exWaiting XoptCheck with cv := { (exWaiting XoptCheck).cv with InBuff := [EOT] } } []
    (by decide) (by decide) rfl (exSession IdXSend XoptCheck exFile) exTTSet [] (by decide) rfl
  ⟨congrArg Prod.fst h.1.1, h.1.2.1, (h.2.2.2 (exSender XoptCheck exFile)).1⟩

/-! ## Text mode: trimming and the translation of line ends -/

theorem XWriteText1_eq (s : XSt) (i : Nat) :
    XWriteText1 s i =
      { s with
        fv := { s.fv with WriteData := s.fv.WriteData ++ XWriteText s.xv.CRRecv [s.xv.PktIn (3 + i)] },
        xv := { s.xv with CRRecv := (s.xv.PktIn (3 + i) == CR) } } := by
  unfold XWriteText1 XWriteText XWriteText
  dsimp only
  by_cases h1 : s.xv.PktIn (3 + i) = LF
  · cases h2 : s.xv.CRRecv with
    | true => simp [h1, h2, WriteFile]
    | false => simp [h1, h2, WriteFile]
  · cases h2 : s.xv.CRRecv with
    | true => simp [h1, h2, WriteFile]
    | false => simp [h1, h2, WriteFile]

theorem XWriteText_append (a : List Nat) : ∀ (cr : Bool) (b : List Nat),
    XWriteText cr (a ++ b) = XWriteText cr a ++ XWriteText (XTextCarry cr a) b := by
  induction a with
  | nil => intro cr b; rfl
  | cons x a ih =>
    intro cr b
    rw [List.cons_append]
    simp only [XWriteText, XTextCarry, ih, List.append_assoc]

theorem XTextCarry_append (a : List Nat) : ∀ (cr : Bool) (b : List Nat),
    XTextCarry cr (a ++ b) = XTextCarry (XTextCarry cr a) b := by
  induction a with
  | nil => intro cr b; rfl
  | cons x a ih =>
    intro cr b
    rw [List.cons_append]
    simp only [XTextCarry, ih]

/-- The text-mode write loop over the payload indices `l`: the session afterwards. -/
theorem foldl_XWriteText1_eq (l : List Nat) : ∀ s : XSt,
    l.foldl XWriteText1 s =
      { s with
        fv := { s.fv with
          WriteData := s.fv.WriteData ++ XWriteText s.xv.CRRecv (l.map (fun i => s.xv.PktIn (3 + i))) },
        xv := { s.xv with
          CRRecv := XTextCarry s.xv.CRRecv (l.map (fun i => s.xv.PktIn (3 + i))) } } := by
  induction l with
  | nil =>
    intro s
    simp [XWriteText, XTextCarry]
  | cons a l ih =>
    intro s
    rw [List.foldl_cons, ih, XWriteText1_eq]
    simp only [List.map_cons, XWriteText, XTextCarry, List.append_assoc, List.append_nil]

theorem XTrimSUB_eq (buf : Nat → Nat) (n : Nat) :
    (List.range (XTrimSUB buf n)).map (fun i => buf (3 + i)) =
      XTrimmed ((List.range n).map (fun i => buf (3 + i))) := by
  induction n with
  | zero => rfl
  | succ c ih =>
    unfold XTrimSUB XTrimmed
    rw [List.range_succ, List.map_append, List.map_singleton, List.rdropWhile_concat]
    have e : 2 + (c + 1) = 3 + c := by omega
    rw [e]
    by_cases h : buf (3 + c) = 0x1A
    · rw [if_pos h, if_pos (by simp [h])]
      exact ih
    · rw [if_neg h, if_neg (by simp [h])]
      rw [show c + 1 = Nat.succ c from rfl, List.range_succ, List.map_append, List.map_singleton]

theorem XTrimSUB_length (buf : Nat → Nat) (n : Nat) :
    XTrimSUB buf n = (XTrimmed ((List.range n).map (fun i => buf (3 + i)))).length := by
  rw [← XTrimSUB_eq, List.length_map, List.length_range]

theorem XTextCarry_concat (cr : Bool) (a : List Nat) (x : Nat) :
    XTextCarry cr (a ++ [x]) = (x == CR) := by
  rw [XTextCarry_append]; rfl

/-- The carry after a stream is set exactly when the stream ends in CR. -/
theorem XTextCarry_iff (A l : List Nat) :
    XTextCarry false A = true ↔ (0 < A.length ∧ (A ++ l).getD (A.length - 1) 0 = CR) := by
  rcases List.eq_nil_or_concat A with h | ⟨A1, x, h⟩
  · subst h
    simp [XTextCarry]
  · rw [List.concat_eq_append] at h
    subst h
    rw [XTextCarry_concat]
    have e : (A1 ++ [x] ++ l).getD ((A1 ++ [x]).length - 1) 0 = x := by
      rw [List.getD_eq_getElem?_getD, List.append_assoc, List.length_append, List.length_singleton,
        Nat.add_sub_cancel, List.getElem?_append_right (le_refl _)]
      simp
    rw [e]
    simp

theorem CrLfAt_choice (b : Nat) (Q : Prop) [Decidable Q] (c : Bool) (h : c = true ↔ Q) :
    (if b = LF ∧ ¬ Q then [CR] else []) ++ (if Q ∧ b ≠ LF then [LF] else []) ++ [b] =
      (if b = LF ∧ c = false then [0x0D] else []) ++ (if c = true ∧ b ≠ LF then [0x0A] else []) ++ [b] := by
  cases c with
  | true =>
    have hQ : Q := h.mp rfl
    by_cases hl : b = LF <;> simp [hQ, hl]
  | false =>
    have hQ : ¬ Q := fun q => by have := h.mpr q; cases this
    by_cases hl : b = LF <;> simp [hQ, hl]

theorem CrLfAt_eq (A : List Nat) (b : Nat) (B : List Nat) :
    CrLfAt (A ++ b :: B) A.length ++ XWriteText (b == CR) B = XWriteText (XTextCarry false A) (b :: B) := by
  have hb : (A ++ b :: B).getD A.length 0 = b := by
    rw [List.getD_eq_getElem?_getD, List.getElem?_append_right (le_refl _)]
    simp
  unfold CrLfAt
  rw [hb]
  show _ = (if b = LF ∧ XTextCarry false A = false then [0x0D] else []) ++
      (if XTextCarry false A = true ∧ b ≠ LF then [0x0A] else []) ++ [b] ++ XWriteText (b == CR) B
  rw [CrLfAt_choice b _ (XTextCarry false A) (XTextCarry_iff A (b :: B))]

theorem CrLfStream_from (B : List Nat) : ∀ A : List Nat,
    (List.range' A.length B.length).flatMap (CrLfAt (A ++ B)) = XWriteText (XTextCarry false A) B := by
  induction B with
  | nil => intro A; rfl
  | cons b B ih =>
    intro A
    have h := ih (A ++ [b])
    rw [List.append_assoc, List.singleton_append, List.length_append, List.length_singleton,
      XTextCarry_concat] at h
    rw [List.length_cons, List.range'_succ, List.flatMap_cons, h]
    exact CrLfAt_eq A b B

/-- The write loop of the code writes the stream the spec describes. -/
theorem CrLfStream_eq (P : List Nat) : CrLfStream P = XWriteText false P := by
  have h := CrLfStream_from P []
  simp only [List.length_nil, List.nil_append] at h
  unfold CrLfStream
  rw [List.range_eq_range']
  exact h

/-- Storing a new packet in text mode: the session afterwards. -/
theorem XReadPacketStore_text (r : XSt) (ht : r.xv.TextFlag > 0) :
    XReadPacketStore r =
      { r with
        fv := { r.fv with
          WriteData := r.fv.WriteData ++ XWriteText r.xv.CRRecv
            (XTrimmed ((List.range r.xv.DataLen).map (fun i => r.xv.PktIn (3 + i)))),
          ByteCount := r.fv.ByteCount +
            ((XTrimmed ((List.range r.xv.DataLen).map (fun i => r.xv.PktIn (3 + i)))).length : Nat),
          TimeOut := r.fv.TimeOut ++ [r.xv.TOutLong] },
        xv := { r.xv with
          PktNum := r.xv.PktIn 1,
          PktNumOffset := if r.xv.PktIn 1 = 0 then r.xv.PktNumOffset + 256 else r.xv.PktNumOffset,
          CRRecv := XTextCarry r.xv.CRRecv
            (XTrimmed ((List.range r.xv.DataLen).map (fun i => r.xv.PktIn (3 + i)))) } } := by
  unfold XReadPacketStore
  dsimp only
  by_cases h0 : r.xv.PktIn 1 = 0
  · simp only [if_pos h0]
    simp only [if_pos ht]
    rw [foldl_XWriteText1_eq]
    dsimp only
    rw [XTrimSUB_eq, XTrimSUB_length]
    rfl
  · simp only [if_neg h0]
    simp only [if_pos ht]
    rw [foldl_XWriteText1_eq]
    dsimp only
    rw [XTrimSUB_eq, XTrimSUB_length]
    rfl

/-- Storing a new packet in binary mode: the session afterwards. -/
theorem XReadPacketStore_bin (r : XSt) (ht : r.xv.TextFlag = 0) :
    XReadPacketStore r =
      { r with
        fv := { r.fv with
          WriteData := r.fv.WriteData ++ (List.range r.xv.DataLen).map (fun i => r.xv.PktIn (3 + i)),
          ByteCount := r.fv.ByteCount + (r.xv.DataLen : Nat),
          TimeOut := r.fv.TimeOut ++ [r.xv.TOutLong] },
        xv := { r.xv with
          PktNum := r.xv.PktIn 1,
          PktNumOffset := if r.xv.PktIn 1 = 0 then r.xv.PktNumOffset + 256 else r.xv.PktNumOffset } } := by
  have hn : ¬ (r.xv.TextFlag > 0) := by rw [ht]; decide
  unfold XReadPacketStore
  dsimp only
  by_cases h0 : r.xv.PktIn 1 = 0
  · simp only [if_pos h0]
    simp only [if_neg hn]
    rfl
  · simp only [if_neg h0]
    simp only [if_neg hn]
    rfl

/-- The receiver that awaits a header and finds the next packet in sequence,
whatever follows it in the transport: the loop assembles it into `lr`, one
more byte is taken from the transport, and the packet is ACKed and stored. -/
theorem XReadPacket_fed (r : XSt) (hv : ValidVariant r.xv) (hm : r.xv.PktReadMode = XpktSOH)
    (P : List Nat) (hP : P.length = r.xv.DataLen) (hPb : ∀ b ∈ P, b < 256) (rest : List Nat)
    (hin : r.cv.InBuff = XPacket r.xv.DataLen r.xv.CheckLen ((r.xv.PktNum + 1) % 256) P ++ rest) :
    ∃ lr : XSt, RecvFrame r lr ∧ lr.xv.PktIn 1 = (r.xv.PktNum + 1) % 256 ∧
      (List.range lr.xv.DataLen).map (fun i => lr.xv.PktIn (3 + i)) = P ∧
      lr.xv.PktReadMode = XpktSOH ∧ lr.cv.InBuff = rest.tail ∧
      lr.xv.XOpt = r.xv.XOpt ∧ lr.xv.DataLen = r.xv.DataLen ∧ lr.xv.CheckLen = r.xv.CheckLen ∧
      XReadPacket r = (true, XReadPacketStore
        { (XWrite lr [ACK]).1 with xv := { lr.xv with NAKMode := XnakNAK, NAKCount := 10 } }) := by
  obtain ⟨-, hC2⟩ := ValidVariant_bounds hv
  have hpk : r.cv.InBuff = (if r.xv.DataLen = 128 then SOH else STX) :: ((r.xv.PktNum + 1) % 256) ::
      (255 - (r.xv.PktNum + 1) % 256) :: ((P ++ XTrailer r.xv.CheckLen P) ++ rest) := by
    rw [hin]; unfold XPacket; rw [XPayload_full _ _ hP]; simp
  have hbl : (P ++ XTrailer r.xv.CheckLen P).length = r.xv.DataLen + r.xv.CheckLen := by
    rw [List.length_append, XTrailer_length _ _ hC2, hP]
  have hbytes : (P ++ XTrailer r.xv.CheckLen P).map BYTE = P ++ XTrailer r.xv.CheckLen P := by
    apply map_BYTE_of_lt
    intro b hb
    rcases List.mem_append.mp hb with h | h
    · exact hPb b h
    · exact XTrailer_bytes _ _ b h
  obtain ⟨r1, r2, r3, r4, r5, r6, r7⟩ := XReadPacketLoop_packet r hv hm ((r.xv.PktNum + 1) % 256)
    (Nat.mod_lt _ (by decide)) (P ++ XTrailer r.xv.CheckLen P) rest hbl hpk (r.cv.InBuff.length + 1)
    (by rw [hpk]; simp; omega)
  rw [hbytes] at r2
  have r2' : (XReadPacketLoop (r.cv.InBuff.length + 1) r).1.xv.PktIn =
      blit r.xv.PktIn 0 ([if r.xv.DataLen = 128 then SOH else STX, (r.xv.PktNum + 1) % 256,
        255 - (r.xv.PktNum + 1) % 256] ++ P ++ XTrailer r.xv.CheckLen P) := by
    rw [r2, List.append_assoc]
  have hb1 : (XReadPacketLoop (r.cv.InBuff.length + 1) r).1.xv.PktIn 1 = (r.xv.PktNum + 1) % 256 := by
    rw [r2]; rfl
  have hpay : (List.range (XReadPacketLoop (r.cv.InBuff.length + 1) r).1.xv.DataLen).map
      (fun i => (XReadPacketLoop (r.cv.InBuff.length + 1) r).1.xv.PktIn (3 + i)) = P := by
    rw [r2', r6, ← hP]
    exact segment_blit3 r.xv.PktIn [if P.length = 128 then SOH else STX, (r.xv.PktNum + 1) % 256,
      255 - (r.xv.PktNum + 1) % 256] P _
  have hchk : XCheckPacket (XReadPacketLoop (r.cv.InBuff.length + 1) r).1.xv = true := by
    apply XCheckPacket_packet _ r.xv.PktIn [if r.xv.DataLen = 128 then SOH else STX,
      (r.xv.PktNum + 1) % 256, 255 - (r.xv.PktNum + 1) % 256] P (by rw [r7]; exact hC2) rfl
      (by rw [r6, hP])
    rw [r7]; exact r2'
  have hf := (XReadPacketLoop_got _ r r1).1
  have hn := hf.hNum
  have h1 : ¬ ((XReadPacketLoop (r.cv.InBuff.length + 1) r).1.xv.PktIn 1 = 0 ∧
      (XReadPacketLoop (r.cv.InBuff.length + 1) r).1.xv.PktNum = 0 ∧
      (XReadPacketLoop (r.cv.InBuff.length + 1) r).1.xv.PktNumOffset = 0) := by
    rintro ⟨a, b, -⟩
    rw [hb1, ← hn, b] at a
    simp at a
  have hd : (((XReadPacketLoop (r.cv.InBuff.length + 1) r).1.xv.PktIn 1 : Int) -
      ((XReadPacketLoop (r.cv.InBuff.length + 1) r).1.xv.PktNum : Int)) % 256 = 1 := by
    rw [hb1, hn]; omega
  refine ⟨(XReadPacketLoop (r.cv.InBuff.length + 1) r).1, hf, hb1, hpay, r3, r4, r5, r6, r7, ?_⟩
  rw [XReadPacket_of_got r r1, XReadPacketGot_new _ h1 hchk hd]

/-! ## The byte behind a packet -/

/-- Storing a new packet: the fields that do not depend on the mode. -/
theorem XReadPacketStore_num (r : XSt) :
    (XReadPacketStore r).xv.PktNum = r.xv.PktIn 1 ∧
    (XReadPacketStore r).xv.PktNumOffset =
      (if r.xv.PktIn 1 = 0 then r.xv.PktNumOffset + 256 else r.xv.PktNumOffset) ∧
    (XReadPacketStore r).cv = r.cv ∧
    (XReadPacketStore r).xv.PktReadMode = r.xv.PktReadMode ∧
    (XReadPacketStore r).xv.XOpt = r.xv.XOpt ∧
    (XReadPacketStore r).xv.DataLen = r.xv.DataLen ∧
    (XReadPacketStore r).xv.CheckLen = r.xv.CheckLen ∧
    (XReadPacketStore r).xv.TextFlag = r.xv.TextFlag ∧
    (XReadPacketStore r).xv.XMode = r.xv.XMode ∧
    (XReadPacketStore r).xv.PktIn = r.xv.PktIn ∧
    (XReadPacketStore r).xv.PktBufPtr = r.xv.PktBufPtr ∧
    (XReadPacketStore r).xv.PktBufCount = r.xv.PktBufCount := by
  by_cases ht : r.xv.TextFlag > 0
  · rw [XReadPacketStore_text r ht]
    exact ⟨rfl, rfl, rfl, rfl, rfl, rfl, rfl, rfl, rfl, rfl, rfl, rfl⟩
  · rw [XReadPacketStore_bin r (by omega)]
    exact ⟨rfl, rfl, rfl, rfl, rfl, rfl, rfl, rfl, rfl, rfl, rfl, rfl⟩

/-- C28, the code where the claim fails. A receiver that awaits a header
finds in the transport the next packet in sequence, a byte `x` behind it and
`rest` behind that. The call of `XReadPacket` accepts the packet: it returns
TRUE, hands ACK to the transport and advances `PktNum`. It has then taken
`x` from the transport as well: what waits for the next call is `rest`. The
increment of the `for` loop (line 324) reads a byte before the loop condition
finds the packet complete. -/
theorem XReadPacket_takes_next_byte (r : XSt) (hv : ValidVariant r.xv)
    (hm : r.xv.PktReadMode = XpktSOH) (P : List Nat) (hP : P.length = r.xv.DataLen)
    (hPb : ∀ b ∈ P, b < 256) (x : Nat) (rest : List Nat)
    (hin : r.cv.InBuff =
      XPacket r.xv.DataLen r.xv.CheckLen ((r.xv.PktNum + 1) % 256) P ++ x :: rest) :
    (XReadPacket r).1 = true ∧
    Wrote r.cv (XReadPacket r).2.cv [ACK] ∧
    (XReadPacket r).2.xv.PktNum = (r.xv.PktNum + 1) % 256 ∧
    (XReadPacket r).2.cv.InBuff = rest := by
  obtain ⟨lr, hf, h1, -, -, h4, -, -, -, he⟩ := XReadPacket_fed r hv hm P hP hPb (x :: rest) hin
  rw [he]
  obtain ⟨s1, -, s3, -⟩ := XReadPacketStore_num
    { (XWrite lr [ACK]).1 with xv := { lr.xv with NAKMode := XnakNAK, NAKCount := 10 } }
  refine ⟨rfl, ?_, s1.trans h1, ?_⟩
  · show Wrote r.cv (XReadPacketStore _).cv [ACK]
    rw [s3]
    exact Wrote_of_frame hf ⟨rfl, rfl⟩
  · show (XReadPacketStore _).cv.InBuff = rest
    rw [s3]
    exact h4

theorem XReadPacket_takes_next_byte_witness :
    (XReadPacket (withInput (exWaiting XoptCheck)
      (XPacket 128 1 1 (List.replicate 128 65) ++ [SOH, 2, 253]))).1 = true ∧
    (XReadPacket (withInput (exWaiting XoptCheck)
      (XPacket 128 1 1 (List.replicate 128 65) ++ [SOH, 2, 253]))).2.cv.InBuff = [2, 253] :=
  have h := XReadPacket_takes_next_byte
    (withInput (exWaiting XoptCheck) (XPacket 128 1 1 (List.replicate 128 65) ++ [SOH, 2, 253]))
    (by unfold ValidVariant; decide) (by decide) (List.replicate 128 65) (by decide) (by decide)
    SOH [2, 253] rfl
  ⟨h.1, h.2.2.2⟩

/-! ## What an accepted packet adds to the file -/

/-- The receiver that awaits a header and finds the next packet in sequence,
whatever follows it: the session after the call. -/
theorem XReadPacket_fed_facts (r : XSt) (hv : ValidVariant r.xv) (hm : r.xv.PktReadMode = XpktSOH)
    (P : List Nat) (hP : P.length = r.xv.DataLen) (hPb : ∀ b ∈ P, b < 256) (rest : List Nat)
    (hin : r.cv.InBuff = XPacket r.xv.DataLen r.xv.CheckLen ((r.xv.PktNum + 1) % 256) P ++ rest) :
    ((XReadPacket r).1 = true ∧
      (XReadPacket r).2.xv.PktNum = (r.xv.PktNum + 1) % 256 ∧
      (XReadPacket r).2.xv.PktNumOffset =
        (if (r.xv.PktNum + 1) % 256 = 0 then r.xv.PktNumOffset + 256 else r.xv.PktNumOffset) ∧
      (XReadPacket r).2.xv.PktReadMode = XpktSOH ∧
      (XReadPacket r).2.xv.XOpt = r.xv.XOpt ∧
      (XReadPacket r).2.xv.DataLen = r.xv.DataLen ∧
      (XReadPacket r).2.xv.CheckLen = r.xv.CheckLen ∧
      (XReadPacket r).2.xv.TextFlag = r.xv.TextFlag ∧
      (XReadPacket r).2.xv.XMode = r.xv.XMode ∧
      (XReadPacket r).2.cv.InBuff = rest.tail) ∧
    (r.xv.TextFlag = 0 →
      (XReadPacket r).2.fv.WriteData = r.fv.WriteData ++ P ∧
      (XReadPacket r).2.fv.ByteCount = r.fv.ByteCount + (P.length : Nat) ∧
      (XReadPacket r).2.xv.CRRecv = r.xv.CRRecv) ∧
    (r.xv.TextFlag > 0 →
      (XReadPacket r).2.fv.WriteData = r.fv.WriteData ++ XWriteText r.xv.CRRecv (XTrimmed P) ∧
      (XReadPacket r).2.fv.ByteCount = r.fv.ByteCount + ((XTrimmed P).length : Nat) ∧
      (XReadPacket r).2.xv.CRRecv = XTextCarry r.xv.CRRecv (XTrimmed P)) := by
  obtain ⟨lr, hf, h1, h2, h3, h4, h5, h6, h7, he⟩ := XReadPacket_fed r hv hm P hP hPb rest hin
  rw [he]
  obtain ⟨a, ha, a1, a2, a3, a4, a5, a6, a7, a8, a9, a10, a11, a12⟩ : ∃ a : XSt,
      ({ (XWrite lr [ACK]).1 with xv := { lr.xv with NAKMode := XnakNAK, NAKCount := 10 } } : XSt) = a ∧
      a.fv = lr.fv ∧ a.xv.PktIn = lr.xv.PktIn ∧ a.xv.DataLen = lr.xv.DataLen ∧
      a.xv.TextFlag = lr.xv.TextFlag ∧ a.xv.CRRecv = lr.xv.CRRecv ∧
      a.xv.PktNumOffset = lr.xv.PktNumOffset ∧ a.cv.InBuff = lr.cv.InBuff ∧
      a.xv.PktReadMode = lr.xv.PktReadMode ∧ a.xv.XOpt = lr.xv.XOpt ∧
      a.xv.CheckLen = lr.xv.CheckLen ∧ a.xv.XMode = lr.xv.XMode ∧ a.xv.PktNum = lr.xv.PktNum :=
    ⟨_, rfl, rfl, rfl, rfl, rfl, rfl, rfl, rfl, rfl, rfl, rfl, rfl, rfl⟩
  rw [ha]
  obtain ⟨s1, s2, s3, s4, s5, s6, s7, s8, s9, -⟩ := XReadPacketStore_num a
  have hpay : (List.range a.xv.DataLen).map (fun i => a.xv.PktIn (3 + i)) = P := by
    rw [a2, a3]; exact h2
  refine ⟨⟨rfl, ?_, ?_, ?_, ?_, ?_, ?_, ?_, ?_, ?_⟩, ?_, ?_⟩
  · show (XReadPacketStore a).xv.PktNum = _
    rw [s1, a2, h1]
  · show (XReadPacketStore a).xv.PktNumOffset = _
    rw [s2, a2, h1, a6, hf.hOff]
  · exact s4.trans (a8.trans h3)
  · exact s5.trans (a9.trans h5)
  · exact s6.trans (a3.trans h6)
  · exact s7.trans (a10.trans h7)
  · exact s8.trans (a4.trans hf.hText)
  · exact s9.trans (a11.trans hf.hMode)
  · show (XReadPacketStore a).cv.InBuff = _
    rw [s3, a7]; exact h4
  · intro ht
    show (XReadPacketStore a).fv.WriteData = _ ∧ (XReadPacketStore a).fv.ByteCount = _ ∧
      (XReadPacketStore a).xv.CRRecv = _
    rw [XReadPacketStore_bin a (a4.trans (hf.hText.trans ht))]
    refine ⟨?_, ?_, a5.trans hf.hCR⟩
    · show a.fv.WriteData ++ (List.range a.xv.DataLen).map (fun i => a.xv.PktIn (3 + i)) = _
      rw [hpay, a1, hf.hWrite]
    · show a.fv.ByteCount + (a.xv.DataLen : Nat) = _
      rw [a1, hf.hCount, a3, h6, hP]
  · intro ht
    show (XReadPacketStore a).fv.WriteData = _ ∧ (XReadPacketStore a).fv.ByteCount = _ ∧
      (XReadPacketStore a).xv.CRRecv = _
    rw [XReadPacketStore_text a (by rw [a4, hf.hText]; exact ht)]
    refine ⟨?_, ?_, ?_⟩
    · show a.fv.WriteData ++ XWriteText a.xv.CRRecv
        (XTrimmed ((List.range a.xv.DataLen).map (fun i => a.xv.PktIn (3 + i)))) = _
      rw [hpay, a1, hf.hWrite, a5, hf.hCR]
    · show a.fv.ByteCount +
        ((XTrimmed ((List.range a.xv.DataLen).map (fun i => a.xv.PktIn (3 + i)))).length : Nat) = _
      rw [hpay, a1, hf.hCount]
    · show XTextCarry a.xv.CRRecv
        (XTrimmed ((List.range a.xv.DataLen).map (fun i => a.xv.PktIn (3 + i)))) = _
      rw [hpay, a5, hf.hCR]

/-! ## Properties of the translated stream -/

/-- In what the write loop hands to the file after a byte `prev`, every LF
follows a CR and every CR but the last byte is followed by LF. -/
theorem XWriteText_chain (P : List Nat) : ∀ (prev : Nat) (c : Bool), (c = true ↔ prev = CR) →
    List.Chain (fun a b => (b = LF → a = CR) ∧ (a = CR → b = LF)) prev (XWriteText c P) := by
  induction P with
  | nil => intro prev c _; exact List.Chain.nil
  | cons b rest ih =>
    intro prev c hc
    have hb : ((b == CR) = true ↔ b = CR) := by simp
    have ih1 := ih b (b == CR) hb
    unfold XWriteText
    cases c with
    | true =>
      have hp : prev = CR := hc.mp rfl
      by_cases hl : b = LF
      · simp only [hl, ne_eq, not_true_eq_false, and_false, if_false, List.nil_append,
          Bool.true_eq_false, List.singleton_append]
        rw [hl] at ih1
        exact List.Chain.cons ⟨fun _ => hp, fun _ => rfl⟩ ih1
      · simp only [hl, false_and, if_false, List.nil_append, ne_eq, not_false_eq_true, and_self,
          if_true, List.singleton_append]
        refine List.Chain.cons ⟨fun _ => hp, fun _ => rfl⟩ (List.Chain.cons ⟨?_, ?_⟩ ih1)
        · intro h; exact absurd h hl
        · intro h; exact absurd h (by decide)
    | false =>
      have hp : prev ≠ CR := fun h => by have := hc.mpr h; cases this
      by_cases hl : b = LF
      · simp only [hl, and_self, if_true, ne_eq, not_true_eq_false, and_false, if_false,
          List.append_nil, List.singleton_append]
        rw [hl] at ih1
        refine List.Chain.cons ⟨?_, ?_⟩ (List.Chain.cons ⟨fun _ => rfl, fun _ => rfl⟩ ih1)
        · intro h; exact absurd h (by decide)
        · intro h; exact absurd h hp
      · simp only [hl, false_and, if_false, List.nil_append, Bool.false_eq_true,
          List.singleton_append]
        refine List.Chain.cons ⟨?_, ?_⟩ ih1
        · intro h; exact absurd h hl
        · intro h; exact absurd h hp

/-- A stream in CR LF form behind a byte `prev` is written as it is. -/
theorem XWriteText_id (P : List Nat) : ∀ (prev : Nat) (c : Bool), (c = true ↔ prev = CR) →
    List.Chain (fun a b => (b = LF → a = CR) ∧ (a = CR → b = LF)) prev P → XWriteText c P = P := by
  induction P with
  | nil => intro prev c _ _; rfl
  | cons b rest ih =>
    intro prev c hc hch
    have hb : ((b == CR) = true ↔ b = CR) := by simp
    obtain ⟨h1, h2⟩ := List.chain_cons.mp hch
    have ih1 := ih b (b == CR) hb h2
    unfold XWriteText
    rw [ih1]
    cases c with
    | true =>
      have hl : b = LF := h1.2 (hc.mp rfl)
      simp [hl]
    | false =>
      have hp : prev ≠ CR := fun h => by have := hc.mpr h; cases this
      have hl : b ≠ LF := fun h => hp (h1.1 h)
      simp [hl]

theorem XTextCarry_last (S : List Nat) : XTextCarry false S = true ↔ S.getLast? = some CR := by
  rcases List.eq_nil_or_concat S with h | ⟨A1, x, h⟩
  · subst h; simp [XTextCarry]
  · rw [List.concat_eq_append] at h
    subst h
    rw [XTextCarry_concat, List.getLast?_concat]
    simp

theorem XInitVars_carry (s : XSt) (ts : TTSet) :
    (XInitVars s ts).xv.CRRecv = false ∧ (XInitVars s ts).xv.XMode = s.xv.XMode := by
  unfold XInitVars XInitTimeOuts XSetOpt
  dsimp only
  split_ifs <;> exact ⟨rfl, rfl⟩

/-- A receiver starts with `CRRecv` cleared. -/
theorem XInit_carry (s : XSt) (ts : TTSet) (hm : s.xv.XMode = IdXReceive) :
    (XInit s ts).xv.CRRecv = false := by
  obtain ⟨a1, a2⟩ := XInitVars_carry s ts
  unfold XInit
  dsimp only
  rw [if_neg (by rw [a2, hm]; decide), if_pos (a2.trans hm)]
  exact (XSendNAK_frame _).2.2.2.2.2.1.trans a1

/-- C22, as the code has it. A receiver that awaits a header and finds the
next packet in sequence, whatever follows it in the transport - another data
block, EOT or nothing. In text mode the bytes written to the file are the
payload without its trailing 0x1A bytes, passed through the CR/LF
translation of the write loop, and `ByteCount` grows by the length of the
trimmed payload: every block is trimmed, not only the last one. In binary
mode the payload is written as it is, in full. -/
theorem text_trim_every_block (r : XSt) (hv : ValidVariant r.xv) (hm : r.xv.PktReadMode = XpktSOH)
    (P : List Nat) (hP : P.length = r.xv.DataLen) (hPb : ∀ b ∈ P, b < 256) (rest : List Nat)
    (hin : r.cv.InBuff = XPacket r.xv.DataLen r.xv.CheckLen ((r.xv.PktNum + 1) % 256) P ++ rest) :
    (XReadPacket r).1 = true ∧
    (r.xv.TextFlag > 0 →
      (XReadPacket r).2.fv.WriteData = r.fv.WriteData ++ XWriteText r.xv.CRRecv (XTrimmed P) ∧
      (XReadPacket r).2.fv.ByteCount = r.fv.ByteCount + ((XTrimmed P).length : Nat)) ∧
    (r.xv.TextFlag = 0 →
      (XReadPacket r).2.fv.WriteData = r.fv.WriteData ++ P ∧
      (XReadPacket r).2.fv.ByteCount = r.fv.ByteCount + (P.length : Nat)) := by
  obtain ⟨h1, h2, h3⟩ := XReadPacket_fed_facts r hv hm P hP hPb rest hin
  exact ⟨h1.1, fun ht => ⟨(h3 ht).1, (h3 ht).2.1⟩, fun ht => ⟨(h2 ht).1, (h2 ht).2.1⟩⟩

/-- Two packets in sequence fed to a receiver in text mode, one call each. -/
theorem XReadPacket_fed_twice (r : XSt) (hv : ValidVariant r.xv) (hm : r.xv.PktReadMode = XpktSOH)
    (ht : r.xv.TextFlag > 0)
    (P Q : List Nat) (hP : P.length = r.xv.DataLen) (hPb : ∀ b ∈ P, b < 256)
    (hQ : Q.length = r.xv.DataLen) (hQb : ∀ b ∈ Q, b < 256)
    (hin : r.cv.InBuff = XPacket r.xv.DataLen r.xv.CheckLen ((r.xv.PktNum + 1) % 256) P) :
    (XReadPacket r).2.fv.WriteData = r.fv.WriteData ++ XWriteText r.xv.CRRecv (XTrimmed P) ∧
    (XReadPacket (withInput (XReadPacket r).2
      (XPacket r.xv.DataLen r.xv.CheckLen (((r.xv.PktNum + 1) % 256 + 1) % 256) Q))).1 = true ∧
    (XReadPacket (withInput (XReadPacket r).2
      (XPacket r.xv.DataLen r.xv.CheckLen (((r.xv.PktNum + 1) % 256 + 1) % 256) Q))).2.fv.WriteData =
      r.fv.WriteData ++ XWriteText r.xv.CRRecv (XTrimmed P ++ XTrimmed Q) := by
  obtain ⟨⟨-, b2, -, b4, b5, b6, b7, b8, -, -⟩, -, b12⟩ :=
    XReadPacket_fed_facts r hv hm P hP hPb [] (by rw [List.append_nil]; exact hin)
  obtain ⟨c1, -, c3⟩ := b12 ht
  have hv2 : ValidVariant (withInput (XReadPacket r).2
      (XPacket r.xv.DataLen r.xv.CheckLen (((r.xv.PktNum + 1) % 256 + 1) % 256) Q)).xv := by
    show ValidVariant (XReadPacket r).2.xv
    unfold ValidVariant
    rw [b5, b6, b7]
    exact hv
  obtain ⟨⟨d1, -⟩, -, d12⟩ := XReadPacket_fed_facts (withInput (XReadPacket r).2
      (XPacket r.xv.DataLen r.xv.CheckLen (((r.xv.PktNum + 1) % 256 + 1) % 256) Q))
    hv2 b4 Q (hQ.trans b6.symm) hQb []
    (by
      show XPacket r.xv.DataLen r.xv.CheckLen (((r.xv.PktNum + 1) % 256 + 1) % 256) Q =
        XPacket (XReadPacket r).2.xv.DataLen (XReadPacket r).2.xv.CheckLen
          (((XReadPacket r).2.xv.PktNum + 1) % 256) Q ++ []
      rw [b6, b7, b2, List.append_nil])
  obtain ⟨e1, -, -⟩ := d12 (show (XReadPacket r).2.xv.TextFlag > 0 by rw [b8]; exact ht)
  refine ⟨c1, d1, ?_⟩
  rw [e1]
  show (XReadPacket r).2.fv.WriteData ++ XWriteText (XReadPacket r).2.xv.CRRecv (XTrimmed Q) = _
  rw [c1, c3, XWriteText_append, List.append_assoc]

/-- C22, the claim as stated fails. A checksum receiver in text mode gets
block 1 with the payload 127 times 'A' and one 0x1A, and in the next call
block 2 with the payload 128 times 'B'. Block 1 is followed by another data
block, and yet its last byte 0x1A is not written: the file holds the 127
bytes 'A' after the first call and nothing but the 128 bytes 'B' is added by
the second. -/
theorem text_trim_not_final_only :
    (XReadPacket (withInput (exTextWaiting XoptCheck)
      (XPacket 128 1 1 (List.replicate 127 65 ++ [0x1A])))).2.fv.WriteData = List.replicate 127 65 ∧
    (XReadPacket (withInput (exTextWaiting XoptCheck)
      (XPacket 128 1 1 (List.replicate 127 65 ++ [0x1A])))).2.fv.WriteData ≠
        List.replicate 127 65 ++ [0x1A] ∧
    (XReadPacket (withInput (XReadPacket (withInput (exTextWaiting XoptCheck)
      (XPacket 128 1 1 (List.replicate 127 65 ++ [0x1A])))).2
        (XPacket 128 1 2 (List.replicate 128 66)))).1 = true ∧
    (XReadPacket (withInput (XReadPacket (withInput (exTextWaiting XoptCheck)
      (XPacket 128 1 1 (List.replicate 127 65 ++ [0x1A])))).2
        (XPacket 128 1 2 (List.replicate 128 66)))).2.fv.WriteData =
      List.replicate 127 65 ++ List.replicate 128 66 := by
  have h := XReadPacket_fed_twice
    (withInput (exTextWaiting XoptCheck) (XPacket 128 1 1 (List.replicate 127 65 ++ [0x1A])))
    (by unfold ValidVariant; decide) (by decide) (by decide)
    (List.replicate 127 65 ++ [0x1A]) (List.replicate 128 66) (by decide) (by decide)
    (by decide) (by decide) rfl
  have e1 : ([] : List Nat) ++ XWriteText false (XTrimmed (List.replicate 127 65 ++ [0x1A])) =
      List.replicate 127 65 := by decide
  have e2 : ([] : List Nat) ++ XWriteText false
      (XTrimmed (List.replicate 127 65 ++ [0x1A]) ++ XTrimmed (List.replicate 128 66)) =
      List.replicate 127 65 ++ List.replicate 128 66 := by decide
  refine ⟨h.1.trans e1, ?_, h.2.1, h.2.2.trans e2⟩
  rw [h.1.trans e1]
  decide

theorem text_trim_every_block_witness :
    (XReadPacket (withInput (exTextWaiting XoptCheck)
      (XPacket 128 1 1 (List.replicate 127 65 ++ [0x1A]) ++ [EOT]))).1 = true ∧
    (XReadPacket (withInput (exWaiting XoptCheck)
      (XPacket 128 1 1 (List.replicate 127 65 ++ [0x1A]) ++ [EOT]))).1 = true :=
  ⟨(text_trim_every_block
      (withInput (exTextWaiting XoptCheck) (XPacket 128 1 1 (List.replicate 127 65 ++ [0x1A]) ++ [EOT]))
      (by unfold ValidVariant; decide) (by decide) (List.replicate 127 65 ++ [0x1A]) (by decide)
      (by decide) [EOT] rfl).1,
   (text_trim_every_block
      (withInput (exWaiting XoptCheck) (XPacket 128 1 1 (List.replicate 127 65 ++ [0x1A]) ++ [EOT]))
      (by unfold ValidVariant; decide) (by decide) (List.replicate 127 65 ++ [0x1A]) (by decide)
      (by decide) [EOT] rfl).1⟩

/-- C23. Text-mode CR/LF translation. A receiver starts with `CRRecv`
cleared. Let a receiver in text mode have written, behind `W`, the
translation `CrLfStream S` of the stream `S` of trimmed payload bytes it
has stored so far, with `CRRecv` set exactly when `S` ends in CR (at the
start `S` is empty). When it accepts the next packet in sequence with
payload `P`, the file holds `W` and the translation of `S` extended by the
trimmed `P`, and `CRRecv` is set exactly when the extended stream ends in
CR. For every stream `T`, the translation does not begin with LF, every LF
in it immediately follows a CR, every CR in it that is not its last byte is
immediately followed by LF, and a `T` that is in this form already is
written unchanged. -/
theorem crlf_translation (r : XSt) (hv : ValidVariant r.xv) (hm : r.xv.PktReadMode = XpktSOH)
    (ht : r.xv.TextFlag > 0) (P : List Nat) (hP : P.length = r.xv.DataLen)
    (hPb : ∀ b ∈ P, b < 256) (rest : List Nat)
    (hin : r.cv.InBuff = XPacket r.xv.DataLen r.xv.CheckLen ((r.xv.PktNum + 1) % 256) P ++ rest)
    (W S : List Nat) (hW : r.fv.WriteData = W ++ CrLfStream S)
    (hC : r.xv.CRRecv = true ↔ S.getLast? = some CR) :
    (∀ (s0 : XSt) (ts : TTSet), s0.xv.XMode = IdXReceive → (XInit s0 ts).xv.CRRecv = false) ∧
    (XReadPacket r).2.fv.WriteData = W ++ CrLfStream (S ++ XTrimmed P) ∧
    ((XReadPacket r).2.xv.CRRecv = true ↔ (S ++ XTrimmed P).getLast? = some CR) ∧
    (∀ T : List Nat,
      (CrLfStream T).head? ≠ some LF ∧
      List.Chain' (fun a b => b = LF → a = CR) (CrLfStream T) ∧
      List.Chain' (fun a b => a = CR → b = LF) (CrLfStream T) ∧
      (T.head? ≠ some LF → List.Chain' (fun a b => (b = LF → a = CR) ∧ (a = CR → b = LF)) T →
        CrLfStream T = T)) := by
  have hcr : r.xv.CRRecv = XTextCarry false S := by
    cases h1 : r.xv.CRRecv with
    | true => exact ((XTextCarry_last S).mpr (hC.mp h1)).symm
    | false =>
      cases h2 : XTextCarry false S with
      | false => rfl
      | true =>
        have := hC.mpr ((XTextCarry_last S).mp h2)
        rw [h1] at this
        cases this
  obtain ⟨-, -, h3⟩ := XReadPacket_fed_facts r hv hm P hP hPb rest hin
  obtain ⟨c1, -, c3⟩ := h3 ht
  refine ⟨fun s0 ts h => XInit_carry s0 ts h, ?_, ?_, ?_⟩
  · rw [c1, hW, CrLfStream_eq, CrLfStream_eq, XWriteText_append, hcr, List.append_assoc]
  · rw [c3, hcr, ← XTextCarry_append]
    exact XTextCarry_last _
  · intro T
    have hch := XWriteText_chain T 0 false (by decide)
    rw [CrLfStream_eq]
    refine ⟨?_, ?_, ?_, ?_⟩
    · intro hh
      cases hx : XWriteText false T with
      | nil => rw [hx] at hh; cases hh
      | cons x l =>
        rw [hx] at hh hch
        have hxl : x = LF := by
          simp only [List.head?_cons, Option.some.injEq] at hh
          exact hh
        have := (List.chain_cons.mp hch).1.1 hxl
        exact absurd this (by decide)
    · have h1 : List.Chain' (fun a b => (b = LF → a = CR) ∧ (a = CR → b = LF)) (XWriteText false T) :=
        List.Chain'.tail (l := 0 :: XWriteText false T) hch
      exact h1.imp (fun _ _ h => h.1)
    · have h1 : List.Chain' (fun a b => (b = LF → a = CR) ∧ (a = CR → b = LF)) (XWriteText false T) :=
        List.Chain'.tail (l := 0 :: XWriteText false T) hch
      exact h1.imp (fun _ _ h => h.2)
    · intro hh hc
      apply XWriteText_id T 0 false (by decide)
      cases T with
      | nil => exact List.Chain.nil
      | cons x l =>
        refine List.Chain.cons ⟨?_, ?_⟩ hc
        · intro hx
          rw [hx] at hh
          exact absurd rfl hh
        · intro h0; exact absurd h0 (by decide)

theorem crlf_translation_witness :
    (XReadPacket (withInput (exTextWaiting XoptCheck)
      (XPacket 128 1 1 (List.replicate 127 65 ++ [LF]) ++ [EOT]))).2.fv.WriteData =
      [] ++ CrLfStream ([] ++ XTrimmed (List.replicate 127 65 ++ [LF])) ∧
    CrLfStream [65, LF, CR, 66] = [65, CR, LF, CR, LF, 66] :=
  have h := crlf_translation
    (withInput (exTextWaiting XoptCheck) (XPacket 128 1 1 (List.replicate 127 65 ++ [LF]) ++ [EOT]))
    (by unfold ValidVariant; decide) (by decide) (by decide) (List.replicate 127 65 ++ [LF])
    (by decide) (by decide) [EOT] rfl [] [] rfl (by decide)
  ⟨h.2.1, by decide⟩

/-! ## `GetFileNamePosW` -/

theorem GetFileNamePosWStart_le (p : List Nat) : GetFileNamePosWStart p ≤ p.length := by
  unfold GetFileNamePosWStart
  dsimp only
  by_cases h1 : p.length ≥ 2 ∧ p.getD 1 0 = 0x3A
  · rw [if_pos h1]
    by_cases h2 : p.getD 2 0 = 0x5C ∨ p.getD 2 0 = 0x2F
    · rw [if_pos h2]
      by_contra hc
      have hl : p.length ≤ 2 := by omega
      have : p.getD 2 0 = 0 := by
        rw [List.getD_eq_getElem?_getD, List.getElem?_eq_none hl]; rfl
      rw [this] at h2
      revert h2; decide
    · rw [if_neg h2]; exact h1.1
  · rw [if_neg h1]
    by_cases h2 : p.getD 0 0 = 0x5C ∨ p.getD 0 0 = 0x2F
    · rw [if_pos h2]
      by_contra hc
      have hl : p.length ≤ 0 := by omega
      have : p.getD 0 0 = 0 := by
        rw [List.getD_eq_getElem?_getD, List.getElem?_eq_none hl]; rfl
      rw [this] at h2
      revert h2; decide
    · rw [if_neg h2]; exact Nat.zero_le _

theorem GetFileNamePosWLoop_inv (l : List Nat) : ∀ (pre : List Nat) (D F k0 : Nat),
    FileNamePosInv pre D F k0 → ∀ d f, GetFileNamePosWLoop l pre.length D F = some (d, f) →
    FileNamePosInv (pre ++ l) d f k0 := by
  induction l with
  | nil =>
    intro pre D F k0 hI d f h
    unfold GetFileNamePosWLoop at h
    cases h
    rw [List.append_nil]
    exact hI
  | cons b rest ih =>
    intro pre D F k0 hI d f h
    obtain ⟨i1, i2, i3, i4, i5, i6, i7⟩ := hI
    unfold GetFileNamePosWLoop at h
    have hlen : (pre ++ [b]).length = pre.length + 1 := by simp
    have happ : pre ++ b :: rest = (pre ++ [b]) ++ rest := by simp
    have hk : (pre ++ [b]).drop k0 = pre.drop k0 ++ [b] := List.drop_append_of_le_length i3
    by_cases hc : b = 0x3A
    · rw [if_pos hc] at h; cases h
    · rw [if_neg hc] at h
      by_cases hs : b = 0x2F ∨ b = 0x5C
      · rw [if_pos hs, ← hlen] at h
        rw [happ]
        refine ih (pre ++ [b]) pre.length (pre.length + 1) k0 ?_ d f (by rw [hlen] at h ⊢; exact h)
        have hg : (pre ++ [b]).getD pre.length 0 = b := by
          rw [List.getD_eq_getElem?_getD, List.getElem?_append_right (le_refl _)]; simp
        refine ⟨by omega, by omega, by omega, ?_, Or.inr ⟨rfl, by rw [hg]; exact hs⟩,
          fun _ => rfl, ?_⟩
        · intro c hcm
          rw [List.drop_of_length_le (by omega)] at hcm
          cases hcm
        · intro hn
          exfalso
          apply hn
          exact ⟨b, by rw [hk]; simp, hs⟩
      · rw [if_neg hs, ← hlen] at h
        rw [happ]
        refine ih (pre ++ [b]) D F k0 ?_ d f h
        have hns : b ≠ 0x2F ∧ b ≠ 0x5C := ⟨fun e => hs (Or.inl e), fun e => hs (Or.inr e)⟩
        have hiff : (∃ c ∈ (pre ++ [b]).drop k0, c = 0x2F ∨ c = 0x5C) ↔
            (∃ c ∈ pre.drop k0, c = 0x2F ∨ c = 0x5C) := by
          rw [hk]
          constructor
          · rintro ⟨c, hcm, hcs⟩
            rcases List.mem_append.mp hcm with h1 | h1
            · exact ⟨c, h1, hcs⟩
            · rw [List.mem_singleton] at h1
              rw [h1] at hcs
              exact absurd hcs hs
          · rintro ⟨c, hcm, hcs⟩
            exact ⟨c, List.mem_append_left _ hcm, hcs⟩
        refine ⟨i1, by omega, by omega, ?_, ?_, fun hx => i6 (hiff.mp hx),
          fun hx => i7 (fun hy => hx (hiff.mpr hy))⟩
        · intro c hcm
          rw [List.drop_append_of_le_length i2] at hcm
          rcases List.mem_append.mp hcm with h1 | h1
          · exact i4 c h1
          · rw [List.mem_singleton] at h1
            rw [h1]; exact hns
        · rcases i5 with h1 | ⟨h1, h2⟩
          · exact Or.inl h1
          · refine Or.inr ⟨h1, ?_⟩
            have hD : D < pre.length := by omega
            have : (pre ++ [b]).getD D 0 = pre.getD D 0 := by
              rw [List.getD_eq_getElem?_getD, List.getD_eq_getElem?_getD,
                List.getElem?_append_left hD]
            rw [this]; exact h2

/-- C24, the code where the claim fails. On every path on which
`GetFileNamePosW` returns TRUE, `FNPos` is the index at which the file name
starts: no separator follows it, and when the path has a separator behind
its drive and root prefix the character before `FNPos` is the last one.
`DirLen` in that case is the index of this separator, one less than `FNPos`:
the length of the directory path without its trailing separator, not with
it. Only when no separator follows the prefix are `DirLen` and `FNPos`
equal, both the index behind the prefix. For NULL the function returns
FALSE with both set to 0. -/
theorem GetFileNamePosW_dir_len (p : List Nat) (d f : Nat)
    (h : GetFileNamePosW (some p) = (true, d, f)) :
    f ≤ p.length ∧
    (∀ c ∈ p.drop f, c ≠ 0x2F ∧ c ≠ 0x5C) ∧
    ((∃ c ∈ p.drop (GetFileNamePosWStart p), c = 0x2F ∨ c = 0x5C) →
      d + 1 = f ∧ (p.getD d 0 = 0x2F ∨ p.getD d 0 = 0x5C) ∧ d ≠ f) ∧
    ((¬ ∃ c ∈ p.drop (GetFileNamePosWStart p), c = 0x2F ∨ c = 0x5C) →
      d = GetFileNamePosWStart p ∧ f = GetFileNamePosWStart p) ∧
    GetFileNamePosW none = (false, 0, 0) := by
  have hk := GetFileNamePosWStart_le p
  have hlen : (p.take (GetFileNamePosWStart p)).length = GetFileNamePosWStart p := by
    rw [List.length_take]; omega
  have h0 : FileNamePosInv (p.take (GetFileNamePosWStart p)) (GetFileNamePosWStart p)
      (GetFileNamePosWStart p) (GetFileNamePosWStart p) := by
    have hd : (p.take (GetFileNamePosWStart p)).drop (GetFileNamePosWStart p) = [] :=
      List.drop_of_length_le (by omega)
    refine ⟨le_refl _, by omega, by omega, ?_, Or.inl rfl, ?_, fun _ => ⟨rfl, rfl⟩⟩
    · intro c hc; rw [hd] at hc; cases hc
    · rintro ⟨c, hc, -⟩; rw [hd] at hc; cases hc
  unfold GetFileNamePosW at h
  dsimp only at h
  cases hl : GetFileNamePosWLoop (p.drop (GetFileNamePosWStart p)) (GetFileNamePosWStart p)
      (GetFileNamePosWStart p) (GetFileNamePosWStart p) with
  | none => rw [hl] at h; cases h
  | some r =>
    obtain ⟨d1, f1⟩ := r
    rw [hl] at h
    cases h
    have hl2 : GetFileNamePosWLoop (p.drop (GetFileNamePosWStart p))
        (p.take (GetFileNamePosWStart p)).length (GetFileNamePosWStart p)
        (GetFileNamePosWStart p) = some (d, f) := by rw [hlen]; exact hl
    have hI := GetFileNamePosWLoop_inv _ _ _ _ _ h0 d f hl2
    rw [List.take_append_drop] at hI
    obtain ⟨i1, i2, i3, i4, i5, i6, i7⟩ := hI
    refine ⟨i2, i4, ?_, i7, rfl⟩
    intro hx
    have h1 := i6 hx
    rcases i5 with h2 | ⟨-, h3⟩
    · omega
    · exact ⟨h1, h3, by omega⟩

theorem GetFileNamePosW_dir_len_witness :
    GetFileNamePosW (some [0x61, 0x2F, 0x62]) = (true, 1, 2) ∧ (1 : Nat) + 1 = 2 ∧ (1 : Nat) ≠ 2 :=
  have h := GetFileNamePosW_dir_len [0x61, 0x2F, 0x62] 1 2 rfl
  ⟨rfl, (h.2.2.1 ⟨0x2F, by decide, Or.inl rfl⟩).1, (h.2.2.1 ⟨0x2F, by decide, Or.inl rfl⟩).2.2⟩

/-! ## Block numbers across the 8-bit wrap -/

theorem XSendNAK_buf (s : XSt) :
    (XSendNAK s).xv.PktIn = s.xv.PktIn ∧ (XSendNAK s).xv.PktOut = s.xv.PktOut ∧
    (XSendNAK s).xv.PktBufPtr = s.xv.PktBufPtr ∧ (XSendNAK s).xv.PktBufCount = s.xv.PktBufCount ∧
    ((XSendNAK s).xv.PktReadMode = XpktSOH ∨
      ((XSendNAK s).xv.PktReadMode = s.xv.PktReadMode ∧ (XSendNAK s).xv.DataLen = s.xv.DataLen ∧
        (XSendNAK s).xv.CheckLen = s.xv.CheckLen)) ∧
    (ValidVariant s.xv → ValidVariant (XSendNAK s).xv) := by
  unfold XSendNAK
  dsimp only
  split_ifs with h1 h2
  · exact ⟨rfl, rfl, rfl, rfl, Or.inl rfl, fun _ => Or.inl ⟨rfl, rfl, rfl⟩⟩
  · exact ⟨rfl, rfl, rfl, rfl, Or.inr ⟨rfl, rfl, rfl⟩, fun h => h⟩
  · exact ⟨rfl, rfl, rfl, rfl, Or.inl rfl, fun h => h⟩

/-- An invariant relation of the steps of the receive loop on bytes holds of the loop. -/
theorem XReadPacketLoop_induct_byte (R : XSt → XSt → Prop) (hrefl : ∀ s, R s s)
    (htrans : ∀ a b c, R a b → R b c → R a c) (hpop : ∀ s, R s (popIn s))
    (hbody : ∀ s b, b < 256 → R s (XReadPacketBody s b).1) :
    ∀ (fuel : Nat) (s : XSt), R s (XReadPacketLoop fuel s).1 := by
  intro fuel
  induction fuel with
  | zero => intro s; exact hrefl s
  | succ n ih =>
    intro s
    cases hin : s.cv.InBuff with
    | nil => rw [XReadPacketLoop_nil _ _ hin]; exact hrefl s
    | cons b rest =>
      have h1 : R s (XReadPacketBody (popIn s) (BYTE b)).1 :=
        htrans _ _ _ (hpop s) (hbody _ _ (BYTE_lt b))
      cases hret : (XReadPacketBody (popIn s) (BYTE b)).2.2 with
      | some r => rw [XReadPacketLoop_ret n s b rest r hin hret]; exact h1
      | none =>
        cases hg : (XReadPacketBody (popIn s) (BYTE b)).2.1 with
        | true =>
          rw [XReadPacketLoop_done n s b rest hin hret hg]
          exact htrans _ _ _ h1 (hpop _)
        | false =>
          rw [XReadPacketLoop_next n s b rest hin hret hg]
          exact htrans _ _ _ h1 (ih _)

/-- An invariant relation of the steps of `XReadPacket` on bytes holds of `XReadPacket`. -/
theorem XReadPacket_induct_byte (R : XSt → XSt → Prop) (hrefl : ∀ s, R s s)
    (htrans : ∀ a b c, R a b → R b c → R a c) (hpop : ∀ s, R s (popIn s))
    (hbody : ∀ s b, b < 256 → R s (XReadPacketBody s b).1) (hgot : ∀ s, R s (XReadPacketGot s).2)
    (s : XSt) : R s (XReadPacket s).2 := by
  have hl := XReadPacketLoop_induct_byte R hrefl htrans hpop hbody (s.cv.InBuff.length + 1) s
  unfold XReadPacket
  dsimp only
  generalize XReadPacketLoop (s.cv.InBuff.length + 1) s = r at hl
  obtain ⟨r1, g, ret⟩ := r
  cases ret with
  | some b => exact hl
  | none =>
    cases g with
    | true => exact htrans _ _ _ hl (hgot r1)
    | false => exact hl

/-- One pass of the receive loop leaves the block counters alone and stores bytes only. -/
theorem XReadPacketBody_num (s : XSt) (b : Nat) (hb : b < 256) :
    (XReadPacketBody s b).1.xv.PktNum = s.xv.PktNum ∧
    (XReadPacketBody s b).1.xv.PktNumOffset = s.xv.PktNumOffset ∧
    (s.xv.PktIn 1 < 256 → (XReadPacketBody s b).1.xv.PktIn 1 < 256) := by
  have hu : ∀ (f : Nat → Nat) (i : Nat), f 1 < 256 → Function.update f i b 1 < 256 := by
    intro f i hf
    by_cases h : 1 = i
    · subst h; rw [Function.update_same]; exact hb
    · rw [Function.update_noteq h]; exact hf
  unfold XReadPacketBody
  dsimp only
  split_ifs with h1 h2 h3 h4 h5 h6
  · unfold XReadPacketSOH
    dsimp only
    split_ifs <;> first
      | exact ⟨rfl, rfl, fun h => h⟩
  · exact ⟨rfl, rfl, fun h => hu s.xv.PktIn 1 h⟩
  · exact ⟨rfl, rfl, fun h => h⟩
  · obtain ⟨a1, -, -, -, -, -⟩ := XSendNAK_buf
      { s with xv := { s.xv with PktIn := Function.update s.xv.PktIn 2 b } }
    obtain ⟨-, -, -, c4, c5, -⟩ := XSendNAK_frame
      { s with xv := { s.xv with PktIn := Function.update s.xv.PktIn 2 b } }
    refine ⟨c4, c5, fun h => ?_⟩
    rw [a1]
    exact h
  · exact ⟨rfl, rfl, fun h => hu s.xv.PktIn s.xv.PktBufPtr.toNat h⟩
  · exact ⟨rfl, rfl, fun h => hu s.xv.PktIn s.xv.PktBufPtr.toNat h⟩
  · exact ⟨rfl, rfl, fun h => h⟩

/-- The part of `XReadPacket` behind the loop never lowers the extended block index. -/
theorem XReadPacketGot_index (s : XSt) (hb : ByteTyped s) :
    ByteTyped (XReadPacketGot s).2 ∧ XIndex s ≤ XIndex (XReadPacketGot s).2 ∧
    (XIndex (XReadPacketGot s).2 = XIndex s ∨ XIndex (XReadPacketGot s).2 = XIndex s + 1) := by
  obtain ⟨hb1, hb2⟩ := hb
  have hnak : ∀ s0 : XSt, s0.xv.PktNum = s.xv.PktNum → s0.xv.PktNumOffset = s.xv.PktNumOffset →
      s0.xv.PktIn = s.xv.PktIn →
      ByteTyped (XSendNAK s0) ∧ XIndex s ≤ XIndex (XSendNAK s0) ∧
      (XIndex (XSendNAK s0) = XIndex s ∨ XIndex (XSendNAK s0) = XIndex s + 1) := by
    intro s0 e1 e2 e3
    obtain ⟨a1, -⟩ := XSendNAK_buf s0
    obtain ⟨-, -, -, c4, c5, -⟩ := XSendNAK_frame s0
    have hi : XIndex (XSendNAK s0) = XIndex s := by
      unfold XIndex; rw [c4, c5, e1, e2]
    refine ⟨⟨by rw [c4, e1]; exact hb1, by rw [a1, e3]; exact hb2⟩, by rw [hi], Or.inl hi⟩
  unfold XReadPacketGot
  dsimp only
  by_cases h1 : s.xv.PktIn 1 = 0 ∧ s.xv.PktNum = 0 ∧ s.xv.PktNumOffset = 0
  · rw [if_pos h1]
    exact hnak _ rfl rfl rfl
  · rw [if_neg h1]
    by_cases h2 : XCheckPacket s.xv = false
    · rw [if_pos h2]; exact hnak s rfl rfl rfl
    · rw [if_neg h2]
      by_cases h3 : ((s.xv.PktIn 1 : Int) - (s.xv.PktNum : Int)) % 256 > 1
      · rw [if_pos h3]
        exact ⟨⟨hb1, hb2⟩, le_refl _, Or.inl rfl⟩
      · rw [if_neg h3]
        by_cases h4 : ((s.xv.PktIn 1 : Int) - (s.xv.PktNum : Int)) % 256 = 0
        · rw [if_pos h4]
          exact ⟨⟨hb1, hb2⟩, le_refl _, Or.inl rfl⟩
        · rw [if_neg h4]
          have key : ∀ a : XSt, a.xv.PktIn = s.xv.PktIn → a.xv.PktNum = s.xv.PktNum →
              a.xv.PktNumOffset = s.xv.PktNumOffset →
              ByteTyped (XReadPacketStore a) ∧ XIndex s ≤ XIndex (XReadPacketStore a) ∧
              (XIndex (XReadPacketStore a) = XIndex s ∨
                XIndex (XReadPacketStore a) = XIndex s + 1) := by
            intro a a1 a2 a3
            obtain ⟨s1, s2, -, -, -, -, -, -, -, s10, -⟩ := XReadPacketStore_num a
            have hi : XIndex (XReadPacketStore a) = XIndex s + 1 := by
              unfold XIndex
              rw [s1, s2, a1, a3]
              by_cases h0 : s.xv.PktIn 1 = 0
              · rw [if_pos h0, h0]
                rw [h0] at h3 h4
                omega
              · rw [if_neg h0]
                omega
            refine ⟨⟨?_, ?_⟩, by rw [hi]; omega, Or.inr hi⟩
            · show (XReadPacketStore a).xv.PktNum < 256
              rw [s1, a1]; exact hb2
            · show (XReadPacketStore a).xv.PktIn 1 < 256
              rw [s10, a1]; exact hb2
          exact key _ rfl rfl rfl

/-- A call of `XReadPacket` never lowers the extended block index. -/
theorem XReadPacket_index (s : XSt) (hb : ByteTyped s) :
    ByteTyped (XReadPacket s).2 ∧ XIndex s ≤ XIndex (XReadPacket s).2 := by
  have h := XReadPacket_induct_byte
    (fun a b => ByteTyped a → ByteTyped b ∧ XIndex a ≤ XIndex b)
    (fun a h => ⟨h, le_refl _⟩)
    (fun a b c h1 h2 h => ⟨(h2 (h1 h).1).1, le_trans (h1 h).2 (h2 (h1 h).1).2⟩)
    (fun a h => ⟨h, le_refl _⟩)
    (fun a b hb h => by
      obtain ⟨n1, n2, n3⟩ := XReadPacketBody_num a b hb
      refine ⟨⟨by rw [n1]; exact h.1, n3 h.2⟩, ?_⟩
      unfold XIndex
      rw [n1, n2])
    (fun a h => ⟨(XReadPacketGot_index a h).1, (XReadPacketGot_index a h).2.1⟩) s
  exact h hb

/-- The receiver after packets in sequence: `PktNum` is the count mod 256 and
`PktNumOffset` has grown by 256 at every wrap. -/
theorem recvBlocks_num (Ps : List (List Nat)) : ∀ (r : XSt) (i : Nat),
    r.xv.XMode = IdXReceive → ValidVariant r.xv → r.xv.PktReadMode = XpktSOH →
    r.xv.PktNum = i % 256 → r.xv.PktNumOffset = ((256 * (i / 256) : Nat) : Int) →
    (∀ P ∈ Ps, P.length = r.xv.DataLen ∧ ∀ b ∈ P, b < 256) →
    (recvBlocks r i Ps).xv.PktNum = (i + Ps.length) % 256 ∧
    (recvBlocks r i Ps).xv.PktNumOffset = ((256 * ((i + Ps.length) / 256) : Nat) : Int) := by
  induction Ps with
  | nil => intro r i _ _ _ h1 h2 _; exact ⟨h1, h2⟩
  | cons P Ps ih =>
    intro r i hm hv hr h1 h2 hP
    obtain ⟨hPl, hPb⟩ := hP P (List.mem_cons_self _ _)
    have hnum : (r.xv.PktNum + 1) % 256 = (i + 1) % 256 := by rw [h1]; omega
    obtain ⟨⟨-, b2, b3, b4, b5, b6, b7, -, b9, -⟩, -, -⟩ := XReadPacket_fed_facts
      (withInput r (XPacket r.xv.DataLen r.xv.CheckLen ((i + 1) % 256) P)) hv hr P hPl hPb []
      (by
        show XPacket r.xv.DataLen r.xv.CheckLen ((i + 1) % 256) P =
          XPacket r.xv.DataLen r.xv.CheckLen ((r.xv.PktNum + 1) % 256) P ++ []
        rw [hnum, List.append_nil])
    have hx : XParse (withInput r (XPacket r.xv.DataLen r.xv.CheckLen ((i + 1) % 256) P)) =
        XReadPacket (withInput r (XPacket r.xv.DataLen r.xv.CheckLen ((i + 1) % 256) P)) :=
      XParse_receive _ hm
    have hv2 : ValidVariant
        (XReadPacket (withInput r (XPacket r.xv.DataLen r.xv.CheckLen ((i + 1) % 256) P))).2.xv := by
      unfold ValidVariant
      rw [b5, b6, b7]
      exact hv
    have h := ih (XParse (withInput r (XPacket r.xv.DataLen r.xv.CheckLen ((i + 1) % 256) P))).2
      (i + 1) (by rw [hx]; exact b9.trans hm) (by rw [hx]; exact hv2) (by rw [hx]; exact b4)
      (by rw [hx, b2]; exact hnum)
      (by
        rw [hx, b3]
        show (if (r.xv.PktNum + 1) % 256 = 0 then r.xv.PktNumOffset + 256 else r.xv.PktNumOffset) = _
        rw [hnum, h2]
        split_ifs with h0 <;> omega)
      (by
        intro Q hQ
        rw [hx, b6]
        exact hP Q (List.mem_cons_of_mem _ hQ))
    have hl : i + (P :: Ps).length = i + 1 + Ps.length := by rw [List.length_cons]; omega
    rw [hl]
    exact h

/-- The sender after `k` requests, while the file has data for each of them:
the block counter of the last packet staged is `k mod 256`, and the bytes of
that packet have gone to the transport. -/
theorem sendBlocks_inv (t0 : XSt) (hv : ValidVariant t0.xv) (hm : t0.xv.XMode = IdXSend)
    (h0 : t0.xv.PktNum = 0 ∧ t0.xv.PktNumOffset = 0 ∧ t0.xv.PktNumSent = 0)
    (hc : t0.xv.PktBufCount = 0) (ho : t0.fv.FileOpen = true) (hin : t0.cv.InBuff = [])
    (hroom : t0.cv.OutRoom = []) : ∀ k : Nat, k * t0.xv.DataLen < t0.fv.ReadData.length + t0.xv.DataLen →
    ((sendBlocks k t0).xv.PktBufCount = 0 ∧ (sendBlocks k t0).cv.InBuff = [] ∧
      (sendBlocks k t0).xv.XOpt = t0.xv.XOpt ∧ (sendBlocks k t0).xv.DataLen = t0.xv.DataLen ∧
      (sendBlocks k t0).xv.CheckLen = t0.xv.CheckLen ∧ (sendBlocks k t0).xv.XMode = IdXSend ∧
      (sendBlocks k t0).fv.FileOpen = true ∧ (sendBlocks k t0).cv.OutRoom = [] ∧
      (sendBlocks k t0).fv.ReadData = t0.fv.ReadData.drop (k * t0.xv.DataLen)) ∧
    (sendBlocks k t0).xv.PktNumSent = k % 256 ∧
    (k = 0 → (sendBlocks k t0).xv.PktNum = 0 ∧ (sendBlocks k t0).xv.PktNumOffset = 0) ∧
    (0 < k → (sendBlocks k t0).xv.PktNumSent = BYTE ((sendBlocks k t0).xv.PktNum + 1) ∧
      (sendBlocks k t0).cv.OutBuff = (sendBlocks (k - 1) t0).cv.OutBuff ++
        XPacket t0.xv.DataLen t0.xv.CheckLen (k % 256)
          ((((t0.fv.ReadData.drop ((k - 1) * t0.xv.DataLen)).take
            (min t0.xv.DataLen (t0.fv.ReadData.drop ((k - 1) * t0.xv.DataLen)).length))).map BYTE)) := by
  intro k
  induction k with
  | zero =>
    intro _
    refine ⟨⟨hc, hin, rfl, rfl, rfl, hm, ho, hroom, ?_⟩, h0.2.2, fun _ => ⟨h0.1, h0.2.1⟩,
      fun h => absurd h (by decide)⟩
    show t0.fv.ReadData = _
    simp
  | succ k ih =>
    intro hk
    obtain ⟨hD, hC⟩ := ValidVariant_bounds hv
    have hk1 : k * t0.xv.DataLen < t0.fv.ReadData.length := by
      have : (k + 1) * t0.xv.DataLen = k * t0.xv.DataLen + t0.xv.DataLen := by ring
      omega
    obtain ⟨⟨i1, i2, i3, i4, i5, i6, i7, i8, i9⟩, j1, j2, j3⟩ := ih (by omega)
    have hvk : ValidVariant (sendBlocks k t0).xv := by
      unfold ValidVariant; rw [i3, i4, i5]; exact hv
    have hq : ((if k = 0 then ReqByte (sendBlocks k t0).xv.XOpt else ACK) = ACK ∧
          (sendBlocks k t0).xv.PktNumSent = BYTE ((sendBlocks k t0).xv.PktNum + 1)) ∨
        ((if k = 0 then ReqByte (sendBlocks k t0).xv.XOpt else ACK) =
            ReqByte (sendBlocks k t0).xv.XOpt ∧
          (sendBlocks k t0).xv.PktNum = 0 ∧ (sendBlocks k t0).xv.PktNumOffset = 0 ∧
          (sendBlocks k t0).xv.PktNumSent = 0) := by
      by_cases hz : k = 0
      · right
        rw [if_pos hz]
        refine ⟨rfl, (j2 hz).1, (j2 hz).2, ?_⟩
        rw [j1, hz]
      · left
        rw [if_neg hz]
        exact ⟨rfl, (j3 (by omega)).1⟩
    obtain ⟨q, hqd⟩ : ∃ q, q = (if k = 0 then ReqByte (sendBlocks k t0).xv.XOpt else ACK) :=
      ⟨_, rfl⟩
    rw [← hqd] at hq
    obtain ⟨s1, he, e1, e2, e3, e4, e5, e6, e7, e8, e9⟩ := XSendPacket_respond
      (withInput (sendBlocks k t0) [q]) q i1 rfl hvk i7 hq
    have hx : sendBlocks (k + 1) t0 = (XSendPacketOut (XSendPacketStage s1)).2 := by
      have hx0 : sendBlocks (k + 1) t0 = (XParse (withInput (sendBlocks k t0) [q])).2 := by
        rw [hqd]; rfl
      rw [hx0, XParse_send (withInput (sendBlocks k t0) [q]) i6, he]
    have f3 : s1.fv = (sendBlocks k t0).fv := e3
    have f8 : s1.xv.DataLen = t0.xv.DataLen := e8.trans i4
    have f9 : s1.xv.CheckLen = t0.xv.CheckLen := e9.trans i5
    have frd : s1.fv.ReadData = t0.fv.ReadData.drop (k * t0.xv.DataLen) := by rw [f3]; exact i9
    have hlen : 1 ≤ min s1.xv.DataLen s1.fv.ReadData.length := by
      rw [f8, frd, List.length_drop]; omega
    obtain ⟨g1, g2, g3, g4, g5, g6, g7, g8, g9, g10, g11, g12, g13, g14⟩ :=
      XSendPacket_stage_data s1 e1 (by rw [f3]; exact i7) hlen (by rw [f9]; exact hC)
        (e4.trans i8)
    have hs1 : s1.xv.PktNumSent = k % 256 := e2.trans j1
    have hsent : BYTE (s1.xv.PktNumSent + 1) = (k + 1) % 256 := by
      rw [hs1]; unfold BYTE; omega
    rw [hx]
    refine ⟨⟨g5, g3, g9.trans (e7.trans i3), g10.trans f8, g11.trans f9, g8.trans (e6.trans i6),
      g12, g4, ?_⟩, g6.trans hsent, fun h => absurd h (by omega), fun _ => ⟨?_, ?_⟩⟩
    · rw [g14, frd, f8, List.drop_drop, List.length_drop]
      by_cases hfull : t0.xv.DataLen ≤ t0.fv.ReadData.length - k * t0.xv.DataLen
      · rw [Nat.min_eq_left hfull]
        congr 1
        ring
      · rw [Nat.min_eq_right (by omega)]
        have e1 : (k + 1) * t0.xv.DataLen = k * t0.xv.DataLen + t0.xv.DataLen := by ring
        rw [List.drop_of_length_le (by omega), List.drop_of_length_le (by omega)]
    · rw [g6, g7, ← e1]
    · rw [g2, hsent, f8, f9, frd]
      show s1.cv.OutBuff ++ _ = (sendBlocks k t0).cv.OutBuff ++ _
      rw [e5]
      rfl

/-- C21. Block numbering across the 8-bit wrap. Sender: from the start
(`PktNum`, `PktNumOffset`, `PktNumSent` all 0, nothing staged), after the
opening request and then ACKs, one per call of `XParse`, the `k`-th call
(`k >= 1`, the file still holding data for it) hands to the transport a
packet that begins with the header byte, the block byte `k mod 256` and the
complement `255 - k mod 256`, and `PktNumSent` is `k mod 256`. Receiver: from
the start (`PktNum` and `PktNumOffset` 0), after the packets numbered
1, 2, ... with the payloads `Ps` have been accepted one per call,
`PktNum` is the count mod 256, `PktNumOffset` is 256 times the count
divided by 256, and their sum is the count. For any receiving session
whose block bytes are bytes, a call of `XParse` does not lower
`PktNum + PktNumOffset`. -/
theorem block_numbering (t0 : XSt) (hv : ValidVariant t0.xv) (hm : t0.xv.XMode = IdXSend)
    (h0 : t0.xv.PktNum = 0 ∧ t0.xv.PktNumOffset = 0 ∧ t0.xv.PktNumSent = 0)
    (hc : t0.xv.PktBufCount = 0) (ho : t0.fv.FileOpen = true) (hin : t0.cv.InBuff = [])
    (hroom : t0.cv.OutRoom = []) (k : Nat) (hk : 1 ≤ k)
    (hfile : (k - 1) * t0.xv.DataLen < t0.fv.ReadData.length)
    (r0 : XSt) (hrm : r0.xv.XMode = IdXReceive) (hrv : ValidVariant r0.xv)
    (hrr : r0.xv.PktReadMode = XpktSOH) (hr0 : r0.xv.PktNum = 0 ∧ r0.xv.PktNumOffset = 0)
    (Ps : List (List Nat)) (hPs : ∀ P ∈ Ps, P.length = r0.xv.DataLen ∧ ∀ b ∈ P, b < 256)
    (s : XSt) (hsm : s.xv.XMode = IdXReceive) (hsb : ByteTyped s) :
    ((sendBlocks k t0).xv.PktNumSent = k % 256 ∧
      ∃ body, (sendBlocks k t0).cv.OutBuff = (sendBlocks (k - 1) t0).cv.OutBuff ++
        [if t0.xv.DataLen = 128 then SOH else STX, k % 256, 255 - k % 256] ++ body) ∧
    ((recvBlocks r0 0 Ps).xv.PktNum = Ps.length % 256 ∧
      (recvBlocks r0 0 Ps).xv.PktNumOffset = ((256 * (Ps.length / 256) : Nat) : Int) ∧
      XIndex (recvBlocks r0 0 Ps) = (Ps.length : Int)) ∧
    (XIndex s ≤ XIndex (XParse s).2 ∧ ByteTyped (XParse s).2) := by
  refine ⟨?_, ?_, ?_⟩
  · have hk2 : k * t0.xv.DataLen < t0.fv.ReadData.length + t0.xv.DataLen := by
      obtain ⟨j, rfl⟩ : ∃ j, k = j + 1 := ⟨k - 1, by omega⟩
      have e : (j + 1) * t0.xv.DataLen = j * t0.xv.DataLen + t0.xv.DataLen := by ring
      rw [Nat.add_sub_cancel] at hfile
      omega
    obtain ⟨-, j1, -, j3⟩ := sendBlocks_inv t0 hv hm h0 hc ho hin hroom k hk2
    refine ⟨j1, ?_⟩
    rw [(j3 (by omega)).2]
    unfold XPacket
    exact ⟨_, by rw [List.append_assoc, List.append_assoc]⟩
  · obtain ⟨a1, a2⟩ := recvBlocks_num Ps r0 0 hrm hrv hrr (by rw [hr0.1]) (by rw [hr0.2]; rfl) hPs
    rw [Nat.zero_add] at a1 a2
    refine ⟨a1, a2, ?_⟩
    unfold XIndex
    rw [a1, a2]
    omega
  · rw [XParse_receive s hsm]
    exact ⟨(XReadPacket_index s hsb).2, (XReadPacket_index s hsb).1⟩

theorem block_numbering_witness :
    (sendBlocks 256 (exSender XoptCheck (List.replicate 32769 65))).xv.PktNumSent = 256 % 256 ∧
    (recvBlocks (exWaiting XoptCheck) 0 (List.replicate 256 (List.replicate 128 65))).xv.PktNum =
      (List.replicate 256 (List.replicate 128 65)).length % 256 ∧
    (recvBlocks (exWaiting XoptCheck) 0 (List.replicate 256 (List.replicate 128 65))).xv.PktNumOffset =
      ((256 * ((List.replicate 256 (List.replicate 128 65)).length / 256) : Nat) : Int) :=
  have h := block_numbering (exSender XoptCheck (List.replicate 32769 65))
    (by unfold ValidVariant; decide) (by decide) (by decide) (by decide) (by decide) (by decide)
    (by decide) 256 (by decide)
    (by
      show 255 * 128 < (List.replicate 32769 65).length
      rw [List.length_replicate]
      decide)
    (exWaiting XoptCheck) (by decide) (by unfold ValidVariant; decide) (by decide) (by decide)
    (List.replicate 256 (List.replicate 128 65))
    (by
      intro P hP
      rw [List.eq_of_mem_replicate hP]
      decide)
    (exWaiting XoptCheck) (by decide) (by unfold ByteTyped; decide)
  ⟨h.1.1, h.2.1.1, h.2.1.2.1⟩

/-! ## The block counters of the sender -/

theorem XSetOpt_valid (s : XSt) (o : Nat)
    (ho : o = XoptCheck ∨ o = XoptCRC ∨ o = Xopt1kCRC ∨ o = Xopt1kCksum) :
    ValidVariant (XSetOpt s o).xv := by
  rcases ho with h | h | h | h <;> subst h
  · exact Or.inl ⟨rfl, rfl, rfl⟩
  · exact Or.inr (Or.inl ⟨rfl, rfl, rfl⟩)
  · exact Or.inr (Or.inr (Or.inl ⟨rfl, rfl, rfl⟩))
  · exact Or.inr (Or.inr (Or.inr ⟨rfl, rfl, rfl⟩))

theorem XSetOpt_counters (s : XSt) (o : Nat) :
    (XSetOpt s o).xv.PktNumSent = s.xv.PktNumSent ∧ (XSetOpt s o).xv.PktNum = s.xv.PktNum ∧
    (XSetOpt s o).xv.PktNumOffset = s.xv.PktNumOffset :=
  ⟨(XSetOpt_frame s o).hSent, (XSetOpt_frame s o).hNum, (XSetOpt_frame s o).hOff⟩

/-- The response switch of the sender and the block counters: when the
send flag is not set, counters and variant are as before, and the send flag
is set neither on "continue" nor on a return. -/
theorem XSendPacketSwitch_counters (s : XSt) (b : Nat) :
    SendCounters s (XSendPacketSwitch s b).1 ∧
    ((XSendPacketSwitch s b).2.1 = false →
      (XSendPacketSwitch s b).1.xv.PktNum = s.xv.PktNum ∧
      (XSendPacketSwitch s b).1.xv.PktNumOffset = s.xv.PktNumOffset ∧
      (XSendPacketSwitch s b).1.xv.XOpt = s.xv.XOpt ∧
      (XSendPacketSwitch s b).1.xv.DataLen = s.xv.DataLen ∧
      (XSendPacketSwitch s b).1.xv.CheckLen = s.xv.CheckLen) ∧
    ((XSendPacketSwitch s b).2.2.1 = true → (XSendPacketSwitch s b).2.1 = false) ∧
    ((XSendPacketSwitch s b).2.2.2 ≠ none → (XSendPacketSwitch s b).2.1 = false) := by
  unfold XSendPacketSwitch
  dsimp only
  split_ifs with g1 g2 g3 g4 g5 g6 g7 g8 g9 g10 g11 g12 g13 g14
  all_goals first
    | exact ⟨⟨rfl, Or.inl ⟨rfl, rfl⟩, fun h => h⟩, fun _ => ⟨rfl, rfl, rfl, rfl, rfl⟩,
        fun _ => rfl, fun _ => rfl⟩
    | exact ⟨⟨rfl, Or.inl ⟨rfl, rfl⟩, fun h => h⟩, fun _ => ⟨rfl, rfl, rfl, rfl, rfl⟩,
        (fun h => by cases h), fun h => absurd rfl h⟩
    | exact ⟨⟨rfl, Or.inl ⟨rfl, rfl⟩, fun _ => XSetOpt_valid _ _ (by decide)⟩, (fun h => by cases h),
        (fun h => by cases h), fun h => absurd rfl h⟩
    | exact ⟨⟨rfl, Or.inr ⟨by simpa using g2, g3, rfl, by simp_all⟩, fun h => h⟩, (fun h => by cases h),
        (fun h => by cases h), fun h => absurd rfl h⟩

/-- Sessions that agree on counters, variant and file state relate alike to a later one. -/
theorem SendCounters.of_same {s s2 x : XSt} (h : SendCounters s2 x)
    (e1 : s2.xv.PktNumSent = s.xv.PktNumSent) (e2 : s2.xv.PktNum = s.xv.PktNum)
    (e3 : s2.xv.PktNumOffset = s.xv.PktNumOffset) (e4 : s2.xv.XOpt = s.xv.XOpt)
    (e5 : s2.xv.DataLen = s.xv.DataLen) (e6 : s2.xv.CheckLen = s.xv.CheckLen)
    (e7 : s2.fv.FileOpen = s.fv.FileOpen) : SendCounters s x := by
  obtain ⟨h1, h2, h3⟩ := h
  refine ⟨h1.trans e1, ?_, ?_⟩
  · rw [e1, e2, e3, e7] at h2
    exact h2
  · intro hv
    apply h3
    unfold ValidVariant
    rw [e4, e5, e6]
    exact hv

/-- The response loop of the sender and the block counters: when it
returns from inside, counters and variant are as before. -/
theorem XSendPacketLoop_counters (fuel : Nat) : ∀ s : XSt,
    SendCounters s (XSendPacketLoop fuel s).1 ∧
    ((XSendPacketLoop fuel s).2 ≠ none →
      (XSendPacketLoop fuel s).1.xv.PktNum = s.xv.PktNum ∧
      (XSendPacketLoop fuel s).1.xv.PktNumOffset = s.xv.PktNumOffset ∧
      (XSendPacketLoop fuel s).1.xv.XOpt = s.xv.XOpt ∧
      (XSendPacketLoop fuel s).1.xv.DataLen = s.xv.DataLen ∧
      (XSendPacketLoop fuel s).1.xv.CheckLen = s.xv.CheckLen) := by
  induction fuel with
  | zero => intro s; exact ⟨⟨rfl, Or.inl ⟨rfl, rfl⟩, fun h => h⟩, fun _ => ⟨rfl, rfl, rfl, rfl, rfl⟩⟩
  | succ n ih =>
    intro s
    cases hin : s.cv.InBuff with
    | nil =>
      unfold XSendPacketLoop
      rw [XRead1Byte_nil s hin]
      exact ⟨⟨rfl, Or.inl ⟨rfl, rfl⟩, fun h => h⟩, fun _ => ⟨rfl, rfl, rfl, rfl, rfl⟩⟩
    | cons b rest =>
      unfold XSendPacketLoop
      rw [XRead1Byte_cons s b rest hin]
      dsimp only
      obtain ⟨k1, k2, k3, k4⟩ := XSendPacketSwitch_counters (popIn s) (BYTE b)
      obtain ⟨hf, -, -⟩ := XSendPacketSwitch_success (popIn s) (BYTE b)
      generalize XSendPacketSwitch (popIn s) (BYTE b) = r at k1 k2 k3 k4 hf
      obtain ⟨s2, f1, f2, o⟩ := r
      simp only at k1 k2 k3 k4 hf
      have k1s : SendCounters s s2 := ⟨k1.hSent, k1.hNum, k1.hVar⟩
      cases o with
      | some ret =>
        have hf1 := k4 (by simp)
        exact ⟨k1s, fun _ => k2 hf1⟩
      | none =>
        cases f2 with
        | true =>
          simp only [if_true]
          obtain ⟨c1, c2, c3, c4, c5⟩ := k2 (k3 rfl)
          obtain ⟨i1, i2⟩ := ih s2
          refine ⟨i1.of_same k1.hSent c1 c2 c3 c4 c5 hf.hOpen, ?_⟩
          intro hne
          obtain ⟨j1, j2, j3, j4, j5⟩ := i2 hne
          exact ⟨j1.trans c1, j2.trans c2, j3.trans c3, j4.trans c4, j5.trans c5⟩
        | false =>
          cases f1 with
          | true =>
            simp only [if_true, Bool.false_eq_true, if_false]
            cases hin3 : s2.cv.InBuff with
            | nil =>
              rw [XRead1Byte_nil _ (show ({ s2 with xv := { s2.xv with CANCount := 0 } } : XSt).cv.InBuff = [] from hin3)]
              exact ⟨⟨k1s.hSent, k1s.hNum, k1s.hVar⟩, fun h => absurd rfl h⟩
            | cons b3 r3 =>
              rw [XRead1Byte_cons _ b3 r3 (show ({ s2 with xv := { s2.xv with CANCount := 0 } } : XSt).cv.InBuff = b3 :: r3 from hin3)]
              exact ⟨⟨k1s.hSent, k1s.hNum, k1s.hVar⟩, fun h => absurd rfl h⟩
          | false =>
            simp only [Bool.false_eq_true, if_false]
            obtain ⟨c1, c2, c3, c4, c5⟩ := k2 rfl
            obtain ⟨i1, i2⟩ := ih { s2 with xv := { s2.xv with CANCount := 0 } }
            refine ⟨i1.of_same k1.hSent c1 c2 c3 c4 c5 hf.hOpen, ?_⟩
            intro hne
            obtain ⟨j1, j2, j3, j4, j5⟩ := i2 hne
            exact ⟨j1.trans c1, j2.trans c2, j3.trans c3, j4.trans c4, j5.trans c5⟩

/-! ## Partial writes of the sender -/

/-- The write loop on any transport: some `j` of the staged bytes go out, in
order from the cursor on, and cursor and count move by `j`; when bytes are
left the transport has refused the next one. -/
theorem XSendPacketWrite_partial (fuel : Nat) : ∀ s : XSt,
    s.xv.PktBufCount = (fuel : Int) → 0 ≤ s.xv.PktBufPtr →
    ∃ j, j ≤ fuel ∧
      (XSendPacketWrite fuel s).xv =
        { s.xv with PktBufCount := ((fuel - j : Nat) : Int), PktBufPtr := s.xv.PktBufPtr + (j : Int) } ∧
      (XSendPacketWrite fuel s).fv = s.fv ∧
      (XSendPacketWrite fuel s).cv.InBuff = s.cv.InBuff ∧
      (XSendPacketWrite fuel s).cv.OutBuff = s.cv.OutBuff ++
        (List.range j).map (fun i => s.xv.PktOut (s.xv.PktBufPtr.toNat + i)) := by
  induction fuel with
  | zero =>
    intro s hc hp
    refine ⟨0, le_refl _, ?_, rfl, rfl, ?_⟩
    · obtain ⟨fv, xv, cv⟩ := s
      cases xv
      simp only at hc
      simp [XSendPacketWrite, hc]
    · simp [XSendPacketWrite]
  | succ n ih =>
    intro s hc hp
    unfold XSendPacketWrite
    rw [if_pos (by rw [hc]; push_cast; omega)]
    dsimp only
    by_cases hi : (XWrite s [s.xv.PktOut s.xv.PktBufPtr.toNat]).2 > 0
    · rw [if_pos hi]
      have hroom : CommRoom s.cv 1 = 1 := by
        have h1 : CommRoom s.cv 1 > 0 := hi
        have h2 : CommRoom s.cv 1 ≤ 1 := by
          unfold CommRoom
          cases s.cv.OutRoom with
          | nil => exact le_refl _
          | cons r _ => exact Nat.min_le_right _ _
        omega
      obtain ⟨j, hj, k1, k2, k3, k4⟩ := ih
        { (XWrite s [s.xv.PktOut s.xv.PktBufPtr.toNat]).1 with
          xv := { (XWrite s [s.xv.PktOut s.xv.PktBufPtr.toNat]).1.xv with
            PktBufCount := (XWrite s [s.xv.PktOut s.xv.PktBufPtr.toNat]).1.xv.PktBufCount - 1,
            PktBufPtr := (XWrite s [s.xv.PktOut s.xv.PktBufPtr.toNat]).1.xv.PktBufPtr + 1 } }
        (by show s.xv.PktBufCount - 1 = _; rw [hc]; push_cast; omega)
        (by show 0 ≤ s.xv.PktBufPtr + 1; omega)
      refine ⟨j + 1, by omega, ?_, k2, k3, ?_⟩
      · rw [k1]
        have e1 : n + 1 - (j + 1) = n - j := by omega
        have e2 : s.xv.PktBufPtr + ((j + 1 : Nat) : Int) = s.xv.PktBufPtr + 1 + (j : Int) := by
          push_cast; ring
        rw [e1, e2]
        rfl
      · rw [k4]
        show (s.cv.OutBuff ++ [s.xv.PktOut s.xv.PktBufPtr.toNat].take (CommRoom s.cv 1)) ++
          List.map (fun i => s.xv.PktOut ((s.xv.PktBufPtr + 1).toNat + i)) (List.range j) = _
        have e : (s.xv.PktBufPtr + 1).toNat = s.xv.PktBufPtr.toNat + 1 := by omega
        rw [hroom, e, List.append_assoc, ← range_shift]
        rfl
    · rw [if_neg hi]
      have hroom : CommRoom s.cv 1 = 0 := by
        have h1 : ¬ CommRoom s.cv 1 > 0 := hi
        omega
      refine ⟨0, Nat.zero_le _, ?_, rfl, rfl, ?_⟩
      · show s.xv = _
        obtain ⟨fv, xv, cv⟩ := s
        cases xv
        simp only at hc
        simp [hc]
      · show s.cv.OutBuff ++ [s.xv.PktOut s.xv.PktBufPtr.toNat].take (CommRoom s.cv 1) = _
        rw [hroom]
        simp

theorem PktBytes_add (buf : Nat → Nat) (j i : Nat) :
    PktBytes buf (j + i) = PktBytes buf j ++ (List.range i).map (fun k => buf (j + k)) := by
  unfold PktBytes
  rw [List.range_add, List.map_append, List.map_map]
  rfl

/-- A call of `XParse` of a sender that has bytes left to write: it returns
TRUE, discards what waits in the transport, and hands some of the staged
bytes to the transport, in order from the cursor on. -/
theorem XParse_writes (t : XSt) (m : Nat) (hm : t.xv.XMode = IdXSend)
    (hc : t.xv.PktBufCount = ((m + 1 : Nat) : Int)) (hp : 0 ≤ t.xv.PktBufPtr) :
    (XParse t).1 = true ∧
    ∃ i, i ≤ m + 1 ∧
      (XParse t).2.xv =
        { t.xv with PktBufCount := ((m + 1 - i : Nat) : Int), PktBufPtr := t.xv.PktBufPtr + (i : Int) } ∧
      (XParse t).2.fv = t.fv ∧ (XParse t).2.cv.InBuff = [] ∧
      (XParse t).2.cv.OutBuff = t.cv.OutBuff ++
        (List.range i).map (fun k => t.xv.PktOut (t.xv.PktBufPtr.toNat + k)) := by
  have hx : XParse t = (true, XSendPacketWrite (m + 1) { t with cv := { t.cv with InBuff := [] } }) := by
    rw [XParse_send t hm]
    unfold XSendPacket
    rw [if_neg (by rw [hc]; push_cast; omega)]
    unfold XSendPacketOut
    dsimp only
    rw [XDrain_eq]
    have e : ({ t with cv := { t.cv with InBuff := [] } } : XSt).xv.PktBufCount.toNat = m + 1 := by
      show t.xv.PktBufCount.toNat = m + 1
      rw [hc]; rfl
    rw [e]
  rw [hx]
  obtain ⟨i, hi, k1, k2, k3, k4⟩ := XSendPacketWrite_partial (m + 1)
    { t with cv := { t.cv with InBuff := [] } } hc hp
  exact ⟨rfl, i, hi, k1, k2, k3, k4⟩

/-- While staged bytes are left, a call of `XParse` moves the session on
along the staged packet and does nothing else. -/
theorem SentSoFar.step (t0 t : XSt) (n j : Nat) (hm : t0.xv.XMode = IdXSend)
    (h : SentSoFar t0 t n j) (hj : j < n) :
    (XParse t).1 = true ∧ ∃ j', j ≤ j' ∧ j' ≤ n ∧ SentSoFar t0 (XParse t).2 n j' := by
  obtain ⟨h1, h2, h3⟩ := h
  have hmt : t.xv.XMode = IdXSend := by rw [h1]; exact hm
  have hct : t.xv.PktBufCount = ((n - j - 1 + 1 : Nat) : Int) := by
    rw [h1]
    show ((n - j : Nat) : Int) = _
    congr 1; omega
  have hpt : t.xv.PktBufPtr = (j : Int) := by rw [h1]
  have hPo : t.xv.PktOut = t0.xv.PktOut := by rw [h1]
  obtain ⟨a1, i, hi, k1, k2, k3, k4⟩ := XParse_writes t (n - j - 1) hmt hct (by rw [hpt]; omega)
  refine ⟨a1, j + i, by omega, by omega, ?_, k2.trans h2, ?_⟩
  · rw [k1, h1]
    have e1 : n - j - 1 + 1 - i = n - (j + i) := by omega
    have e2 : ((j + i : Nat) : Int) = (j : Int) + (i : Int) := by push_cast; rfl
    rw [e1, e2]
  · rw [k4, h3, hPo, hpt, List.append_assoc, PktBytes_add]
    rfl

theorem SentSoFar.run (t0 : XSt) (n : Nat) (hm : t0.xv.XMode = IdXSend) (es : List XEvent) :
    InputOrParse es → ∀ (t : XSt) (j : Nat), j ≤ n → SentSoFar t0 t n j →
    ∃ j' es1 es2, es = es1 ++ es2 ∧ j ≤ j' ∧ j' ≤ n ∧ SentSoFar t0 (XRun t es1) n j' ∧
      (j' < n → es2 = []) := by
  induction es with
  | nil => intro _ t j hj h; exact ⟨j, [], [], rfl, le_refl _, hj, h, fun _ => rfl⟩
  | cons e es ih =>
    intro hes t j hj h
    by_cases hd : j = n
    · exact ⟨j, [], e :: es, rfl, le_refl _, hj, h, fun hl => absurd hd (by omega)⟩
    · cases e with
      | input bytes =>
        have h' : SentSoFar t0 (XStep t (XEvent.input bytes)) n j := ⟨h.1, h.2.1, h.2.2⟩
        obtain ⟨j', es1, es2, he, a1, a2, a3, a4⟩ := ih hes _ j hj h'
        exact ⟨j', XEvent.input bytes :: es1, es2, by rw [he]; rfl, a1, a2, a3, a4⟩
      | parse =>
        obtain ⟨-, j1, b1, b2, b3⟩ := SentSoFar.step t0 t n j hm h (by omega)
        obtain ⟨j', es1, es2, he, a1, a2, a3, a4⟩ := ih hes (XParse t).2 j1 b2 b3
        exact ⟨j', XEvent.parse :: es1, es2, by rw [he]; rfl, by omega, a2, a3, a4⟩
      | timeOut => exact absurd hes (by simp [InputOrParse])
      | cancel => exact absurd hes (by simp [InputOrParse])

/-- C26. Partial writes on the sender. Let `n` bytes be staged in `PktOut`
with the cursor at 0, and let input arrive and `XParse` be called in any
order, the transport accepting or refusing each one-byte write as it likes.
Up to the call that hands over the last byte, the session is the staged one
with the cursor at some `j <= n`, the count at `n - j`, and the transport
holding exactly the first `j` staged bytes behind what it held before: no
byte is skipped or repeated, `PktOut`, the block counters, the variant and
the file are untouched. While bytes are left, `XParse` returns TRUE and moves
the session on in this way only; the input that waits is discarded unread. -/
theorem partial_writes (t0 : XSt) (n : Nat) (hm : t0.xv.XMode = IdXSend)
    (hp : t0.xv.PktBufPtr = 0) (hc : t0.xv.PktBufCount = (n : Int))
    (es : List XEvent) (hes : InputOrParse es) :
    (∃ j es1 es2, es = es1 ++ es2 ∧ j ≤ n ∧ SentSoFar t0 (XRun t0 es1) n j ∧ (j < n → es2 = [])) ∧
    (∀ (t : XSt) (j : Nat), SentSoFar t0 t n j → j < n →
      (XParse t).1 = true ∧ (XParse t).2.cv.InBuff = [] ∧
      ∃ j', j ≤ j' ∧ j' ≤ n ∧ SentSoFar t0 (XParse t).2 n j') := by
  have h0 : SentSoFar t0 t0 n 0 := by
    refine ⟨?_, rfl, ?_⟩
    · obtain ⟨fv, xv, cv⟩ := t0
      cases xv
      simp only at hp hc
      simp [hp, hc]
    · simp [PktBytes]
  constructor
  · obtain ⟨j', es1, es2, he, -, a2, a3, a4⟩ := SentSoFar.run t0 n hm es hes t0 0 (Nat.zero_le _) h0
    exact ⟨j', es1, es2, he, a2, a3, a4⟩
  · intro t j h hj
    obtain ⟨a1, j', b1, b2, b3⟩ := SentSoFar.step t0 t n j hm h hj
    refine ⟨a1, ?_, j', b1, b2, b3⟩
    have hmt : t.xv.XMode = IdXSend := by rw [h.1]; exact hm
    have hct : t.xv.PktBufCount = ((n - j - 1 + 1 : Nat) : Int) := by
      rw [h.1]
      show ((n - j : Nat) : Int) = _
      congr 1; omega
    obtain ⟨-, i, -, -, -, k3, -⟩ := XParse_writes t (n - j - 1) hmt hct (by rw [h.1]; show (0 : Int) ≤ (j : Int); omega)
    exact k3

theorem partial_writes_witness :
    ∃ j es1 es2, [XEvent.parse, XEvent.input [ACK], XEvent.parse] = es1 ++ es2 ∧ j ≤ 132 ∧
      SentSoFar (XSendPacketStage (exSender XoptCheck exFile))
        (XRun (XSendPacketStage (exSender XoptCheck exFile)) es1) 132 j ∧
      (j < 132 → es2 = []) :=
  (partial_writes (XSendPacketStage (exSender XoptCheck exFile)) 132 (by decide) (by decide)
    (by decide) [XEvent.parse, XEvent.input [ACK], XEvent.parse] (by simp [InputOrParse])).1

/-! ### The counters between two calls of the sender -/

/-- The write loop leaves counters and variant alone, and does nothing when nothing is staged. -/
theorem XSendPacketWrite_counters (fuel : Nat) : ∀ s : XSt,
    (XSendPacketWrite fuel s).xv.PktNum = s.xv.PktNum ∧
    (XSendPacketWrite fuel s).xv.PktNumSent = s.xv.PktNumSent ∧
    (XSendPacketWrite fuel s).xv.PktNumOffset = s.xv.PktNumOffset ∧
    (XSendPacketWrite fuel s).xv.XOpt = s.xv.XOpt ∧
    (XSendPacketWrite fuel s).xv.DataLen = s.xv.DataLen ∧
    (XSendPacketWrite fuel s).xv.CheckLen = s.xv.CheckLen ∧
    (s.xv.PktBufCount = 0 → XSendPacketWrite fuel s = s) := by
  induction fuel with
  | zero => intro s; exact ⟨rfl, rfl, rfl, rfl, rfl, rfl, fun _ => rfl⟩
  | succ n ih =>
    intro s
    unfold XSendPacketWrite
    dsimp only
    by_cases hc : s.xv.PktBufCount > 0
    · rw [if_pos hc]
      by_cases hi : (XWrite s [s.xv.PktOut s.xv.PktBufPtr.toNat]).2 > 0
      · rw [if_pos hi]
        obtain ⟨a1, a2, a3, a4, a5, a6, -⟩ := ih { (XWrite s [s.xv.PktOut s.xv.PktBufPtr.toNat]).1 with
          xv := { (XWrite s [s.xv.PktOut s.xv.PktBufPtr.toNat]).1.xv with
            PktBufCount := (XWrite s [s.xv.PktOut s.xv.PktBufPtr.toNat]).1.xv.PktBufCount - 1,
            PktBufPtr := (XWrite s [s.xv.PktOut s.xv.PktBufPtr.toNat]).1.xv.PktBufPtr + 1 } }
        exact ⟨a1, a2, a3, a4, a5, a6, fun h => absurd hc (by rw [h]; decide)⟩
      · rw [if_neg hi]
        exact ⟨rfl, rfl, rfl, rfl, rfl, rfl, fun h => absurd hc (by rw [h]; decide)⟩
    · rw [if_neg hc]
      exact ⟨rfl, rfl, rfl, rfl, rfl, rfl, fun _ => rfl⟩

/-- The end of `XSendPacket` leaves counters, variant, role and staged bytes
alone, and the output as well when nothing is staged. -/
theorem XSendPacketOut_counters (s : XSt) :
    (XSendPacketOut s).1 = true ∧
    (XSendPacketOut s).2.xv.PktNum = s.xv.PktNum ∧
    (XSendPacketOut s).2.xv.PktNumSent = s.xv.PktNumSent ∧
    (XSendPacketOut s).2.xv.PktNumOffset = s.xv.PktNumOffset ∧
    (XSendPacketOut s).2.xv.XOpt = s.xv.XOpt ∧
    (XSendPacketOut s).2.xv.DataLen = s.xv.DataLen ∧
    (XSendPacketOut s).2.xv.CheckLen = s.xv.CheckLen ∧
    (XSendPacketOut s).2.xv.XMode = s.xv.XMode ∧
    (XSendPacketOut s).2.xv.PktOut = s.xv.PktOut ∧
    (s.xv.PktBufCount = 0 →
      (XSendPacketOut s).2.xv.PktBufCount = 0 ∧ (XSendPacketOut s).2.cv.OutBuff = s.cv.OutBuff) := by
  unfold XSendPacketOut
  dsimp only
  rw [XDrain_eq]
  obtain ⟨a1, a2, a3, a4, a5, a6, a7⟩ := XSendPacketWrite_counters
    ({ s with cv := { s.cv with InBuff := [] } } : XSt).xv.PktBufCount.toNat
    { s with cv := { s.cv with InBuff := [] } }
  obtain ⟨-, w2, w3⟩ := XSendPacketWrite_frame
    ({ s with cv := { s.cv with InBuff := [] } } : XSt).xv.PktBufCount.toNat
    { s with cv := { s.cv with InBuff := [] } }
  refine ⟨rfl, a1, a2, a3, a4, a5, a6, w2, w3, ?_⟩
  intro h
  rw [a7 h]
  exact ⟨h, rfl⟩

/-- Staging and the counters: a new packet is made exactly when
`PktNumSent` equals `PktNum`, and takes `PktNumSent` one further. -/
theorem XSendPacketStage_counters (s : XSt) :
    (XSendPacketStage s).xv.PktNum = s.xv.PktNum ∧
    (XSendPacketStage s).xv.PktNumOffset = s.xv.PktNumOffset ∧
    (XSendPacketStage s).xv.XMode = s.xv.XMode ∧
    (s.xv.PktNumSent = s.xv.PktNum → (XSendPacketStage s).xv.PktNumSent = BYTE (s.xv.PktNum + 1)) ∧
    (s.xv.PktNumSent ≠ s.xv.PktNum → (XSendPacketStage s).xv.PktNumSent = s.xv.PktNumSent) := by
  unfold XSendPacketStage
  dsimp only
  rw [XDrain_eq]
  obtain ⟨s1, hs1, e3⟩ : ∃ s1 : XSt,
      ({ FTSetTimeOut s s.xv.TOutVLong with
        cv := { (FTSetTimeOut s s.xv.TOutVLong).cv with InBuff := [] } } : XSt) = s1 ∧
      s1.xv = s.xv := ⟨_, rfl, rfl⟩
  rw [hs1]
  rw [← e3]
  by_cases hs : s1.xv.PktNumSent = s1.xv.PktNum
  · rw [if_pos hs]
    have h : (XSendPacketNew s1).xv.PktNumSent = BYTE (s1.xv.PktNumSent + 1) ∧
        (XSendPacketNew s1).xv.PktNum = s1.xv.PktNum ∧
        (XSendPacketNew s1).xv.PktNumOffset = s1.xv.PktNumOffset ∧
        (XSendPacketNew s1).xv.XMode = s1.xv.XMode := by
      by_cases hm : s1.fv.FileOpen = false ∨ min s1.xv.DataLen s1.fv.ReadData.length = 0
      · have h := XSendPacketNew_eot s1 hm
        exact ⟨h.2.2.2.1, h.2.2.2.2.2.2.2.2.1, h.2.2.2.2.2.2.2.2.2.1, h.2.2.2.2.2.2.2.2.2.2.1⟩
      · have ho : s1.fv.FileOpen = true := by
          cases hf : s1.fv.FileOpen with
          | true => rfl
          | false => exact absurd (Or.inl hf) hm
        have h1 : 1 ≤ min s1.xv.DataLen s1.fv.ReadData.length := by
          have : ¬ (min s1.xv.DataLen s1.fv.ReadData.length = 0) := fun h => hm (Or.inr h)
          omega
        rw [XSendPacketNew_data s1 ho h1]
        exact ⟨rfl, rfl, rfl, rfl⟩
    obtain ⟨h1, h2, h3, h4⟩ := h
    refine ⟨h2, h3, h4, fun _ => ?_, fun hn => absurd hs hn⟩
    show (XSendPacketNew s1).xv.PktNumSent = _
    rw [h1, hs]
  · rw [if_neg hs]
    unfold XSendPacketResend
    split_ifs <;> exact ⟨rfl, rfl, rfl, fun h => absurd h hs, fun _ => rfl⟩

/-- A call of `XSendPacket` keeps the role and the relation of the block
counters; once `PktNumSent` is one ahead of `PktNum` it stays so. -/
theorem XSendPacket_sent (T0 t : XSt) (h : SentInv T0 t) :
    (XSendPacket t).2.xv.XMode = t.xv.XMode ∧ SentInv T0 (XSendPacket t).2 ∧
    (t.xv.PktNumSent = (t.xv.PktNum + 1) % 256 →
      (XSendPacket t).2.xv.PktNumSent = ((XSendPacket t).2.xv.PktNum + 1) % 256) := by
  unfold XSendPacket
  by_cases hc : t.xv.PktBufCount = 0
  · rw [if_pos hc]
    dsimp only
    obtain ⟨hf, -⟩ := XSendPacketLoop_success (t.cv.InBuff.length + 1) t
    obtain ⟨k1, k2⟩ := XSendPacketLoop_counters (t.cv.InBuff.length + 1) t
    generalize XSendPacketLoop (t.cv.InBuff.length + 1) t = r at hf k1 k2
    obtain ⟨r1, o⟩ := r
    simp only at hf k1 k2
    cases o with
    | some ret =>
      obtain ⟨c1, -, -, -, -⟩ := k2 (by simp)
      refine ⟨hf.hMode, ?_, fun ha => ?_⟩
      · rcases h with h | ⟨h1, h2, h3, h4, h5⟩
        · left
          show r1.xv.PktNumSent = (r1.xv.PktNum + 1) % 256
          rw [k1.hSent, c1]; exact h
        · right
          exact ⟨by rw [k1.hSent, c1]; exact h1, by rw [k1.hSent]; exact h2,
            by rw [hf.hCnt]; exact h3, by rw [hf.hPkt]; exact h4, by rw [hf.hOut]; exact h5⟩
      · show r1.xv.PktNumSent = (r1.xv.PktNum + 1) % 256
        rw [k1.hSent, c1]; exact ha
    | none =>
      show (XSendPacketOut (XSendPacketStage r1)).2.xv.XMode = t.xv.XMode ∧
        SentInv T0 (XSendPacketOut (XSendPacketStage r1)).2 ∧
        (t.xv.PktNumSent = (t.xv.PktNum + 1) % 256 →
          (XSendPacketOut (XSendPacketStage r1)).2.xv.PktNumSent =
            ((XSendPacketOut (XSendPacketStage r1)).2.xv.PktNum + 1) % 256)
      obtain ⟨g1, g2, g3, g4, g5⟩ := XSendPacketStage_counters r1
      obtain ⟨-, o1, o2, -, -, -, -, o7, -, -⟩ := XSendPacketOut_counters (XSendPacketStage r1)
      have key : (XSendPacketOut (XSendPacketStage r1)).2.xv.PktNumSent =
          ((XSendPacketOut (XSendPacketStage r1)).2.xv.PktNum + 1) % 256 := by
        rw [o1, o2, g1]
        by_cases hs : r1.xv.PktNumSent = r1.xv.PktNum
        · rw [g4 hs]; rfl
        · rw [g5 hs]
          rcases k1.hNum with ⟨n1, -⟩ | ⟨-, -, n3, -⟩
          · rcases h with h | ⟨h1, -⟩
            · rw [k1.hSent, n1]; exact h
            · exact absurd (by rw [k1.hSent, n1]; exact h1) hs
          · exact absurd (by rw [k1.hSent, n3]) hs
      exact ⟨o7.trans (g3.trans hf.hMode), Or.inl key, fun _ => key⟩
  · rw [if_neg hc]
    obtain ⟨-, o1, o2, -, -, -, -, o7, -, -⟩ := XSendPacketOut_counters t
    have key : t.xv.PktNumSent = (t.xv.PktNum + 1) % 256 →
        (XSendPacketOut t).2.xv.PktNumSent = ((XSendPacketOut t).2.xv.PktNum + 1) % 256 := by
      intro ha; rw [o1, o2]; exact ha
    refine ⟨o7, ?_, key⟩
    rcases h with h | ⟨-, -, h3, -⟩
    · exact Or.inl (key h)
    · exact absurd h3 hc

/-- Input and calls of `XParse` keep a sender's role and the relation of its block counters. -/
theorem XRun_sent (T0 : XSt) (es : List XEvent) : InputOrParse es → ∀ t : XSt,
    t.xv.XMode = IdXSend → SentInv T0 t →
    (XRun t es).xv.XMode = IdXSend ∧ SentInv T0 (XRun t es) ∧
    (t.xv.PktNumSent = (t.xv.PktNum + 1) % 256 →
      (XRun t es).xv.PktNumSent = ((XRun t es).xv.PktNum + 1) % 256) := by
  induction es with
  | nil => intro _ t hm h; exact ⟨hm, h, fun ha => ha⟩
  | cons e es ih =>
    intro hes t hm h
    rw [XRun_cons]
    cases e with
    | input bytes =>
      exact ih hes _ hm h
    | parse =>
      obtain ⟨a1, a2, a3⟩ := XSendPacket_sent T0 t h
      have hx : XStep t XEvent.parse = (XSendPacket t).2 := by
        show (XParse t).2 = _
        rw [XParse_send t hm]
      rw [hx]
      obtain ⟨b1, b2, b3⟩ := ih hes (XSendPacket t).2 (a1.trans hm) a2
      exact ⟨b1, b2, fun ha => b3 (a3 ha)⟩
    | timeOut => exact absurd hes (by simp [InputOrParse])
    | cancel => exact absurd hes (by simp [InputOrParse])

theorem XInitVars_counters (s : XSt) (ts : TTSet) :
    (XInitVars s ts).xv.PktNum = 0 ∧ (XInitVars s ts).xv.PktNumSent = 0 ∧
    (XInitVars s ts).xv.PktNumOffset = 0 ∧ (XInitVars s ts).xv.PktBufCount = 0 ∧
    (XInitVars s ts).xv.XMode = s.xv.XMode := by
  unfold XInitVars XInitTimeOuts XSetOpt
  dsimp only
  split_ifs <;> exact ⟨rfl, rfl, rfl, rfl, rfl⟩

/-- A sender starts with the block counters at 0 and nothing staged. -/
theorem XInit_send_counters (s : XSt) (ts : TTSet) (hm : s.xv.XMode = IdXSend) :
    (XInit s ts).xv.PktNum = 0 ∧ (XInit s ts).xv.PktNumSent = 0 ∧
    (XInit s ts).xv.PktNumOffset = 0 ∧ (XInit s ts).xv.PktBufCount = 0 ∧
    (XInit s ts).xv.XMode = IdXSend := by
  obtain ⟨a1, a2, a3, a4, a5⟩ := XInitVars_counters s ts
  unfold XInit
  dsimp only
  rw [if_pos (a5.trans hm)]
  by_cases hcmd : ts.XModemRcvCommand ≠ []
  · rw [if_pos hcmd]
    exact ⟨a1, a2, a3, a4, a5.trans hm⟩
  · rw [if_neg hcmd]
    exact ⟨a1, a2, a3, a4, a5.trans hm⟩

/-- C25. The block counters of the sender. In every session reached from
the start of a sender by input and calls of `XParse`, `PktNumSent` is
`(PktNum + 1) mod 256`, or it equals `PktNum`, both being 0, with nothing
staged and nothing staged or written since the start. Whenever bytes are
staged, `PktNumSent` is `(PktNum + 1) mod 256`, and once it is, it stays so
through any further input and calls. In the response switch an ACK changes
`PktNum` only when the file is open and `PktNumSent` is the byte
`PktNum + 1`, and then sets `PktNum` to `PktNumSent`. -/
theorem sender_block_invariant (t0 : XSt) (ts : TTSet) (hm : t0.xv.XMode = IdXSend)
    (es fs : List XEvent) (hes : InputOrParse es) (hfs : InputOrParse fs) :
    SentInv (XInit t0 ts) (XRun (XInit t0 ts) es) ∧
    ((XRun (XInit t0 ts) es).xv.PktBufCount ≠ 0 →
      (XRun (XInit t0 ts) es).xv.PktNumSent = ((XRun (XInit t0 ts) es).xv.PktNum + 1) % 256) ∧
    ((XRun (XInit t0 ts) es).xv.PktNumSent = ((XRun (XInit t0 ts) es).xv.PktNum + 1) % 256 →
      (XRun (XInit t0 ts) (es ++ fs)).xv.PktNumSent =
        ((XRun (XInit t0 ts) (es ++ fs)).xv.PktNum + 1) % 256) ∧
    (∀ s : XSt, (XSendPacketSwitch s ACK).1.xv.PktNum =
      (if s.fv.FileOpen = true ∧ s.xv.PktNumSent = BYTE (s.xv.PktNum + 1) then s.xv.PktNumSent
       else s.xv.PktNum)) := by
  obtain ⟨i1, i2, i3, i4, i5⟩ := XInit_send_counters t0 ts hm
  have h0 : SentInv (XInit t0 ts) (XInit t0 ts) :=
    Or.inr ⟨i2.trans i1.symm, i2, i4, rfl, rfl⟩
  obtain ⟨a1, a2, -⟩ := XRun_sent (XInit t0 ts) es hes (XInit t0 ts) i5 h0
  refine ⟨a2, ?_, ?_, ?_⟩
  · intro hc
    rcases a2 with h | ⟨-, -, h3, -⟩
    · exact h
    · exact absurd h3 hc
  · intro ha
    rw [XRun_append]
    exact (XRun_sent (XInit t0 ts) fs hfs _ a1 a2).2.2 ha
  · intro s
    unfold XSendPacketSwitch
    rw [if_pos rfl]
    by_cases ho : s.fv.FileOpen = false
    · rw [if_pos ho, if_neg (by rw [ho]; simp)]
    · rw [if_neg ho]
      have ho2 : s.fv.FileOpen = true := by
        cases hf : s.fv.FileOpen with
        | true => rfl
        | false => exact absurd hf ho
      by_cases hn : s.xv.PktNumSent = BYTE (s.xv.PktNum + 1)
      · rw [if_pos hn, if_pos ⟨ho2, hn⟩]
        dsimp only
        split_ifs <;> rfl
      · rw [if_neg hn, if_neg (fun h => hn h.2)]

theorem sender_block_invariant_witness :
    SentInv (XInit (exSession IdXSend XoptCheck exFile) exTTSet)
      (XRun (XInit (exSession IdXSend XoptCheck exFile) exTTSet)
        [XEvent.input [NAK], XEvent.parse]) :=
  (sender_block_invariant (exSession IdXSend XoptCheck exFile) exTTSet (by decide)
    [XEvent.input [NAK], XEvent.parse] [] (by simp [InputOrParse]) (by simp [InputOrParse])).1

/-! ## Buffer bounds -/

theorem ValidVariant_max {a : TXVar} (ha : ValidVariant a) :
    a.DataLen + a.CheckLen ≤ 1026 ∧ 1 ≤ a.DataLen + a.CheckLen ∧ a.DataLen + 4 ≤ 1028 := by
  unfold ValidVariant at ha
  rcases ha with ⟨-, a2, a3⟩ | ⟨-, a2, a3⟩ | ⟨-, a2, a3⟩ | ⟨-, a2, a3⟩ <;>
  exact ⟨by omega, by omega, by omega⟩

theorem ValidVariant_of_fields {a : TXVar} (b : TXVar) (h1 : a.XOpt = b.XOpt)
    (h2 : a.DataLen = b.DataLen) (h3 : a.CheckLen = b.CheckLen) (hb : ValidVariant b) :
    ValidVariant a := by
  unfold ValidVariant
  rw [h1, h2, h3]
  exact hb

theorem RecvBufStep.same {s s' : XSt} (h1 : s'.xv.XOpt = s.xv.XOpt)
    (h2 : s'.xv.DataLen = s.xv.DataLen) (h3 : s'.xv.CheckLen = s.xv.CheckLen)
    (h4 : s'.xv.PktReadMode = s.xv.PktReadMode) (h5 : s'.xv.PktBufPtr = s.xv.PktBufPtr)
    (h6 : s'.xv.PktBufCount = s.xv.PktBufCount) (h7 : s'.xv.PktIn = s.xv.PktIn) :
    RecvBufStep s s' := by
  intro ⟨hv, hd⟩
  refine ⟨⟨?_, ?_⟩, fun j _ => by rw [h7]⟩
  · unfold ValidVariant; rw [h1, h2, h3]; exact hv
  · intro hm
    rw [h4] at hm
    rw [h5, h6, h2, h3]
    exact hd hm

theorem RecvBufStep.reflBuf (s : XSt) : RecvBufStep s s :=
  fun h => ⟨h, fun _ _ => rfl⟩

theorem RecvBufStep.thenBuf {a b c : XSt} (h1 : RecvBufStep a b) (h2 : RecvBufStep b c) :
    RecvBufStep a c := by
  intro ha
  obtain ⟨hb, f1⟩ := h1 ha
  obtain ⟨hc, f2⟩ := h2 hb
  exact ⟨hc, fun j hj => (f2 j hj).trans (f1 j hj)⟩

theorem XSendNAK_bufStep (s : XSt) : RecvBufStep s (XSendNAK s) := by
  intro ⟨hv, hd⟩
  obtain ⟨a1, -, a3, a4, a5, a6⟩ := XSendNAK_buf s
  refine ⟨⟨a6 hv, ?_⟩, fun j _ => by rw [a1]⟩
  intro hm
  rcases a5 with h | ⟨h1, h2, h3⟩
  · rw [h] at hm; exact absurd hm (by decide)
  · rw [h1] at hm
    rw [a3, a4, h2, h3]
    exact hd hm

theorem update_far (f : Nat → Nat) (i b j : Nat) (hi : i < 1029) (hj : 1029 ≤ j) :
    Function.update f i b j = f j := by
  rw [Function.update_noteq (by omega)]

theorem XSetOpt_mode (s : XSt) (o : Nat) :
    (XSetOpt s o).xv.PktReadMode = s.xv.PktReadMode ∧ (XSetOpt s o).xv.PktIn = s.xv.PktIn := by
  unfold XSetOpt
  dsimp only
  split_ifs <;> exact ⟨rfl, rfl⟩

/-- A session stamped with a valid variant while a header byte is stored. -/
theorem XSetOpt_bufStep (s S u : XSt) (b o : Nat)
    (ho : o = XoptCheck ∨ o = XoptCRC ∨ o = Xopt1kCRC ∨ o = Xopt1kCksum)
    (hS1 : S.xv.PktReadMode = XpktBLK) (hS2 : S.xv.PktIn = Function.update s.xv.PktIn 0 b)
    (h1 : u.xv.XOpt = (XSetOpt S o).xv.XOpt) (h2 : u.xv.DataLen = (XSetOpt S o).xv.DataLen)
    (h3 : u.xv.CheckLen = (XSetOpt S o).xv.CheckLen)
    (h4 : u.xv.PktReadMode = (XSetOpt S o).xv.PktReadMode)
    (h5 : u.xv.PktIn = (XSetOpt S o).xv.PktIn) :
    RecvBuf u ∧ ∀ j, 1029 ≤ j → u.xv.PktIn j = s.xv.PktIn j := by
  obtain ⟨m1, m2⟩ := XSetOpt_mode S o
  refine ⟨⟨ValidVariant_of_fields _ h1 h2 h3 (XSetOpt_valid _ o ho), ?_⟩, ?_⟩
  · intro h
    rw [h4, m1, hS1] at h
    exact absurd h (by decide)
  · intro j hj
    rw [h5, m2, hS2]
    exact update_far _ 0 _ j (by decide) hj

/-- One pass of the receive loop keeps the cursor invariant and stores below index 1029. -/
theorem XReadPacketBody_bufStep (s : XSt) (b : Nat) : RecvBufStep s (XReadPacketBody s b).1 := by
  intro ⟨hv, hd⟩
  obtain ⟨m1, m2, -⟩ := ValidVariant_max hv
  unfold XReadPacketBody
  dsimp only
  split_ifs with h1 h2 h3 h4 h5 h6
  · unfold XReadPacketSOH
    dsimp only
    split_ifs
    all_goals first
      | exact ⟨⟨ValidVariant_of_fields s.xv rfl rfl rfl hv,
          fun h => absurd (show XpktBLK = XpktDATA from h) (by decide)⟩,
          fun j hj => update_far _ 0 _ j (by decide) hj⟩
      | exact XSetOpt_bufStep s { s with xv := { s.xv with PktIn := Function.update s.xv.PktIn 0 b, PktReadMode := XpktBLK } } _ b XoptCRC
          (by decide) rfl rfl rfl rfl rfl rfl rfl
      | exact XSetOpt_bufStep s { s with xv := { s.xv with PktIn := Function.update s.xv.PktIn 0 b, PktReadMode := XpktBLK } } _ b XoptCheck
          (by decide) rfl rfl rfl rfl rfl rfl rfl
      | exact XSetOpt_bufStep s { s with xv := { s.xv with PktIn := Function.update s.xv.PktIn 0 b, PktReadMode := XpktBLK } } _ b Xopt1kCRC
          (by decide) rfl rfl rfl rfl rfl rfl rfl
      | exact XSetOpt_bufStep s { s with xv := { s.xv with PktIn := Function.update s.xv.PktIn 0 b, PktReadMode := XpktBLK } } _ b Xopt1kCksum
          (by decide) rfl rfl rfl rfl rfl rfl rfl
      | exact ⟨⟨ValidVariant_of_fields s.xv rfl rfl rfl hv,
          fun h => absurd (h1.symm.trans h) (by decide)⟩, fun j hj => rfl⟩
  · exact ⟨⟨ValidVariant_of_fields s.xv rfl rfl rfl hv,
      fun h => absurd (show XpktBLK2 = XpktDATA from h) (by decide)⟩,
      fun j hj => update_far _ 1 _ j (by decide) hj⟩
  · refine ⟨⟨ValidVariant_of_fields s.xv rfl rfl rfl hv, fun _ => ⟨?_, ?_, ?_⟩⟩,
      fun j hj => update_far _ 2 _ j (by decide) hj⟩
    · show (3 : Int) ≤ 3
      omega
    · show (1 : Int) ≤ (s.xv.DataLen : Int) + (s.xv.CheckLen : Int)
      omega
    · show (3 : Int) + ((s.xv.DataLen : Int) + (s.xv.CheckLen : Int)) =
        3 + (s.xv.DataLen : Int) + (s.xv.CheckLen : Int)
      omega
  · have hs : RecvBuf { s with xv := { s.xv with PktIn := Function.update s.xv.PktIn 2 b } } :=
      ⟨ValidVariant_of_fields s.xv rfl rfl rfl hv,
        fun h => absurd (show s.xv.PktReadMode = XpktDATA from h) (by rw [h3]; decide)⟩
    obtain ⟨k1, k2⟩ := XSendNAK_bufStep _ hs
    exact ⟨k1, fun j hj => (k2 j hj).trans (update_far _ 2 _ j (by decide) hj)⟩
  · obtain ⟨d1, d2, d3⟩ := hd h5
    have hp : s.xv.PktBufPtr.toNat < 1029 := by omega
    exact ⟨⟨ValidVariant_of_fields s.xv rfl rfl rfl hv,
      fun h => absurd (show XpktSOH = XpktDATA from h) (by decide)⟩,
      fun j hj => update_far _ _ _ j hp hj⟩
  · obtain ⟨d1, d2, d3⟩ := hd h5
    have hp : s.xv.PktBufPtr.toNat < 1029 := by omega
    have hc : s.xv.PktBufCount - 1 ≠ 0 := h6
    refine ⟨⟨ValidVariant_of_fields s.xv rfl rfl rfl hv, fun _ => ⟨?_, ?_, ?_⟩⟩,
      fun j hj => update_far _ _ _ j hp hj⟩
    · show 3 ≤ s.xv.PktBufPtr + 1; omega
    · show 1 ≤ s.xv.PktBufCount - 1; omega
    · show s.xv.PktBufPtr + 1 + (s.xv.PktBufCount - 1) =
        3 + (s.xv.DataLen : Int) + (s.xv.CheckLen : Int)
      omega
  · exact ⟨⟨hv, hd⟩, fun j hj => rfl⟩

theorem XReadPacketGot_bufStep (s : XSt) : RecvBufStep s (XReadPacketGot s).2 := by
  unfold XReadPacketGot
  dsimp only
  by_cases h1 : s.xv.PktIn 1 = 0 ∧ s.xv.PktNum = 0 ∧ s.xv.PktNumOffset = 0
  · rw [if_pos h1]
    have k1 : RecvBufStep s
        { s with xv := { s.xv with NAKCount := if s.xv.NAKMode = XnakNAK then 10 else 3 } } :=
      RecvBufStep.same rfl rfl rfl rfl rfl rfl rfl
    exact k1.thenBuf (XSendNAK_bufStep _)
  · rw [if_neg h1]
    by_cases h2 : XCheckPacket s.xv = false
    · rw [if_pos h2]; exact XSendNAK_bufStep s
    · rw [if_neg h2]
      by_cases h3 : ((s.xv.PktIn 1 : Int) - (s.xv.PktNum : Int)) % 256 > 1
      · rw [if_pos h3]
        exact RecvBufStep.same rfl rfl rfl rfl rfl rfl rfl
      · rw [if_neg h3]
        by_cases h4 : ((s.xv.PktIn 1 : Int) - (s.xv.PktNum : Int)) % 256 = 0
        · rw [if_pos h4]
          exact RecvBufStep.same rfl rfl rfl rfl rfl rfl rfl
        · rw [if_neg h4]
          have key : ∀ a : XSt, a.xv.XOpt = s.xv.XOpt → a.xv.DataLen = s.xv.DataLen →
              a.xv.CheckLen = s.xv.CheckLen → a.xv.PktReadMode = s.xv.PktReadMode →
              a.xv.PktBufPtr = s.xv.PktBufPtr → a.xv.PktBufCount = s.xv.PktBufCount →
              a.xv.PktIn = s.xv.PktIn → RecvBufStep s (XReadPacketStore a) := by
            intro a a1 a2 a3 a4 a5 a6 a7
            obtain ⟨-, -, -, s4, s5, s6, s7, -, -, s10, s11, s12⟩ := XReadPacketStore_num a
            exact RecvBufStep.same (s5.trans a1) (s6.trans a2) (s7.trans a3) (s4.trans a4)
              (s11.trans a5) (s12.trans a6) (s10.trans a7)
          exact key _ rfl rfl rfl rfl rfl rfl rfl

/-- A call of `XReadPacket` keeps the cursor invariant and stores below index 1029. -/
theorem XReadPacket_bufStep (s : XSt) : RecvBufStep s (XReadPacket s).2 :=
  XReadPacket_induct RecvBufStep RecvBufStep.reflBuf (fun _ _ _ h1 h2 => h1.thenBuf h2)
    (fun _ => RecvBufStep.same rfl rfl rfl rfl rfl rfl rfl) XReadPacketBody_bufStep
    XReadPacketGot_bufStep s

/-- Every event keeps the cursor invariant of a receiving or ended session. -/
theorem XStep_bufStep (s : XSt) (e : XEvent) (hm : s.xv.XMode = IdXReceive ∨ s.xv.XMode = 0) :
    RecvBufStep s (XStep s e) := by
  cases e with
  | input bytes => exact RecvBufStep.same rfl rfl rfl rfl rfl rfl rfl
  | parse =>
    show RecvBufStep s (XParse s).2
    rcases hm with h | h
    · rw [XParse_receive s h]; exact XReadPacket_bufStep s
    · unfold XParse
      rw [if_neg (by rw [h]; decide), if_neg (by rw [h]; decide)]
      exact RecvBufStep.reflBuf s
  | timeOut =>
    show RecvBufStep s (XTimeOutProc s)
    unfold XTimeOutProc
    rcases hm with h | h
    · rw [if_neg (by rw [h]; decide), if_pos h]
      exact XSendNAK_bufStep s
    · rw [if_neg (by rw [h]; decide), if_neg (by rw [h]; decide)]
      exact RecvBufStep.reflBuf s
  | cancel => exact RecvBufStep.same rfl rfl rfl rfl rfl rfl rfl

theorem XRun_bufStep (es : List XEvent) : ∀ s : XSt,
    (s.xv.XMode = IdXReceive ∨ s.xv.XMode = 0) → RecvBufStep s (XRun s es) := by
  induction es with
  | nil => intro s _; exact RecvBufStep.reflBuf s
  | cons e es ih =>
    intro s hm
    rw [XRun_cons]
    exact (XStep_bufStep s e hm).thenBuf (ih _ ((XStep_stable s e hm).role hm))

/-- A receiver starts with the cursor invariant of its buffer in place. -/
theorem XInit_recvBuf (s : XSt) (ts : TTSet) (hm : s.xv.XMode = IdXReceive)
    (hV : s.xv.XOpt = XoptCheck ∨ s.xv.XOpt = XoptCRC ∨ s.xv.XOpt = Xopt1kCRC ∨
      s.xv.XOpt = Xopt1kCksum) :
    RecvBuf (XInit s ts) ∧ ((XInit s ts).xv.XMode = IdXReceive ∨ (XInit s ts).xv.XMode = 0) := by
  obtain ⟨a1, a2, -, -, -, -, -, -, -, -, -, -, -, a14⟩ := XInitVars_facts s ts hV
  have hx : XInit s ts = XSendNAK (XInitVars s ts) := by
    unfold XInit
    dsimp only
    rw [a1, hm, if_neg (by decide), if_pos rfl]
  rw [hx]
  have hpos : 0 < (XInitVars s ts).xv.NAKCount := by
    rw [a14]; split_ifs <;> decide
  obtain ⟨-, -, -, c4, -, -⟩ := XSendNAK_cases (XInitVars s ts)
  obtain ⟨-, c2, -, -, c5, -⟩ := c4 hpos
  obtain ⟨-, -, -, -, -, b6⟩ := XSendNAK_buf (XInitVars s ts)
  refine ⟨⟨b6 a2, ?_⟩, Or.inl (c5.trans (a1.trans hm))⟩
  intro h
  rw [c2] at h
  exact absurd h (by decide)

/-! ### The staging buffer of the sender -/

/-- A new packet touches `PktOut` at the indices up to `DataLen + 4` only,
and keeps the variant. -/
theorem XSendPacketNew_far (s : XSt) (hv : ValidVariant s.xv) :
    (∀ j, s.xv.DataLen + 4 < j → (XSendPacketNew s).xv.PktOut j = s.xv.PktOut j) ∧
    (XSendPacketNew s).xv.XOpt = s.xv.XOpt ∧ (XSendPacketNew s).xv.DataLen = s.xv.DataLen ∧
    (XSendPacketNew s).xv.CheckLen = s.xv.CheckLen := by
  obtain ⟨hD, hC⟩ := ValidVariant_bounds hv
  by_cases hm : s.fv.FileOpen = false ∨ min s.xv.DataLen s.fv.ReadData.length = 0
  · have h := XSendPacketNew_eot s hm
    refine ⟨?_, h.2.2.2.2.2.2.2.2.2.2.2.1, h.2.2.2.2.2.2.2.2.2.2.2.2.1,
      h.2.2.2.2.2.2.2.2.2.2.2.2.2⟩
    intro j hj
    have hfill : XSendPacketFill (XSendPacketHead s).xv.DataLen 1 (XSendPacketHead s) =
        (1, XSendPacketHead s) := by
      by_cases ho : s.fv.FileOpen = true
      · have hm' : min s.xv.DataLen s.fv.ReadData.length = 0 := by
          rcases hm with h | h
          · rw [h] at ho; simp at ho
          · exact h
        have hd : (XSendPacketHead s).xv.DataLen = s.xv.DataLen := rfl
        have hr : (XSendPacketHead s).fv.ReadData = s.fv.ReadData := rfl
        rw [XSendPacketFill_eq (XSendPacketHead s).xv.DataLen 1 (XSendPacketHead s) ho (by omega)]
        rw [hd, hr, hm']
        simp [blit_nil]
        rfl
      · exact XSendPacketFill_closed _ _ _ (by simpa using ho)
    have hhead : (XSendPacketHead s).xv.PktOut j = s.xv.PktOut j := by
      unfold XSendPacketHead
      dsimp only
      rw [Function.update_noteq (by omega), Function.update_noteq (by omega),
        Function.update_noteq (by omega)]
    unfold XSendPacketNew
    dsimp only
    rw [hfill]
    dsimp only
    rw [if_neg (by omega)]
    unfold XSendPacketEOT
    dsimp only
    by_cases ho : (XSendPacketHead s).fv.FileOpen = true
    · rw [if_pos ho]
      dsimp only
      rw [Function.update_noteq (by omega)]
      exact hhead
    · rw [if_neg ho]
      rw [Function.update_noteq (by omega)]
      exact hhead
  · have ho : s.fv.FileOpen = true := by
      cases hf : s.fv.FileOpen with
      | true => rfl
      | false => exact absurd (Or.inl hf) hm
    have h1 : 1 ≤ min s.xv.DataLen s.fv.ReadData.length := by
      have : ¬ (min s.xv.DataLen s.fv.ReadData.length = 0) := fun h => hm (Or.inr h)
      omega
    rw [XSendPacketNew_data s ho h1]
    refine ⟨?_, rfl, rfl, rfl⟩
    intro j hj
    have hl := XPacket_length s.xv.DataLen s.xv.CheckLen (BYTE (s.xv.PktNumSent + 1))
      ((s.fv.ReadData.take (min s.xv.DataLen s.fv.ReadData.length)).map BYTE)
      (by rw [List.length_map, List.length_take]; omega) hC
    show blit s.xv.PktOut 0 _ j = s.xv.PktOut j
    unfold blit
    rw [if_neg (by rw [hl]; omega)]

theorem SendBufStep.thenOut {a b c : XSt} (h1 : SendBufStep a b) (h2 : SendBufStep b c) :
    SendBufStep a c := by
  intro ha
  obtain ⟨hb, f1⟩ := h1 ha
  obtain ⟨hc, f2⟩ := h2 hb
  exact ⟨hc, fun j hj => (f2 j hj).trans (f1 j hj)⟩

theorem SendBufStep.sameOut {s s' : XSt} (h1 : s'.xv.XOpt = s.xv.XOpt)
    (h2 : s'.xv.DataLen = s.xv.DataLen) (h3 : s'.xv.CheckLen = s.xv.CheckLen)
    (h4 : s'.xv.PktOut = s.xv.PktOut) : SendBufStep s s' :=
  fun hv => ⟨ValidVariant_of_fields s.xv h1 h2 h3 hv, fun j _ => by rw [h4]⟩

theorem XSendPacketStage_bufStep (s : XSt) : SendBufStep s (XSendPacketStage s) := by
  intro hv
  obtain ⟨-, -, m3⟩ := ValidVariant_max hv
  unfold XSendPacketStage
  dsimp only
  rw [XDrain_eq]
  obtain ⟨s1, hs1, e3⟩ : ∃ s1 : XSt,
      ({ FTSetTimeOut s s.xv.TOutVLong with
        cv := { (FTSetTimeOut s s.xv.TOutVLong).cv with InBuff := [] } } : XSt) = s1 ∧
      s1.xv = s.xv := ⟨_, rfl, rfl⟩
  rw [hs1]
  rw [← e3] at hv m3 ⊢
  by_cases hs : s1.xv.PktNumSent = s1.xv.PktNum
  · rw [if_pos hs]
    obtain ⟨n1, n2, n3, n4⟩ := XSendPacketNew_far s1 hv
    exact ⟨ValidVariant_of_fields s1.xv n2 n3 n4 hv, fun j hj => n1 j (by omega)⟩
  · rw [if_neg hs]
    unfold XSendPacketResend
    split_ifs <;> exact ⟨ValidVariant_of_fields s1.xv rfl rfl rfl hv, fun j _ => rfl⟩

/-- A call of `XSendPacket` keeps the role and the variant, and stores below index 1029. -/
theorem XSendPacket_bufStep (t : XSt) :
    (XSendPacket t).2.xv.XMode = t.xv.XMode ∧ SendBufStep t (XSendPacket t).2 := by
  unfold XSendPacket
  by_cases hc : t.xv.PktBufCount = 0
  · rw [if_pos hc]
    dsimp only
    obtain ⟨hf, -⟩ := XSendPacketLoop_success (t.cv.InBuff.length + 1) t
    obtain ⟨k1, -⟩ := XSendPacketLoop_counters (t.cv.InBuff.length + 1) t
    generalize XSendPacketLoop (t.cv.InBuff.length + 1) t = r at hf k1
    obtain ⟨r1, o⟩ := r
    simp only at hf k1
    have hl : SendBufStep t r1 := fun hv => ⟨k1.hVar hv, fun j _ => by rw [hf.hPkt]⟩
    cases o with
    | some ret => exact ⟨hf.hMode, hl⟩
    | none =>
      show (XSendPacketOut (XSendPacketStage r1)).2.xv.XMode = t.xv.XMode ∧
        SendBufStep t (XSendPacketOut (XSendPacketStage r1)).2
      obtain ⟨-, -, g3, -, -⟩ := XSendPacketStage_counters r1
      obtain ⟨-, -, -, -, o4, o5, o6, o7, o8, -⟩ := XSendPacketOut_counters (XSendPacketStage r1)
      exact ⟨o7.trans (g3.trans hf.hMode),
        hl.thenOut ((XSendPacketStage_bufStep r1).thenOut (SendBufStep.sameOut o4 o5 o6 o8))⟩
  · rw [if_neg hc]
    obtain ⟨-, -, -, -, o4, o5, o6, o7, o8, -⟩ := XSendPacketOut_counters t
    exact ⟨o7, SendBufStep.sameOut o4 o5 o6 o8⟩

theorem XStep_sendBuf (s : XSt) (e : XEvent) (hm : s.xv.XMode = IdXSend ∨ s.xv.XMode = 0) :
    ((XStep s e).xv.XMode = IdXSend ∨ (XStep s e).xv.XMode = 0) ∧ SendBufStep s (XStep s e) := by
  cases e with
  | input bytes => exact ⟨hm, SendBufStep.sameOut rfl rfl rfl rfl⟩
  | parse =>
    show ((XParse s).2.xv.XMode = IdXSend ∨ (XParse s).2.xv.XMode = 0) ∧ SendBufStep s (XParse s).2
    rcases hm with h | h
    · rw [XParse_send s h]
      obtain ⟨a, b⟩ := XSendPacket_bufStep s
      exact ⟨Or.inl (a.trans h), b⟩
    · have hp : XParse s = (false, s) := by
        unfold XParse
        rw [if_neg (by rw [h]; decide), if_neg (by rw [h]; decide)]
      rw [hp]
      exact ⟨Or.inr h, SendBufStep.sameOut rfl rfl rfl rfl⟩
  | timeOut =>
    show ((XTimeOutProc s).xv.XMode = IdXSend ∨ (XTimeOutProc s).xv.XMode = 0) ∧
      SendBufStep s (XTimeOutProc s)
    unfold XTimeOutProc
    rcases hm with h | h
    · rw [if_pos h]
      exact ⟨Or.inr rfl, SendBufStep.sameOut rfl rfl rfl rfl⟩
    · rw [if_neg (by rw [h]; decide), if_neg (by rw [h]; decide)]
      exact ⟨Or.inr h, SendBufStep.sameOut rfl rfl rfl rfl⟩
  | cancel => exact ⟨Or.inr rfl, SendBufStep.sameOut rfl rfl rfl rfl⟩

theorem XRun_sendBuf (es : List XEvent) : ∀ s : XSt, (s.xv.XMode = IdXSend ∨ s.xv.XMode = 0) →
    ((XRun s es).xv.XMode = IdXSend ∨ (XRun s es).xv.XMode = 0) ∧ SendBufStep s (XRun s es) := by
  induction es with
  | nil => intro s hm; exact ⟨hm, SendBufStep.sameOut rfl rfl rfl rfl⟩
  | cons e es ih =>
    intro s hm
    rw [XRun_cons]
    obtain ⟨a, b⟩ := XStep_sendBuf s e hm
    obtain ⟨c, d⟩ := ih _ a
    exact ⟨c, b.thenOut d⟩

/-- A sender starts under one of the four variants. -/
theorem XInit_send_valid (s : XSt) (ts : TTSet) (hm : s.xv.XMode = IdXSend)
    (hV : s.xv.XOpt = XoptCheck ∨ s.xv.XOpt = XoptCRC ∨ s.xv.XOpt = Xopt1kCRC ∨
      s.xv.XOpt = Xopt1kCksum) :
    ValidVariant (XInit s ts).xv ∧ (XInit s ts).xv.XMode = IdXSend := by
  obtain ⟨a1, a2, -⟩ := XInitVars_facts s ts hV
  unfold XInit
  dsimp only
  rw [if_pos (a1.trans hm)]
  by_cases hcmd : ts.XModemRcvCommand ≠ []
  · rw [if_pos hcmd]
    exact ⟨ValidVariant_of_fields (XInitVars s ts).xv rfl rfl rfl a2, a1.trans hm⟩
  · rw [if_neg hcmd]
    exact ⟨ValidVariant_of_fields (XInitVars s ts).xv rfl rfl rfl a2, a1.trans hm⟩

/-- C27. Buffer bounds. Let a receiver and a sender each be started under
one of the four variants, and let any events follow: input of any bytes,
calls of `XParse`, timeouts and cancels, with any file. In the receiver
reached, the variant is one of the four; while payload and check bytes are
read, `PktBufPtr + PktBufCount = 3 + DataLen + CheckLen` with
`PktBufCount >= 1` and `PktBufPtr >= 3`, the next byte is stored at
`PktIn[PktBufPtr]`, and `PktBufPtr <= 1028`; no event changes `PktIn` at an
index of 1029 or more. In the sender reached, the variant is one of the
four, `DataLen + 4 <= 1028`, a new packet leaves `PktOut` beyond index
`DataLen + 4` as it was, and no event changes `PktOut` at an index of 1029
or more. -/
theorem buffer_bounds (r0 : XSt) (tsr : TTSet) (hrm : r0.xv.XMode = IdXReceive)
    (hrV : r0.xv.XOpt = XoptCheck ∨ r0.xv.XOpt = XoptCRC ∨ r0.xv.XOpt = Xopt1kCRC ∨
      r0.xv.XOpt = Xopt1kCksum) (es : List XEvent)
    (t0 : XSt) (tst : TTSet) (htm : t0.xv.XMode = IdXSend)
    (htV : t0.xv.XOpt = XoptCheck ∨ t0.xv.XOpt = XoptCRC ∨ t0.xv.XOpt = Xopt1kCRC ∨
      t0.xv.XOpt = Xopt1kCksum) (fs : List XEvent) :
    (RecvBuf (XRun (XInit r0 tsr) es) ∧
      ((XRun (XInit r0 tsr) es).xv.PktReadMode = XpktDATA →
        (XRun (XInit r0 tsr) es).xv.PktBufPtr.toNat ≤ 1028 ∧
        ∀ b, (XReadPacketBody (XRun (XInit r0 tsr) es) b).1.xv.PktIn =
          Function.update (XRun (XInit r0 tsr) es).xv.PktIn
            (XRun (XInit r0 tsr) es).xv.PktBufPtr.toNat b) ∧
      (∀ e j, 1029 ≤ j →
        (XStep (XRun (XInit r0 tsr) es) e).xv.PktIn j = (XRun (XInit r0 tsr) es).xv.PktIn j)) ∧
    (ValidVariant (XRun (XInit t0 tst) fs).xv ∧
      (XRun (XInit t0 tst) fs).xv.DataLen + 4 ≤ 1028 ∧
      (∀ j, (XRun (XInit t0 tst) fs).xv.DataLen + 4 < j →
        (XSendPacketNew (XRun (XInit t0 tst) fs)).xv.PktOut j = (XRun (XInit t0 tst) fs).xv.PktOut j) ∧
      (∀ e j, 1029 ≤ j →
        (XStep (XRun (XInit t0 tst) fs) e).xv.PktOut j = (XRun (XInit t0 tst) fs).xv.PktOut j)) := by
  constructor
  · obtain ⟨i1, i2⟩ := XInit_recvBuf r0 tsr hrm hrV
    obtain ⟨hR, -⟩ := XRun_bufStep es (XInit r0 tsr) i2 i1
    have hmode := (XRun_stable es (XInit r0 tsr) i2).role i2
    refine ⟨hR, ?_, ?_⟩
    · intro hd
      obtain ⟨d1, d2, d3⟩ := hR.2 hd
      obtain ⟨m1, -, -⟩ := ValidVariant_max hR.1
      refine ⟨by omega, fun b => ?_⟩
      exact (XReadPacketBody_data _ b hd).2.2.1
    · intro e j hj
      exact (XStep_bufStep _ e hmode hR).2 j hj
  · obtain ⟨i1, i2⟩ := XInit_send_valid t0 tst htm htV
    obtain ⟨hm, hS⟩ := XRun_sendBuf fs (XInit t0 tst) (Or.inl i2)
    obtain ⟨hv, -⟩ := hS i1
    refine ⟨hv, (ValidVariant_max hv).2.2, (XSendPacketNew_far _ hv).1, ?_⟩
    intro e j hj
    exact ((XStep_sendBuf _ e hm).2 hv).2 j hj

theorem buffer_bounds_witness :
    RecvBuf (XRun (XInit (exSession IdXReceive Xopt1kCRC []) exTTSet)
      [XEvent.input [STX, 1, 254, 65], XEvent.parse]) ∧
    ValidVariant (XRun (XInit (exSession IdXSend Xopt1kCRC exFile) exTTSet)
      [XEvent.input [0x43], XEvent.parse]).xv :=
  have h := buffer_bounds (exSession IdXReceive Xopt1kCRC []) exTTSet (by decide) (by decide)
    [XEvent.input [STX, 1, 254, 65], XEvent.parse]
    (exSession IdXSend Xopt1kCRC exFile) exTTSet (by decide) (by decide)
    [XEvent.input [0x43], XEvent.parse]
  ⟨h.1.1, h.2.1⟩
end XModem
